import Mathlib

/-!
# snarklib: the PPZK verifier, keys and proof (PPZK.hpp)

A shallow embedding of `PPZK.hpp`.  The template parameter `PAIRING` becomes the
types `Fr`, `G1`, `G2`, `GT`, `G1_precomp`, `G2_precomp` together with a record
`PairingOps` of the operations the header calls on them.  `std::vector<T>` is
`List T`, `std::size_t` is `Nat`, a `const` method is a function of the object,
a mutating method returns the new object.

`assert` is the C macro: it aborts when its argument is false unless the
translation unit is compiled with `NDEBUG`.  Functions that contain an
`assert` take the flag `NDEBUG : Bool` and report an abort as `none`.
-/

namespace snarklib

/-! ## The collaborators the header consumes -/

/-- Calls made on the `ProgressCallback` observer; `major none` is the call
`major()` without an argument, `major (some b)` the call `major(b)`, `minor`
a minor-step tick. -/
inductive ProgressCall where
  | majorSteps (n : Nat)
  | major (arg : Option Bool)
  | minor
  deriving DecidableEq, Repr

/-- The class template `Pairing<GA, GB>`: a pair of group elements with the
accessors `G()` and `H()`. -/
structure Pairing (GA GB : Type) where
  G : GA
  H : GB
  deriving DecidableEq, Repr

/-- The operations of the template parameter `PAIRING` that `PPZK.hpp` calls:
the generators `G1::one()`, `G2::one()`, the `wellFormed()` tests, the
constructors of `G1_precomp` and `G2_precomp`, the Miller loops, the final
exponentiation and `unitary_inverse`. -/
structure PairingOps (G1 G2 GT G1_precomp G2_precomp : Type) where
  G1_one : G1
  G2_one : G2
  G1_wellFormed : G1 → Bool
  G2_wellFormed : G2 → Bool
  G1_precomp_of : G1 → G1_precomp
  G2_precomp_of : G2 → G2_precomp
  ate_miller_loop : G1_precomp → G2_precomp → GT
  ate_double_miller_loop : G1_precomp → G2_precomp → G1_precomp → G2_precomp → GT
  final_exponentiation : GT → GT
  unitary_inverse : GT → GT

/-- The vector an `R1Witness<Fr>` dereferences to (`*witness`); `size()` is its
length and `truncate(n)` keeps its first `n` elements. -/
abbrev R1Witness (Fr : Type) := List Fr

/-- Modelled from the spec: the function `multiExp` of `MultiExp.hpp`, which is
not among the sources.  The spec gives it as the sum of `scalar[i]·base[i]`
(`acc = ic_base + Σ input[i]·ic_encoded[i]`); every call in `PPZK.hpp` passes
two vectors of the same length. -/
def multiExp {Fr G : Type} [Zero G] [Add G] [SMul Fr G]
    (base : List G) (scalar : List Fr) : G :=
  (List.zipWith (fun b s => s • b) base scalar).sum

/-! ## Input consistency query -/

/-- The class `PPZK_IC_Query`. -/
structure PPZK_IC_Query (G1 : Type) where
  m_base : G1
  m_encoded_terms : List G1
  deriving DecidableEq, Repr

namespace PPZK_IC_Query

variable {Fr G1 : Type}

/-- The accessor `base()`. -/
def base (q : PPZK_IC_Query G1) : G1 := q.m_base

/-- The accessor `input_size()`. -/
def input_size (q : PPZK_IC_Query G1) : Nat := q.m_encoded_terms.length

/-- The accessor `encoded_terms()`. -/
def encoded_terms (q : PPZK_IC_Query G1) : List G1 := q.m_encoded_terms

/-- The method `accumulate` (PPZK.hpp 135-164), branch for branch. -/
def accumulate [Zero G1] [Add G1] [SMul Fr G1]
    (q : PPZK_IC_Query G1) (witness : R1Witness Fr) : PPZK_IC_Query G1 :=
  let wsize := witness.length
  let tsize := q.m_encoded_terms.length
  if wsize < tsize then
    { m_base := q.m_base + multiExp (q.m_encoded_terms.take wsize) witness
      m_encoded_terms := q.m_encoded_terms.drop wsize }
  else if wsize > tsize then
    { m_base := q.m_base + multiExp q.m_encoded_terms (witness.take tsize)
      m_encoded_terms := [] }
  else
    { m_base := q.m_base + multiExp q.m_encoded_terms witness
      m_encoded_terms := [] }

end PPZK_IC_Query

/-! ## Verification key, precomputed verification key, proof -/

/-- The class `PPZK_VerificationKey`. -/
structure PPZK_VerificationKey (G1 G2 : Type) where
  m_alphaA_g2 : G2
  m_alphaB_g1 : G1
  m_alphaC_g2 : G2
  m_gamma_g2 : G2
  m_gamma_beta_g1 : G1
  m_gamma_beta_g2 : G2
  m_rC_Z_g2 : G2
  m_encoded_IC_query : PPZK_IC_Query G1
  deriving DecidableEq, Repr

/-- The class `PPZK_PrecompVerificationKey`. -/
structure PPZK_PrecompVerificationKey (G1 G1_precomp G2_precomp : Type) where
  m_pp_G2_one_precomp : G2_precomp
  m_vk_alphaA_g2_precomp : G2_precomp
  m_vk_alphaB_g1_precomp : G1_precomp
  m_vk_alphaC_g2_precomp : G2_precomp
  m_vk_rC_Z_g2_precomp : G2_precomp
  m_vk_gamma_g2_precomp : G2_precomp
  m_vk_gamma_beta_g1_precomp : G1_precomp
  m_vk_gamma_beta_g2_precomp : G2_precomp
  m_encoded_IC_query : PPZK_IC_Query G1

/-- The class `PPZK_Proof` (its five data members). -/
structure PPZK_Proof (G1 G2 : Type) where
  m_A : Pairing G1 G1
  m_B : Pairing G2 G1
  m_C : Pairing G1 G1
  m_H : G1
  m_K : G1
  deriving DecidableEq, Repr

section Verifier

variable {Fr G1 G2 GT G1_precomp G2_precomp : Type}

/-- The constructor `PPZK_PrecompVerificationKey(vk)` (PPZK.hpp 344-354). -/
def PPZK_PrecompVerificationKey.ofVK
    (PAIRING : PairingOps G1 G2 GT G1_precomp G2_precomp)
    (vk : PPZK_VerificationKey G1 G2) :
    PPZK_PrecompVerificationKey G1 G1_precomp G2_precomp :=
  { m_pp_G2_one_precomp := PAIRING.G2_precomp_of PAIRING.G2_one
    m_vk_alphaA_g2_precomp := PAIRING.G2_precomp_of vk.m_alphaA_g2
    m_vk_alphaB_g1_precomp := PAIRING.G1_precomp_of vk.m_alphaB_g1
    m_vk_alphaC_g2_precomp := PAIRING.G2_precomp_of vk.m_alphaC_g2
    m_vk_rC_Z_g2_precomp := PAIRING.G2_precomp_of vk.m_rC_Z_g2
    m_vk_gamma_g2_precomp := PAIRING.G2_precomp_of vk.m_gamma_g2
    m_vk_gamma_beta_g1_precomp := PAIRING.G1_precomp_of vk.m_gamma_beta_g1
    m_vk_gamma_beta_g2_precomp := PAIRING.G2_precomp_of vk.m_gamma_beta_g2
    m_encoded_IC_query := vk.m_encoded_IC_query }

/-- The method `PPZK_Proof::wellFormed` (PPZK.hpp 683-690). -/
def PPZK_Proof.wellFormed (PAIRING : PairingOps G1 G2 GT G1_precomp G2_precomp)
    (proof : PPZK_Proof G1 G2) : Bool :=
  PAIRING.G1_wellFormed proof.m_A.G && PAIRING.G1_wellFormed proof.m_A.H &&
  PAIRING.G2_wellFormed proof.m_B.G && PAIRING.G1_wellFormed proof.m_B.H &&
  PAIRING.G1_wellFormed proof.m_C.G && PAIRING.G1_wellFormed proof.m_C.H &&
  PAIRING.G1_wellFormed proof.m_H &&
  PAIRING.G1_wellFormed proof.m_K

/-- The local `kc_A` of `weakVerify` (PPZK.hpp 790-794). -/
def weakVerify.kc_A [Mul GT] (PAIRING : PairingOps G1 G2 GT G1_precomp G2_precomp)
    (pvk : PPZK_PrecompVerificationKey G1 G1_precomp G2_precomp)
    (proof : PPZK_Proof G1 G2) : GT :=
  let proof_g_A_g_precomp := PAIRING.G1_precomp_of proof.m_A.G
  let proof_g_A_h_precomp := PAIRING.G1_precomp_of proof.m_A.H
  let kc_A_1 := PAIRING.ate_miller_loop proof_g_A_g_precomp pvk.m_vk_alphaA_g2_precomp
  let kc_A_2 := PAIRING.ate_miller_loop proof_g_A_h_precomp pvk.m_pp_G2_one_precomp
  PAIRING.final_exponentiation (kc_A_1 * PAIRING.unitary_inverse kc_A_2)

/-- The local `kc_B` of `weakVerify` (PPZK.hpp 802-806). -/
def weakVerify.kc_B [Mul GT] (PAIRING : PairingOps G1 G2 GT G1_precomp G2_precomp)
    (pvk : PPZK_PrecompVerificationKey G1 G1_precomp G2_precomp)
    (proof : PPZK_Proof G1 G2) : GT :=
  let proof_g_B_g_precomp := PAIRING.G2_precomp_of proof.m_B.G
  let proof_g_B_h_precomp := PAIRING.G1_precomp_of proof.m_B.H
  let kc_B_1 := PAIRING.ate_miller_loop pvk.m_vk_alphaB_g1_precomp proof_g_B_g_precomp
  let kc_B_2 := PAIRING.ate_miller_loop proof_g_B_h_precomp pvk.m_pp_G2_one_precomp
  PAIRING.final_exponentiation (kc_B_1 * PAIRING.unitary_inverse kc_B_2)

/-- The local `kc_C` of `weakVerify` (PPZK.hpp 814-818). -/
def weakVerify.kc_C [Mul GT] (PAIRING : PairingOps G1 G2 GT G1_precomp G2_precomp)
    (pvk : PPZK_PrecompVerificationKey G1 G1_precomp G2_precomp)
    (proof : PPZK_Proof G1 G2) : GT :=
  let proof_g_C_g_precomp := PAIRING.G1_precomp_of proof.m_C.G
  let proof_g_C_h_precomp := PAIRING.G1_precomp_of proof.m_C.H
  let kc_C_1 := PAIRING.ate_miller_loop proof_g_C_g_precomp pvk.m_vk_alphaC_g2_precomp
  let kc_C_2 := PAIRING.ate_miller_loop proof_g_C_h_precomp pvk.m_pp_G2_one_precomp
  PAIRING.final_exponentiation (kc_C_1 * PAIRING.unitary_inverse kc_C_2)

/-- The local `QAP` of `weakVerify` (PPZK.hpp 826-830); `acc` is
`accum_IC.base()`. -/
def weakVerify.QAP [Mul GT] [Add G1]
    (PAIRING : PairingOps G1 G2 GT G1_precomp G2_precomp)
    (pvk : PPZK_PrecompVerificationKey G1 G1_precomp G2_precomp)
    (acc : G1) (proof : PPZK_Proof G1 G2) : GT :=
  let proof_g_B_g_precomp := PAIRING.G2_precomp_of proof.m_B.G
  let proof_g_C_g_precomp := PAIRING.G1_precomp_of proof.m_C.G
  let proof_g_A_g_acc_precomp := PAIRING.G1_precomp_of (proof.m_A.G + acc)
  let proof_g_H_precomp := PAIRING.G1_precomp_of proof.m_H
  let QAP_1 := PAIRING.ate_miller_loop proof_g_A_g_acc_precomp proof_g_B_g_precomp
  let QAP_23 := PAIRING.ate_double_miller_loop proof_g_H_precomp pvk.m_vk_rC_Z_g2_precomp
    proof_g_C_g_precomp pvk.m_pp_G2_one_precomp
  PAIRING.final_exponentiation (QAP_1 * PAIRING.unitary_inverse QAP_23)

/-- The local `K` of `weakVerify` (PPZK.hpp 838-842); `acc` is
`accum_IC.base()`. -/
def weakVerify.K [Mul GT] [Add G1]
    (PAIRING : PairingOps G1 G2 GT G1_precomp G2_precomp)
    (pvk : PPZK_PrecompVerificationKey G1 G1_precomp G2_precomp)
    (acc : G1) (proof : PPZK_Proof G1 G2) : GT :=
  let proof_g_B_g_precomp := PAIRING.G2_precomp_of proof.m_B.G
  let proof_g_K_precomp := PAIRING.G1_precomp_of proof.m_K
  let proof_g_A_g_acc_C_precomp := PAIRING.G1_precomp_of (proof.m_A.G + acc + proof.m_C.G)
  let K_1 := PAIRING.ate_miller_loop proof_g_K_precomp pvk.m_vk_gamma_g2_precomp
  let K_23 := PAIRING.ate_double_miller_loop proof_g_A_g_acc_C_precomp
    pvk.m_vk_gamma_beta_g2_precomp pvk.m_vk_gamma_beta_g1_precomp proof_g_B_g_precomp
  PAIRING.final_exponentiation (K_1 * PAIRING.unitary_inverse K_23)

/-- What a call of a function with a progress observer does: `result` is
`some v` when it returns `v` and `none` when it aborts (a failed `assert`, a
read outside a vector); `calls` lists the calls it made on the observer
`dummy`, in order. -/
structure Run (α : Type) where
  result : Option α
  calls : List ProgressCall
  deriving DecidableEq, Repr

/-- A run of a verification function. -/
abbrev VerifyRun := Run Bool

/-- The function `weakVerify` on a precomputed key (PPZK.hpp 763-848),
statement by statement. -/
def weakVerify [Zero G1] [Add G1] [SMul Fr G1] [Mul GT] [One GT] [DecidableEq GT]
    (PAIRING : PairingOps G1 G2 GT G1_precomp G2_precomp) (NDEBUG : Bool)
    (pvk : PPZK_PrecompVerificationKey G1 G1_precomp G2_precomp)
    (input : R1Witness Fr) (proof : PPZK_Proof G1 G2) : VerifyRun :=
  let step5 := [ProgressCall.majorSteps 5, ProgressCall.major none]
  let accum_IC := pvk.m_encoded_IC_query.accumulate input
  if !NDEBUG && !(0 == accum_IC.input_size) then ⟨none, step5⟩ else
  if !proof.wellFormed PAIRING then ⟨some false, step5⟩ else
  let ONE : GT := 1
  if ONE ≠ weakVerify.kc_A PAIRING pvk proof then ⟨some false, step5⟩ else
  let step4 := step5 ++ [ProgressCall.major none]
  if ONE ≠ weakVerify.kc_B PAIRING pvk proof then ⟨some false, step4⟩ else
  let step3 := step4 ++ [ProgressCall.major none]
  if ONE ≠ weakVerify.kc_C PAIRING pvk proof then ⟨some false, step3⟩ else
  let step2 := step3 ++ [ProgressCall.major none]
  if ONE ≠ weakVerify.QAP PAIRING pvk accum_IC.base proof then ⟨some false, step2⟩ else
  let step1 := step2 ++ [ProgressCall.major none]
  if ONE ≠ weakVerify.K PAIRING pvk accum_IC.base proof then ⟨some false, step1⟩ else
  ⟨some true, step1⟩

/-- The function `strongVerify` on a precomputed key (PPZK.hpp 862-871). -/
def strongVerify [Zero G1] [Add G1] [SMul Fr G1] [Mul GT] [One GT] [DecidableEq GT]
    (PAIRING : PairingOps G1 G2 GT G1_precomp G2_precomp) (NDEBUG : Bool)
    (pvk : PPZK_PrecompVerificationKey G1 G1_precomp G2_precomp)
    (input : R1Witness Fr) (proof : PPZK_Proof G1 G2) : VerifyRun :=
  if pvk.m_encoded_IC_query.input_size == input.length then
    weakVerify PAIRING NDEBUG pvk input proof
  else ⟨some false, []⟩

/-- The overload of `weakVerify` on a verification key (PPZK.hpp 850-860). -/
def weakVerify_vk [Zero G1] [Add G1] [SMul Fr G1] [Mul GT] [One GT] [DecidableEq GT]
    (PAIRING : PairingOps G1 G2 GT G1_precomp G2_precomp) (NDEBUG : Bool)
    (vk : PPZK_VerificationKey G1 G2)
    (input : R1Witness Fr) (proof : PPZK_Proof G1 G2) : VerifyRun :=
  weakVerify PAIRING NDEBUG (PPZK_PrecompVerificationKey.ofVK PAIRING vk) input proof

/-- The overload of `strongVerify` on a verification key (PPZK.hpp 873-883). -/
def strongVerify_vk [Zero G1] [Add G1] [SMul Fr G1] [Mul GT] [One GT] [DecidableEq GT]
    (PAIRING : PairingOps G1 G2 GT G1_precomp G2_precomp) (NDEBUG : Bool)
    (vk : PPZK_VerificationKey G1 G2)
    (input : R1Witness Fr) (proof : PPZK_Proof G1 G2) : VerifyRun :=
  strongVerify PAIRING NDEBUG (PPZK_PrecompVerificationKey.ofVK PAIRING vk) input proof

end Verifier

/-! ## Serialization of a proof -/

/-- The content of a `std::ostream` or the unread part of a `std::istream`. -/
abbrev Stream := List (Fin 256)

/-- The two marshalling methods of a component type, which live outside
`PPZK.hpp`.  `marshal_out a` is the bytes `a.marshal_out(os)` appends to `os`;
`marshal_in a is` is the call `a.marshal_in(is)` on an object holding `a`: the
value returned, the object afterwards and the unread part of the stream
afterwards. -/
structure Marshal (α : Type) where
  marshal_out : α → Stream
  marshal_in : α → Stream → Bool × α × Stream

/-- A component round-trips through its own `marshal_out` and `marshal_in`:
reading at the position where `a` was written succeeds, consumes exactly the
bytes `a` wrote, and leaves an object equal to `a` under `operator==`,
whatever the object held before. -/
def Marshal.RoundTrips {α : Type} [BEq α] (m : Marshal α) : Prop :=
  ∀ (a old : α) (rest : Stream),
    (m.marshal_in old (m.marshal_out a ++ rest)).1 = true ∧
    ((m.marshal_in old (m.marshal_out a ++ rest)).2.1 == a) = true ∧
    (m.marshal_in old (m.marshal_out a ++ rest)).2.2 = rest

/-- The marshalling methods of the component types of a proof:
`Pairing<G1, G1>`, `Pairing<G2, G1>` and `G1`. -/
structure ProofMarshal (G1 G2 : Type) where
  G1G1 : Marshal (Pairing G1 G1)
  G2G1 : Marshal (Pairing G2 G1)
  G1 : Marshal G1

namespace PPZK_Proof

variable {G1 G2 : Type}

/-- The method `operator==` of `PPZK_Proof` (PPZK.hpp 692-699); the instances
are the `operator==` of the component types. -/
def opEq [BEq (Pairing G1 G1)] [BEq (Pairing G2 G1)] [BEq G1]
    (a other : PPZK_Proof G1 G2) : Bool :=
  a.m_A == other.m_A &&
  a.m_B == other.m_B &&
  a.m_C == other.m_C &&
  a.m_H == other.m_H &&
  a.m_K == other.m_K

/-- The method `marshal_out` of `PPZK_Proof` (PPZK.hpp 705-711): the stream
after the five writes. -/
def marshal_out (M : ProofMarshal G1 G2) (a : PPZK_Proof G1 G2) (os : Stream) : Stream :=
  let os := os ++ M.G1G1.marshal_out a.m_A
  let os := os ++ M.G2G1.marshal_out a.m_B
  let os := os ++ M.G1G1.marshal_out a.m_C
  let os := os ++ M.G1.marshal_out a.m_H
  os ++ M.G1.marshal_out a.m_K

/-- The method `marshal_in` of `PPZK_Proof` (PPZK.hpp 713-720): the five reads
joined by the short-circuit `&&`, each into its own data member. -/
def marshal_in (M : ProofMarshal G1 G2) (a : PPZK_Proof G1 G2) (is : Stream) :
    Bool × PPZK_Proof G1 G2 × Stream :=
  let rA := M.G1G1.marshal_in a.m_A is
  let a := { a with m_A := rA.2.1 }
  if !rA.1 then (false, a, rA.2.2) else
  let rB := M.G2G1.marshal_in a.m_B rA.2.2
  let a := { a with m_B := rB.2.1 }
  if !rB.1 then (false, a, rB.2.2) else
  let rC := M.G1G1.marshal_in a.m_C rB.2.2
  let a := { a with m_C := rC.2.1 }
  if !rC.1 then (false, a, rC.2.2) else
  let rH := M.G1.marshal_in a.m_H rC.2.2
  let a := { a with m_H := rH.2.1 }
  if !rH.1 then (false, a, rH.2.2) else
  let rK := M.G1.marshal_in a.m_K rH.2.2
  let a := { a with m_K := rK.2.1 }
  (rK.1, a, rK.2.2)

/-- The method `clear` of `PPZK_Proof` (PPZK.hpp 722-728); `Pairing<GA,
GB>::zero()` is the pair of the two zero elements. -/
def clear [Zero G1] [Zero G2] (_a : PPZK_Proof G1 G2) : PPZK_Proof G1 G2 :=
  { m_A := ⟨0, 0⟩, m_B := ⟨0, 0⟩, m_C := ⟨0, 0⟩, m_H := 0, m_K := 0 }

/-- The function `operator<<` for a proof (PPZK.hpp 747-751). -/
def write (M : ProofMarshal G1 G2) (os : Stream) (a : PPZK_Proof G1 G2) : Stream :=
  marshal_out M a os

/-- The function `operator>>` for a proof (PPZK.hpp 753-757): the object and
the stream afterwards. -/
def read [Zero G1] [Zero G2] (M : ProofMarshal G1 G2) (is : Stream)
    (a : PPZK_Proof G1 G2) : PPZK_Proof G1 G2 × Stream :=
  let r := marshal_in M a is
  if !r.1 then (clear r.2.1, r.2.2) else (r.2.1, r.2.2)

end PPZK_Proof

/-! ## Proving key, key pair, generator and prover

The bodies of the two constructors are in `PPZK.hpp`; the classes and functions
they call from `QAP.hpp`, `WindowExp.hpp`, `MultiExp.hpp`, `Pairing.hpp` and
`AuxSTL.hpp` are not among the sources.  What the QAP layer computes from the
constraint system enters as given vectors; the remaining callees follow the
spec. -/

section PairingArithmetic

variable {Fr GA GB : Type}

/-- Modelled from the spec: `Pairing<GA, GB>::zero()` of `Pairing.hpp`, the
pair of the two zero elements. -/
instance Pairing.instZero [Zero GA] [Zero GB] : Zero (Pairing GA GB) := ⟨⟨0, 0⟩⟩

/-- Modelled from the spec: `operator+` of `Pairing.hpp`, which adds
pair-wise. -/
instance Pairing.instAdd [Add GA] [Add GB] : Add (Pairing GA GB) :=
  ⟨fun a b => ⟨a.G + b.G, a.H + b.H⟩⟩

/-- Modelled from the spec: `operator*` of a scalar and a `Pairing`, which
multiplies pair-wise. -/
instance Pairing.instSMul [SMul Fr GA] [SMul Fr GB] : SMul Fr (Pairing GA GB) :=
  ⟨fun s a => ⟨s • a.G, s • a.H⟩⟩

end PairingArithmetic

/-- Modelled from the spec: the class `SparseVector<T>` of `AuxSTL.hpp`, a
container keyed by index. -/
structure SparseVector (T : Type) where
  m_entries : List (Nat × T)
  deriving DecidableEq, Repr

/-- Modelled from the spec: the method `size()` of `SparseVector`. -/
def SparseVector.size {T : Type} (v : SparseVector T) : Nat := v.m_entries.length

/-- Modelled from the spec: the method `getElementForIndex`, which returns the
neutral element for an absent key. -/
def SparseVector.getElementForIndex {T : Type} [Zero T] (v : SparseVector T) (i : Nat) : T :=
  match v.m_entries.find? (fun e => e.1 == i) with
  | some e => e.2
  | none => 0

/-- Modelled from the spec: the method `batchExp` of `WindowExp<G>`
(`batchExp(xs)` is per element `exp`, and `exp(x)` is `x·G`). -/
def WindowExp.batchExp {Fr G : Type} [SMul Fr G] (one : G) (xs : List Fr) : List G :=
  xs.map (fun x => x • one)

/-- Modelled from the spec: the function `batchExp(tableA, tableB, random_A,
random_B, vec)` of `Pairing.hpp`: entry `i` is the pair
`((random_A·vec[i])·GA, (random_B·vec[i])·GB)`. -/
def batchExp {Fr GA GB : Type} [Mul Fr] [SMul Fr GA] [SMul Fr GB] (oneA : GA) (oneB : GB)
    (random_A random_B : Fr) (vec : List Fr) : SparseVector (Pairing GA GB) :=
  ⟨vec.enum.map (fun e => (e.1, ⟨(random_A * e.2) • oneA, (random_B * e.2) • oneB⟩))⟩

/-- Modelled from the spec: the functions `multiExp01` of `MultiExp.hpp` on two
vectors; the 0 and 1 shortcuts and the reserve hint do not change the sum. -/
def multiExp01 {Fr G : Type} [Zero G] [Add G] [SMul Fr G]
    (base : List G) (scalar : List Fr) (_reserveCount : Option Nat) : G :=
  multiExp base scalar

/-- Modelled from the spec: the functions `multiExp01` on a sparse query and
an index range: the sum of `scalar[i - startIdx]·base[i]` over the indices
`startIdx ≤ i < stopIdx`, an absent entry counting as zero. -/
def multiExp01_range {Fr T : Type} [Zero T] [Add T] [SMul Fr T]
    (base : SparseVector T) (scalar : List Fr) (startIdx stopIdx : Nat)
    (_reserveCount : Option Nat) : T :=
  multiExp ((List.range' startIdx (stopIdx - startIdx)).map base.getElementForIndex) scalar

/-- What the generator reads from the QAP layer once `QAP_SystemPoint qap` is
built from the constraint system, the number of inputs and the point:
`QueryA` is `QAP_QueryA(qap).vec()` before the IC coefficients are taken out
of it, and likewise for the others. -/
structure QAP_SystemPoint (Fr : Type) where
  numVariables : Nat
  numCircuitInputs : Nat
  QueryA : List Fr
  QueryB : List Fr
  QueryC : List Fr
  QueryH : List Fr
  compute_Z : Fr
  deriving DecidableEq, Repr

/-- Modelled from the spec: the vector of `QAP_QueryK` (`K_query_coeffs`):
three leading blinding slots `β·rA`, `β·rB`, `β·rC`, then
`β·(rA·At[i] + rB·Bt[i] + rC·Ct[i])` for every index, with `rC = rA·rB`. -/
def QAP_QueryK {Fr : Type} [Add Fr] [Mul Fr] (At Bt Ct : List Fr) (rA rB beta : Fr) : List Fr :=
  let rC := rA * rB
  [beta * rA, beta * rB, beta * rC] ++
    List.zipWith (fun a bc => beta * (rA * a + rB * bc.1 + rC * bc.2)) At (List.zip Bt Ct)

/-- Modelled from the spec: the vector of `QAP_IC_coefficients`:
`rA·At[0]` followed by `rA·At[1+i]` for the `numInputs` inputs. -/
def QAP_IC_coefficients.vec {Fr : Type} [Mul Fr] (numCircuitInputs : Nat) (At : List Fr)
    (rA : Fr) : List Fr :=
  (At.take (numCircuitInputs + 1)).map (fun a => rA * a)

/-- Modelled from the spec: the side effect of `QAP_IC_coefficients` on the A
query vector, which zeroes `At[0..=numInputs]`. -/
def QAP_IC_coefficients.At {Fr : Type} [Zero Fr] (numCircuitInputs : Nat) (At : List Fr) :
    List Fr :=
  At.enum.map (fun e => if e.1 ≤ numCircuitInputs then 0 else e.2)

/-- The class `PPZK_ProvingKey` (its five data members). -/
structure PPZK_ProvingKey (G1 G2 : Type) where
  m_A_query : SparseVector (Pairing G1 G1)
  m_B_query : SparseVector (Pairing G2 G1)
  m_C_query : SparseVector (Pairing G1 G1)
  m_H_query : List G1
  m_K_query : List G1
  deriving DecidableEq, Repr

/-- The class `PPZK_Keypair` (its two data members). -/
structure PPZK_Keypair (G1 G2 : Type) where
  m_pk : PPZK_ProvingKey G1 G2
  m_vk : PPZK_VerificationKey G1 G2
  deriving DecidableEq, Repr

section Generator

variable {Fr G1 G2 GT G1_precomp G2_precomp : Type}

/-- The constructor `PPZK_IC_Query(g1_table, coeffs)` (PPZK.hpp 127-133); it
reads `coeffs[0]`, which an empty vector does not have. -/
def PPZK_IC_Query.ofCoeffs [SMul Fr G1] (G1_one : G1) (coeffs : List Fr) :
    Option (PPZK_IC_Query G1) :=
  match coeffs with
  | [] => none
  | c0 :: rest => some ⟨c0 • G1_one, WindowExp.batchExp G1_one rest⟩

/-- The generating constructor `PPZK_Keypair(constraintSystem,
numCircuitInputs, callback)` (PPZK.hpp 401-473) from the statement that builds
`qap` on; the seven remaining values of the randomness block are arguments. -/
def PPZK_Keypair.generate [Zero Fr] [Add Fr] [Mul Fr] [SMul Fr G1] [SMul Fr G2]
    (PAIRING : PairingOps G1 G2 GT G1_precomp G2_precomp) (qap : QAP_SystemPoint Fr)
    (alphaA alphaB alphaC rA rB beta gamma : Fr) : Run (PPZK_Keypair G1 G2) :=
  let calls := ProgressCall.majorSteps 7 :: List.replicate 7 (ProgressCall.major (some true))
  let rC := rA * rB
  let At := qap.QueryA
  let Bt := qap.QueryB
  let Ct := qap.QueryC
  let Ht := qap.QueryH
  let Kt := WindowExp.batchExp PAIRING.G1_one (QAP_QueryK At Bt Ct rA rB beta)
  let IC_coefficients := QAP_IC_coefficients.vec qap.numCircuitInputs At rA
  let At := QAP_IC_coefficients.At qap.numCircuitInputs At
  let m_pk : PPZK_ProvingKey G1 G2 :=
    { m_A_query := batchExp PAIRING.G1_one PAIRING.G1_one rA (rA * alphaA) At
      m_B_query := batchExp PAIRING.G2_one PAIRING.G1_one rB (rB * alphaB) Bt
      m_C_query := batchExp PAIRING.G1_one PAIRING.G1_one rC (rC * alphaC) Ct
      m_H_query := WindowExp.batchExp PAIRING.G1_one Ht
      m_K_query := Kt }
  match PPZK_IC_Query.ofCoeffs PAIRING.G1_one IC_coefficients with
  | none => ⟨none, calls⟩
  | some ic =>
    let m_vk : PPZK_VerificationKey G1 G2 :=
      { m_alphaA_g2 := alphaA • PAIRING.G2_one
        m_alphaB_g1 := alphaB • PAIRING.G1_one
        m_alphaC_g2 := alphaC • PAIRING.G2_one
        m_gamma_g2 := gamma • PAIRING.G2_one
        m_gamma_beta_g1 := (gamma * beta) • PAIRING.G1_one
        m_gamma_beta_g2 := (gamma * beta) • PAIRING.G2_one
        m_rC_Z_g2 := (rC * qap.compute_Z) • PAIRING.G2_one
        m_encoded_IC_query := ic }
    ⟨some ⟨m_pk, m_vk⟩, calls⟩

/-- The proving constructor `PPZK_Proof(constraintSystem, numCircuitInputs, pk,
witness, reserveTune, callback)` (PPZK.hpp 553-667) from `step 5` on.
`numVariables` is `qap.numVariables()`, `aH` is `aH.vec()` as the QAP layer
leaves it, `d1 d2 d3` are the randomness block.  Reading `K_query[0..3]` of a
vector with fewer than four elements aborts. -/
def PPZK_Proof.prove [Zero G1] [Add G1] [SMul Fr G1] [Zero G2] [Add G2] [SMul Fr G2]
    (numVariables : Nat) (pk : PPZK_ProvingKey G1 G2) (witness : R1Witness Fr)
    (aH : List Fr) (d1 d2 d3 : Fr) (reserveTune : Nat) : Run (PPZK_Proof G1 G2) :=
  let calls := ProgressCall.majorSteps 5 :: List.replicate 5 (ProgressCall.major (some true))
  let A_query := pk.m_A_query
  let B_query := pk.m_B_query
  let C_query := pk.m_C_query
  let H_query := pk.m_H_query
  let K_query := pk.m_K_query
  let reserve : Option Nat := if 0 == reserveTune then none else some (numVariables / reserveTune)
  let m_A := (d1 • A_query.getElementForIndex 0) + A_query.getElementForIndex 3
  let m_A := m_A + multiExp01_range A_query witness 4 (4 + numVariables) reserve
  let m_B := (d2 • B_query.getElementForIndex 1) + B_query.getElementForIndex 3
  let m_B := m_B + multiExp01_range B_query witness 4 (4 + numVariables) reserve
  let m_C := (d3 • C_query.getElementForIndex 2) + C_query.getElementForIndex 3
  let m_C := m_C + multiExp01_range C_query witness 4 (4 + numVariables) reserve
  let m_H := multiExp H_query aH
  match K_query with
  | k0 :: k1 :: k2 :: k3 :: rest =>
    let reserveK : Option Nat :=
      if 0 == reserveTune then none else some ((K_query.length - 4) / reserveTune)
    let m_K := (d1 • k0) + (d2 • k1) + (d3 • k2) + k3
    let m_K := m_K + multiExp01 rest witness reserveK
    ⟨some ⟨m_A, m_B, m_C, m_H, m_K⟩, calls⟩
  | _ => ⟨none, calls⟩

end Generator

/-! ## The statements of the spec -/

section SpecSide

variable {Fr G1 G2 GT G1_precomp G2_precomp : Type}

/-- The pairing `e(P, Q)` of the spec: the final exponentiation of the Miller
loop of the two precomputed points. -/
def PairingOps.e (PAIRING : PairingOps G1 G2 GT G1_precomp G2_precomp) (P : G1) (Q : G2) : GT :=
  PAIRING.final_exponentiation
    (PAIRING.ate_miller_loop (PAIRING.G1_precomp_of P) (PAIRING.G2_precomp_of Q))

/-- What the verifier relies on in the pairing primitive: the final
exponentiation is multiplicative, it sends `unitary_inverse` of a Miller loop
value to the inverse, and a double Miller loop stands for the product of two
Miller loops. -/
structure PairingLaws [CommMonoid GT]
    (PAIRING : PairingOps G1 G2 GT G1_precomp G2_precomp) : Prop where
  final_exponentiation_mul : ∀ a b : GT,
    PAIRING.final_exponentiation (a * b) =
      PAIRING.final_exponentiation a * PAIRING.final_exponentiation b
  unitary_inverse_miller : ∀ (P : G1_precomp) (Q : G2_precomp),
    PAIRING.final_exponentiation (PAIRING.unitary_inverse (PAIRING.ate_miller_loop P Q)) *
      PAIRING.final_exponentiation (PAIRING.ate_miller_loop P Q) = 1
  unitary_inverse_double : ∀ (P : G1_precomp) (Q : G2_precomp) (R : G1_precomp) (S : G2_precomp),
    PAIRING.final_exponentiation
        (PAIRING.unitary_inverse (PAIRING.ate_double_miller_loop P Q R S)) *
      PAIRING.final_exponentiation (PAIRING.ate_double_miller_loop P Q R S) = 1
  final_exponentiation_double : ∀ (P : G1_precomp) (Q : G2_precomp) (R : G1_precomp)
      (S : G2_precomp),
    PAIRING.final_exponentiation (PAIRING.ate_double_miller_loop P Q R S) =
      PAIRING.final_exponentiation (PAIRING.ate_miller_loop P Q) *
        PAIRING.final_exponentiation (PAIRING.ate_miller_loop R S)

/-- Closure of the well-formed elements of G1 under the group operations: the
well-formed elements are a group, as the spec takes G1 to be. -/
structure WellFormedLaws (Fr : Type) [Zero G1] [Add G1] [SMul Fr G1]
    (PAIRING : PairingOps G1 G2 GT G1_precomp G2_precomp) : Prop where
  wellFormed_zero : PAIRING.G1_wellFormed 0 = true
  wellFormed_add : ∀ P Q : G1, PAIRING.G1_wellFormed P = true →
    PAIRING.G1_wellFormed Q = true → PAIRING.G1_wellFormed (P + Q) = true
  wellFormed_smul : ∀ (s : Fr) (P : G1), PAIRING.G1_wellFormed P = true →
    PAIRING.G1_wellFormed (s • P) = true

/-- What bilinearity gives at the neutral elements: the pairing of a neutral
element with anything is the neutral element of GT; and the neutral element of
G2 and the generator of G1 are well-formed. -/
structure NeutralLaws [Zero G1] [Zero G2] [One GT]
    (PAIRING : PairingOps G1 G2 GT G1_precomp G2_precomp) : Prop where
  e_zero_left : ∀ Q : G2, PAIRING.e 0 Q = 1
  e_zero_right : ∀ P : G1, PAIRING.e P 0 = 1
  wellFormed_zero_G2 : PAIRING.G2_wellFormed 0 = true
  wellFormed_one : PAIRING.G1_wellFormed PAIRING.G1_one = true

/-- The five pairing equations of the spec (section 4.5) for a verification
key, an accumulated input `acc` and a proof: KC_A, KC_B, KC_C, QAP
divisibility and same-coefficient K, in this order. -/
def PairingChecks [Add G1] [Mul GT] (PAIRING : PairingOps G1 G2 GT G1_precomp G2_precomp)
    (vk : PPZK_VerificationKey G1 G2) (acc : G1) (proof : PPZK_Proof G1 G2) : Prop :=
  PAIRING.e proof.m_A.G vk.m_alphaA_g2 = PAIRING.e proof.m_A.H PAIRING.G2_one ∧
  PAIRING.e vk.m_alphaB_g1 proof.m_B.G = PAIRING.e proof.m_B.H PAIRING.G2_one ∧
  PAIRING.e proof.m_C.G vk.m_alphaC_g2 = PAIRING.e proof.m_C.H PAIRING.G2_one ∧
  PAIRING.e (proof.m_A.G + acc) proof.m_B.G =
    PAIRING.e proof.m_H vk.m_rC_Z_g2 * PAIRING.e proof.m_C.G PAIRING.G2_one ∧
  PAIRING.e proof.m_K vk.m_gamma_g2 =
    PAIRING.e (proof.m_A.G + acc + proof.m_C.G) vk.m_gamma_beta_g2 *
      PAIRING.e vk.m_gamma_beta_g1 proof.m_B.G

/-- The number of `major()` calls of a run of `weakVerify` that gets past the
assertion: the stage at which it stops, 1 for the well-formedness test or
KC_A, 2 for KC_B, 3 for KC_C, 4 for the QAP check, 5 for the K check or
acceptance. -/
def weakVerify.stage [Add G1] [Mul GT] [One GT] [DecidableEq GT]
    (PAIRING : PairingOps G1 G2 GT G1_precomp G2_precomp)
    (pvk : PPZK_PrecompVerificationKey G1 G1_precomp G2_precomp)
    (acc : G1) (proof : PPZK_Proof G1 G2) : Nat :=
  if proof.wellFormed PAIRING = false ∨ (1 : GT) ≠ weakVerify.kc_A PAIRING pvk proof then 1
  else if (1 : GT) ≠ weakVerify.kc_B PAIRING pvk proof then 2
  else if (1 : GT) ≠ weakVerify.kc_C PAIRING pvk proof then 3
  else if (1 : GT) ≠ weakVerify.QAP PAIRING pvk acc proof then 4
  else 5

/-- The conjunction `weakVerify` returns once it is past the assertion: the
well-formedness test and the five comparisons with `GT::one()`. -/
def weakVerify.verdict [Add G1] [Mul GT] [One GT] [DecidableEq GT]
    (PAIRING : PairingOps G1 G2 GT G1_precomp G2_precomp)
    (pvk : PPZK_PrecompVerificationKey G1 G1_precomp G2_precomp)
    (acc : G1) (proof : PPZK_Proof G1 G2) : Bool :=
  proof.wellFormed PAIRING &&
  decide ((1 : GT) = weakVerify.kc_A PAIRING pvk proof) &&
  decide ((1 : GT) = weakVerify.kc_B PAIRING pvk proof) &&
  decide ((1 : GT) = weakVerify.kc_C PAIRING pvk proof) &&
  decide ((1 : GT) = weakVerify.QAP PAIRING pvk acc proof) &&
  decide ((1 : GT) = weakVerify.K PAIRING pvk acc proof)

end SpecSide

/-! ## A small pairing to evaluate the definitions on

Scalars are the integers modulo 7.  A group element is a pair of such
integers; it is well-formed when its second coordinate is zero, so that the
well-formed elements form a group of order 7.  The pairing multiplies the
first coordinates and lands in the additive group modulo 7 written
multiplicatively. -/

namespace Toy

/-- The scalar field. -/
abbrev Fr := ZMod 7

/-- The first source group. -/
abbrev G1 := ZMod 7 × ZMod 7

/-- The second source group. -/
abbrev G2 := ZMod 7 × ZMod 7

/-- The target group. -/
abbrev GT := Multiplicative (ZMod 7)

/-- The operations of the small pairing. -/
def PAIRING : PairingOps G1 G2 GT G1 G2 where
  G1_one := (1, 0)
  G2_one := (1, 0)
  G1_wellFormed := fun g => g.2 == 0
  G2_wellFormed := fun g => g.2 == 0
  G1_precomp_of := id
  G2_precomp_of := id
  ate_miller_loop := fun P Q => Multiplicative.ofAdd (P.1 * Q.1)
  ate_double_miller_loop := fun P Q R S => Multiplicative.ofAdd (P.1 * Q.1 + R.1 * S.1)
  final_exponentiation := id
  unitary_inverse := fun x => x⁻¹

/-- A verification key with one encoded input term. -/
def vk : PPZK_VerificationKey G1 G2 :=
  { m_alphaA_g2 := (2, 0), m_alphaB_g1 := (3, 0), m_alphaC_g2 := (4, 0), m_gamma_g2 := (5, 0)
    m_gamma_beta_g1 := (1, 0), m_gamma_beta_g2 := (1, 0), m_rC_Z_g2 := (6, 0)
    m_encoded_IC_query := ⟨(1, 0), [(2, 0)]⟩ }

/-- A well-formed proof that `vk` accepts on the input `[1]`: every element
is zero except `K`, which the K check fixes. -/
def proofOk : PPZK_Proof G1 G2 :=
  { m_A := ⟨0, 0⟩, m_B := ⟨0, 0⟩, m_C := ⟨0, 0⟩, m_H := 0, m_K := (2, 0) }

/-- A well-formed proof that fails the KC_A check of `vk`. -/
def proofBadA : PPZK_Proof G1 G2 :=
  { m_A := ⟨(1, 0), 0⟩, m_B := ⟨0, 0⟩, m_C := ⟨0, 0⟩, m_H := 0, m_K := 0 }

/-- A well-formed proof that passes KC_A and fails the KC_B check of `vk`. -/
def proofBadB : PPZK_Proof G1 G2 :=
  { m_A := ⟨0, 0⟩, m_B := ⟨0, (1, 0)⟩, m_C := ⟨0, 0⟩, m_H := 0, m_K := 0 }

/-- A proof whose element `A.G` is not well-formed. -/
def proofIllFormed : PPZK_Proof G1 G2 :=
  { m_A := ⟨(0, 1), 0⟩, m_B := ⟨0, 0⟩, m_C := ⟨0, 0⟩, m_H := 0, m_K := 0 }

/-- The byte that encodes a scalar modulo 7. -/
def byteOf (x : ZMod 7) : Fin 256 := Fin.castLE (by decide) (show Fin 7 from x)

/-- The encoding of a group element: one byte for each coordinate; reading
fails on a short stream and on a byte that is not below 7, and then leaves
the object as it was. -/
def marshalG : Marshal G1 where
  marshal_out := fun g => [byteOf g.1, byteOf g.2]
  marshal_in := fun old is =>
    match is with
    | a :: b :: rest =>
      if h : a.val < 7 ∧ b.val < 7 then
        (true,
          ((show ZMod 7 from (⟨a.val, h.1⟩ : Fin 7)), (show ZMod 7 from (⟨b.val, h.2⟩ : Fin 7))),
          rest)
      else (false, old, rest)
    | _ => (false, old, [])

/-- The encoding of a pair of group elements: the element `G`, then the
element `H`. -/
def marshalGG : Marshal (Pairing G1 G1) where
  marshal_out := fun p => marshalG.marshal_out p.G ++ marshalG.marshal_out p.H
  marshal_in := fun old is =>
    let rG := marshalG.marshal_in old.G is
    if !rG.1 then (false, { old with G := rG.2.1 }, rG.2.2) else
    let rH := marshalG.marshal_in old.H rG.2.2
    (rH.1, { G := rG.2.1, H := rH.2.1 }, rH.2.2)

/-- The marshalling methods of the component types of a proof. -/
def proofMarshal : ProofMarshal G1 G2 := ⟨marshalGG, marshalGG, marshalG⟩

/-- Stand-ins for what the QAP layer hands to the generator on the Soundness
fixture of `AutoTest_R1CS.hpp` (six variables, four of them inputs): the
query vectors at the point 3.  Their values do not reach `Toy.keypair0`
except through `QueryH`. -/
def qap : QAP_SystemPoint Fr :=
  { numVariables := 6, numCircuitInputs := 4
    QueryA := [1, 2, 3, 4, 5, 6, 1], QueryB := [2, 3, 4, 5, 6, 1, 2]
    QueryC := [3, 4, 5, 6, 1, 2, 3], QueryH := [1, 3, 2, 6, 4], compute_Z := 3 }

/-- The witness the Soundness fixture assigns for `c1 = 2, c2 = 3, c3 = 4`:
`d4 = c1·c1·c2·c3 = 6`, `d5 = c1·c2 = 6`, `d6 = c1·c3 = 1` modulo 7. -/
def witness : R1Witness Fr := [2, 3, 4, 6, 6, 1]

/-- The run of the generator on `qap` with the randomness `alphaA = 2`,
`alphaB = 3`, `alphaC = 4`, `rA = 0`, `rB = 0`, `beta = 0`, `gamma = 5`. -/
def keypair0 : Run (PPZK_Keypair G1 G2) := PPZK_Keypair.generate PAIRING qap 2 3 4 0 0 0 5

end Toy

/-! ## Serialization of the keys -/

/-- The marshalling methods of the component types of the keys, which live
outside `PPZK.hpp`: the group elements, `std::vector<G1>` (the functions
`snarklib::marshal_out` and `snarklib::marshal_in` on a vector) and the two
sparse vectors of pairs. -/
structure KeyMarshal (G1 G2 : Type) where
  vecG1 : Marshal (List G1)
  sparseG1G1 : Marshal (SparseVector (Pairing G1 G1))
  sparseG2G1 : Marshal (SparseVector (Pairing G2 G1))
  G1 : Marshal G1
  G2 : Marshal G2

/-- The tests `isZero()` of the two groups, which live outside `PPZK.hpp`. -/
structure ZeroTests (G1 G2 : Type) where
  G1_isZero : G1 → Bool
  G2_isZero : G2 → Bool

/-- Modelled from the spec: the method `isZero()` of `Pairing<GA, GB>`, true
when both elements of the pair are zero. -/
def Pairing.isZero {GA GB : Type} (zeroA : GA → Bool) (zeroB : GB → Bool)
    (a : Pairing GA GB) : Bool :=
  zeroA a.G && zeroB a.H

/-- Modelled from the spec: the method `clear()` of `SparseVector`. -/
def SparseVector.clear {T : Type} (_v : SparseVector T) : SparseVector T := ⟨[]⟩

/-- Modelled from the spec: the method `empty()` of `SparseVector`. -/
def SparseVector.empty {T : Type} (v : SparseVector T) : Bool := v.m_entries.isEmpty

namespace PPZK_ProvingKey

variable {G1 G2 : Type}

/-- The method `operator==` of `PPZK_ProvingKey` (PPZK.hpp 53-60); the
instances are the `operator==` of the component types. -/
def opEq [BEq (SparseVector (Pairing G1 G1))] [BEq (SparseVector (Pairing G2 G1))] [BEq G1]
    (a other : PPZK_ProvingKey G1 G2) : Bool :=
  a.m_A_query == other.m_A_query &&
  a.m_B_query == other.m_B_query &&
  a.m_C_query == other.m_C_query &&
  a.m_H_query == other.m_H_query &&
  a.m_K_query == other.m_K_query

/-- The method `marshal_out` of `PPZK_ProvingKey` (PPZK.hpp 66-72): the stream
after the five writes. -/
def marshal_out (M : KeyMarshal G1 G2) (a : PPZK_ProvingKey G1 G2) (os : Stream) : Stream :=
  let os := os ++ M.sparseG1G1.marshal_out a.m_A_query
  let os := os ++ M.sparseG2G1.marshal_out a.m_B_query
  let os := os ++ M.sparseG1G1.marshal_out a.m_C_query
  let os := os ++ M.vecG1.marshal_out a.m_H_query
  os ++ M.vecG1.marshal_out a.m_K_query

/-- The method `marshal_in` of `PPZK_ProvingKey` (PPZK.hpp 74-81): the five
reads joined by the short-circuit `&&`, each into its own data member. -/
def marshal_in (M : KeyMarshal G1 G2) (a : PPZK_ProvingKey G1 G2) (is : Stream) :
    Bool × PPZK_ProvingKey G1 G2 × Stream :=
  let rA := M.sparseG1G1.marshal_in a.m_A_query is
  let a := { a with m_A_query := rA.2.1 }
  if !rA.1 then (false, a, rA.2.2) else
  let rB := M.sparseG2G1.marshal_in a.m_B_query rA.2.2
  let a := { a with m_B_query := rB.2.1 }
  if !rB.1 then (false, a, rB.2.2) else
  let rC := M.sparseG1G1.marshal_in a.m_C_query rB.2.2
  let a := { a with m_C_query := rC.2.1 }
  if !rC.1 then (false, a, rC.2.2) else
  let rH := M.vecG1.marshal_in a.m_H_query rC.2.2
  let a := { a with m_H_query := rH.2.1 }
  if !rH.1 then (false, a, rH.2.2) else
  let rK := M.vecG1.marshal_in a.m_K_query rH.2.2
  let a := { a with m_K_query := rK.2.1 }
  (rK.1, a, rK.2.2)

/-- The method `clear` of `PPZK_ProvingKey` (PPZK.hpp 83-89). -/
def clear (a : PPZK_ProvingKey G1 G2) : PPZK_ProvingKey G1 G2 :=
  { m_A_query := a.m_A_query.clear
    m_B_query := a.m_B_query.clear
    m_C_query := a.m_C_query.clear
    m_H_query := []
    m_K_query := [] }

/-- The method `empty` of `PPZK_ProvingKey` (PPZK.hpp 91-98). -/
def empty (a : PPZK_ProvingKey G1 G2) : Bool :=
  a.m_A_query.empty ||
  a.m_B_query.empty ||
  a.m_C_query.empty ||
  a.m_H_query.isEmpty ||
  a.m_K_query.isEmpty

end PPZK_ProvingKey

namespace PPZK_IC_Query

variable {G1 G2 : Type}

/-- The method `operator==` of `PPZK_IC_Query` (PPZK.hpp 178-182). -/
def opEq [BEq G1] (a other : PPZK_IC_Query G1) : Bool :=
  a.m_base == other.m_base &&
  a.m_encoded_terms == other.m_encoded_terms

/-- The method `marshal_out` of `PPZK_IC_Query` (PPZK.hpp 188-191). -/
def marshal_out (M : KeyMarshal G1 G2) (a : PPZK_IC_Query G1) (os : Stream) : Stream :=
  let os := os ++ M.G1.marshal_out a.m_base
  os ++ M.vecG1.marshal_out a.m_encoded_terms

/-- The method `marshal_in` of `PPZK_IC_Query` (PPZK.hpp 193-197). -/
def marshal_in (M : KeyMarshal G1 G2) (a : PPZK_IC_Query G1) (is : Stream) :
    Bool × PPZK_IC_Query G1 × Stream :=
  let rB := M.G1.marshal_in a.m_base is
  let a := { a with m_base := rB.2.1 }
  if !rB.1 then (false, a, rB.2.2) else
  let rT := M.vecG1.marshal_in a.m_encoded_terms rB.2.2
  let a := { a with m_encoded_terms := rT.2.1 }
  (rT.1, a, rT.2.2)

/-- The method `clear` of `PPZK_IC_Query` (PPZK.hpp 199-202). -/
def clear [Zero G1] (_a : PPZK_IC_Query G1) : PPZK_IC_Query G1 :=
  { m_base := 0, m_encoded_terms := [] }

/-- The method `empty` of `PPZK_IC_Query` (PPZK.hpp 204-208). -/
def empty (Z : ZeroTests G1 G2) (a : PPZK_IC_Query G1) : Bool :=
  Z.G1_isZero a.m_base ||
  a.m_encoded_terms.isEmpty

end PPZK_IC_Query

namespace PPZK_VerificationKey

variable {G1 G2 : Type}

/-- The method `operator==` of `PPZK_VerificationKey` (PPZK.hpp 259-269). -/
def opEq [BEq G1] [BEq G2] (a other : PPZK_VerificationKey G1 G2) : Bool :=
  a.m_alphaA_g2 == other.m_alphaA_g2 &&
  a.m_alphaB_g1 == other.m_alphaB_g1 &&
  a.m_alphaC_g2 == other.m_alphaC_g2 &&
  a.m_gamma_g2 == other.m_gamma_g2 &&
  a.m_gamma_beta_g1 == other.m_gamma_beta_g1 &&
  a.m_gamma_beta_g2 == other.m_gamma_beta_g2 &&
  a.m_rC_Z_g2 == other.m_rC_Z_g2 &&
  a.m_encoded_IC_query.opEq other.m_encoded_IC_query

/-- The method `marshal_out` of `PPZK_VerificationKey` (PPZK.hpp 275-284). -/
def marshal_out (M : KeyMarshal G1 G2) (a : PPZK_VerificationKey G1 G2) (os : Stream) :
    Stream :=
  let os := os ++ M.G2.marshal_out a.m_alphaA_g2
  let os := os ++ M.G1.marshal_out a.m_alphaB_g1
  let os := os ++ M.G2.marshal_out a.m_alphaC_g2
  let os := os ++ M.G2.marshal_out a.m_gamma_g2
  let os := os ++ M.G1.marshal_out a.m_gamma_beta_g1
  let os := os ++ M.G2.marshal_out a.m_gamma_beta_g2
  let os := os ++ M.G2.marshal_out a.m_rC_Z_g2
  a.m_encoded_IC_query.marshal_out M os

/-- The method `marshal_in` of `PPZK_VerificationKey` (PPZK.hpp 286-296): the
eight reads joined by the short-circuit `&&`. -/
def marshal_in (M : KeyMarshal G1 G2) (a : PPZK_VerificationKey G1 G2) (is : Stream) :
    Bool × PPZK_VerificationKey G1 G2 × Stream :=
  let r1 := M.G2.marshal_in a.m_alphaA_g2 is
  let a := { a with m_alphaA_g2 := r1.2.1 }
  if !r1.1 then (false, a, r1.2.2) else
  let r2 := M.G1.marshal_in a.m_alphaB_g1 r1.2.2
  let a := { a with m_alphaB_g1 := r2.2.1 }
  if !r2.1 then (false, a, r2.2.2) else
  let r3 := M.G2.marshal_in a.m_alphaC_g2 r2.2.2
  let a := { a with m_alphaC_g2 := r3.2.1 }
  if !r3.1 then (false, a, r3.2.2) else
  let r4 := M.G2.marshal_in a.m_gamma_g2 r3.2.2
  let a := { a with m_gamma_g2 := r4.2.1 }
  if !r4.1 then (false, a, r4.2.2) else
  let r5 := M.G1.marshal_in a.m_gamma_beta_g1 r4.2.2
  let a := { a with m_gamma_beta_g1 := r5.2.1 }
  if !r5.1 then (false, a, r5.2.2) else
  let r6 := M.G2.marshal_in a.m_gamma_beta_g2 r5.2.2
  let a := { a with m_gamma_beta_g2 := r6.2.1 }
  if !r6.1 then (false, a, r6.2.2) else
  let r7 := M.G2.marshal_in a.m_rC_Z_g2 r6.2.2
  let a := { a with m_rC_Z_g2 := r7.2.1 }
  if !r7.1 then (false, a, r7.2.2) else
  let r8 := a.m_encoded_IC_query.marshal_in M r7.2.2
  let a := { a with m_encoded_IC_query := r8.2.1 }
  (r8.1, a, r8.2.2)

/-- The method `clear` of `PPZK_VerificationKey` (PPZK.hpp 298-307). -/
def clear [Zero G1] [Zero G2] (a : PPZK_VerificationKey G1 G2) : PPZK_VerificationKey G1 G2 :=
  { m_alphaA_g2 := 0
    m_alphaB_g1 := 0
    m_alphaC_g2 := 0
    m_gamma_g2 := 0
    m_gamma_beta_g1 := 0
    m_gamma_beta_g2 := 0
    m_rC_Z_g2 := 0
    m_encoded_IC_query := a.m_encoded_IC_query.clear }

/-- The method `empty` of `PPZK_VerificationKey` (PPZK.hpp 309-319). -/
def empty (Z : ZeroTests G1 G2) (a : PPZK_VerificationKey G1 G2) : Bool :=
  Z.G2_isZero a.m_alphaA_g2 ||
  Z.G1_isZero a.m_alphaB_g1 ||
  Z.G2_isZero a.m_alphaC_g2 ||
  Z.G2_isZero a.m_gamma_g2 ||
  Z.G1_isZero a.m_gamma_beta_g1 ||
  Z.G2_isZero a.m_gamma_beta_g2 ||
  Z.G2_isZero a.m_rC_Z_g2 ||
  a.m_encoded_IC_query.empty Z

end PPZK_VerificationKey

namespace PPZK_Keypair

variable {G1 G2 : Type}

/-- The method `operator==` of `PPZK_Keypair` (PPZK.hpp 478-482). -/
def opEq [BEq (SparseVector (Pairing G1 G1))] [BEq (SparseVector (Pairing G2 G1))] [BEq G1]
    [BEq G2] (a other : PPZK_Keypair G1 G2) : Bool :=
  a.m_pk.opEq other.m_pk &&
  a.m_vk.opEq other.m_vk

/-- The method `marshal_out` of `PPZK_Keypair` (PPZK.hpp 488-491). -/
def marshal_out (M : KeyMarshal G1 G2) (a : PPZK_Keypair G1 G2) (os : Stream) : Stream :=
  let os := a.m_pk.marshal_out M os
  a.m_vk.marshal_out M os

/-- The method `marshal_in` of `PPZK_Keypair` (PPZK.hpp 493-497). -/
def marshal_in (M : KeyMarshal G1 G2) (a : PPZK_Keypair G1 G2) (is : Stream) :
    Bool × PPZK_Keypair G1 G2 × Stream :=
  let rP := a.m_pk.marshal_in M is
  let a := { a with m_pk := rP.2.1 }
  if !rP.1 then (false, a, rP.2.2) else
  let rV := a.m_vk.marshal_in M rP.2.2
  let a := { a with m_vk := rV.2.1 }
  (rV.1, a, rV.2.2)

/-- The method `clear` of `PPZK_Keypair` (PPZK.hpp 499-502). -/
def clear [Zero G1] [Zero G2] (a : PPZK_Keypair G1 G2) : PPZK_Keypair G1 G2 :=
  { m_pk := a.m_pk.clear, m_vk := a.m_vk.clear }

/-- The method `empty` of `PPZK_Keypair` (PPZK.hpp 504-508). -/
def empty (Z : ZeroTests G1 G2) (a : PPZK_Keypair G1 G2) : Bool :=
  a.m_pk.empty ||
  a.m_vk.empty Z

/-- The function `operator<<` for a key pair (PPZK.hpp 515-519). -/
def write (M : KeyMarshal G1 G2) (os : Stream) (a : PPZK_Keypair G1 G2) : Stream :=
  marshal_out M a os

/-- The function `operator>>` for a key pair (PPZK.hpp 521-525): the object
and the stream afterwards. -/
def read [Zero G1] [Zero G2] (M : KeyMarshal G1 G2) (is : Stream)
    (a : PPZK_Keypair G1 G2) : PPZK_Keypair G1 G2 × Stream :=
  let r := marshal_in M a is
  if !r.1 then (clear r.2.1, r.2.2) else (r.2.1, r.2.2)

end PPZK_Keypair

/-- The method `empty` of `PPZK_Proof` (PPZK.hpp 730-737). -/
def PPZK_Proof.empty {G1 G2 : Type} (Z : ZeroTests G1 G2) (a : PPZK_Proof G1 G2) : Bool :=
  Pairing.isZero Z.G1_isZero Z.G1_isZero a.m_A ||
  Pairing.isZero Z.G2_isZero Z.G1_isZero a.m_B ||
  Pairing.isZero Z.G1_isZero Z.G1_isZero a.m_C ||
  Z.G1_isZero a.m_H ||
  Z.G1_isZero a.m_K


/-! ## The persistent layout as the spec words it -/

/-- One sub-read of an aggregate `α`: the state of the aggregate and of the
stream before, to the value returned and the two states after. -/
abbrev SubRead (α : Type) := α → Stream → Bool × α × Stream

/-- The sub-read that calls the `marshal_in` of a component on one data member
of the aggregate. -/
def Marshal.field {α β : Type} (m : Marshal β) (get : α → β) (set : α → β → α) : SubRead α :=
  fun a is =>
    let r := m.marshal_in (get a) is
    (r.1, set a r.2.1, r.2.2)

/-- Reading as the spec words it: the sub-reads are made in the given order
and the first that fails stops the reading. -/
def readFields {α : Type} : List (SubRead α) → SubRead α
  | [], a, is => (true, a, is)
  | f :: fs, a, is => if (f a is).1 then readFields fs (f a is).2.1 (f a is).2.2 else f a is

/-- The values returned by the sub-reads that `readFields` makes, in order. -/
def subReadResults {α : Type} : List (SubRead α) → α → Stream → List Bool
  | [], _, _ => []
  | f :: fs, a, is =>
    (f a is).1 :: (if (f a is).1 then subReadResults fs (f a is).2.1 (f a is).2.2 else [])

/-- The two marshalling methods of `PPZK_IC_Query` as a component of the
verification key. -/
def PPZK_IC_Query.marshal {G1 G2 : Type} (M : KeyMarshal G1 G2) : Marshal (PPZK_IC_Query G1) :=
  ⟨fun a => PPZK_IC_Query.marshal_out M a [], PPZK_IC_Query.marshal_in M⟩

/-- The two marshalling methods of `PPZK_ProvingKey` as a component of the key
pair. -/
def PPZK_ProvingKey.marshal {G1 G2 : Type} (M : KeyMarshal G1 G2) :
    Marshal (PPZK_ProvingKey G1 G2) :=
  ⟨fun a => PPZK_ProvingKey.marshal_out M a [], PPZK_ProvingKey.marshal_in M⟩

/-- The two marshalling methods of `PPZK_VerificationKey` as a component of
the key pair. -/
def PPZK_VerificationKey.marshal {G1 G2 : Type} (M : KeyMarshal G1 G2) :
    Marshal (PPZK_VerificationKey G1 G2) :=
  ⟨fun a => PPZK_VerificationKey.marshal_out M a [], PPZK_VerificationKey.marshal_in M⟩

section Layout

variable {G1 G2 : Type}

/-- The fields of a proof in declared order, each with its own encoding:
A, B, C, H, K. -/
def PPZK_Proof.encodings (M : ProofMarshal G1 G2) (a : PPZK_Proof G1 G2) : List Stream :=
  [M.G1G1.marshal_out a.m_A, M.G2G1.marshal_out a.m_B, M.G1G1.marshal_out a.m_C,
    M.G1.marshal_out a.m_H, M.G1.marshal_out a.m_K]

/-- The sub-reads of a proof in declared order: A, B, C, H, K. -/
def PPZK_Proof.fields (M : ProofMarshal G1 G2) : List (SubRead (PPZK_Proof G1 G2)) :=
  [M.G1G1.field (fun a => a.m_A) (fun a v => { a with m_A := v }),
    M.G2G1.field (fun a => a.m_B) (fun a v => { a with m_B := v }),
    M.G1G1.field (fun a => a.m_C) (fun a v => { a with m_C := v }),
    M.G1.field (fun a => a.m_H) (fun a v => { a with m_H := v }),
    M.G1.field (fun a => a.m_K) (fun a v => { a with m_K := v })]

/-- The fields of a proving key in declared order, each with its own
encoding: A_query, B_query, C_query, H_query, K_query. -/
def PPZK_ProvingKey.encodings (M : KeyMarshal G1 G2) (a : PPZK_ProvingKey G1 G2) :
    List Stream :=
  [M.sparseG1G1.marshal_out a.m_A_query, M.sparseG2G1.marshal_out a.m_B_query,
    M.sparseG1G1.marshal_out a.m_C_query, M.vecG1.marshal_out a.m_H_query,
    M.vecG1.marshal_out a.m_K_query]

/-- The sub-reads of a proving key in declared order. -/
def PPZK_ProvingKey.fields (M : KeyMarshal G1 G2) : List (SubRead (PPZK_ProvingKey G1 G2)) :=
  [M.sparseG1G1.field (fun a => a.m_A_query) (fun a v => { a with m_A_query := v }),
    M.sparseG2G1.field (fun a => a.m_B_query) (fun a v => { a with m_B_query := v }),
    M.sparseG1G1.field (fun a => a.m_C_query) (fun a v => { a with m_C_query := v }),
    M.vecG1.field (fun a => a.m_H_query) (fun a v => { a with m_H_query := v }),
    M.vecG1.field (fun a => a.m_K_query) (fun a v => { a with m_K_query := v })]

/-- The fields of an IC query in declared order: the base, then the encoded
terms. -/
def PPZK_IC_Query.encodings (M : KeyMarshal G1 G2) (a : PPZK_IC_Query G1) : List Stream :=
  [M.G1.marshal_out a.m_base, M.vecG1.marshal_out a.m_encoded_terms]

/-- The sub-reads of an IC query in declared order. -/
def PPZK_IC_Query.fields (M : KeyMarshal G1 G2) : List (SubRead (PPZK_IC_Query G1)) :=
  [M.G1.field (fun a => a.m_base) (fun a v => { a with m_base := v }),
    M.vecG1.field (fun a => a.m_encoded_terms) (fun a v => { a with m_encoded_terms := v })]

/-- The fields of a verification key in declared order, each with its own
encoding: alphaA_g2, alphaB_g1, alphaC_g2, gamma_g2, gamma_beta_g1,
gamma_beta_g2, rC_Z_g2, then the IC query (base, then encoded terms). -/
def PPZK_VerificationKey.encodings (M : KeyMarshal G1 G2) (a : PPZK_VerificationKey G1 G2) :
    List Stream :=
  [M.G2.marshal_out a.m_alphaA_g2, M.G1.marshal_out a.m_alphaB_g1,
    M.G2.marshal_out a.m_alphaC_g2, M.G2.marshal_out a.m_gamma_g2,
    M.G1.marshal_out a.m_gamma_beta_g1, M.G2.marshal_out a.m_gamma_beta_g2,
    M.G2.marshal_out a.m_rC_Z_g2] ++ a.m_encoded_IC_query.encodings M

/-- The sub-reads of a verification key in declared order; the eighth is the
`marshal_in` of the IC query. -/
def PPZK_VerificationKey.fields (M : KeyMarshal G1 G2) :
    List (SubRead (PPZK_VerificationKey G1 G2)) :=
  [M.G2.field (fun a => a.m_alphaA_g2) (fun a v => { a with m_alphaA_g2 := v }),
    M.G1.field (fun a => a.m_alphaB_g1) (fun a v => { a with m_alphaB_g1 := v }),
    M.G2.field (fun a => a.m_alphaC_g2) (fun a v => { a with m_alphaC_g2 := v }),
    M.G2.field (fun a => a.m_gamma_g2) (fun a v => { a with m_gamma_g2 := v }),
    M.G1.field (fun a => a.m_gamma_beta_g1) (fun a v => { a with m_gamma_beta_g1 := v }),
    M.G2.field (fun a => a.m_gamma_beta_g2) (fun a v => { a with m_gamma_beta_g2 := v }),
    M.G2.field (fun a => a.m_rC_Z_g2) (fun a v => { a with m_rC_Z_g2 := v }),
    (PPZK_IC_Query.marshal M).field (fun a => a.m_encoded_IC_query)
      (fun a v => { a with m_encoded_IC_query := v })]

/-- The fields of a key pair in declared order: the proving key, then the
verification key. -/
def PPZK_Keypair.encodings (M : KeyMarshal G1 G2) (a : PPZK_Keypair G1 G2) : List Stream :=
  a.m_pk.encodings M ++ a.m_vk.encodings M

/-- The sub-reads of a key pair in declared order: the `marshal_in` of the
proving key, then that of the verification key. -/
def PPZK_Keypair.fields (M : KeyMarshal G1 G2) : List (SubRead (PPZK_Keypair G1 G2)) :=
  [(PPZK_ProvingKey.marshal M).field (fun a => a.m_pk) (fun a v => { a with m_pk := v }),
    (PPZK_VerificationKey.marshal M).field (fun a => a.m_vk) (fun a v => { a with m_vk := v })]

end Layout


/-- The component encodings of the keys round-trip: each of the five
component types does. -/
structure KeyMarshal.RoundTrips {G1 G2 : Type} [BEq G1] [BEq G2]
    [BEq (SparseVector (Pairing G1 G1))] [BEq (SparseVector (Pairing G2 G1))]
    (M : KeyMarshal G1 G2) : Prop where
  vecG1 : M.vecG1.RoundTrips
  sparseG1G1 : M.sparseG1G1.RoundTrips
  sparseG2G1 : M.sparseG2G1.RoundTrips
  G1 : M.G1.RoundTrips
  G2 : M.G2.RoundTrips


namespace Toy

/-- The decoder of a vector of group elements: two bytes below 7 for each
element, the byte 255 at the end. -/
def decodeVec : Stream → Option (List G1 × Stream)
  | [] => none
  | [x] => if x.val = 255 then some ([], []) else none
  | x :: y :: rest =>
    if x.val = 255 then some ([], y :: rest)
    else if h : x.val < 7 ∧ y.val < 7 then
      (decodeVec rest).map (fun r =>
        (((show ZMod 7 from (⟨x.val, h.1⟩ : Fin 7)), (show ZMod 7 from (⟨y.val, h.2⟩ : Fin 7)))
          :: r.1, r.2))
    else none

/-- The encoding of `std::vector<G1>`: the elements one after the other, then
the byte 255; a failed read leaves the object as it was. -/
def marshalVec : Marshal (List G1) where
  marshal_out := fun l => l.flatMap marshalG.marshal_out ++ [255]
  marshal_in := fun old is =>
    match decodeVec is with
    | some r => (true, r.1, r.2)
    | none => (false, old, is)

/-- The decoder of a sparse vector of pairs, one byte at a time: for each
entry its index in unary (so many bytes 7) and four bytes below 7, the byte
255 at the end; `n` counts the bytes 7 seen since the last entry and `acc`
holds the coordinates of the entry read so far. -/
def decodeSparse :
    Stream → Nat → List (ZMod 7) → Option (List (Nat × Pairing G1 G1) × Stream)
  | [], _, _ => none
  | x :: rest, n, acc =>
    if h : x.val < 7 then
      match acc with
      | [a, b, c] =>
        (decodeSparse rest 0 []).map (fun r =>
          ((n, ⟨(a, b), (c, (show ZMod 7 from (⟨x.val, h⟩ : Fin 7)))⟩) :: r.1, r.2))
      | _ => decodeSparse rest n (acc ++ [(show ZMod 7 from (⟨x.val, h⟩ : Fin 7))])
    else if x.val = 7 then decodeSparse rest (n + 1) acc
    else if x.val = 255 then some ([], rest)
    else none

/-- The encoding of a sparse vector of pairs; a failed read leaves the object
as it was. -/
def marshalSparse : Marshal (SparseVector (Pairing G1 G1)) where
  marshal_out := fun v =>
    v.m_entries.flatMap (fun e => List.replicate e.1 7 ++ marshalGG.marshal_out e.2) ++ [255]
  marshal_in := fun old is =>
    match decodeSparse is 0 [] with
    | some r => (true, ⟨r.1⟩, r.2)
    | none => (false, old, is)

/-- The marshalling methods of the component types of the keys. -/
def keyMarshal : KeyMarshal G1 G2 := ⟨marshalVec, marshalSparse, marshalSparse, marshalG, marshalG⟩

/-- The tests `isZero()` of the two groups. -/
def zeroTests : ZeroTests G1 G2 := ⟨fun g => g == 0, fun g => g == 0⟩

/-- A key pair with two entries in each query. -/
def keypair1 : PPZK_Keypair G1 G2 :=
  { m_pk :=
      { m_A_query := ⟨[(0, ⟨(1, 0), (2, 0)⟩), (3, ⟨(3, 0), (6, 0)⟩)]⟩
        m_B_query := ⟨[(1, ⟨(2, 0), (6, 0)⟩)]⟩
        m_C_query := ⟨[]⟩
        m_H_query := [(1, 0), (3, 0)]
        m_K_query := [(4, 0)] }
    m_vk := vk }

/-- A second key pair, the prior state of an object that is read into. -/
def keypair2 : PPZK_Keypair G1 G2 :=
  { m_pk :=
      { m_A_query := ⟨[(5, ⟨(1, 0), (1, 0)⟩)]⟩
        m_B_query := ⟨[]⟩
        m_C_query := ⟨[(2, ⟨(4, 0), (1, 0)⟩)]⟩
        m_H_query := []
        m_K_query := [(2, 0), (2, 0)] }
    m_vk := { vk with m_alphaB_g1 := (5, 0) } }

end Toy

namespace Toy

/-- The run of the generator on `qap` with the randomness `alphaA = 2`,
`alphaB = 3`, `alphaC = 4`, `rA = 1`, `rB = 2`, `beta = 3`, `gamma = 5`. -/
def keypair3 : Run (PPZK_Keypair G1 G2) := PPZK_Keypair.generate PAIRING qap 2 3 4 1 2 3 5

end Toy

/-! ## Window tables and block partitions

`WindowExp.hpp`, `IndexSpace.hpp` and `BlockVector.hpp` are not among the
sources; the three classes follow the spec (sections 4.2, 6 and 9).  The tests
that exercise them are in `AutoTest_WindowExp.hpp`. -/

/-- Modelled from the spec: the class `IndexSpace<1>`, an index space of
`globalID` indices that is whole (one block) or partitioned into `blockID`
blocks of `chunk` consecutive indices, with one parameter carried along (the
window width for the space of a window table). -/
structure IndexSpace where
  globalID : Nat
  blockID : Nat
  chunk : Nat
  param : Nat
  deriving DecidableEq, Repr

namespace IndexSpace

/-- Modelled from the spec: the whole index space over `n` indices. -/
def ofSize (n : Nat) : IndexSpace := ⟨n, 1, n, 0⟩

/-- Modelled from the spec: the method `blockPartition`, into `numBlocks`
blocks of equal size, the size rounded up. -/
def blockPartition (s : IndexSpace) (numBlocks : Nat) : IndexSpace :=
  { s with blockID := numBlocks, chunk := (s.globalID + numBlocks - 1) / numBlocks }

/-- Modelled from the spec: the first global index of a block,
`blockIdx·chunk`, cut off at the end of the space. -/
def startIndex (s : IndexSpace) (block : Nat) : Nat := min (block * s.chunk) s.globalID

/-- Modelled from the spec: the index after the last one of a block,
`(blockIdx+1)·chunk`, cut off at the end of the space. -/
def stopIndex (s : IndexSpace) (block : Nat) : Nat := min ((block + 1) * s.chunk) s.globalID

/-- Modelled from the spec: the number of indices of a block. -/
def indexSize (s : IndexSpace) (block : Nat) : Nat := s.stopIndex block - s.startIndex block

end IndexSpace

/-- What `WindowExp<G>` takes from the group and its scalar field: the
generator `G::one()`, the bit length of a scalar, the scalar as a number, and
the schedule `windowBits` of window widths. -/
structure WindowOps (Fr G : Type) where
  one : G
  sizeInBits : Nat
  asNat : Fr → Nat
  windowBits : Nat → Nat

/-- Modelled from the spec: the class `WindowExp<G>`: the window width, the
first window of the slice the table covers and, for each window of the slice,
the row of the multiples of the generator for every digit. -/
structure WindowExp (G : Type) where
  m_windowBits : Nat
  m_startWindow : Nat
  m_powers_of_g : List (List G)
  deriving DecidableEq, Repr

section WindowTable

variable {Fr G : Type}

/-- Modelled from the spec: the digit of the scalar `n` in window `i` of
width `w`. -/
def WindowExp.digit (w i n : Nat) : Nat := n / 2 ^ (w * i) % 2 ^ w

/-- Modelled from the spec: the row `T[i]` of the table, the element
`(digit·2^(w·i))·G` for every digit below `2^w`. -/
def WindowExp.row [AddMonoid G] (P : WindowOps Fr G) (w i : Nat) : List G :=
  (List.range (2 ^ w)).map (fun d => (d * 2 ^ (w * i)) • P.one)

/-- Modelled from the spec: the number of groups of `w` bits that cover the
bit length of a scalar. -/
def WindowExp.numWindows (P : WindowOps Fr G) (w : Nat) : Nat := (P.sizeInBits + w - 1) / w

/-- Modelled from the spec: the function `WindowExp<G>::space(exp_count)`, the
whole index space over the windows, with the window width as parameter. -/
def WindowExp.space (P : WindowOps Fr G) (exp_count : Nat) : IndexSpace :=
  { IndexSpace.ofSize (WindowExp.numWindows P (P.windowBits exp_count)) with
    param := P.windowBits exp_count }

/-- Modelled from the spec: the constructor `WindowExp(exp_count)` (`new(n)`),
which builds the full table. -/
def WindowExp.ofCount [AddMonoid G] (P : WindowOps Fr G) (exp_count : Nat) : WindowExp G :=
  { m_windowBits := P.windowBits exp_count
    m_startWindow := 0
    m_powers_of_g :=
      (List.range (WindowExp.numWindows P (P.windowBits exp_count))).map
        (WindowExp.row P (P.windowBits exp_count)) }

/-- Modelled from the spec: the constructor `WindowExp(space, block)`
(`new_partial(space, blockIdx)`), which builds the slice of the table for the
windows of the block. -/
def WindowExp.ofSpace [AddMonoid G] (P : WindowOps Fr G) (space : IndexSpace) (block : Nat) :
    WindowExp G :=
  { m_windowBits := space.param
    m_startWindow := space.startIndex block
    m_powers_of_g :=
      (List.range' (space.startIndex block) (space.indexSize block)).map
        (WindowExp.row P space.param) }

/-- Modelled from the spec: the method `exp(x)`: the scalar is cut into digits
of `w` bits and the table entries of the digits of the windows of the slice
are added up. -/
def WindowExp.exp [AddMonoid G] (P : WindowOps Fr G) (W : WindowExp G) (x : Fr) : G :=
  ((List.range W.m_powers_of_g.length).map (fun j =>
    ((W.m_powers_of_g.getD j []).getD
      (WindowExp.digit W.m_windowBits (W.m_startWindow + j) (P.asNat x)) 0))).sum

/-- Modelled from the spec: the method `batchExp(xs)` of a table on a vector,
`exp` for each element. -/
def WindowExp.batchExpVec [AddMonoid G] (P : WindowOps Fr G) (W : WindowExp G)
    (xs : List Fr) : List G :=
  xs.map (W.exp P)

end WindowTable

/-- Modelled from the spec: the class `BlockVector<T>`, the elements of one
block of a vector over a partitioned index space. -/
structure BlockVector (T : Type) where
  m_space : IndexSpace
  m_block : Nat
  m_vec : List T
  deriving DecidableEq, Repr

section BlockVectors

variable {Fr G T : Type}

/-- Modelled from the spec: the function `BlockVector<T>::space(vec)`, the
whole index space over the elements of the vector. -/
def BlockVector.space (a : List T) : IndexSpace := IndexSpace.ofSize a.length

/-- Modelled from the spec: the constructor `BlockVector(space, block, a)`,
which reads the elements of the block out of the vector `a`. -/
def BlockVector.ofVector (space : IndexSpace) (block : Nat) (a : List T) : BlockVector T :=
  ⟨space, block, (a.drop (space.startIndex block)).take (space.indexSize block)⟩

/-- Modelled from the spec: the method `emplace(a)`, which writes the
elements of the block to their places in the vector `a`. -/
def BlockVector.emplace (v : BlockVector T) (a : List T) : List T :=
  a.take (v.m_space.startIndex v.m_block) ++ v.m_vec ++
    a.drop (v.m_space.startIndex v.m_block + v.m_vec.length)

/-- Modelled from the spec: the method `operator+=`, element by element. -/
def BlockVector.addAssign [Add T] (a b : BlockVector T) : BlockVector T :=
  { a with m_vec := List.zipWith (fun x y => x + y) a.m_vec b.m_vec }

/-- Modelled from the spec: the method `batchExp(partvec)` of a table on a
block of a vector, `exp` for each element of the block. -/
def WindowExp.batchExpBlock [AddMonoid G] (P : WindowOps Fr G) (W : WindowExp G)
    (partvec : BlockVector Fr) : BlockVector G :=
  ⟨partvec.m_space, partvec.m_block, partvec.m_vec.map (W.exp P)⟩

end BlockVectors


/-! ## The tests of the window table -/

section WindowTests

variable {Fr G : Type}

/-- The sum `result_B` of `AutoTest_WindowExp_expMapReduce::runTest`
(AutoTest_WindowExp.hpp 173-185) for one number of blocks: the partial tables
of the blocks are built one after the other and their `exp(value)` added up. -/
def AutoTest_WindowExp_expMapReduce.result_B [AddMonoid G] (P : WindowOps Fr G)
    (exp_count numBlocks : Nat) (value : Fr) : G :=
  let idx := (WindowExp.space P exp_count).blockPartition numBlocks
  (List.range numBlocks).foldl
    (fun result_B block => result_B + (WindowExp.ofSpace P idx block).exp P value) 0

/-- The method `AutoTest_WindowExp_expMapReduce::runTest`
(AutoTest_WindowExp.hpp 164-188): the values passed to `checkPass`, one for
each number of blocks from 1 to the number of windows. -/
def AutoTest_WindowExp_expMapReduce.runTest [AddMonoid G] [DecidableEq G]
    (P : WindowOps Fr G) (exp_count : Nat) (value : Fr) : List Bool :=
  let result_A := (WindowExp.ofCount P exp_count).exp P value
  let space := WindowExp.space P exp_count
  (List.range' 1 space.globalID).map (fun numBlocks =>
    decide (result_A = AutoTest_WindowExp_expMapReduce.result_B P exp_count numBlocks value))

/-- The vector `result_B` of `AutoTest_WindowExp_batchExpMapReduce1::runTest`
(AutoTest_WindowExp.hpp 222-229) for one number of blocks: the full table is
applied to each block of the vector and the block emplaced in the result. -/
def AutoTest_WindowExp_batchExpMapReduce1.result_B [AddMonoid G] (P : WindowOps Fr G)
    (exp_count numBlocks : Nat) (m_vec : List Fr) : List G :=
  let A := WindowExp.ofCount P exp_count
  let idx := (BlockVector.space m_vec).blockPartition numBlocks
  (List.range numBlocks).foldl
    (fun result_B block =>
      (A.batchExpBlock P (BlockVector.ofVector idx block m_vec)).emplace result_B)
    (List.replicate m_vec.length 0)

/-- The method `AutoTest_WindowExp_batchExpMapReduce1::runTest`
(AutoTest_WindowExp.hpp 211-232). -/
def AutoTest_WindowExp_batchExpMapReduce1.runTest [AddMonoid G] [DecidableEq G]
    (P : WindowOps Fr G) (exp_count : Nat) (m_vec : List Fr) : List Bool :=
  let result_A := (WindowExp.ofCount P exp_count).batchExpVec P m_vec
  let space := BlockVector.space m_vec
  (List.range' 1 space.globalID).map (fun numBlocks =>
    decide (result_A
      = AutoTest_WindowExp_batchExpMapReduce1.result_B P exp_count numBlocks m_vec))

/-- The vector `result_B` of `AutoTest_WindowExp_batchExpMapReduce2::runTest`
(AutoTest_WindowExp.hpp 276-298) for one pair of numbers of blocks: the outer
loop builds the partial table of a window block, the inner loop reads a block
of the result, adds the partial `batchExp` of the same block of the vector
and writes the block back. -/
def AutoTest_WindowExp_batchExpMapReduce2.result_B [AddMonoid G] (P : WindowOps Fr G)
    (exp_count numWinBlks numVecBlks : Nat) (m_vec : List Fr) : List G :=
  let winIdx := (WindowExp.space P exp_count).blockPartition numWinBlks
  let vecIdx := (BlockVector.space m_vec).blockPartition numVecBlks
  (List.range numWinBlks).foldl
    (fun result_B winblock =>
      let partwin := WindowExp.ofSpace P winIdx winblock
      (List.range numVecBlks).foldl
        (fun result_B vecblock =>
          let result := BlockVector.ofVector vecIdx vecblock result_B
          let partvec := BlockVector.ofVector vecIdx vecblock m_vec
          let result := result.addAssign (partwin.batchExpBlock P partvec)
          result.emplace result_B)
        result_B)
    (List.replicate m_vec.length 0)

/-- The method `AutoTest_WindowExp_batchExpMapReduce2::runTest`
(AutoTest_WindowExp.hpp 259-303): three partitionings of the window table, and
for each every number of blocks of the vector. -/
def AutoTest_WindowExp_batchExpMapReduce2.runTest [AddMonoid G] [DecidableEq G]
    (P : WindowOps Fr G) (exp_count : Nat) (m_vec : List Fr) : List Bool :=
  let result_A := (WindowExp.ofCount P exp_count).batchExpVec P m_vec
  let winSpace := WindowExp.space P exp_count
  let vecSpace := BlockVector.space m_vec
  [1, 2, winSpace.globalID].flatMap (fun numWinBlks =>
    (List.range' 1 vecSpace.globalID).map (fun numVecBlks =>
      decide (result_A
        = AutoTest_WindowExp_batchExpMapReduce2.result_B P exp_count numWinBlks numVecBlks
            m_vec)))

/-- The method `AutoTest_WindowExp_expPartition::runTest`
(AutoTest_WindowExp.hpp 322-344): the table built on the whole space as
block 0 against the sum over the blocks of the partitioned space, for the
hundred scalars 0, 1, 2 and so on. -/
def AutoTest_WindowExp_expPartition.runTest [AddMonoid G] [DecidableEq G] [Zero Fr] [One Fr]
    [Add Fr] (P : WindowOps Fr G) (exp_count numWindowBlocks : Nat) : List Bool :=
  let space := WindowExp.space P exp_count
  let gTable := WindowExp.ofSpace P space 0
  let spaceBlk := space.blockPartition numWindowBlocks
  (List.iterate (fun x => x + 1) (0 : Fr) 100).map (fun x =>
    let a := gTable.exp P x
    let b := (List.range spaceBlk.blockID).foldl
      (fun b j => b + (WindowExp.ofSpace P spaceBlk j).exp P x) 0
    decide (a = b))

end WindowTests

namespace Toy

/-- The window table parameters of the small group: the generator `(1, 0)`,
scalars of three bits, and a schedule with the widths 1 and 2. -/
def windowOps : WindowOps Fr G1 := ⟨(1, 0), 3, ZMod.val, fun n => if n < 4 then 1 else 2⟩

end Toy

/-! ## The progress observer

Both constructors open with `ProgressCallback_NOP<PAIRING> dummyNOP;
ProgressCallback* dummy = callback ? callback : std::addressof(dummyNOP);`
(PPZK.hpp 405-406, 560-561).  They make their own calls through `dummy` and
hand the pointer `callback` itself to the callees (PPZK.hpp 433-460,
596-665), which live outside `PPZK.hpp`. -/

/-- Modelled from the spec: the class `ProgressCallback` of
`ProgressCallback.hpp`, an observer with the methods `majorSteps(n)` and
`major(...)` and the minor-step tick; the three fields say what a call does to
the state of the observer. -/
structure ProgressCallback (σ : Type) where
  majorSteps : Nat → σ → σ
  major : Option Bool → σ → σ
  minor : σ → σ

/-- Modelled from the spec: the class `ProgressCallback_NOP`, the default
observer, on which every call does nothing. -/
def ProgressCallback_NOP : ProgressCallback Unit := ⟨fun _ s => s, fun _ s => s, fun s => s⟩

/-- One call made on an observer. -/
def ProgressCallback.call {σ : Type} (cb : ProgressCallback σ) (s : σ) : ProgressCall → σ
  | ProgressCall.majorSteps n => cb.majorSteps n s
  | ProgressCall.major arg => cb.major arg s
  | ProgressCall.minor => cb.minor s

/-- The calls of a list made on an observer, in order. -/
def ProgressCallback.notify {σ : Type} (cb : ProgressCallback σ) (calls : List ProgressCall)
    (s : σ) : σ :=
  calls.foldl cb.call s

/-- An observer that writes down every call it receives. -/
def ProgressCallback.recorder : ProgressCallback (List ProgressCall) :=
  ⟨fun n s => s ++ [ProgressCall.majorSteps n], fun arg s => s ++ [ProgressCall.major arg],
    fun s => s ++ [ProgressCall.minor]⟩

/-- What a constructor carries from one statement to the next: the calls it
has made through the pointer `dummy` so far, the state of the caller's
observer and the state of the local `dummyNOP`.  When `callback` is the null
pointer the caller's observer is out of reach: `dummy` points to `dummyNOP`,
and the callees are handed the null pointer. -/
structure Observed (σ : Type) where
  calls : List ProgressCall
  observer : σ
  dummyNOP : Unit

/-- A call of a function outside `PPZK.hpp` that is handed the pointer
`callback`: `onNull` is what it returns when the pointer is null, and
`onObserver cb s` is what it returns, and the state it leaves the observer in,
when the pointer leads to the observer `cb` in the state `s`. -/
structure ObservedCall (σ α : Type) where
  onNull : α
  onObserver : ProgressCallback σ → σ → α × σ

section ProgressObserver

variable {σ α Fr G1 G2 GT G1_precomp G2_precomp : Type}

/-- The statement `dummy->c`: the call reaches the caller's observer when
`callback` is not null and the local `dummyNOP`, which ignores it,
otherwise. -/
def Observed.viaDummy (callback : Option (ProgressCallback σ)) (c : ProgressCall)
    (o : Observed σ) : Observed σ :=
  match callback with
  | some cb => ⟨o.calls ++ [c], cb.call o.observer c, o.dummyNOP⟩
  | none => ⟨o.calls ++ [c], o.observer, ProgressCallback_NOP.call o.dummyNOP c⟩

/-- The call of a callee with the pointer `callback`: the value it returns
and the state afterwards. -/
def ObservedCall.run (f : ObservedCall σ α) (callback : Option (ProgressCallback σ))
    (o : Observed σ) : α × Observed σ :=
  match callback with
  | some cb =>
    ((f.onObserver cb o.observer).1, ⟨o.calls, (f.onObserver cb o.observer).2, o.dummyNOP⟩)
  | none => (f.onNull, o)

/-- The statement `dummy->major(true);` followed by the call of a callee with
`callback`, as in `dummy->major(true); const WindowExp<G1> g1_table(...,
callback);` and in the argument `(dummy->major(true), batchExp(...,
callback))`. -/
def Observed.step (f : ObservedCall σ α) (callback : Option (ProgressCallback σ))
    (o : Observed σ) : α × Observed σ :=
  f.run callback (o.viaDummy callback (ProgressCall.major (some true)))

/-- The state after the arguments of a call have been evaluated one after the
other in the order `order`, which the compiler chooses; `effect i` is what
the evaluation of argument `i` does to the state. -/
def Observed.afterArgs (effect : Fin 4 → Observed σ → Observed σ) (order : List (Fin 4))
    (o : Observed σ) : Observed σ :=
  order.foldl (fun o i => effect i o) o

/-- The state in which argument `i` is evaluated: the one the arguments
before it in `order` have left. -/
def Observed.beforeArg (effect : Fin 4 → Observed σ → Observed σ) (order : List (Fin 4))
    (i : Fin 4) (o : Observed σ) : Observed σ :=
  Observed.afterArgs effect (order.takeWhile (fun j => j != i)) o

/-- What the spec grants about a callee that is handed `callback` ("optional
minor-step ticks inside long loops"): it returns `value` whatever the pointer
and the observer, and on an observer it makes minor-step ticks only. -/
structure ObservedCall.Lawful (f : ObservedCall σ α) (value : α) : Prop where
  onNull_eq : f.onNull = value
  onObserver_fst : ∀ (cb : ProgressCallback σ) (s : σ), (f.onObserver cb s).1 = value
  onObserver_snd : ∀ (cb : ProgressCallback σ) (s : σ),
    ∃ k, (f.onObserver cb s).2 = cb.notify (List.replicate k ProgressCall.minor) s

/-- A callee that returns `value` and makes `ticks` minor-step ticks on the
observer it is handed. -/
def ObservedCall.ticking (value : α) (ticks : Nat) : ObservedCall σ α :=
  ⟨value, fun cb s => (value, cb.notify (List.replicate ticks ProgressCall.minor) s)⟩

/-- The observer has received the calls of a list whose calls other than the
minor-step ticks are those made through `dummy`. -/
def Observed.Tracks (cb : ProgressCallback σ) (s : σ) (o : Observed σ) : Prop :=
  ∃ trace : List ProgressCall, o.observer = cb.notify trace s ∧
    trace.filter (fun c => c != ProgressCall.minor) = o.calls

end ProgressObserver

/-- The callees of the generating constructor that take `callback`: the
constructors of the two window tables (PPZK.hpp 433, 437), the method
`g1_table.batchExp(vec, callback)` (441, 460) and the function
`batchExp(tableA, tableB, random_A, random_B, vec, callback)` on the tables
`(g1_table, g1_table)` (451, 457) and `(g2_table, g1_table)` (454). -/
structure GeneratorCallees (σ Fr G1 G2 : Type) where
  WindowExp_G1 : ObservedCall σ Unit
  WindowExp_G2 : ObservedCall σ Unit
  g1_table_batchExp : List Fr → ObservedCall σ (List G1)
  batchExp_G1G1 : Fr → Fr → List Fr → ObservedCall σ (SparseVector (Pairing G1 G1))
  batchExp_G2G1 : Fr → Fr → List Fr → ObservedCall σ (SparseVector (Pairing G2 G1))

/-- The callees of the proving constructor that take `callback`: `multiExp01`
on a sparse query and an index range, with or without the reserve count
(PPZK.hpp 596-607, 615-626, 634-645), `multiExp` (651) and `multiExp01` on two
vectors (657-665). -/
structure ProverCallees (σ Fr G1 G2 : Type) where
  multiExp01_G1G1 : SparseVector (Pairing G1 G1) → List Fr → Nat → Nat → Option Nat →
    ObservedCall σ (Pairing G1 G1)
  multiExp01_G2G1 : SparseVector (Pairing G2 G1) → List Fr → Nat → Nat → Option Nat →
    ObservedCall σ (Pairing G2 G1)
  multiExp : List G1 → List Fr → ObservedCall σ G1
  multiExp01 : List G1 → List Fr → Option Nat → ObservedCall σ G1

section ObservedConstructors

variable {σ Fr G1 G2 GT G1_precomp G2_precomp : Type}

/-- The callees of the generator return what the spec says of them and use
the observer for minor-step ticks only. -/
structure GeneratorCallees.Laws [Mul Fr] [SMul Fr G1] [SMul Fr G2]
    (PAIRING : PairingOps G1 G2 GT G1_precomp G2_precomp) (C : GeneratorCallees σ Fr G1 G2) :
    Prop where
  WindowExp_G1 : C.WindowExp_G1.Lawful ()
  WindowExp_G2 : C.WindowExp_G2.Lawful ()
  g1_table_batchExp : ∀ vec : List Fr,
    (C.g1_table_batchExp vec).Lawful (WindowExp.batchExp PAIRING.G1_one vec)
  batchExp_G1G1 : ∀ (a b : Fr) (vec : List Fr),
    (C.batchExp_G1G1 a b vec).Lawful (batchExp PAIRING.G1_one PAIRING.G1_one a b vec)
  batchExp_G2G1 : ∀ (a b : Fr) (vec : List Fr),
    (C.batchExp_G2G1 a b vec).Lawful (batchExp PAIRING.G2_one PAIRING.G1_one a b vec)

/-- The callees of the prover return what the spec says of them and use the
observer for minor-step ticks only. -/
structure ProverCallees.Laws [Zero G1] [Add G1] [SMul Fr G1] [Zero G2] [Add G2] [SMul Fr G2]
    (C : ProverCallees σ Fr G1 G2) : Prop where
  multiExp01_G1G1 : ∀ (base : SparseVector (Pairing G1 G1)) (scalar : List Fr)
    (startIdx stopIdx : Nat) (reserve : Option Nat),
    (C.multiExp01_G1G1 base scalar startIdx stopIdx reserve).Lawful
      (multiExp01_range base scalar startIdx stopIdx reserve)
  multiExp01_G2G1 : ∀ (base : SparseVector (Pairing G2 G1)) (scalar : List Fr)
    (startIdx stopIdx : Nat) (reserve : Option Nat),
    (C.multiExp01_G2G1 base scalar startIdx stopIdx reserve).Lawful
      (multiExp01_range base scalar startIdx stopIdx reserve)
  multiExp : ∀ (base : List G1) (scalar : List Fr),
    (C.multiExp base scalar).Lawful (snarklib.multiExp base scalar)
  multiExp01 : ∀ (base : List G1) (scalar : List Fr) (reserve : Option Nat),
    (C.multiExp01 base scalar reserve).Lawful (snarklib.multiExp01 base scalar reserve)

/-- Callees of the generator that make one minor-step tick for every element
of the vector they work on, and one for a window table. -/
def GeneratorCallees.ticking [Mul Fr] [SMul Fr G1] [SMul Fr G2]
    (PAIRING : PairingOps G1 G2 GT G1_precomp G2_precomp) : GeneratorCallees σ Fr G1 G2 :=
  { WindowExp_G1 := ObservedCall.ticking () 1
    WindowExp_G2 := ObservedCall.ticking () 1
    g1_table_batchExp := fun vec =>
      ObservedCall.ticking (WindowExp.batchExp PAIRING.G1_one vec) vec.length
    batchExp_G1G1 := fun a b vec =>
      ObservedCall.ticking (batchExp PAIRING.G1_one PAIRING.G1_one a b vec) vec.length
    batchExp_G2G1 := fun a b vec =>
      ObservedCall.ticking (batchExp PAIRING.G2_one PAIRING.G1_one a b vec) vec.length }

/-- Callees of the prover that make one minor-step tick for every scalar. -/
def ProverCallees.ticking [Zero G1] [Add G1] [SMul Fr G1] [Zero G2] [Add G2] [SMul Fr G2] :
    ProverCallees σ Fr G1 G2 :=
  { multiExp01_G1G1 := fun base scalar startIdx stopIdx reserve =>
      ObservedCall.ticking (multiExp01_range base scalar startIdx stopIdx reserve) scalar.length
    multiExp01_G2G1 := fun base scalar startIdx stopIdx reserve =>
      ObservedCall.ticking (multiExp01_range base scalar startIdx stopIdx reserve) scalar.length
    multiExp := fun base scalar =>
      ObservedCall.ticking (snarklib.multiExp base scalar) scalar.length
    multiExp01 := fun base scalar reserve =>
      ObservedCall.ticking (snarklib.multiExp01 base scalar reserve) scalar.length }

/-- The generating constructor `PPZK_Keypair(constraintSystem,
numCircuitInputs, callback)` (PPZK.hpp 401-473) with its observer: every
`dummy->...` statement and every callee that is handed `callback`, in the
order of the source.  The four arguments `(dummy->major(true), batchExp(...,
callback))` of the constructor of `m_pk` (PPZK.hpp 449-462) are evaluated one
after the other in the order `order`, which C++ leaves to the compiler.  The
result is the run (what is built, the calls made through `dummy`) and the
state of the caller's observer afterwards. -/
def PPZK_Keypair.generateObserved [Zero Fr] [Add Fr] [Mul Fr] [SMul Fr G1] [SMul Fr G2]
    (C : GeneratorCallees σ Fr G1 G2) (order : List (Fin 4))
    (PAIRING : PairingOps G1 G2 GT G1_precomp G2_precomp) (qap : QAP_SystemPoint Fr)
    (alphaA alphaB alphaC rA rB beta gamma : Fr)
    (callback : Option (ProgressCallback σ)) (s : σ) : Run (PPZK_Keypair G1 G2) × σ :=
  let o : Observed σ := ⟨[], s, ()⟩
  let o := o.viaDummy callback (ProgressCall.majorSteps 7)
  let rC := rA * rB
  let At := qap.QueryA
  let Bt := qap.QueryB
  let Ct := qap.QueryC
  let Ht := qap.QueryH
  let g1_table := Observed.step C.WindowExp_G1 callback o
  let g2_table := Observed.step C.WindowExp_G2 callback g1_table.2
  let Kt := Observed.step (C.g1_table_batchExp (QAP_QueryK At Bt Ct rA rB beta)) callback
    g2_table.2
  let IC_coefficients := QAP_IC_coefficients.vec qap.numCircuitInputs At rA
  let At := QAP_IC_coefficients.At qap.numCircuitInputs At
  let argA := Observed.step (C.batchExp_G1G1 rA (rA * alphaA) At) callback
  let argB := Observed.step (C.batchExp_G2G1 rB (rB * alphaB) Bt) callback
  let argC := Observed.step (C.batchExp_G1G1 rC (rC * alphaC) Ct) callback
  let argH := Observed.step (C.g1_table_batchExp Ht) callback
  let effect : Fin 4 → Observed σ → Observed σ := fun i o =>
    if i = 0 then (argA o).2 else if i = 1 then (argB o).2 else if i = 2 then (argC o).2
    else (argH o).2
  let m_pk : PPZK_ProvingKey G1 G2 :=
    { m_A_query := (argA (Observed.beforeArg effect order 0 Kt.2)).1
      m_B_query := (argB (Observed.beforeArg effect order 1 Kt.2)).1
      m_C_query := (argC (Observed.beforeArg effect order 2 Kt.2)).1
      m_H_query := (argH (Observed.beforeArg effect order 3 Kt.2)).1
      m_K_query := Kt.1 }
  let o := Observed.afterArgs effect order Kt.2
  match PPZK_IC_Query.ofCoeffs PAIRING.G1_one IC_coefficients with
  | none => (⟨none, o.calls⟩, o.observer)
  | some ic =>
    let m_vk : PPZK_VerificationKey G1 G2 :=
      { m_alphaA_g2 := alphaA • PAIRING.G2_one
        m_alphaB_g1 := alphaB • PAIRING.G1_one
        m_alphaC_g2 := alphaC • PAIRING.G2_one
        m_gamma_g2 := gamma • PAIRING.G2_one
        m_gamma_beta_g1 := (gamma * beta) • PAIRING.G1_one
        m_gamma_beta_g2 := (gamma * beta) • PAIRING.G2_one
        m_rC_Z_g2 := (rC * qap.compute_Z) • PAIRING.G2_one
        m_encoded_IC_query := ic }
    (⟨some ⟨m_pk, m_vk⟩, o.calls⟩, o.observer)

/-- The proving constructor `PPZK_Proof(constraintSystem, numCircuitInputs,
pk, witness, reserveTune, callback)` (PPZK.hpp 553-667) with its observer:
every `dummy->...` statement and every callee that is handed `callback`, in
the order of the source; `0 == reserveTune` selects the overload without the
reserve count.  The result is the run and the state of the caller's observer
afterwards. -/
def PPZK_Proof.proveObserved [Zero G1] [Add G1] [SMul Fr G1] [Zero G2] [Add G2] [SMul Fr G2]
    (C : ProverCallees σ Fr G1 G2)
    (numVariables : Nat) (pk : PPZK_ProvingKey G1 G2) (witness : R1Witness Fr)
    (aH : List Fr) (d1 d2 d3 : Fr) (reserveTune : Nat)
    (callback : Option (ProgressCallback σ)) (s : σ) : Run (PPZK_Proof G1 G2) × σ :=
  let o : Observed σ := ⟨[], s, ()⟩
  let o := o.viaDummy callback (ProgressCall.majorSteps 5)
  let o := o.viaDummy callback (ProgressCall.major (some true))
  let A_query := pk.m_A_query
  let B_query := pk.m_B_query
  let C_query := pk.m_C_query
  let H_query := pk.m_H_query
  let K_query := pk.m_K_query
  let m_A := (d1 • A_query.getElementForIndex 0) + A_query.getElementForIndex 3
  let sumA :=
    if 0 == reserveTune then
      (C.multiExp01_G1G1 A_query witness 4 (4 + numVariables) none).run callback o
    else
      (C.multiExp01_G1G1 A_query witness 4 (4 + numVariables)
        (some (numVariables / reserveTune))).run callback o
  let m_A := m_A + sumA.1
  let o := sumA.2.viaDummy callback (ProgressCall.major (some true))
  let m_B := (d2 • B_query.getElementForIndex 1) + B_query.getElementForIndex 3
  let sumB :=
    if 0 == reserveTune then
      (C.multiExp01_G2G1 B_query witness 4 (4 + numVariables) none).run callback o
    else
      (C.multiExp01_G2G1 B_query witness 4 (4 + numVariables)
        (some (numVariables / reserveTune))).run callback o
  let m_B := m_B + sumB.1
  let o := sumB.2.viaDummy callback (ProgressCall.major (some true))
  let m_C := (d3 • C_query.getElementForIndex 2) + C_query.getElementForIndex 3
  let sumC :=
    if 0 == reserveTune then
      (C.multiExp01_G1G1 C_query witness 4 (4 + numVariables) none).run callback o
    else
      (C.multiExp01_G1G1 C_query witness 4 (4 + numVariables)
        (some (numVariables / reserveTune))).run callback o
  let m_C := m_C + sumC.1
  let o := sumC.2.viaDummy callback (ProgressCall.major (some true))
  let sumH := (C.multiExp H_query aH).run callback o
  let m_H := sumH.1
  let o := sumH.2.viaDummy callback (ProgressCall.major (some true))
  match K_query with
  | k0 :: k1 :: k2 :: k3 :: rest =>
    let m_K := (d1 • k0) + (d2 • k1) + (d3 • k2) + k3
    let sumK :=
      if 0 == reserveTune then (C.multiExp01 rest witness none).run callback o
      else (C.multiExp01 rest witness (some ((K_query.length - 4) / reserveTune))).run callback o
    let m_K := m_K + sumK.1
    (⟨some ⟨m_A, m_B, m_C, m_H, m_K⟩, sumK.2.calls⟩, sumK.2.observer)
  | _ => (⟨none, o.calls⟩, o.observer)

end ObservedConstructors

/-! ## The component K as the spec writes it -/

/-- The component `K` of a proof with the indices as section 4.4 of the spec
writes them: `d1·K_query[0] + d2·K_query[1] + d3·K_query[2] + K_query[3]` plus
the sum over `i ≥ 4` of `z[i-4]·K_query[i+4]`, for as long as the witness has
an element `z[i-4]`; an index outside `K_query` contributes the neutral
element. -/
def PPZK_Proof.K_as_spec {Fr G1 : Type} [Zero Fr] [Zero G1] [Add G1] [SMul Fr G1]
    (K_query : List G1) (z : R1Witness Fr) (d1 d2 d3 : Fr) : G1 :=
  (d1 • K_query.getD 0 0) + (d2 • K_query.getD 1 0) + (d3 • K_query.getD 2 0) + K_query.getD 3 0
    + ((List.range' 4 z.length).map (fun i => z.getD (i - 4) 0 • K_query.getD (i + 4) 0)).sum

namespace Toy

/-- A proving key for two variables: sparse queries with entries at the
indices the prover reads, and a `K_query` of `2 + 4` elements. -/
def provingKey : PPZK_ProvingKey G1 G2 :=
  { m_A_query := ⟨[(0, ⟨(1, 0), (2, 0)⟩), (3, ⟨(3, 0), (6, 0)⟩), (4, ⟨(2, 0), (4, 0)⟩),
      (5, ⟨(5, 0), (3, 0)⟩)]⟩
    m_B_query := ⟨[(1, ⟨(2, 0), (6, 0)⟩), (3, ⟨(1, 0), (3, 0)⟩), (5, ⟨(4, 0), (5, 0)⟩)]⟩
    m_C_query := ⟨[(2, ⟨(6, 0), (3, 0)⟩), (4, ⟨(1, 0), (4, 0)⟩)]⟩
    m_H_query := [(1, 0), (3, 0)]
    m_K_query := [(1, 0), (2, 0), (3, 0), (4, 0), (5, 0), (6, 0)] }

/-- The proving key `provingKey` with a `K_query` of ten elements. -/
def provingKeyLong : PPZK_ProvingKey G1 G2 :=
  { provingKey with
    m_K_query := [(1, 0), (2, 0), (3, 0), (4, 0), (5, 0), (6, 0), (1, 0), (2, 0), (3, 0),
      (4, 0)] }

end Toy

/-! ## The Soundness fixture of `AutoTest_R1CS.hpp` -/

/-- The product of two values of type `unsigned long` (64 bits), which wraps
around modulo `2^64`. -/
def ulongMul (a b : Nat) : Nat := (a * b) % 2 ^ 64

/-- The class `AutoTestR1CS_Soundness` (AutoTest_R1CS.hpp 290-352): its six
data members of type `unsigned long`. -/
structure AutoTestR1CS_Soundness where
  m_d1 : Nat
  m_d2 : Nat
  m_d3 : Nat
  m_d4 : Nat
  m_d5 : Nat
  m_d6 : Nat
  deriving DecidableEq, Repr

namespace AutoTestR1CS_Soundness

/-- The constructor with six arguments (AutoTest_R1CS.hpp 295-312): `d4` is
`c6`, `d5` is `c4` and `d6` is `c5`. -/
def ofWires (c1 c2 c3 c4 c5 c6 : Nat) : AutoTestR1CS_Soundness :=
  { m_d1 := c1, m_d2 := c2, m_d3 := c3, m_d4 := c6, m_d5 := c4, m_d6 := c5 }

/-- The constructor with three arguments (AutoTest_R1CS.hpp 315-320), which
delegates with `c1*c2`, `c1*c3` and `c1*c1*c2*c3`, computed in `unsigned
long`. -/
def ofFree (c1 c2 c3 : Nat) : AutoTestR1CS_Soundness :=
  ofWires c1 c2 c3 (ulongMul c1 c2) (ulongMul c1 c3)
    (ulongMul (ulongMul (ulongMul c1 c1) c2) c3)

/-- The witness `m_witnessB` that `initB` assigns (AutoTest_R1CS.hpp
335-340), the variables `d1` to `d6` in order; `T(n)` is the field element of
the number `n`. -/
def witnessB (T : Type) [NatCast T] (a : AutoTestR1CS_Soundness) : R1Witness T :=
  [(a.m_d1 : T), (a.m_d2 : T), (a.m_d3 : T),
    ((ulongMul (ulongMul (ulongMul a.m_d1 a.m_d1) a.m_d2) a.m_d3 : Nat) : T),
    ((ulongMul a.m_d1 a.m_d2 : Nat) : T),
    ((ulongMul a.m_d1 a.m_d3 : Nat) : T)]

/-- The public input `m_inputB` that `initB` assigns (AutoTest_R1CS.hpp
343-346), the variables `d1` to `d4`. -/
def inputB (T : Type) [NatCast T] (a : AutoTestR1CS_Soundness) : R1Witness T :=
  [(a.m_d1 : T), (a.m_d2 : T), (a.m_d3 : T), (a.m_d4 : T)]

/-- The three constraints `initB` adds to `m_csB` (AutoTest_R1CS.hpp
328-330), `d1 * d2 == d5`, `d1 * d3 == d6` and `d5 * d6 == d4`, evaluated on
an assignment of the six variables. -/
def isSatisfied {T : Type} [Mul T] [DecidableEq T] (w : R1Witness T) : Bool :=
  match w with
  | [d1, d2, d3, d4, d5, d6] =>
    decide (d1 * d2 = d5) && decide (d1 * d3 = d6) && decide (d5 * d6 = d4)
  | _ => false

end AutoTestR1CS_Soundness

/-! ## The proving constructor with its arithmetic and indexing checked -/

/-- What leaves the defined behaviour in the arithmetic and the indexing of
the proving constructor: a division by zero, a read of a vector outside its
elements, a subtraction of `std::size_t` values below zero. -/
inductive Fault where
  | divisionByZero
  | indexOutOfRange
  | subtractionWraps
  deriving DecidableEq, Repr

/-- The quotient of two values of type `std::size_t`, which is undefined for
the divisor zero. -/
def sizeDiv (a b : Nat) : Except Fault Nat :=
  if b = 0 then Except.error Fault.divisionByZero else Except.ok (a / b)

/-- The difference of two values of type `std::size_t` that stays in range;
below zero it would wrap around. -/
def sizeSub (a b : Nat) : Except Fault Nat :=
  if b ≤ a then Except.ok (a - b) else Except.error Fault.subtractionWraps

/-- The read `v[i]` of a `std::vector`, defined for the indices below
`v.size()`. -/
def vectorAt {T : Type} (v : List T) (i : Nat) : Except Fault T :=
  match v[i]? with
  | some x => Except.ok x
  | none => Except.error Fault.indexOutOfRange

/-- The vector `std::vector<T>(v.begin() + n, v.end())`, defined when
`v.begin() + n` does not pass `v.end()`. -/
def vectorFrom {T : Type} (v : List T) (n : Nat) : Except Fault (List T) :=
  if n ≤ v.length then Except.ok (v.drop n) else Except.error Fault.indexOutOfRange

section ProveChecked

variable {Fr G1 G2 : Type}

/-- The proving constructor (PPZK.hpp 553-667) from `step 5` on, statement by
statement as `PPZK_Proof.prove`, with every division, every read of
`K_query` and the subtraction `K_query.size() - 4` checked: the proof, or the
first fault. -/
def PPZK_Proof.proveChecked [Zero G1] [Add G1] [SMul Fr G1] [Zero G2] [Add G2] [SMul Fr G2]
    (numVariables : Nat) (pk : PPZK_ProvingKey G1 G2) (witness : R1Witness Fr)
    (aH : List Fr) (d1 d2 d3 : Fr) (reserveTune : Nat) : Except Fault (PPZK_Proof G1 G2) := do
  let A_query := pk.m_A_query
  let B_query := pk.m_B_query
  let C_query := pk.m_C_query
  let H_query := pk.m_H_query
  let K_query := pk.m_K_query
  let m_A := (d1 • A_query.getElementForIndex 0) + A_query.getElementForIndex 3
  let m_A ←
    if 0 == reserveTune then
      pure (m_A + multiExp01_range A_query witness 4 (4 + numVariables) none)
    else do
      let reserve ← sizeDiv numVariables reserveTune
      pure (m_A + multiExp01_range A_query witness 4 (4 + numVariables) (some reserve))
  let m_B := (d2 • B_query.getElementForIndex 1) + B_query.getElementForIndex 3
  let m_B ←
    if 0 == reserveTune then
      pure (m_B + multiExp01_range B_query witness 4 (4 + numVariables) none)
    else do
      let reserve ← sizeDiv numVariables reserveTune
      pure (m_B + multiExp01_range B_query witness 4 (4 + numVariables) (some reserve))
  let m_C := (d3 • C_query.getElementForIndex 2) + C_query.getElementForIndex 3
  let m_C ←
    if 0 == reserveTune then
      pure (m_C + multiExp01_range C_query witness 4 (4 + numVariables) none)
    else do
      let reserve ← sizeDiv numVariables reserveTune
      pure (m_C + multiExp01_range C_query witness 4 (4 + numVariables) (some reserve))
  let m_H := multiExp H_query aH
  let k0 ← vectorAt K_query 0
  let k1 ← vectorAt K_query 1
  let k2 ← vectorAt K_query 2
  let k3 ← vectorAt K_query 3
  let m_K := (d1 • k0) + (d2 • k1) + (d3 • k2) + k3
  let m_K ←
    if 0 == reserveTune then do
      let rest ← vectorFrom K_query 4
      pure (m_K + multiExp01 rest witness none)
    else do
      let rest ← vectorFrom K_query 4
      let size ← sizeSub K_query.length 4
      let reserve ← sizeDiv size reserveTune
      pure (m_K + multiExp01 rest witness (some reserve))
  pure ⟨m_A, m_B, m_C, m_H, m_K⟩

/-- The proving constructor without `reserveTune` (PPZK.hpp 669-675), which
delegates with `reserveTune = 0`. -/
def PPZK_Proof.proveAuto [Zero G1] [Add G1] [SMul Fr G1] [Zero G2] [Add G2] [SMul Fr G2]
    (numVariables : Nat) (pk : PPZK_ProvingKey G1 G2) (witness : R1Witness Fr)
    (aH : List Fr) (d1 d2 d3 : Fr) : Except Fault (PPZK_Proof G1 G2) :=
  PPZK_Proof.proveChecked numVariables pk witness aH d1 d2 d3 0

end ProveChecked


/-! ## Default-constructed keys and proofs -/

section DefaultConstructed

variable {G1 G2 : Type}

/-- The constructor `PPZK_ProvingKey() = default` (PPZK.hpp 33): every query
vector is empty. -/
def PPZK_ProvingKey.defaultConstructed : PPZK_ProvingKey G1 G2 :=
  { m_A_query := ⟨[]⟩, m_B_query := ⟨[]⟩, m_C_query := ⟨[]⟩, m_H_query := [], m_K_query := [] }

/-- The constructor `PPZK_IC_Query() = default` (PPZK.hpp 119): the base is
what the default constructor of `G1` leaves, here `g1`, and there is no
encoded term. -/
def PPZK_IC_Query.defaultConstructed (g1 : G1) : PPZK_IC_Query G1 :=
  { m_base := g1, m_encoded_terms := [] }

/-- The constructor `PPZK_VerificationKey() = default` (PPZK.hpp 227); `g1`
and `g2` are what the default constructors of `G1` and `G2` leave. -/
def PPZK_VerificationKey.defaultConstructed (g1 : G1) (g2 : G2) : PPZK_VerificationKey G1 G2 :=
  { m_alphaA_g2 := g2, m_alphaB_g1 := g1, m_alphaC_g2 := g2, m_gamma_g2 := g2
    m_gamma_beta_g1 := g1, m_gamma_beta_g2 := g2, m_rC_Z_g2 := g2
    m_encoded_IC_query := PPZK_IC_Query.defaultConstructed g1 }

/-- The constructor `PPZK_Keypair() = default` (PPZK.hpp 393). -/
def PPZK_Keypair.defaultConstructed (g1 : G1) (g2 : G2) : PPZK_Keypair G1 G2 :=
  { m_pk := PPZK_ProvingKey.defaultConstructed
    m_vk := PPZK_VerificationKey.defaultConstructed g1 g2 }

/-- The constructor `PPZK_Proof() = default` (PPZK.hpp 539); a
default-constructed `Pairing<GA, GB>` is the pair of the default-constructed
elements. -/
def PPZK_Proof.defaultConstructed (g1 : G1) (g2 : G2) : PPZK_Proof G1 G2 :=
  { m_A := ⟨g1, g1⟩, m_B := ⟨g2, g1⟩, m_C := ⟨g1, g1⟩, m_H := g1, m_K := g1 }

end DefaultConstructed

namespace Toy

/-- The verification key `vk` for a circuit without public inputs: every
group element is non-zero and the IC query has no encoded term. -/
def vkNoInputs : PPZK_VerificationKey G1 G2 :=
  { vk with m_encoded_IC_query := ⟨(1, 0), []⟩ }

end Toy

/-! ## Non-degeneracy of the pairing -/

namespace Toy

end Toy

/-! ## Lemmas on the input consistency query -/

section AccumulateLemmas

variable {Fr G1 : Type}

theorem sum_zipWith_eq_sum_fin {α β M : Type} [AddCommMonoid M] (f : α → β → M) :
    ∀ (l1 : List α) (l2 : List β) (h : l2.length ≤ l1.length),
      (List.zipWith f l1 l2).sum =
        ∑ i : Fin l2.length, f (l1.get (Fin.castLE h i)) (l2.get i)
  | [], [], _ => by simp
  | _ :: _, [], _ => by simp
  | [], _ :: _, h => by simp at h
  | a :: t, b :: u, h => by
    have ht : u.length ≤ t.length := by simpa using h
    have ih := sum_zipWith_eq_sum_fin f t u ht
    simp only [List.zipWith_cons_cons, List.sum_cons, List.length_cons, ih]
    rw [Fin.sum_univ_succ]
    rfl

theorem zipWith_take_left {α β γ : Type} (f : α → β → γ) :
    ∀ (l1 : List α) (l2 : List β),
      List.zipWith f (l1.take l2.length) l2 = List.zipWith f l1 l2
  | [], _ => by simp
  | _ :: _, [] => by simp
  | a :: t, b :: u => by simp [zipWith_take_left f t u]

theorem multiExp_eq_sum_fin {Fr G : Type} [AddCommMonoid G] [SMul Fr G]
    (base : List G) (scalar : List Fr) (h : scalar.length ≤ base.length) :
    multiExp base scalar = ∑ i : Fin scalar.length, scalar.get i • base.get (Fin.castLE h i) :=
  sum_zipWith_eq_sum_fin (fun b s => s • b) base scalar h

theorem multiExp_take_left {Fr G : Type} [Zero G] [Add G] [SMul Fr G]
    (base : List G) (scalar : List Fr) :
    multiExp (base.take scalar.length) scalar = multiExp base scalar := by
  unfold multiExp
  rw [zipWith_take_left]

theorem PPZK_IC_Query.accumulate_of_length_eq [Zero G1] [Add G1] [SMul Fr G1]
    (q : PPZK_IC_Query G1) (witness : R1Witness Fr)
    (h : witness.length = q.m_encoded_terms.length) :
    q.accumulate witness =
      { m_base := q.m_base + multiExp q.m_encoded_terms witness, m_encoded_terms := [] } := by
  simp [PPZK_IC_Query.accumulate, h]

theorem PPZK_IC_Query.accumulate_of_length_lt [Zero G1] [Add G1] [SMul Fr G1]
    (q : PPZK_IC_Query G1) (witness : R1Witness Fr)
    (h : witness.length < q.m_encoded_terms.length) :
    q.accumulate witness =
      { m_base := q.m_base + multiExp (q.m_encoded_terms.take witness.length) witness
        m_encoded_terms := q.m_encoded_terms.drop witness.length } := by
  simp [PPZK_IC_Query.accumulate, h]

theorem PPZK_IC_Query.accumulate_input_size [Zero G1] [Add G1] [SMul Fr G1]
    (q : PPZK_IC_Query G1) (witness : R1Witness Fr) :
    (q.accumulate witness).input_size = q.input_size - witness.length := by
  unfold PPZK_IC_Query.accumulate PPZK_IC_Query.input_size
  by_cases h1 : witness.length < q.m_encoded_terms.length
  · simp [h1]
  · by_cases h2 : witness.length > q.m_encoded_terms.length
    · simp [h1, h2]; omega
    · simp [h1, h2]; omega

end AccumulateLemmas

/-! ## Lemmas on the verifier -/

section VerifierLemmas

variable {Fr G1 G2 GT G1_precomp G2_precomp : Type}

theorem mul_eq_one_iff_of_inverse {M : Type} [CommMonoid M] {u v : M} (huv : u * v = 1) (a : M) :
    a * u = 1 ↔ a = v := by
  constructor
  · intro h
    calc a = a * (u * v) := by rw [huv, mul_one]
      _ = (a * u) * v := by rw [mul_assoc]
      _ = v := by rw [h, one_mul]
  · rintro rfl
    rw [mul_comm]; exact huv

theorem one_eq_final_exponentiation_miller [CommMonoid GT]
    {PAIRING : PairingOps G1 G2 GT G1_precomp G2_precomp} (laws : PairingLaws PAIRING)
    (x : GT) (P : G1_precomp) (Q : G2_precomp) :
    (1 : GT) = PAIRING.final_exponentiation
        (x * PAIRING.unitary_inverse (PAIRING.ate_miller_loop P Q)) ↔
      PAIRING.final_exponentiation x =
        PAIRING.final_exponentiation (PAIRING.ate_miller_loop P Q) := by
  rw [laws.final_exponentiation_mul, eq_comm]
  exact mul_eq_one_iff_of_inverse (laws.unitary_inverse_miller P Q) _

theorem one_eq_final_exponentiation_double [CommMonoid GT]
    {PAIRING : PairingOps G1 G2 GT G1_precomp G2_precomp} (laws : PairingLaws PAIRING)
    (x : GT) (P : G1_precomp) (Q : G2_precomp) (R : G1_precomp) (S : G2_precomp) :
    (1 : GT) = PAIRING.final_exponentiation
        (x * PAIRING.unitary_inverse (PAIRING.ate_double_miller_loop P Q R S)) ↔
      PAIRING.final_exponentiation x =
        PAIRING.final_exponentiation (PAIRING.ate_miller_loop P Q) *
          PAIRING.final_exponentiation (PAIRING.ate_miller_loop R S) := by
  rw [laws.final_exponentiation_mul, eq_comm, ← laws.final_exponentiation_double]
  exact mul_eq_one_iff_of_inverse (laws.unitary_inverse_double P Q R S) _

/-- Past the assertion, `weakVerify` returns the conjunction of its six tests
and has made as many `major()` calls as the stage it stopped at. -/
theorem weakVerify_of_assert [Zero G1] [Add G1] [SMul Fr G1] [Mul GT] [One GT] [DecidableEq GT]
    (PAIRING : PairingOps G1 G2 GT G1_precomp G2_precomp) (NDEBUG : Bool)
    (pvk : PPZK_PrecompVerificationKey G1 G1_precomp G2_precomp)
    (input : R1Witness Fr) (proof : PPZK_Proof G1 G2)
    (h : NDEBUG = true ∨ (pvk.m_encoded_IC_query.accumulate input).input_size = 0) :
    weakVerify PAIRING NDEBUG pvk input proof =
      ⟨some (weakVerify.verdict PAIRING pvk (pvk.m_encoded_IC_query.accumulate input).base proof),
        ProgressCall.majorSteps 5 :: List.replicate
          (weakVerify.stage PAIRING pvk (pvk.m_encoded_IC_query.accumulate input).base proof)
          (ProgressCall.major none)⟩ := by
  have hassert : (!NDEBUG && !(0 == (pvk.m_encoded_IC_query.accumulate input).input_size))
      = false := by
    rcases h with h | h
    · simp [h]
    · simp [h]
  unfold weakVerify
  simp only [hassert]
  unfold weakVerify.verdict weakVerify.stage
  by_cases hwf : proof.wellFormed PAIRING = true
  · by_cases hA : (1 : GT) = weakVerify.kc_A PAIRING pvk proof
    · by_cases hB : (1 : GT) = weakVerify.kc_B PAIRING pvk proof
      · by_cases hC : (1 : GT) = weakVerify.kc_C PAIRING pvk proof
        · by_cases hQ : (1 : GT) = weakVerify.QAP PAIRING pvk
              (pvk.m_encoded_IC_query.accumulate input).base proof
          · by_cases hK : (1 : GT) = weakVerify.K PAIRING pvk
                (pvk.m_encoded_IC_query.accumulate input).base proof
            · simp [hwf, ← hA, ← hB, ← hC, ← hQ, ← hK, List.replicate]
            · simp [hwf, ← hA, ← hB, ← hC, ← hQ, hK, List.replicate]
          · simp [hwf, ← hA, ← hB, ← hC, hQ, List.replicate]
        · simp [hwf, ← hA, ← hB, hC, List.replicate]
      · simp [hwf, ← hA, hB, List.replicate]
    · simp [hwf, hA, List.replicate]
  · simp [hwf, List.replicate]

/-- With assertions enabled, a query that is not fully accumulated aborts
`weakVerify` right after the first `major()` call. -/
theorem weakVerify_of_assert_fails [Zero G1] [Add G1] [SMul Fr G1] [Mul GT] [One GT]
    [DecidableEq GT]
    (PAIRING : PairingOps G1 G2 GT G1_precomp G2_precomp)
    (pvk : PPZK_PrecompVerificationKey G1 G1_precomp G2_precomp)
    (input : R1Witness Fr) (proof : PPZK_Proof G1 G2)
    (h : (pvk.m_encoded_IC_query.accumulate input).input_size ≠ 0) :
    weakVerify PAIRING false pvk input proof =
      ⟨none, [ProgressCall.majorSteps 5, ProgressCall.major none]⟩ := by
  unfold weakVerify
  have h0 : (0 == (pvk.m_encoded_IC_query.accumulate input).input_size) = false := by
    rw [beq_eq_false_iff_ne]
    exact fun e => h e.symm
  simp only [h0]
  rfl

/-- When the sizes differ `strongVerify` returns false at once. -/
theorem strongVerify_of_size_ne [Zero G1] [Add G1] [SMul Fr G1] [Mul GT] [One GT]
    [DecidableEq GT]
    (PAIRING : PairingOps G1 G2 GT G1_precomp G2_precomp) (NDEBUG : Bool)
    (pvk : PPZK_PrecompVerificationKey G1 G1_precomp G2_precomp)
    (input : R1Witness Fr) (proof : PPZK_Proof G1 G2)
    (h : pvk.m_encoded_IC_query.input_size ≠ input.length) :
    strongVerify PAIRING NDEBUG pvk input proof = ⟨some false, []⟩ := by
  unfold strongVerify
  rw [if_neg]
  simpa using h

/-- When the sizes are equal `strongVerify` is `weakVerify`. -/
theorem strongVerify_of_size_eq [Zero G1] [Add G1] [SMul Fr G1] [Mul GT] [One GT]
    [DecidableEq GT]
    (PAIRING : PairingOps G1 G2 GT G1_precomp G2_precomp) (NDEBUG : Bool)
    (pvk : PPZK_PrecompVerificationKey G1 G1_precomp G2_precomp)
    (input : R1Witness Fr) (proof : PPZK_Proof G1 G2)
    (h : pvk.m_encoded_IC_query.input_size = input.length) :
    strongVerify PAIRING NDEBUG pvk input proof = weakVerify PAIRING NDEBUG pvk input proof := by
  unfold strongVerify
  rw [if_pos]
  simpa using h

/-- With equal sizes the asserted equation of `weakVerify` holds. -/
theorem accumulate_input_size_of_size_eq [Zero G1] [Add G1] [SMul Fr G1]
    (q : PPZK_IC_Query G1) (input : R1Witness Fr) (h : q.input_size = input.length) :
    (q.accumulate input).input_size = 0 := by
  rw [PPZK_IC_Query.accumulate_input_size]
  omega

/-- A run of `strongVerify` returns a boolean. -/
theorem strongVerify_returns [Zero G1] [Add G1] [SMul Fr G1] [Mul GT] [One GT]
    [DecidableEq GT]
    (PAIRING : PairingOps G1 G2 GT G1_precomp G2_precomp) (NDEBUG : Bool)
    (pvk : PPZK_PrecompVerificationKey G1 G1_precomp G2_precomp)
    (input : R1Witness Fr) (proof : PPZK_Proof G1 G2) :
    ∃ b : Bool, (strongVerify PAIRING NDEBUG pvk input proof).result = some b := by
  by_cases h : pvk.m_encoded_IC_query.input_size = input.length
  · rw [strongVerify_of_size_eq PAIRING NDEBUG pvk input proof h,
      weakVerify_of_assert PAIRING NDEBUG pvk input proof
        (Or.inr (accumulate_input_size_of_size_eq _ input h))]
    exact ⟨_, rfl⟩
  · rw [strongVerify_of_size_ne PAIRING NDEBUG pvk input proof h]
    exact ⟨false, rfl⟩

/-- The method `wellFormed` is the conjunction of the eight tests. -/
theorem wellFormed_iff (PAIRING : PairingOps G1 G2 GT G1_precomp G2_precomp)
    (proof : PPZK_Proof G1 G2) :
    proof.wellFormed PAIRING = true ↔
      PAIRING.G1_wellFormed proof.m_A.G = true ∧ PAIRING.G1_wellFormed proof.m_A.H = true ∧
      PAIRING.G2_wellFormed proof.m_B.G = true ∧ PAIRING.G1_wellFormed proof.m_B.H = true ∧
      PAIRING.G1_wellFormed proof.m_C.G = true ∧ PAIRING.G1_wellFormed proof.m_C.H = true ∧
      PAIRING.G1_wellFormed proof.m_H = true ∧ PAIRING.G1_wellFormed proof.m_K = true := by
  unfold PPZK_Proof.wellFormed
  simp only [Bool.and_eq_true, and_assoc]

/-- Under the laws of the pairing, the conjunction `weakVerify` computes on a
key precomputed from `vk` is the well-formedness of the proof together with
the five pairing equations of the spec. -/
theorem verdict_eq_true_iff [Add G1] [CommMonoid GT] [DecidableEq GT]
    {PAIRING : PairingOps G1 G2 GT G1_precomp G2_precomp} (laws : PairingLaws PAIRING)
    (vk : PPZK_VerificationKey G1 G2) (acc : G1) (proof : PPZK_Proof G1 G2) :
    weakVerify.verdict PAIRING (PPZK_PrecompVerificationKey.ofVK PAIRING vk) acc proof = true ↔
      proof.wellFormed PAIRING = true ∧ PairingChecks PAIRING vk acc proof := by
  unfold weakVerify.verdict PairingChecks weakVerify.kc_A weakVerify.kc_B weakVerify.kc_C
    weakVerify.QAP weakVerify.K PPZK_PrecompVerificationKey.ofVK PairingOps.e
  simp only [Bool.and_eq_true, decide_eq_true_eq, one_eq_final_exponentiation_miller laws,
    one_eq_final_exponentiation_double laws, and_assoc]

/-- On an input of the right length, `strongVerify` on a verification key
returns the conjunction `weakVerify` computes. -/
theorem strongVerify_vk_result [Zero G1] [Add G1] [SMul Fr G1] [Mul GT] [One GT]
    [DecidableEq GT]
    (PAIRING : PairingOps G1 G2 GT G1_precomp G2_precomp) (NDEBUG : Bool)
    (vk : PPZK_VerificationKey G1 G2) (input : R1Witness Fr) (proof : PPZK_Proof G1 G2)
    (hlen : input.length = vk.m_encoded_IC_query.input_size) :
    (strongVerify_vk PAIRING NDEBUG vk input proof).result =
      some (weakVerify.verdict PAIRING (PPZK_PrecompVerificationKey.ofVK PAIRING vk)
        (vk.m_encoded_IC_query.accumulate input).base proof) := by
  have hsz : (PPZK_PrecompVerificationKey.ofVK PAIRING vk).m_encoded_IC_query.input_size =
      input.length := hlen.symm
  unfold strongVerify_vk
  rw [strongVerify_of_size_eq PAIRING NDEBUG _ input proof hsz,
    weakVerify_of_assert PAIRING NDEBUG _ input proof
      (Or.inr (accumulate_input_size_of_size_eq _ input hsz))]
  rfl

/-- Under the laws of the pairing, `strongVerify` accepts on an input of the
right length exactly when the proof is well-formed and the five pairing
equations hold. -/
theorem strongVerify_vk_accepts_iff [Zero G1] [Add G1] [SMul Fr G1] [CommMonoid GT]
    [DecidableEq GT]
    (PAIRING : PairingOps G1 G2 GT G1_precomp G2_precomp) (laws : PairingLaws PAIRING)
    (NDEBUG : Bool) (vk : PPZK_VerificationKey G1 G2) (input : R1Witness Fr)
    (proof : PPZK_Proof G1 G2) (hlen : input.length = vk.m_encoded_IC_query.input_size) :
    (strongVerify_vk PAIRING NDEBUG vk input proof).result = some true ↔
      proof.wellFormed PAIRING = true ∧
        PairingChecks PAIRING vk (vk.m_encoded_IC_query.accumulate input).base proof := by
  rw [strongVerify_vk_result PAIRING NDEBUG vk input proof hlen,
    ← verdict_eq_true_iff laws vk (vk.m_encoded_IC_query.accumulate input).base proof]
  simp

end VerifierLemmas

/-! ## The verifier: acceptance, the size gate, totality -/

section VerifierTheorems

variable {Fr G1 G2 GT G1_precomp G2_precomp : Type}

/-- C3: for every verification key, every input whose length is the number of
encoded IC terms and every proof, `strongVerify` returns true exactly when the
proof is well-formed and the five pairing equations hold with `acc` the base
of the IC query accumulated with the input, and returns false in every other
case. -/
theorem strongVerify_true_iff [Zero G1] [Add G1] [SMul Fr G1] [CommMonoid GT] [DecidableEq GT]
    (PAIRING : PairingOps G1 G2 GT G1_precomp G2_precomp) (laws : PairingLaws PAIRING)
    (NDEBUG : Bool) (vk : PPZK_VerificationKey G1 G2) (input : R1Witness Fr)
    (proof : PPZK_Proof G1 G2) (hlen : input.length = vk.m_encoded_IC_query.input_size) :
    ((strongVerify_vk PAIRING NDEBUG vk input proof).result = some true ↔
      proof.wellFormed PAIRING = true ∧
        PairingChecks PAIRING vk (vk.m_encoded_IC_query.accumulate input).base proof) ∧
    ((strongVerify_vk PAIRING NDEBUG vk input proof).result ≠ some true →
      (strongVerify_vk PAIRING NDEBUG vk input proof).result = some false) := by
  refine ⟨strongVerify_vk_accepts_iff PAIRING laws NDEBUG vk input proof hlen, ?_⟩
  rw [strongVerify_vk_result PAIRING NDEBUG vk input proof hlen]
  intro h
  cases hb : weakVerify.verdict PAIRING (PPZK_PrecompVerificationKey.ofVK PAIRING vk)
      (vk.m_encoded_IC_query.accumulate input).base proof
  · rfl
  · exact absurd (by rw [hb]) h

/-- C4: when `input.size()` differs from the `input_size()` of the IC query,
`strongVerify` returns false having made no call on the progress observer,
whatever the input and the proof hold; when the sizes are equal it is the run
of `weakVerify` on the same arguments. -/
theorem strongVerify_size_gate [Zero G1] [Add G1] [SMul Fr G1] [Mul GT] [One GT]
    [DecidableEq GT]
    (PAIRING : PairingOps G1 G2 GT G1_precomp G2_precomp) (NDEBUG : Bool)
    (pvk : PPZK_PrecompVerificationKey G1 G1_precomp G2_precomp)
    (input : R1Witness Fr) (proof : PPZK_Proof G1 G2) :
    (pvk.m_encoded_IC_query.input_size ≠ input.length →
      strongVerify PAIRING NDEBUG pvk input proof = ⟨some false, []⟩) ∧
    (pvk.m_encoded_IC_query.input_size = input.length →
      strongVerify PAIRING NDEBUG pvk input proof =
        weakVerify PAIRING NDEBUG pvk input proof) :=
  ⟨strongVerify_of_size_ne PAIRING NDEBUG pvk input proof,
    strongVerify_of_size_eq PAIRING NDEBUG pvk input proof⟩

/-- C7: `strongVerify` is total: on a precomputed key and on a verification
key it returns a boolean for every key, input and proof, with assertions
enabled or not; and whenever it reaches `weakVerify` the asserted equation
`0 == accum_IC.input_size()` holds. -/
theorem strongVerify_total [Zero G1] [Add G1] [SMul Fr G1] [Mul GT] [One GT] [DecidableEq GT]
    (PAIRING : PairingOps G1 G2 GT G1_precomp G2_precomp) (NDEBUG : Bool)
    (pvk : PPZK_PrecompVerificationKey G1 G1_precomp G2_precomp)
    (vk : PPZK_VerificationKey G1 G2)
    (input : R1Witness Fr) (proof : PPZK_Proof G1 G2) :
    (∃ b : Bool, (strongVerify PAIRING NDEBUG pvk input proof).result = some b) ∧
    (∃ b : Bool, (strongVerify_vk PAIRING NDEBUG vk input proof).result = some b) ∧
    (pvk.m_encoded_IC_query.input_size = input.length →
      (0 == (pvk.m_encoded_IC_query.accumulate input).input_size) = true) := by
  refine ⟨strongVerify_returns PAIRING NDEBUG pvk input proof,
    strongVerify_returns PAIRING NDEBUG _ input proof, ?_⟩
  intro h
  rw [accumulate_input_size_of_size_eq _ input h]
  rfl

end VerifierTheorems

/-! ## The small pairing satisfies the laws -/

theorem Toy.PAIRING_laws : PairingLaws Toy.PAIRING where
  final_exponentiation_mul := fun _ _ => rfl
  unitary_inverse_miller := fun P Q =>
    inv_mul_cancel (Multiplicative.ofAdd (P.1 * Q.1) : Toy.GT)
  unitary_inverse_double := fun P Q R S =>
    inv_mul_cancel (Multiplicative.ofAdd (P.1 * Q.1 + R.1 * S.1) : Toy.GT)
  final_exponentiation_double := fun _ _ _ _ => rfl

/-! ## Accumulation of the public input -/

section AccumulateTheorems

variable {Fr G1 G2 GT G1_precomp G2_precomp : Type}

/-- C5: for an IC query with `n` encoded terms and an input of length exactly
`n`, `accumulate(input)` returns a query whose base is
`ic_base + Σ_{i<n} input[i]·ic_encoded[i]` and whose list of remaining
encoded terms is empty, so `input_size()` is 0.  The method is `const`: the
query it is called on is an argument of the function and stays as it is. -/
theorem PPZK_IC_Query.accumulate_exact [AddCommMonoid G1] [SMul Fr G1]
    (q : PPZK_IC_Query G1) (input : R1Witness Fr) (h : input.length = q.input_size) :
    (q.accumulate input).base =
        q.base + ∑ i : Fin input.length, input.get i • q.encoded_terms.get (Fin.castLE h.le i) ∧
      (q.accumulate input).encoded_terms = [] ∧
      (q.accumulate input).input_size = 0 := by
  rw [PPZK_IC_Query.accumulate_of_length_eq q input h]
  refine ⟨?_, rfl, rfl⟩
  show q.m_base + multiExp q.m_encoded_terms input = _
  rw [multiExp_eq_sum_fin q.m_encoded_terms input h.le]
  rfl

/-- The instance of C5 at the query `(1, [2, 3])` of the small pairing and the
input `[1, 2]`: the accumulated base is `1 + 1·2 + 2·3 = 2` modulo 7. -/
theorem PPZK_IC_Query.accumulate_exact_witness :
    ((⟨(1, 0), [(2, 0), (3, 0)]⟩ : PPZK_IC_Query Toy.G1).accumulate ([1, 2] : List Toy.Fr)).base
        = (2, 0) ∧
      ((⟨(1, 0), [(2, 0), (3, 0)]⟩ : PPZK_IC_Query Toy.G1).accumulate
        ([1, 2] : List Toy.Fr)).input_size = 0 :=
  ⟨by decide,
    (PPZK_IC_Query.accumulate_exact (⟨(1, 0), [(2, 0), (3, 0)]⟩ : PPZK_IC_Query Toy.G1)
      ([1, 2] : List Toy.Fr) (by decide)).2.2⟩

/-- C6, as the code has it: for a key with `n` encoded IC terms and an input
of length `m < n`, the accumulation keeps the remaining `n - m` encoded terms
and its base is `ic_base + Σ_{i<m} input[i]·ic_encoded[i]`; with assertions
enabled `weakVerify` then aborts on `assert(0 == accum_IC.input_size())` after
its first `major()` call, and with assertions compiled out it returns the
conjunction of the well-formedness test and the five comparisons evaluated
with that base. -/
theorem weakVerify_short_input [AddCommMonoid G1] [SMul Fr G1] [Mul GT] [One GT]
    [DecidableEq GT]
    (PAIRING : PairingOps G1 G2 GT G1_precomp G2_precomp)
    (pvk : PPZK_PrecompVerificationKey G1 G1_precomp G2_precomp)
    (input : R1Witness Fr) (proof : PPZK_Proof G1 G2)
    (h : input.length < pvk.m_encoded_IC_query.input_size) :
    (pvk.m_encoded_IC_query.accumulate input).encoded_terms =
        pvk.m_encoded_IC_query.encoded_terms.drop input.length ∧
      (pvk.m_encoded_IC_query.accumulate input).input_size =
        pvk.m_encoded_IC_query.input_size - input.length ∧
      (pvk.m_encoded_IC_query.accumulate input).base =
        pvk.m_encoded_IC_query.base +
          ∑ i : Fin input.length,
            input.get i • pvk.m_encoded_IC_query.encoded_terms.get (Fin.castLE h.le i) ∧
      weakVerify PAIRING false pvk input proof =
        ⟨none, [ProgressCall.majorSteps 5, ProgressCall.major none]⟩ ∧
      (weakVerify PAIRING true pvk input proof).result =
        some (weakVerify.verdict PAIRING pvk
          (pvk.m_encoded_IC_query.accumulate input).base proof) := by
  refine ⟨?_, PPZK_IC_Query.accumulate_input_size _ _, ?_, ?_, ?_⟩
  · rw [PPZK_IC_Query.accumulate_of_length_lt _ input h]
    rfl
  · rw [PPZK_IC_Query.accumulate_of_length_lt _ input h]
    show pvk.m_encoded_IC_query.m_base +
      multiExp (pvk.m_encoded_IC_query.m_encoded_terms.take input.length) input = _
    rw [multiExp_take_left, multiExp_eq_sum_fin _ input h.le]
    rfl
  · apply weakVerify_of_assert_fails
    rw [PPZK_IC_Query.accumulate_input_size]
    omega
  · rw [weakVerify_of_assert PAIRING true pvk input proof (Or.inl rfl)]

/-- The instance of the amended C6 at the key `Toy.vk` (one encoded term) and
the empty input. -/
theorem weakVerify_short_input_witness :
    weakVerify Toy.PAIRING false (PPZK_PrecompVerificationKey.ofVK Toy.PAIRING Toy.vk)
        ([] : List Toy.Fr) Toy.proofOk =
        ⟨none, [ProgressCall.majorSteps 5, ProgressCall.major none]⟩ ∧
      (weakVerify Toy.PAIRING true (PPZK_PrecompVerificationKey.ofVK Toy.PAIRING Toy.vk)
        ([] : List Toy.Fr) Toy.proofOk).result = some false :=
  ⟨(weakVerify_short_input Toy.PAIRING (PPZK_PrecompVerificationKey.ofVK Toy.PAIRING Toy.vk)
      ([] : List Toy.Fr) Toy.proofOk (by decide)).2.2.2.1,
    by decide⟩

/-- C6 fails as stated: with assertions enabled, `weakVerify` on the key
`Toy.vk`, whose IC query has one encoded term, and the empty input does not
return a verdict; it aborts on the assertion. -/
theorem weakVerify_short_input_aborts :
    (weakVerify_vk Toy.PAIRING false Toy.vk ([] : List Toy.Fr) Toy.proofOk).result = none ∧
      ((Toy.vk.m_encoded_IC_query.accumulate ([] : List Toy.Fr)).input_size = 1) := by
  decide

end AccumulateTheorems

/-! ## Witnesses for the acceptance condition and the size gate -/

/-- The instance of C3 at the key `Toy.vk`, the input `[1]` and the proof
`Toy.proofOk`: the run accepts, so the proof is well-formed and the five
pairing equations hold with the accumulated base. -/
theorem strongVerify_true_iff_witness :
    (strongVerify_vk Toy.PAIRING false Toy.vk ([1] : List Toy.Fr) Toy.proofOk).result = some true ∧
      Toy.proofOk.wellFormed Toy.PAIRING = true ∧
      PairingChecks Toy.PAIRING Toy.vk
        (Toy.vk.m_encoded_IC_query.accumulate ([1] : List Toy.Fr)).base Toy.proofOk :=
  ⟨by decide,
    (strongVerify_true_iff Toy.PAIRING Toy.PAIRING_laws false Toy.vk ([1] : List Toy.Fr)
      Toy.proofOk (by decide)).1.1 (by decide)⟩

/-- The instance of C4 at the key `Toy.vk`, whose IC query has one encoded
term: the empty input is turned away with no progress call, the input `[1]`
is handed to `weakVerify`. -/
theorem strongVerify_size_gate_witness :
    strongVerify Toy.PAIRING false (PPZK_PrecompVerificationKey.ofVK Toy.PAIRING Toy.vk)
        ([] : List Toy.Fr) Toy.proofOk = ⟨some false, []⟩ ∧
      strongVerify Toy.PAIRING false (PPZK_PrecompVerificationKey.ofVK Toy.PAIRING Toy.vk)
        ([1] : List Toy.Fr) Toy.proofOk =
        weakVerify Toy.PAIRING false (PPZK_PrecompVerificationKey.ofVK Toy.PAIRING Toy.vk)
          ([1] : List Toy.Fr) Toy.proofOk :=
  ⟨(strongVerify_size_gate Toy.PAIRING false
      (PPZK_PrecompVerificationKey.ofVK Toy.PAIRING Toy.vk) ([] : List Toy.Fr)
      Toy.proofOk).1 (by decide),
    (strongVerify_size_gate Toy.PAIRING false
      (PPZK_PrecompVerificationKey.ofVK Toy.PAIRING Toy.vk) ([1] : List Toy.Fr)
      Toy.proofOk).2 (by decide)⟩

/-! ## What a rejection surfaces -/

section RejectionTheorems

variable {Fr G1 G2 GT G1_precomp G2_precomp : Type}

theorem weakVerify_assert_of_result [Zero G1] [Add G1] [SMul Fr G1] [Mul GT] [One GT]
    [DecidableEq GT]
    (PAIRING : PairingOps G1 G2 GT G1_precomp G2_precomp) (NDEBUG : Bool)
    (pvk : PPZK_PrecompVerificationKey G1 G1_precomp G2_precomp)
    (input : R1Witness Fr) (proof : PPZK_Proof G1 G2) (b : Bool)
    (h : (weakVerify PAIRING NDEBUG pvk input proof).result = some b) :
    NDEBUG = true ∨ (pvk.m_encoded_IC_query.accumulate input).input_size = 0 := by
  cases NDEBUG
  · right
    by_contra hs
    rw [weakVerify_of_assert_fails PAIRING pvk input proof hs] at h
    exact absurd h (by simp)
  · exact Or.inl rfl

/-- C8, as the code has it: two runs of `weakVerify` on the same key and input
that both reject return the same value, false; the progress calls of each are
`majorSteps(5)` followed by as many `major()` calls as the stage that rejected
(1 for the well-formedness test or KC_A, 2 for KC_B, 3 for KC_C, 4 for the
QAP check, 5 for the K check), so the two sequences of calls are the same
exactly when the two proofs are rejected at the same stage. -/
theorem weakVerify_reject_calls [Zero G1] [Add G1] [SMul Fr G1] [Mul GT] [One GT]
    [DecidableEq GT]
    (PAIRING : PairingOps G1 G2 GT G1_precomp G2_precomp) (NDEBUG : Bool)
    (pvk : PPZK_PrecompVerificationKey G1 G1_precomp G2_precomp)
    (input : R1Witness Fr) (proof1 proof2 : PPZK_Proof G1 G2)
    (h1 : (weakVerify PAIRING NDEBUG pvk input proof1).result = some false)
    (h2 : (weakVerify PAIRING NDEBUG pvk input proof2).result = some false) :
    (weakVerify PAIRING NDEBUG pvk input proof1).result =
        (weakVerify PAIRING NDEBUG pvk input proof2).result ∧
      (weakVerify PAIRING NDEBUG pvk input proof1).calls =
        ProgressCall.majorSteps 5 :: List.replicate
          (weakVerify.stage PAIRING pvk (pvk.m_encoded_IC_query.accumulate input).base proof1)
          (ProgressCall.major none) ∧
      (weakVerify PAIRING NDEBUG pvk input proof2).calls =
        ProgressCall.majorSteps 5 :: List.replicate
          (weakVerify.stage PAIRING pvk (pvk.m_encoded_IC_query.accumulate input).base proof2)
          (ProgressCall.major none) ∧
      ((weakVerify PAIRING NDEBUG pvk input proof1).calls =
          (weakVerify PAIRING NDEBUG pvk input proof2).calls ↔
        weakVerify.stage PAIRING pvk (pvk.m_encoded_IC_query.accumulate input).base proof1 =
          weakVerify.stage PAIRING pvk (pvk.m_encoded_IC_query.accumulate input).base proof2) := by
  have ha := weakVerify_assert_of_result PAIRING NDEBUG pvk input proof1 false h1
  have e1 := weakVerify_of_assert PAIRING NDEBUG pvk input proof1 ha
  have e2 := weakVerify_of_assert PAIRING NDEBUG pvk input proof2 ha
  refine ⟨by rw [h1, h2], by rw [e1], by rw [e2], ?_⟩
  rw [e1, e2]
  constructor
  · intro h
    have hlen := congrArg List.length h
    simpa using hlen
  · intro h
    rw [h]

/-- The instance of the amended C8 at the key `Toy.vk`, the input `[1]` and
the proof `Toy.proofBadA` taken twice. -/
theorem weakVerify_reject_calls_witness :
    (weakVerify Toy.PAIRING false (PPZK_PrecompVerificationKey.ofVK Toy.PAIRING Toy.vk)
        ([1] : List Toy.Fr) Toy.proofBadA).calls =
      ProgressCall.majorSteps 5 :: List.replicate
        (weakVerify.stage Toy.PAIRING (PPZK_PrecompVerificationKey.ofVK Toy.PAIRING Toy.vk)
          ((PPZK_PrecompVerificationKey.ofVK Toy.PAIRING Toy.vk).m_encoded_IC_query.accumulate
            ([1] : List Toy.Fr)).base Toy.proofBadA)
        (ProgressCall.major none) :=
  (weakVerify_reject_calls Toy.PAIRING false
    (PPZK_PrecompVerificationKey.ofVK Toy.PAIRING Toy.vk) ([1] : List Toy.Fr)
    Toy.proofBadA Toy.proofBadA (by decide) (by decide)).2.1

/-- C8 fails as stated: on the key `Toy.vk` and the input `[1]` the proofs
`Toy.proofBadA` and `Toy.proofBadB` are both rejected, the first at KC_A after
one `major()` call and the second at KC_B after two. -/
theorem weakVerify_rejections_differ :
    weakVerify_vk Toy.PAIRING false Toy.vk ([1] : List Toy.Fr) Toy.proofBadA =
        ⟨some false, [ProgressCall.majorSteps 5, ProgressCall.major none]⟩ ∧
      weakVerify_vk Toy.PAIRING false Toy.vk ([1] : List Toy.Fr) Toy.proofBadB =
        ⟨some false,
          [ProgressCall.majorSteps 5, ProgressCall.major none, ProgressCall.major none]⟩ := by
  decide

/-- C9, as the code has it: `wellFormed()` is true exactly when each of the
eight group elements is well-formed in its own group (`B.G` in G2, the others
in G1); a proof for which it is false is rejected by `strongVerify` whatever
the key and the input, is never accepted by `weakVerify`, and is rejected by
`weakVerify` whenever the assertion before the test passes, that is when
assertions are compiled out or the input has at least as many elements as the
IC query has encoded terms. -/
theorem illFormed_rejected [Zero G1] [Add G1] [SMul Fr G1] [Mul GT] [One GT] [DecidableEq GT]
    (PAIRING : PairingOps G1 G2 GT G1_precomp G2_precomp) (NDEBUG : Bool)
    (pvk : PPZK_PrecompVerificationKey G1 G1_precomp G2_precomp)
    (input : R1Witness Fr) (proof : PPZK_Proof G1 G2) :
    (proof.wellFormed PAIRING = true ↔
      PAIRING.G1_wellFormed proof.m_A.G = true ∧ PAIRING.G1_wellFormed proof.m_A.H = true ∧
      PAIRING.G2_wellFormed proof.m_B.G = true ∧ PAIRING.G1_wellFormed proof.m_B.H = true ∧
      PAIRING.G1_wellFormed proof.m_C.G = true ∧ PAIRING.G1_wellFormed proof.m_C.H = true ∧
      PAIRING.G1_wellFormed proof.m_H = true ∧ PAIRING.G1_wellFormed proof.m_K = true) ∧
    (proof.wellFormed PAIRING = false →
      (strongVerify PAIRING NDEBUG pvk input proof).result = some false ∧
      (weakVerify PAIRING NDEBUG pvk input proof).result ≠ some true ∧
      (NDEBUG = true ∨ pvk.m_encoded_IC_query.input_size ≤ input.length →
        (weakVerify PAIRING NDEBUG pvk input proof).result = some false)) := by
  constructor
  · exact wellFormed_iff PAIRING proof
  · intro hwf
    have hv : ∀ acc, weakVerify.verdict PAIRING pvk acc proof = false := by
      intro acc
      unfold weakVerify.verdict
      simp [hwf]
    have hweak : NDEBUG = true ∨ pvk.m_encoded_IC_query.input_size ≤ input.length →
        (weakVerify PAIRING NDEBUG pvk input proof).result = some false := by
      intro h
      rw [weakVerify_of_assert PAIRING NDEBUG pvk input proof
        (h.imp id (fun hle => by rw [PPZK_IC_Query.accumulate_input_size]; omega))]
      simp [hv]
    refine ⟨?_, ?_, hweak⟩
    · by_cases hs : pvk.m_encoded_IC_query.input_size = input.length
      · rw [strongVerify_of_size_eq PAIRING NDEBUG pvk input proof hs]
        exact hweak (Or.inr hs.le)
      · rw [strongVerify_of_size_ne PAIRING NDEBUG pvk input proof hs]
    · intro h
      have ha := weakVerify_assert_of_result PAIRING NDEBUG pvk input proof true h
      rw [weakVerify_of_assert PAIRING NDEBUG pvk input proof ha] at h
      simp [hv] at h

/-- The instance of the amended C9 at the key `Toy.vk`, the input `[1]` and
the proof `Toy.proofIllFormed`, whose `A.G` is outside the group. -/
theorem illFormed_rejected_witness :
    Toy.proofIllFormed.wellFormed Toy.PAIRING = false ∧
      (strongVerify Toy.PAIRING false (PPZK_PrecompVerificationKey.ofVK Toy.PAIRING Toy.vk)
        ([1] : List Toy.Fr) Toy.proofIllFormed).result = some false :=
  ⟨by decide,
    ((illFormed_rejected Toy.PAIRING false (PPZK_PrecompVerificationKey.ofVK Toy.PAIRING Toy.vk)
      ([1] : List Toy.Fr) Toy.proofIllFormed).2 (by decide)).1⟩

/-- C9 fails as stated: with assertions enabled, `weakVerify` on the key
`Toy.vk` and the empty input does not reject the ill-formed proof
`Toy.proofIllFormed`; the assertion aborts the run before the
well-formedness test. -/
theorem weakVerify_illFormed_short_input :
    Toy.proofIllFormed.wellFormed Toy.PAIRING = false ∧
      weakVerify_vk Toy.PAIRING false Toy.vk ([] : List Toy.Fr) Toy.proofIllFormed =
        ⟨none, [ProgressCall.majorSteps 5, ProgressCall.major none]⟩ := by
  decide

end RejectionTheorems

/-! ## Serialization round trip of a proof -/

section MarshalTheorems

variable {G1 G2 : Type}

theorem PPZK_Proof.marshal_out_eq_append (M : ProofMarshal G1 G2) (a : PPZK_Proof G1 G2)
    (os : Stream) :
    PPZK_Proof.marshal_out M a os =
      os ++ (M.G1G1.marshal_out a.m_A ++ (M.G2G1.marshal_out a.m_B ++
        (M.G1G1.marshal_out a.m_C ++ (M.G1.marshal_out a.m_H ++ M.G1.marshal_out a.m_K)))) := by
  simp [PPZK_Proof.marshal_out]

/-- C10: if `Pairing<G1, G1>`, `Pairing<G2, G1>` and `G1` each round-trip
through their own `marshal_out` and `marshal_in`, then reading the bytes a
proof `p` wrote with `marshal_out` (or `operator<<`) by `marshal_in` (or
`operator>>`) into any proof object succeeds, consumes exactly those bytes and
leaves a proof equal to `p` under `operator==`. -/
theorem PPZK_Proof.marshal_roundtrip [BEq (Pairing G1 G1)] [BEq (Pairing G2 G1)] [BEq G1]
    [Zero G1] [Zero G2] (M : ProofMarshal G1 G2)
    (hA : M.G1G1.RoundTrips) (hB : M.G2G1.RoundTrips) (hG : M.G1.RoundTrips)
    (p old : PPZK_Proof G1 G2) (os rest : Stream) :
    PPZK_Proof.marshal_out M p os = os ++ PPZK_Proof.marshal_out M p [] ∧
      (PPZK_Proof.marshal_in M old (PPZK_Proof.marshal_out M p [] ++ rest)).1 = true ∧
      PPZK_Proof.opEq (PPZK_Proof.marshal_in M old
        (PPZK_Proof.marshal_out M p [] ++ rest)).2.1 p = true ∧
      (PPZK_Proof.marshal_in M old (PPZK_Proof.marshal_out M p [] ++ rest)).2.2 = rest ∧
      PPZK_Proof.opEq (PPZK_Proof.read M (PPZK_Proof.write M [] p ++ rest) old).1 p = true ∧
      (PPZK_Proof.read M (PPZK_Proof.write M [] p ++ rest) old).2 = rest := by
  have e : PPZK_Proof.marshal_out M p [] ++ rest =
      M.G1G1.marshal_out p.m_A ++ (M.G2G1.marshal_out p.m_B ++
        (M.G1G1.marshal_out p.m_C ++ (M.G1.marshal_out p.m_H ++
          (M.G1.marshal_out p.m_K ++ rest)))) := by
    simp [PPZK_Proof.marshal_out_eq_append]
  obtain ⟨a1, a2, a3⟩ := hA p.m_A old.m_A (M.G2G1.marshal_out p.m_B ++
    (M.G1G1.marshal_out p.m_C ++ (M.G1.marshal_out p.m_H ++ (M.G1.marshal_out p.m_K ++ rest))))
  obtain ⟨b1, b2, b3⟩ := hB p.m_B old.m_B
    (M.G1G1.marshal_out p.m_C ++ (M.G1.marshal_out p.m_H ++ (M.G1.marshal_out p.m_K ++ rest)))
  obtain ⟨c1, c2, c3⟩ := hA p.m_C old.m_C
    (M.G1.marshal_out p.m_H ++ (M.G1.marshal_out p.m_K ++ rest))
  obtain ⟨h1, h2, h3⟩ := hG p.m_H old.m_H (M.G1.marshal_out p.m_K ++ rest)
  obtain ⟨k1, k2, k3⟩ := hG p.m_K old.m_K rest
  have main : (PPZK_Proof.marshal_in M old (PPZK_Proof.marshal_out M p [] ++ rest)).1 = true ∧
      PPZK_Proof.opEq (PPZK_Proof.marshal_in M old
        (PPZK_Proof.marshal_out M p [] ++ rest)).2.1 p = true ∧
      (PPZK_Proof.marshal_in M old (PPZK_Proof.marshal_out M p [] ++ rest)).2.2 = rest := by
    rw [e]
    unfold PPZK_Proof.marshal_in PPZK_Proof.opEq
    simp only [a1, a3, b1, b3, c1, c3, h1, h3, k1, k3, a2, b2, c2, h2, k2, Bool.not_true,
      Bool.false_eq_true, if_false, Bool.and_self, and_self]
  refine ⟨?_, main.1, main.2.1, main.2.2, ?_, ?_⟩
  · rw [PPZK_Proof.marshal_out_eq_append, PPZK_Proof.marshal_out_eq_append]
    simp
  · unfold PPZK_Proof.read PPZK_Proof.write
    simp only [main.1, Bool.not_true, Bool.false_eq_true, if_false]
    exact main.2.1
  · unfold PPZK_Proof.read PPZK_Proof.write
    simp only [main.1, Bool.not_true, Bool.false_eq_true, if_false]
    exact main.2.2

theorem Toy.marshalG_roundTrips : Toy.marshalG.RoundTrips := by
  intro a old rest
  obtain ⟨x, y⟩ := a
  have hx : (Toy.byteOf x).val < 7 := (show Fin 7 from x).isLt
  have hy : (Toy.byteOf y).val < 7 := (show Fin 7 from y).isLt
  simp only [Toy.marshalG, List.cons_append, List.nil_append, hx, hy, and_self, dite_true]
  refine ⟨trivial, ?_, trivial⟩
  rw [beq_iff_eq]
  rfl

theorem Toy.marshalGG_roundTrips : Toy.marshalGG.RoundTrips := by
  intro a old rest
  obtain ⟨g1, g2, g3⟩ := Toy.marshalG_roundTrips a.G old.G (Toy.marshalG.marshal_out a.H ++ rest)
  obtain ⟨h1, h2, h3⟩ := Toy.marshalG_roundTrips a.H old.H rest
  rw [beq_iff_eq] at g2 h2
  simp only [Toy.marshalGG, List.append_assoc, g1, g3, h1, h3, g2, h2, Bool.not_true,
    Bool.false_eq_true, if_false]
  exact ⟨trivial, by rw [beq_iff_eq], trivial⟩

/-- The instance of C10 at the proof `Toy.proofOk` with one byte for each
coordinate, read into the object `Toy.proofBadA` with two bytes following. -/
theorem PPZK_Proof.marshal_roundtrip_witness :
    (PPZK_Proof.marshal_in Toy.proofMarshal Toy.proofBadA
        (PPZK_Proof.marshal_out Toy.proofMarshal Toy.proofOk [] ++ [8, 9])).1 = true ∧
      PPZK_Proof.opEq (PPZK_Proof.marshal_in Toy.proofMarshal Toy.proofBadA
        (PPZK_Proof.marshal_out Toy.proofMarshal Toy.proofOk [] ++ [8, 9])).2.1
        Toy.proofOk = true ∧
      (PPZK_Proof.marshal_in Toy.proofMarshal Toy.proofBadA
        (PPZK_Proof.marshal_out Toy.proofMarshal Toy.proofOk [] ++ [8, 9])).2.2 = [8, 9] :=
  have h := PPZK_Proof.marshal_roundtrip Toy.proofMarshal Toy.marshalGG_roundTrips
    Toy.marshalGG_roundTrips Toy.marshalG_roundTrips Toy.proofOk Toy.proofBadA [] [8, 9]
  ⟨h.2.1, h.2.2.1, h.2.2.2.1⟩

end MarshalTheorems

/-! ## Soundness against a disagreeing public input -/

section InputTheorems

variable {Fr G1 G2 GT G1_precomp G2_precomp : Type}

theorem wellFormed_multiExp [Zero G1] [Add G1] [SMul Fr G1]
    {PAIRING : PairingOps G1 G2 GT G1_precomp G2_precomp} (glaws : WellFormedLaws Fr PAIRING) :
    ∀ (base : List G1) (scalar : List Fr),
      (∀ b ∈ base, PAIRING.G1_wellFormed b = true) →
        PAIRING.G1_wellFormed (multiExp base scalar) = true
  | [], _, _ => by simpa [multiExp] using glaws.wellFormed_zero
  | _ :: _, [], _ => by simpa [multiExp] using glaws.wellFormed_zero
  | b :: base, s :: scalar, h => by
    have ih := wellFormed_multiExp glaws base scalar (fun x hx => h x (List.mem_cons_of_mem _ hx))
    have hb := glaws.wellFormed_smul s b (h b (List.mem_cons_self _ _))
    have := glaws.wellFormed_add _ _ hb ih
    simpa [multiExp] using this

theorem weakVerify_eq_of_accumulate_eq [Zero G1] [Add G1] [SMul Fr G1] [Mul GT] [One GT]
    [DecidableEq GT]
    (PAIRING : PairingOps G1 G2 GT G1_precomp G2_precomp) (NDEBUG : Bool)
    (pvk : PPZK_PrecompVerificationKey G1 G1_precomp G2_precomp)
    (input input' : R1Witness Fr) (proof : PPZK_Proof G1 G2)
    (h : pvk.m_encoded_IC_query.accumulate input = pvk.m_encoded_IC_query.accumulate input') :
    weakVerify PAIRING NDEBUG pvk input proof = weakVerify PAIRING NDEBUG pvk input' proof := by
  unfold weakVerify
  rw [h]

/-- The verifier sees the public input through its accumulated point only:
on two inputs of the length the key expects that accumulate to the same
point, the run of `strongVerify` is the same, whatever the key and the
proof. -/
theorem strongVerify_vk_congr_base [Zero G1] [Add G1] [SMul Fr G1] [Mul GT] [One GT]
    [DecidableEq GT]
    (PAIRING : PairingOps G1 G2 GT G1_precomp G2_precomp) (NDEBUG : Bool)
    (vk : PPZK_VerificationKey G1 G2) (input input' : R1Witness Fr) (proof : PPZK_Proof G1 G2)
    (hlen : input.length = vk.m_encoded_IC_query.input_size)
    (hlen' : input'.length = vk.m_encoded_IC_query.input_size)
    (hacc : (vk.m_encoded_IC_query.accumulate input).base =
      (vk.m_encoded_IC_query.accumulate input').base) :
    strongVerify_vk PAIRING NDEBUG vk input proof =
      strongVerify_vk PAIRING NDEBUG vk input' proof := by
  have e := PPZK_IC_Query.accumulate_of_length_eq vk.m_encoded_IC_query input hlen
  have e' := PPZK_IC_Query.accumulate_of_length_eq vk.m_encoded_IC_query input' hlen'
  have hq : vk.m_encoded_IC_query.accumulate input = vk.m_encoded_IC_query.accumulate input' := by
    rw [e, e'] at hacc
    rw [e, e']
    exact congrArg (fun b => (⟨b, []⟩ : PPZK_IC_Query G1)) hacc
  unfold strongVerify_vk
  rw [strongVerify_of_size_eq PAIRING NDEBUG _ input proof hlen.symm,
    strongVerify_of_size_eq PAIRING NDEBUG _ input' proof hlen'.symm]
  exact weakVerify_eq_of_accumulate_eq PAIRING NDEBUG _ input input' proof hq

end InputTheorems

/-! ## The generator with the randomness `rA = rB = beta = 0` -/

section ZeroRandomness

variable {Fr G1 G2 GT G1_precomp G2_precomp : Type}

theorem multiExp_eq_zero {G : Type} [Zero G] [Add G] [SMul Fr G]
    (hsmul : ∀ s : Fr, s • (0 : G) = 0) (hadd : (0 : G) + 0 = 0) :
    ∀ (base : List G) (scalar : List Fr), (∀ b ∈ base, b = 0) → multiExp base scalar = 0
  | [], _, _ => by simp [multiExp]
  | _ :: _, [], _ => by simp [multiExp]
  | b :: base, s :: scalar, h => by
    have ih := multiExp_eq_zero hsmul hadd base scalar
      (fun x hx => h x (List.mem_cons_of_mem _ hx))
    have hb : b = 0 := h b (List.mem_cons_self _ _)
    unfold multiExp at ih ⊢
    simp only [List.zipWith_cons_cons, List.sum_cons, ih, hb, hsmul, hadd]

theorem SparseVector.getElementForIndex_eq_zero {T : Type} [Zero T] (v : SparseVector T)
    (h : ∀ e ∈ v.m_entries, e.2 = 0) (i : Nat) : v.getElementForIndex i = 0 := by
  unfold SparseVector.getElementForIndex
  cases hf : v.m_entries.find? (fun e => e.1 == i) with
  | none => rfl
  | some e => exact h e (List.mem_of_find?_eq_some hf)

theorem batchExp_zero_entries {GA GB : Type} [Ring Fr] [AddCommGroup GA] [Module Fr GA]
    [AddCommGroup GB] [Module Fr GB] (oneA : GA) (oneB : GB) (vec : List Fr) :
    ∀ e ∈ (batchExp oneA oneB (0 : Fr) 0 vec).m_entries, e.2 = 0 := by
  intro e he
  unfold batchExp at he
  simp only [List.mem_map] at he
  obtain ⟨x, -, rfl⟩ := he
  simp only [zero_mul, zero_smul]
  rfl

theorem Pairing.smul_zero_eq {GA GB : Type} [Ring Fr] [AddCommGroup GA] [Module Fr GA]
    [AddCommGroup GB] [Module Fr GB] (s : Fr) : s • (0 : Pairing GA GB) = 0 := by
  show (⟨s • (0 : GA), s • (0 : GB)⟩ : Pairing GA GB) = ⟨0, 0⟩
  rw [smul_zero, smul_zero]

theorem Pairing.zero_add_zero {GA GB : Type} [AddCommGroup GA] [AddCommGroup GB] :
    (0 : Pairing GA GB) + 0 = 0 := by
  show (⟨(0 : GA) + 0, (0 : GB) + 0⟩ : Pairing GA GB) = ⟨0, 0⟩
  rw [add_zero, add_zero]

/-- A proof component built from a query whose entries are all zero is
zero. -/
theorem proof_component_eq_zero {GA GB : Type} [Ring Fr] [AddCommGroup GA] [Module Fr GA]
    [AddCommGroup GB] [Module Fr GB] (query : SparseVector (Pairing GA GB))
    (h : ∀ e ∈ query.m_entries, e.2 = 0) (d : Fr) (i : Nat) (witness : R1Witness Fr)
    (startIdx stopIdx : Nat) (reserve : Option Nat) :
    (d • query.getElementForIndex i) + query.getElementForIndex 3 +
      multiExp01_range query witness startIdx stopIdx reserve = 0 := by
  have hm : multiExp01_range query witness startIdx stopIdx reserve = 0 := by
    unfold multiExp01_range
    apply multiExp_eq_zero Pairing.smul_zero_eq Pairing.zero_add_zero
    intro b hb
    simp only [List.mem_map] at hb
    obtain ⟨j, -, rfl⟩ := hb
    exact SparseVector.getElementForIndex_eq_zero query h j
  rw [hm, SparseVector.getElementForIndex_eq_zero query h, SparseVector.getElementForIndex_eq_zero query h,
    Pairing.smul_zero_eq, Pairing.zero_add_zero, Pairing.zero_add_zero]

theorem QAP_QueryK_eq_zero [Ring Fr] (At Bt Ct : List Fr) :
    ∀ k ∈ QAP_QueryK At Bt Ct 0 0 0, k = 0 := by
  intro k hk
  unfold QAP_QueryK at hk
  simp only [zero_mul, List.cons_append, List.nil_append, List.mem_cons] at hk
  rcases hk with h | h | h | h
  · exact h
  · exact h
  · exact h
  · obtain ⟨i, hi⟩ := List.mem_iff_get.1 h
    rw [← hi]
    simp

theorem ofCoeffs_eq_zero [Ring Fr] [AddCommGroup G1] [Module Fr G1] (G1_one : G1)
    (coeffs : List Fr) (hc : ∀ c ∈ coeffs, c = 0) (ic : PPZK_IC_Query G1)
    (h : PPZK_IC_Query.ofCoeffs G1_one coeffs = some ic) :
    ic.m_base = 0 ∧ ∀ t ∈ ic.m_encoded_terms, t = 0 := by
  cases coeffs with
  | nil => simp [PPZK_IC_Query.ofCoeffs] at h
  | cons c0 rest =>
    simp only [PPZK_IC_Query.ofCoeffs, Option.some.injEq] at h
    subst h
    refine ⟨?_, ?_⟩
    · show c0 • G1_one = 0
      rw [hc c0 (List.mem_cons_self _ _), zero_smul]
    · intro t ht
      simp only [WindowExp.batchExp, List.mem_map] at ht
      obtain ⟨x, hx, rfl⟩ := ht
      rw [hc x (List.mem_cons_of_mem _ hx), zero_smul]

theorem accumulate_base_eq_zero [Ring Fr] [AddCommGroup G1] [Module Fr G1]
    (q : PPZK_IC_Query G1) (input : R1Witness Fr) (hbase : q.m_base = 0)
    (hterms : ∀ t ∈ q.m_encoded_terms, t = 0) : (q.accumulate input).base = 0 := by
  have hz : ∀ (base : List G1) (scalar : List Fr), (∀ b ∈ base, b = 0) →
      multiExp base scalar = 0 :=
    multiExp_eq_zero (fun s => smul_zero s) (add_zero 0)
  unfold PPZK_IC_Query.accumulate PPZK_IC_Query.base
  by_cases h1 : input.length < q.m_encoded_terms.length
  · simp only [h1, if_true, hbase]
    rw [hz _ _ (fun t ht => hterms t (List.mem_of_mem_take ht)), add_zero]
  · by_cases h2 : input.length > q.m_encoded_terms.length
    · simp only [h1, h2, if_true, if_false, hbase]
      rw [hz _ _ hterms, add_zero]
    · simp only [h1, h2, if_false, hbase]
      rw [hz _ _ hterms, add_zero]

end ZeroRandomness

section ZeroRandomnessMain

variable {Fr G1 G2 GT G1_precomp G2_precomp : Type}

/-- With the randomness `rA = rB = beta = 0` the key does not depend on the
public input: whatever the QAP layer delivers, whatever the witness and the
blinding, the proof the prover builds is accepted by `strongVerify` on every
input of the right length. -/
theorem strongVerify_accepts_of_zero_randomness [Ring Fr] [AddCommGroup G1] [Module Fr G1]
    [AddCommGroup G2] [Module Fr G2] [CommMonoid GT] [DecidableEq GT]
    (PAIRING : PairingOps G1 G2 GT G1_precomp G2_precomp) (laws : PairingLaws PAIRING)
    (glaws : WellFormedLaws Fr PAIRING) (nlaws : NeutralLaws PAIRING) (NDEBUG : Bool)
    (qap : QAP_SystemPoint Fr) (alphaA alphaB alphaC gamma d1 d2 d3 : Fr)
    (witness input : R1Witness Fr) (aH : List Fr) (reserveTune : Nat)
    (kp : PPZK_Keypair G1 G2) (proof : PPZK_Proof G1 G2)
    (hkp : (PPZK_Keypair.generate PAIRING qap alphaA alphaB alphaC 0 0 0 gamma).result = some kp)
    (hproof : (PPZK_Proof.prove qap.numVariables kp.m_pk witness aH d1 d2 d3
      reserveTune).result = some proof)
    (hlen : input.length = kp.m_vk.m_encoded_IC_query.input_size) :
    (strongVerify_vk PAIRING NDEBUG kp.m_vk input proof).result = some true := by
  -- the key pair
  unfold PPZK_Keypair.generate at hkp
  cases hic : PPZK_IC_Query.ofCoeffs PAIRING.G1_one
      (QAP_IC_coefficients.vec qap.numCircuitInputs qap.QueryA (0 : Fr)) with
  | none => simp [hic] at hkp
  | some ic =>
    simp only [hic, Option.some.injEq] at hkp
    subst hkp
    have hcoeffs : ∀ c ∈ QAP_IC_coefficients.vec qap.numCircuitInputs qap.QueryA (0 : Fr),
        c = 0 := by
      intro c hc
      simp only [QAP_IC_coefficients.vec, List.mem_map] at hc
      obtain ⟨a, -, rfl⟩ := hc
      exact zero_mul a
    obtain ⟨hbase, hterms⟩ := ofCoeffs_eq_zero PAIRING.G1_one _ hcoeffs ic hic
    have hacc : (ic.accumulate input).base = 0 := accumulate_base_eq_zero ic input hbase hterms
    -- the proof
    have hK : ∀ k ∈ WindowExp.batchExp PAIRING.G1_one
        (QAP_QueryK qap.QueryA qap.QueryB qap.QueryC (0 : Fr) 0 0), k = 0 := by
      intro k hk
      simp only [WindowExp.batchExp, List.mem_map] at hk
      obtain ⟨x, hx, rfl⟩ := hk
      rw [QAP_QueryK_eq_zero _ _ _ x hx, zero_smul]
    have hH : PAIRING.G1_wellFormed
        (multiExp (WindowExp.batchExp PAIRING.G1_one qap.QueryH) aH) = true := by
      apply wellFormed_multiExp glaws
      intro b hb
      simp only [WindowExp.batchExp, List.mem_map] at hb
      obtain ⟨x, -, rfl⟩ := hb
      exact glaws.wellFormed_smul x _ nlaws.wellFormed_one
    unfold PPZK_Proof.prove at hproof
    simp only at hproof
    simp only [zero_mul, mul_zero] at hproof hlen ⊢
    rw [proof_component_eq_zero _ (batchExp_zero_entries PAIRING.G1_one PAIRING.G1_one _),
      proof_component_eq_zero _ (batchExp_zero_entries PAIRING.G2_one PAIRING.G1_one _),
      proof_component_eq_zero _ (batchExp_zero_entries PAIRING.G1_one PAIRING.G1_one _)] at hproof
    split at hproof
    next k0 k1 k2 k3 rest heq =>
      rw [heq] at hK
      have h0 : k0 = 0 := hK k0 (by simp)
      have h1 : k1 = 0 := hK k1 (by simp)
      have h2 : k2 = 0 := hK k2 (by simp)
      have h3 : k3 = 0 := hK k3 (by simp)
      have hrest : ∀ r : Option Nat, multiExp01 rest witness r = 0 := fun _ =>
        multiExp_eq_zero (fun s => smul_zero s) (add_zero 0) rest witness
          (fun b hb => hK b (by simp [hb]))
      have hKz : ∀ r : Option Nat,
          d1 • k0 + d2 • k1 + d3 • k2 + k3 + multiExp01 rest witness r = 0 := by
        intro r
        rw [hrest, h0, h1, h2, h3]
        simp
      simp only [Option.some.injEq] at hproof
      subst hproof
      rw [strongVerify_vk_accepts_iff PAIRING laws NDEBUG _ input _ hlen]
      have hG : ∀ {GA GB : Type} [Zero GA] [Zero GB], (0 : Pairing GA GB).G = 0 := rfl
      have hH0 : ∀ {GA GB : Type} [Zero GA] [Zero GB], (0 : Pairing GA GB).H = 0 := rfl
      refine ⟨?_, ?_⟩
      · rw [wellFormed_iff]
        have hz := glaws.wellFormed_zero
        have hz2 := nlaws.wellFormed_zero_G2
        exact ⟨hz, hz, hz2, hz, hz, hz, hH, by rw [hKz]; exact hz⟩
      · unfold PairingChecks
        simp only [hKz, hacc, hG, hH0, zero_smul, add_zero, nlaws.e_zero_left,
          nlaws.e_zero_right, mul_one, and_self]
    next => simp at hproof

end ZeroRandomnessMain

theorem Toy.PAIRING_neutralLaws : NeutralLaws Toy.PAIRING where
  e_zero_left := by
    intro Q
    show Multiplicative.ofAdd ((0 : ZMod 7) * Q.1) = 1
    rw [zero_mul]
    rfl
  e_zero_right := by
    intro P
    show Multiplicative.ofAdd (P.1 * (0 : ZMod 7)) = 1
    rw [mul_zero]
    rfl
  wellFormed_zero_G2 := by decide
  wellFormed_one := by decide

theorem Toy.PAIRING_wellFormedLaws : WellFormedLaws Toy.Fr Toy.PAIRING where
  wellFormed_zero := by decide
  wellFormed_add := by
    rintro ⟨a, b⟩ ⟨c, d⟩ h1 h2
    simp only [Toy.PAIRING, beq_iff_eq] at h1 h2 ⊢
    show b + d = 0
    rw [h1, h2, add_zero]
  wellFormed_smul := by
    rintro s ⟨a, b⟩ h
    simp only [Toy.PAIRING, beq_iff_eq] at h ⊢
    show s * b = 0
    rw [h, mul_zero]

/-- On the key pair `Toy.keypair0` every public input of length four is
accepted together with the proof built from any witness. -/
theorem Toy.strongVerify_accepts_every_input (kp : PPZK_Keypair Toy.G1 Toy.G2)
    (proof : PPZK_Proof Toy.G1 Toy.G2) (witness input aH : List Toy.Fr) (d1 d2 d3 : Toy.Fr)
    (hkp : Toy.keypair0.result = some kp)
    (hproof : (PPZK_Proof.prove Toy.qap.numVariables kp.m_pk witness aH d1 d2 d3 0).result =
      some proof)
    (hlen : input.length = 4) :
    (strongVerify_vk Toy.PAIRING false kp.m_vk input proof).result = some true := by
  have hsize : Option.map (fun k : PPZK_Keypair Toy.G1 Toy.G2 =>
      k.m_vk.m_encoded_IC_query.input_size) Toy.keypair0.result = some 4 := by decide
  rw [hkp] at hsize
  simp only [Option.map_some', Option.some.injEq] at hsize
  exact strongVerify_accepts_of_zero_randomness Toy.PAIRING Toy.PAIRING_laws
    Toy.PAIRING_wellFormedLaws Toy.PAIRING_neutralLaws false Toy.qap 2 3 4 5 d1 d2 d3 witness
    input aH 0 kp proof hkp hproof (hlen.trans hsize.symm)

section DisagreeingInput

variable {Fr G1 G2 GT G1_precomp G2_precomp : Type}

end DisagreeingInput

section LayoutLemmas

variable {G1 G2 : Type}

theorem PPZK_ProvingKey.pk_marshal_in_eq_readFields (M : KeyMarshal G1 G2)
    (a : PPZK_ProvingKey G1 G2) (is : Stream) :
    PPZK_ProvingKey.marshal_in M a is = readFields (PPZK_ProvingKey.fields M) a is := by
  simp only [PPZK_ProvingKey.marshal_in, PPZK_ProvingKey.fields, readFields, Marshal.field]
  split_ifs <;> simp_all

theorem PPZK_IC_Query.ic_marshal_in_eq_readFields (M : KeyMarshal G1 G2)
    (a : PPZK_IC_Query G1) (is : Stream) :
    PPZK_IC_Query.marshal_in M a is = readFields (PPZK_IC_Query.fields M) a is := by
  simp only [PPZK_IC_Query.marshal_in, PPZK_IC_Query.fields, readFields, Marshal.field]
  split_ifs <;> simp_all

theorem PPZK_Proof.proof_marshal_in_eq_readFields (M : ProofMarshal G1 G2)
    (a : PPZK_Proof G1 G2) (is : Stream) :
    PPZK_Proof.marshal_in M a is = readFields (PPZK_Proof.fields M) a is := by
  simp only [PPZK_Proof.marshal_in, PPZK_Proof.fields, readFields, Marshal.field]
  split_ifs <;> simp_all

theorem PPZK_VerificationKey.vk_marshal_in_eq_readFields (M : KeyMarshal G1 G2)
    (a : PPZK_VerificationKey G1 G2) (is : Stream) :
    PPZK_VerificationKey.marshal_in M a is = readFields (PPZK_VerificationKey.fields M) a is := by
  simp only [PPZK_VerificationKey.marshal_in, PPZK_VerificationKey.fields, readFields,
    Marshal.field, PPZK_IC_Query.marshal]
  cases h1 : (M.G2.marshal_in a.m_alphaA_g2 is).1
  · simp [h1]
  simp only [Bool.not_true, Bool.false_eq_true, if_false, if_true]
  cases h2 : (M.G1.marshal_in a.m_alphaB_g1 (M.G2.marshal_in a.m_alphaA_g2 is).2.2).1
  · simp [h2]
  simp only [Bool.not_true, Bool.false_eq_true, if_false, if_true]
  cases h3 : (M.G2.marshal_in a.m_alphaC_g2
    (M.G1.marshal_in a.m_alphaB_g1 (M.G2.marshal_in a.m_alphaA_g2 is).2.2).2.2).1
  · simp [h3]
  simp only [Bool.not_true, Bool.false_eq_true, if_false, if_true]
  cases h4 : (M.G2.marshal_in a.m_gamma_g2 (M.G2.marshal_in a.m_alphaC_g2
    (M.G1.marshal_in a.m_alphaB_g1 (M.G2.marshal_in a.m_alphaA_g2 is).2.2).2.2).2.2).1
  · simp [h4]
  simp only [Bool.not_true, Bool.false_eq_true, if_false, if_true]
  split_ifs <;> simp_all

theorem PPZK_Keypair.keypair_marshal_in_eq_readFields (M : KeyMarshal G1 G2)
    (a : PPZK_Keypair G1 G2) (is : Stream) :
    PPZK_Keypair.marshal_in M a is = readFields (PPZK_Keypair.fields M) a is := by
  simp only [PPZK_Keypair.marshal_in, PPZK_Keypair.fields, readFields, Marshal.field,
    PPZK_ProvingKey.marshal, PPZK_VerificationKey.marshal]
  split_ifs <;> simp_all

end LayoutLemmas

section ReadFieldsLemmas

variable {α : Type}

theorem readFields_fst_eq_false_iff :
    ∀ (fs : List (SubRead α)) (a : α) (is : Stream),
      (readFields fs a is).1 = false ↔ false ∈ subReadResults fs a is
  | [], a, is => by simp [readFields, subReadResults]
  | f :: fs, a, is => by
    cases h : (f a is).1
    · simp [readFields, subReadResults, h]
    · simp [readFields, subReadResults, h, readFields_fst_eq_false_iff fs]

theorem readFields_fst_eq_true_iff :
    ∀ (fs : List (SubRead α)) (a : α) (is : Stream),
      (readFields fs a is).1 = true ↔ subReadResults fs a is = List.replicate fs.length true
  | [], a, is => by simp [readFields, subReadResults]
  | f :: fs, a, is => by
    cases h : (f a is).1
    · simp [readFields, subReadResults, h, List.replicate]
    · simp [readFields, subReadResults, h, List.replicate, readFields_fst_eq_true_iff fs]

end ReadFieldsLemmas

section MarshalOutLemmas

variable {G1 G2 : Type}

theorem PPZK_ProvingKey.pk_marshal_out_eq_append (M : KeyMarshal G1 G2)
    (a : PPZK_ProvingKey G1 G2) (os : Stream) :
    PPZK_ProvingKey.marshal_out M a os = os ++ (PPZK_ProvingKey.encodings M a).flatten := by
  simp [PPZK_ProvingKey.marshal_out, PPZK_ProvingKey.encodings]

theorem PPZK_IC_Query.ic_marshal_out_eq_append (M : KeyMarshal G1 G2)
    (a : PPZK_IC_Query G1) (os : Stream) :
    PPZK_IC_Query.marshal_out M a os = os ++ (PPZK_IC_Query.encodings M a).flatten := by
  simp [PPZK_IC_Query.marshal_out, PPZK_IC_Query.encodings]

theorem PPZK_VerificationKey.vk_marshal_out_eq_append (M : KeyMarshal G1 G2)
    (a : PPZK_VerificationKey G1 G2) (os : Stream) :
    PPZK_VerificationKey.marshal_out M a os =
      os ++ (PPZK_VerificationKey.encodings M a).flatten := by
  simp [PPZK_VerificationKey.marshal_out, PPZK_VerificationKey.encodings,
    PPZK_IC_Query.ic_marshal_out_eq_append]

theorem PPZK_Keypair.keypair_marshal_out_eq_append (M : KeyMarshal G1 G2)
    (a : PPZK_Keypair G1 G2) (os : Stream) :
    PPZK_Keypair.marshal_out M a os = os ++ (PPZK_Keypair.encodings M a).flatten := by
  simp [PPZK_Keypair.marshal_out, PPZK_Keypair.encodings,
    PPZK_ProvingKey.pk_marshal_out_eq_append, PPZK_VerificationKey.vk_marshal_out_eq_append]

theorem PPZK_Proof.marshal_out_eq_join (M : ProofMarshal G1 G2)
    (a : PPZK_Proof G1 G2) (os : Stream) :
    PPZK_Proof.marshal_out M a os = os ++ (PPZK_Proof.encodings M a).flatten := by
  simp [PPZK_Proof.marshal_out, PPZK_Proof.encodings]

end MarshalOutLemmas

/-! ## Serialization round trip of the keys -/

section KeyRoundTrip

variable {G1 G2 : Type}

theorem PPZK_ProvingKey.pk_marshal_roundTrips [BEq G1] [BEq G2]
    [BEq (SparseVector (Pairing G1 G1))] [BEq (SparseVector (Pairing G2 G1))]
    (M : KeyMarshal G1 G2) (hM : M.RoundTrips) (k old : PPZK_ProvingKey G1 G2) (rest : Stream) :
    (PPZK_ProvingKey.marshal_in M old (PPZK_ProvingKey.marshal_out M k [] ++ rest)).1 = true ∧
      PPZK_ProvingKey.opEq (PPZK_ProvingKey.marshal_in M old
        (PPZK_ProvingKey.marshal_out M k [] ++ rest)).2.1 k = true ∧
      (PPZK_ProvingKey.marshal_in M old
        (PPZK_ProvingKey.marshal_out M k [] ++ rest)).2.2 = rest := by
  have e : PPZK_ProvingKey.marshal_out M k [] ++ rest =
      M.sparseG1G1.marshal_out k.m_A_query ++ (M.sparseG2G1.marshal_out k.m_B_query ++
        (M.sparseG1G1.marshal_out k.m_C_query ++ (M.vecG1.marshal_out k.m_H_query ++
          (M.vecG1.marshal_out k.m_K_query ++ rest)))) := by
    simp [PPZK_ProvingKey.marshal_out]
  obtain ⟨a1, a2, a3⟩ := hM.sparseG1G1 k.m_A_query old.m_A_query
    (M.sparseG2G1.marshal_out k.m_B_query ++ (M.sparseG1G1.marshal_out k.m_C_query ++
      (M.vecG1.marshal_out k.m_H_query ++ (M.vecG1.marshal_out k.m_K_query ++ rest))))
  obtain ⟨b1, b2, b3⟩ := hM.sparseG2G1 k.m_B_query old.m_B_query
    (M.sparseG1G1.marshal_out k.m_C_query ++
      (M.vecG1.marshal_out k.m_H_query ++ (M.vecG1.marshal_out k.m_K_query ++ rest)))
  obtain ⟨c1, c2, c3⟩ := hM.sparseG1G1 k.m_C_query old.m_C_query
    (M.vecG1.marshal_out k.m_H_query ++ (M.vecG1.marshal_out k.m_K_query ++ rest))
  obtain ⟨h1, h2, h3⟩ := hM.vecG1 k.m_H_query old.m_H_query (M.vecG1.marshal_out k.m_K_query ++ rest)
  obtain ⟨k1, k2, k3⟩ := hM.vecG1 k.m_K_query old.m_K_query rest
  rw [e]
  unfold PPZK_ProvingKey.marshal_in PPZK_ProvingKey.opEq
  simp only [a1, a3, b1, b3, c1, c3, h1, h3, k1, k3, a2, b2, c2, h2, k2, Bool.not_true,
    Bool.false_eq_true, if_false, Bool.and_self, and_self]

theorem PPZK_IC_Query.ic_marshal_roundTrips [BEq G1] [BEq G2]
    [BEq (SparseVector (Pairing G1 G1))] [BEq (SparseVector (Pairing G2 G1))]
    (M : KeyMarshal G1 G2) (hM : M.RoundTrips) (k old : PPZK_IC_Query G1) (rest : Stream) :
    (PPZK_IC_Query.marshal_in M old (PPZK_IC_Query.marshal_out M k [] ++ rest)).1 = true ∧
      PPZK_IC_Query.opEq (PPZK_IC_Query.marshal_in M old
        (PPZK_IC_Query.marshal_out M k [] ++ rest)).2.1 k = true ∧
      (PPZK_IC_Query.marshal_in M old (PPZK_IC_Query.marshal_out M k [] ++ rest)).2.2 = rest := by
  have e : PPZK_IC_Query.marshal_out M k [] ++ rest =
      M.G1.marshal_out k.m_base ++ (M.vecG1.marshal_out k.m_encoded_terms ++ rest) := by
    simp [PPZK_IC_Query.marshal_out]
  obtain ⟨a1, a2, a3⟩ := hM.G1 k.m_base old.m_base (M.vecG1.marshal_out k.m_encoded_terms ++ rest)
  obtain ⟨b1, b2, b3⟩ := hM.vecG1 k.m_encoded_terms old.m_encoded_terms rest
  rw [e]
  unfold PPZK_IC_Query.marshal_in PPZK_IC_Query.opEq
  simp only [a1, a3, b1, b3, a2, b2, Bool.not_true, Bool.false_eq_true, if_false,
    Bool.and_self, and_self]

end KeyRoundTrip

section KeyRoundTrip2

variable {G1 G2 : Type}

theorem PPZK_VerificationKey.vk_marshal_roundTrips [BEq G1] [BEq G2]
    [BEq (SparseVector (Pairing G1 G1))] [BEq (SparseVector (Pairing G2 G1))]
    (M : KeyMarshal G1 G2) (hM : M.RoundTrips) (k old : PPZK_VerificationKey G1 G2)
    (rest : Stream) :
    (PPZK_VerificationKey.marshal_in M old
        (PPZK_VerificationKey.marshal_out M k [] ++ rest)).1 = true ∧
      PPZK_VerificationKey.opEq (PPZK_VerificationKey.marshal_in M old
        (PPZK_VerificationKey.marshal_out M k [] ++ rest)).2.1 k = true ∧
      (PPZK_VerificationKey.marshal_in M old
        (PPZK_VerificationKey.marshal_out M k [] ++ rest)).2.2 = rest := by
  have e : PPZK_VerificationKey.marshal_out M k [] ++ rest =
      M.G2.marshal_out k.m_alphaA_g2 ++ (M.G1.marshal_out k.m_alphaB_g1 ++
        (M.G2.marshal_out k.m_alphaC_g2 ++ (M.G2.marshal_out k.m_gamma_g2 ++
          (M.G1.marshal_out k.m_gamma_beta_g1 ++ (M.G2.marshal_out k.m_gamma_beta_g2 ++
            (M.G2.marshal_out k.m_rC_Z_g2 ++
              (PPZK_IC_Query.marshal_out M k.m_encoded_IC_query [] ++ rest))))))) := by
    simp [PPZK_VerificationKey.marshal_out, PPZK_IC_Query.marshal_out]
  obtain ⟨i1, i2, i3⟩ := PPZK_IC_Query.ic_marshal_roundTrips M hM k.m_encoded_IC_query
    old.m_encoded_IC_query rest
  obtain ⟨g1, g2, g3⟩ := hM.G2 k.m_rC_Z_g2 old.m_rC_Z_g2
    (PPZK_IC_Query.marshal_out M k.m_encoded_IC_query [] ++ rest)
  obtain ⟨f1, f2, f3⟩ := hM.G2 k.m_gamma_beta_g2 old.m_gamma_beta_g2
    (M.G2.marshal_out k.m_rC_Z_g2 ++
      (PPZK_IC_Query.marshal_out M k.m_encoded_IC_query [] ++ rest))
  obtain ⟨e1, e2, e3⟩ := hM.G1 k.m_gamma_beta_g1 old.m_gamma_beta_g1
    (M.G2.marshal_out k.m_gamma_beta_g2 ++ (M.G2.marshal_out k.m_rC_Z_g2 ++
      (PPZK_IC_Query.marshal_out M k.m_encoded_IC_query [] ++ rest)))
  obtain ⟨d1, d2, d3⟩ := hM.G2 k.m_gamma_g2 old.m_gamma_g2
    (M.G1.marshal_out k.m_gamma_beta_g1 ++ (M.G2.marshal_out k.m_gamma_beta_g2 ++
      (M.G2.marshal_out k.m_rC_Z_g2 ++
        (PPZK_IC_Query.marshal_out M k.m_encoded_IC_query [] ++ rest))))
  obtain ⟨c1, c2, c3⟩ := hM.G2 k.m_alphaC_g2 old.m_alphaC_g2
    (M.G2.marshal_out k.m_gamma_g2 ++ (M.G1.marshal_out k.m_gamma_beta_g1 ++
      (M.G2.marshal_out k.m_gamma_beta_g2 ++ (M.G2.marshal_out k.m_rC_Z_g2 ++
        (PPZK_IC_Query.marshal_out M k.m_encoded_IC_query [] ++ rest)))))
  obtain ⟨b1, b2, b3⟩ := hM.G1 k.m_alphaB_g1 old.m_alphaB_g1
    (M.G2.marshal_out k.m_alphaC_g2 ++ (M.G2.marshal_out k.m_gamma_g2 ++
      (M.G1.marshal_out k.m_gamma_beta_g1 ++ (M.G2.marshal_out k.m_gamma_beta_g2 ++
        (M.G2.marshal_out k.m_rC_Z_g2 ++
          (PPZK_IC_Query.marshal_out M k.m_encoded_IC_query [] ++ rest))))))
  obtain ⟨a1, a2, a3⟩ := hM.G2 k.m_alphaA_g2 old.m_alphaA_g2
    (M.G1.marshal_out k.m_alphaB_g1 ++ (M.G2.marshal_out k.m_alphaC_g2 ++
      (M.G2.marshal_out k.m_gamma_g2 ++ (M.G1.marshal_out k.m_gamma_beta_g1 ++
        (M.G2.marshal_out k.m_gamma_beta_g2 ++ (M.G2.marshal_out k.m_rC_Z_g2 ++
          (PPZK_IC_Query.marshal_out M k.m_encoded_IC_query [] ++ rest)))))))
  rw [e]
  unfold PPZK_VerificationKey.marshal_in PPZK_VerificationKey.opEq
  simp only [a1, a3, b1, b3, c1, c3, d1, d3, e1, e3, f1, f3, g1, g3, i1, i3, a2, b2, c2, d2,
    e2, f2, g2, i2, Bool.not_true, Bool.false_eq_true, if_false, Bool.and_self, and_self]

theorem PPZK_Keypair.keypair_marshal_roundTrips [BEq G1] [BEq G2]
    [BEq (SparseVector (Pairing G1 G1))] [BEq (SparseVector (Pairing G2 G1))]
    (M : KeyMarshal G1 G2) (hM : M.RoundTrips) (k old : PPZK_Keypair G1 G2) (rest : Stream) :
    (PPZK_Keypair.marshal_in M old (PPZK_Keypair.marshal_out M k [] ++ rest)).1 = true ∧
      PPZK_Keypair.opEq (PPZK_Keypair.marshal_in M old
        (PPZK_Keypair.marshal_out M k [] ++ rest)).2.1 k = true ∧
      (PPZK_Keypair.marshal_in M old (PPZK_Keypair.marshal_out M k [] ++ rest)).2.2 = rest := by
  have e : PPZK_Keypair.marshal_out M k [] ++ rest =
      PPZK_ProvingKey.marshal_out M k.m_pk [] ++
        (PPZK_VerificationKey.marshal_out M k.m_vk [] ++ rest) := by
    simp [PPZK_Keypair.marshal_out, PPZK_ProvingKey.pk_marshal_out_eq_append,
      PPZK_VerificationKey.vk_marshal_out_eq_append]
  obtain ⟨p1, p2, p3⟩ := PPZK_ProvingKey.pk_marshal_roundTrips M hM k.m_pk old.m_pk
    (PPZK_VerificationKey.marshal_out M k.m_vk [] ++ rest)
  obtain ⟨v1, v2, v3⟩ := PPZK_VerificationKey.vk_marshal_roundTrips M hM k.m_vk old.m_vk rest
  rw [e]
  unfold PPZK_Keypair.marshal_in PPZK_Keypair.opEq
  simp only [p1, p3, v1, v3, p2, v2, Bool.not_true, Bool.false_eq_true, if_false,
    Bool.and_self, and_self]

end KeyRoundTrip2

section ToyCodecs

theorem Toy.byteOf_lt (x : ZMod 7) : (Toy.byteOf x).val < 7 := (show Fin 7 from x).isLt

theorem Toy.decodeVec_terminator (rest : Stream) :
    Toy.decodeVec ((255 : Fin 256) :: rest) = some ([], rest) := by
  cases rest with
  | nil => rfl
  | cons y r => rfl

theorem Toy.decodeVec_cons (x y : ZMod 7) (s : Stream) :
    Toy.decodeVec (Toy.byteOf x :: Toy.byteOf y :: s)
      = (Toy.decodeVec s).map (fun r => ((x, y) :: r.1, r.2)) := by
  have hx := Toy.byteOf_lt x
  have hy := Toy.byteOf_lt y
  have hx' : ¬ (Toy.byteOf x).val = 255 := by omega
  simp only [Toy.decodeVec, hx', if_false, hx, hy, and_self, dite_true]
  rfl

theorem Toy.decodeVec_encode (l : List Toy.G1) (rest : Stream) :
    Toy.decodeVec (l.flatMap Toy.marshalG.marshal_out ++ [255] ++ rest) = some (l, rest) := by
  induction l with
  | nil => exact Toy.decodeVec_terminator rest
  | cons g l ih =>
    obtain ⟨x, y⟩ := g
    have h : ((x, y) :: l).flatMap Toy.marshalG.marshal_out ++ [255] ++ rest
        = Toy.byteOf x :: Toy.byteOf y
            :: (l.flatMap Toy.marshalG.marshal_out ++ [255] ++ rest) := by
      simp [Toy.marshalG, List.flatMap_cons]
    rw [h, Toy.decodeVec_cons, ih]
    rfl

end ToyCodecs

section ToyCodecs

theorem Toy.marshalVec_roundTrips : Toy.marshalVec.RoundTrips := by
  intro a old rest
  have h := Toy.decodeVec_encode a rest
  simp only [Toy.marshalVec] at h ⊢
  rw [h]
  exact ⟨rfl, by rw [beq_iff_eq], rfl⟩

theorem Toy.decodeSparse_terminator (rest : Stream) (n : Nat) (acc : List (ZMod 7)) :
    Toy.decodeSparse ((255 : Fin 256) :: rest) n acc = some ([], rest) := by
  have h1 : ¬ ((255 : Fin 256).val < 7) := by decide
  have h2 : ¬ ((255 : Fin 256).val = 7) := by decide
  have h3 : (255 : Fin 256).val = 255 := rfl
  rw [Toy.decodeSparse, dif_neg h1, if_neg h2, if_pos h3]

theorem Toy.decodeSparse_index (k n : Nat) (acc : List (ZMod 7)) (s : Stream) :
    Toy.decodeSparse (List.replicate k (7 : Fin 256) ++ s) n acc
      = Toy.decodeSparse s (n + k) acc := by
  induction k generalizing n with
  | zero => rfl
  | succ k ih =>
    have h1 : ¬ ((7 : Fin 256).val < 7) := by decide
    have h2 : (7 : Fin 256).val = 7 := rfl
    rw [List.replicate_succ, List.cons_append, Toy.decodeSparse, dif_neg h1, if_pos h2, ih,
      Nat.add_assoc, Nat.add_comm 1 k]

theorem Toy.decodeSparse_byte (x : ZMod 7) (n : Nat) (acc : List (ZMod 7)) (s : Stream)
    (h : acc.length < 3) :
    Toy.decodeSparse (Toy.byteOf x :: s) n acc = Toy.decodeSparse s n (acc ++ [x]) := by
  have hx := Toy.byteOf_lt x
  rw [Toy.decodeSparse]
  simp only [hx, dite_true]
  split
  · simp at h
  · rfl

theorem Toy.decodeSparse_last (x a b c : ZMod 7) (n : Nat) (s : Stream) :
    Toy.decodeSparse (Toy.byteOf x :: s) n [a, b, c]
      = (Toy.decodeSparse s 0 []).map (fun r => ((n, ⟨(a, b), (c, x)⟩) :: r.1, r.2)) := by
  have hx := Toy.byteOf_lt x
  rw [Toy.decodeSparse]
  simp only [hx, dite_true]
  rfl

theorem Toy.decodeSparse_entry (x y z w : ZMod 7) (n : Nat) (s : Stream) :
    Toy.decodeSparse
        (Toy.byteOf x :: Toy.byteOf y :: Toy.byteOf z :: Toy.byteOf w :: s) n []
      = (Toy.decodeSparse s 0 []).map (fun r => ((n, ⟨(x, y), (z, w)⟩) :: r.1, r.2)) := by
  rw [Toy.decodeSparse_byte x n [] _ (by decide), List.nil_append,
    Toy.decodeSparse_byte y n [x] _ (by simp), List.singleton_append,
    Toy.decodeSparse_byte z n [x, y] _ (by simp)]
  exact Toy.decodeSparse_last w x y z n s

theorem Toy.decodeSparse_encode (l : List (Nat × Pairing Toy.G1 Toy.G1)) (rest : Stream) :
    Toy.decodeSparse
        (l.flatMap (fun e => List.replicate e.1 7 ++ Toy.marshalGG.marshal_out e.2)
          ++ [255] ++ rest) 0 []
      = some (l, rest) := by
  induction l with
  | nil => exact Toy.decodeSparse_terminator rest 0 []
  | cons e l ih =>
    obtain ⟨k, ⟨⟨x, y⟩, ⟨z, w⟩⟩⟩ := e
    have h : ((k, (⟨(x, y), (z, w)⟩ : Pairing Toy.G1 Toy.G1)) :: l).flatMap
          (fun e => List.replicate e.1 7 ++ Toy.marshalGG.marshal_out e.2) ++ [255] ++ rest
        = List.replicate k (7 : Fin 256) ++
            (Toy.byteOf x :: Toy.byteOf y :: Toy.byteOf z :: Toy.byteOf w ::
              (l.flatMap (fun e => List.replicate e.1 7 ++ Toy.marshalGG.marshal_out e.2)
                ++ [255] ++ rest)) := by
      simp [Toy.marshalGG, Toy.marshalG, List.flatMap_cons]
    rw [h, Toy.decodeSparse_index, Toy.decodeSparse_entry, ih, Nat.zero_add]
    rfl

theorem Toy.marshalSparse_roundTrips : Toy.marshalSparse.RoundTrips := by
  intro a old rest
  have h := Toy.decodeSparse_encode a.m_entries rest
  simp only [Toy.marshalSparse] at h ⊢
  rw [h]
  exact ⟨rfl, by rw [beq_iff_eq], rfl⟩

theorem Toy.keyMarshal_roundTrips : Toy.keyMarshal.RoundTrips :=
  ⟨Toy.marshalVec_roundTrips, Toy.marshalSparse_roundTrips, Toy.marshalSparse_roundTrips,
    Toy.marshalG_roundTrips, Toy.marshalG_roundTrips⟩

end ToyCodecs

/-! ## Round trip of the keys -/

section KeyClaims

variable {G1 G2 : Type}

/-- C11: if the encodings of the component types round-trip, then for every
proving key, verification key (its IC query included) and key pair `k`,
`marshal_in` on the bytes written by `marshal_out` returns true, consumes
exactly those bytes and leaves an object equal to `k` under `operator==`,
whatever the object held before; the bytes of a key pair are those of its
proving key followed by those of its verification key, read back-to-back from
the one stream, and `operator>>` after `operator<<` gives the key pair back
as well. -/
theorem key_marshal_roundtrip [BEq G1] [BEq G2]
    [BEq (SparseVector (Pairing G1 G1))] [BEq (SparseVector (Pairing G2 G1))]
    [Zero G1] [Zero G2]
    (M : KeyMarshal G1 G2) (hM : M.RoundTrips)
    (pk oldPk : PPZK_ProvingKey G1 G2) (vk oldVk : PPZK_VerificationKey G1 G2)
    (kp oldKp : PPZK_Keypair G1 G2) (rest : Stream) :
    ((PPZK_ProvingKey.marshal_in M oldPk (PPZK_ProvingKey.marshal_out M pk [] ++ rest)).1 = true ∧
      PPZK_ProvingKey.opEq (PPZK_ProvingKey.marshal_in M oldPk
        (PPZK_ProvingKey.marshal_out M pk [] ++ rest)).2.1 pk = true ∧
      (PPZK_ProvingKey.marshal_in M oldPk
        (PPZK_ProvingKey.marshal_out M pk [] ++ rest)).2.2 = rest) ∧
    ((PPZK_VerificationKey.marshal_in M oldVk
        (PPZK_VerificationKey.marshal_out M vk [] ++ rest)).1 = true ∧
      PPZK_VerificationKey.opEq (PPZK_VerificationKey.marshal_in M oldVk
        (PPZK_VerificationKey.marshal_out M vk [] ++ rest)).2.1 vk = true ∧
      (PPZK_VerificationKey.marshal_in M oldVk
        (PPZK_VerificationKey.marshal_out M vk [] ++ rest)).2.2 = rest) ∧
    (PPZK_Keypair.marshal_out M kp [] =
        PPZK_ProvingKey.marshal_out M kp.m_pk [] ++
          PPZK_VerificationKey.marshal_out M kp.m_vk [] ∧
      (PPZK_Keypair.marshal_in M oldKp (PPZK_Keypair.marshal_out M kp [] ++ rest)).1 = true ∧
      PPZK_Keypair.opEq (PPZK_Keypair.marshal_in M oldKp
        (PPZK_Keypair.marshal_out M kp [] ++ rest)).2.1 kp = true ∧
      (PPZK_Keypair.marshal_in M oldKp (PPZK_Keypair.marshal_out M kp [] ++ rest)).2.2 = rest ∧
      PPZK_Keypair.opEq (PPZK_Keypair.read M (PPZK_Keypair.write M [] kp ++ rest) oldKp).1 kp
        = true ∧
      (PPZK_Keypair.read M (PPZK_Keypair.write M [] kp ++ rest) oldKp).2 = rest) := by
  have hk := PPZK_Keypair.keypair_marshal_roundTrips M hM kp oldKp rest
  refine ⟨PPZK_ProvingKey.pk_marshal_roundTrips M hM pk oldPk rest,
    PPZK_VerificationKey.vk_marshal_roundTrips M hM vk oldVk rest, ?_, hk.1, hk.2.1, hk.2.2, ?_, ?_⟩
  · simp [PPZK_Keypair.marshal_out, PPZK_ProvingKey.pk_marshal_out_eq_append,
      PPZK_VerificationKey.vk_marshal_out_eq_append]
  · simp only [PPZK_Keypair.read, PPZK_Keypair.write, hk.1, Bool.not_true, Bool.false_eq_true,
      if_false]
    exact hk.2.1
  · simp only [PPZK_Keypair.read, PPZK_Keypair.write, hk.1, Bool.not_true, Bool.false_eq_true,
      if_false]
    exact hk.2.2

/-- The instance of C11 at the encodings `Toy.keyMarshal`, the proving key and
the verification key of `Toy.keypair1` and that key pair, read into
`Toy.keypair2` with two bytes following. -/
theorem key_marshal_roundtrip_witness :
    Toy.keyMarshal.RoundTrips ∧
    ((PPZK_ProvingKey.marshal_in Toy.keyMarshal Toy.keypair2.m_pk
        (PPZK_ProvingKey.marshal_out Toy.keyMarshal Toy.keypair1.m_pk [] ++ [8, 9])).1 = true ∧
      PPZK_ProvingKey.opEq (PPZK_ProvingKey.marshal_in Toy.keyMarshal Toy.keypair2.m_pk
        (PPZK_ProvingKey.marshal_out Toy.keyMarshal Toy.keypair1.m_pk [] ++ [8, 9])).2.1
        Toy.keypair1.m_pk = true) ∧
    ((PPZK_VerificationKey.marshal_in Toy.keyMarshal Toy.keypair2.m_vk
        (PPZK_VerificationKey.marshal_out Toy.keyMarshal Toy.vk [] ++ [8, 9])).1 = true ∧
      PPZK_VerificationKey.opEq (PPZK_VerificationKey.marshal_in Toy.keyMarshal
        Toy.keypair2.m_vk
        (PPZK_VerificationKey.marshal_out Toy.keyMarshal Toy.vk [] ++ [8, 9])).2.1
        Toy.vk = true) ∧
    ((PPZK_Keypair.marshal_in Toy.keyMarshal Toy.keypair2
        (PPZK_Keypair.marshal_out Toy.keyMarshal Toy.keypair1 [] ++ [8, 9])).1 = true ∧
      PPZK_Keypair.opEq (PPZK_Keypair.marshal_in Toy.keyMarshal Toy.keypair2
        (PPZK_Keypair.marshal_out Toy.keyMarshal Toy.keypair1 [] ++ [8, 9])).2.1
        Toy.keypair1 = true ∧
      (PPZK_Keypair.marshal_in Toy.keyMarshal Toy.keypair2
        (PPZK_Keypair.marshal_out Toy.keyMarshal Toy.keypair1 [] ++ [8, 9])).2.2 = [8, 9]) :=
  have h := key_marshal_roundtrip Toy.keyMarshal Toy.keyMarshal_roundTrips
    Toy.keypair1.m_pk Toy.keypair2.m_pk Toy.vk Toy.keypair2.m_vk Toy.keypair1 Toy.keypair2 [8, 9]
  ⟨Toy.keyMarshal_roundTrips, ⟨h.1.1, h.1.2.1⟩, ⟨h.2.1.1, h.2.1.2.1⟩,
    ⟨h.2.2.2.1, h.2.2.2.2.1, h.2.2.2.2.2.1⟩⟩

end KeyClaims

/-! ## Reading with `operator>>`, failed reads and the persistent layout -/

section ReadClaims

variable {G1 G2 : Type}

theorem PPZK_Proof.proof_read_of_true [Zero G1] [Zero G2] (M : ProofMarshal G1 G2) (is : Stream)
    (a : PPZK_Proof G1 G2) (h : (PPZK_Proof.marshal_in M a is).1 = true) :
    (PPZK_Proof.read M is a).1 = (PPZK_Proof.marshal_in M a is).2.1 := by
  simp [PPZK_Proof.read, h]

theorem PPZK_Proof.proof_read_of_false [Zero G1] [Zero G2] (M : ProofMarshal G1 G2) (is : Stream)
    (a : PPZK_Proof G1 G2) (h : (PPZK_Proof.marshal_in M a is).1 = false) :
    (PPZK_Proof.read M is a).1 = ⟨⟨0, 0⟩, ⟨0, 0⟩, ⟨0, 0⟩, 0, 0⟩ := by
  simp [PPZK_Proof.read, h, PPZK_Proof.clear]

theorem PPZK_Keypair.keypair_read_of_true [Zero G1] [Zero G2] (M : KeyMarshal G1 G2) (is : Stream)
    (a : PPZK_Keypair G1 G2) (h : (PPZK_Keypair.marshal_in M a is).1 = true) :
    (PPZK_Keypair.read M is a).1 = (PPZK_Keypair.marshal_in M a is).2.1 := by
  simp [PPZK_Keypair.read, h]

theorem PPZK_Keypair.keypair_read_of_false [Zero G1] [Zero G2] (M : KeyMarshal G1 G2) (is : Stream)
    (a : PPZK_Keypair G1 G2) (h : (PPZK_Keypair.marshal_in M a is).1 = false) :
    (PPZK_Keypair.read M is a).1 =
      ⟨⟨⟨[]⟩, ⟨[]⟩, ⟨[]⟩, [], []⟩, ⟨0, 0, 0, 0, 0, 0, 0, ⟨0, []⟩⟩⟩ := by
  simp [PPZK_Keypair.read, h, PPZK_Keypair.clear, PPZK_ProvingKey.clear,
    PPZK_VerificationKey.clear, PPZK_IC_Query.clear, SparseVector.clear]

/-- C12: reading with `operator>>` is all-or-nothing.  For every stream and
every prior state of a proof, after `is >> a` either each of the five
sub-reads succeeded and `a` is the object they filled in, or `a` is the
cleared proof (every group element zero) and `a.empty()` is true; likewise for
a key pair, whose cleared state has every query vector empty and every group
element zero.  The test `isZero()` is taken to hold of `G1::zero()`. -/
theorem read_all_or_nothing [Zero G1] [Zero G2] (MP : ProofMarshal G1 G2)
    (M : KeyMarshal G1 G2) (Z : ZeroTests G1 G2) (hz : Z.G1_isZero 0 = true)
    (is : Stream) (p : PPZK_Proof G1 G2) (k : PPZK_Keypair G1 G2) :
    ((subReadResults (PPZK_Proof.fields MP) p is = List.replicate 5 true ∧
        (PPZK_Proof.read MP is p).1 = (readFields (PPZK_Proof.fields MP) p is).2.1) ∨
      (false ∈ subReadResults (PPZK_Proof.fields MP) p is ∧
        (PPZK_Proof.read MP is p).1 = ⟨⟨0, 0⟩, ⟨0, 0⟩, ⟨0, 0⟩, 0, 0⟩ ∧
        PPZK_Proof.empty Z (PPZK_Proof.read MP is p).1 = true)) ∧
    ((subReadResults (PPZK_Keypair.fields M) k is = List.replicate 2 true ∧
        (PPZK_Keypair.read M is k).1 = (readFields (PPZK_Keypair.fields M) k is).2.1) ∨
      (false ∈ subReadResults (PPZK_Keypair.fields M) k is ∧
        (PPZK_Keypair.read M is k).1 =
          ⟨⟨⟨[]⟩, ⟨[]⟩, ⟨[]⟩, [], []⟩, ⟨0, 0, 0, 0, 0, 0, 0, ⟨0, []⟩⟩⟩ ∧
        PPZK_Keypair.empty Z (PPZK_Keypair.read M is k).1 = true)) := by
  constructor
  · cases h : (PPZK_Proof.marshal_in MP p is).1
    · right
      have hr := PPZK_Proof.proof_read_of_false MP is p h
      rw [PPZK_Proof.proof_marshal_in_eq_readFields, readFields_fst_eq_false_iff] at h
      refine ⟨h, hr, ?_⟩
      rw [hr]
      simp [PPZK_Proof.empty, Pairing.isZero, hz]
    · left
      have hr := PPZK_Proof.proof_read_of_true MP is p h
      rw [PPZK_Proof.proof_marshal_in_eq_readFields] at hr
      rw [PPZK_Proof.proof_marshal_in_eq_readFields, readFields_fst_eq_true_iff] at h
      exact ⟨h, hr⟩
  · cases h : (PPZK_Keypair.marshal_in M k is).1
    · right
      have hr := PPZK_Keypair.keypair_read_of_false M is k h
      rw [PPZK_Keypair.keypair_marshal_in_eq_readFields, readFields_fst_eq_false_iff] at h
      refine ⟨h, hr, ?_⟩
      rw [hr]
      simp [PPZK_Keypair.empty, PPZK_ProvingKey.empty, SparseVector.empty]
    · left
      have hr := PPZK_Keypair.keypair_read_of_true M is k h
      rw [PPZK_Keypair.keypair_marshal_in_eq_readFields] at hr
      rw [PPZK_Keypair.keypair_marshal_in_eq_readFields, readFields_fst_eq_true_iff] at h
      exact ⟨h, hr⟩

/-- The instance of C12 at the encodings of the small pairing, the stream
`[1, 0, 0, 0]` (one pair, then the end of the stream), the proof
`Toy.proofOk` and the key pair `Toy.keypair1`. -/
theorem read_all_or_nothing_witness :
    Toy.zeroTests.G1_isZero 0 = true ∧
    ((subReadResults (PPZK_Proof.fields Toy.proofMarshal) Toy.proofOk [1, 0, 0, 0]
          = List.replicate 5 true ∧
        (PPZK_Proof.read Toy.proofMarshal [1, 0, 0, 0] Toy.proofOk).1
          = (readFields (PPZK_Proof.fields Toy.proofMarshal) Toy.proofOk [1, 0, 0, 0]).2.1) ∨
      (false ∈ subReadResults (PPZK_Proof.fields Toy.proofMarshal) Toy.proofOk [1, 0, 0, 0] ∧
        (PPZK_Proof.read Toy.proofMarshal [1, 0, 0, 0] Toy.proofOk).1
          = ⟨⟨0, 0⟩, ⟨0, 0⟩, ⟨0, 0⟩, 0, 0⟩ ∧
        PPZK_Proof.empty Toy.zeroTests
          (PPZK_Proof.read Toy.proofMarshal [1, 0, 0, 0] Toy.proofOk).1 = true)) ∧
    ((subReadResults (PPZK_Keypair.fields Toy.keyMarshal) Toy.keypair1 [1, 0, 0, 0]
          = List.replicate 2 true ∧
        (PPZK_Keypair.read Toy.keyMarshal [1, 0, 0, 0] Toy.keypair1).1
          = (readFields (PPZK_Keypair.fields Toy.keyMarshal) Toy.keypair1 [1, 0, 0, 0]).2.1) ∨
      (false ∈ subReadResults (PPZK_Keypair.fields Toy.keyMarshal) Toy.keypair1 [1, 0, 0, 0] ∧
        (PPZK_Keypair.read Toy.keyMarshal [1, 0, 0, 0] Toy.keypair1).1 =
          ⟨⟨⟨[]⟩, ⟨[]⟩, ⟨[]⟩, [], []⟩, ⟨0, 0, 0, 0, 0, 0, 0, ⟨0, []⟩⟩⟩ ∧
        PPZK_Keypair.empty Toy.zeroTests
          (PPZK_Keypair.read Toy.keyMarshal [1, 0, 0, 0] Toy.keypair1).1 = true)) :=
  ⟨by decide,
    read_all_or_nothing Toy.proofMarshal Toy.keyMarshal Toy.zeroTests (by decide)
      [1, 0, 0, 0] Toy.proofOk Toy.keypair1⟩

end ReadClaims

section FailedReadClaims

variable {G1 G2 : Type}

/-- The proof after `marshal_in`, member by member: a member holds what its
own sub-read left when the sub-reads before it succeeded, and what it held
before otherwise. -/
theorem PPZK_Proof.proof_marshal_in_members (M : ProofMarshal G1 G2) (p : PPZK_Proof G1 G2)
    (is : Stream) :
    let rA := M.G1G1.marshal_in p.m_A is
    let rB := M.G2G1.marshal_in p.m_B rA.2.2
    let rC := M.G1G1.marshal_in p.m_C rB.2.2
    let rH := M.G1.marshal_in p.m_H rC.2.2
    let rK := M.G1.marshal_in p.m_K rH.2.2
    (PPZK_Proof.marshal_in M p is).2.1 =
      { m_A := rA.2.1
        m_B := if rA.1 then rB.2.1 else p.m_B
        m_C := if rA.1 && rB.1 then rC.2.1 else p.m_C
        m_H := if rA.1 && rB.1 && rC.1 then rH.2.1 else p.m_H
        m_K := if rA.1 && rB.1 && rC.1 && rH.1 then rK.2.1 else p.m_K } := by
  intro rA rB rC rH rK
  simp only [PPZK_Proof.marshal_in]
  split_ifs <;> simp_all [rA, rB, rC, rH, rK]

/-- The proving key after `marshal_in`, member by member. -/
theorem PPZK_ProvingKey.pk_marshal_in_members (M : KeyMarshal G1 G2)
    (pk : PPZK_ProvingKey G1 G2) (is : Stream) :
    let rA := M.sparseG1G1.marshal_in pk.m_A_query is
    let rB := M.sparseG2G1.marshal_in pk.m_B_query rA.2.2
    let rC := M.sparseG1G1.marshal_in pk.m_C_query rB.2.2
    let rH := M.vecG1.marshal_in pk.m_H_query rC.2.2
    let rK := M.vecG1.marshal_in pk.m_K_query rH.2.2
    (PPZK_ProvingKey.marshal_in M pk is).2.1 =
      { m_A_query := rA.2.1
        m_B_query := if rA.1 then rB.2.1 else pk.m_B_query
        m_C_query := if rA.1 && rB.1 then rC.2.1 else pk.m_C_query
        m_H_query := if rA.1 && rB.1 && rC.1 then rH.2.1 else pk.m_H_query
        m_K_query := if rA.1 && rB.1 && rC.1 && rH.1 then rK.2.1 else pk.m_K_query } := by
  intro rA rB rC rH rK
  simp only [PPZK_ProvingKey.marshal_in]
  split_ifs <;> simp_all [rA, rB, rC, rH, rK]

/-- The IC query after `marshal_in`, member by member. -/
theorem PPZK_IC_Query.ic_marshal_in_members (M : KeyMarshal G1 G2) (ic : PPZK_IC_Query G1)
    (is : Stream) :
    let rB := M.G1.marshal_in ic.m_base is
    let rT := M.vecG1.marshal_in ic.m_encoded_terms rB.2.2
    (PPZK_IC_Query.marshal_in M ic is).2.1 =
      { m_base := rB.2.1
        m_encoded_terms := if rB.1 then rT.2.1 else ic.m_encoded_terms } := by
  intro rB rT
  simp only [PPZK_IC_Query.marshal_in]
  split_ifs <;> simp_all [rB, rT]

/-- The key pair after `marshal_in`, member by member. -/
theorem PPZK_Keypair.keypair_marshal_in_members (M : KeyMarshal G1 G2) (kp : PPZK_Keypair G1 G2)
    (is : Stream) :
    let rP := PPZK_ProvingKey.marshal_in M kp.m_pk is
    let rV := PPZK_VerificationKey.marshal_in M kp.m_vk rP.2.2
    (PPZK_Keypair.marshal_in M kp is).2.1 =
      { m_pk := rP.2.1
        m_vk := if rP.1 then rV.2.1 else kp.m_vk } := by
  intro rP rV
  simp only [PPZK_Keypair.marshal_in]
  split_ifs <;> simp_all [rP, rV]

/-- The verification key after `marshal_in`, member by member. -/
theorem PPZK_VerificationKey.vk_marshal_in_members (M : KeyMarshal G1 G2)
    (vk : PPZK_VerificationKey G1 G2) (is : Stream) :
    let r1 := M.G2.marshal_in vk.m_alphaA_g2 is
    let r2 := M.G1.marshal_in vk.m_alphaB_g1 r1.2.2
    let r3 := M.G2.marshal_in vk.m_alphaC_g2 r2.2.2
    let r4 := M.G2.marshal_in vk.m_gamma_g2 r3.2.2
    let r5 := M.G1.marshal_in vk.m_gamma_beta_g1 r4.2.2
    let r6 := M.G2.marshal_in vk.m_gamma_beta_g2 r5.2.2
    let r7 := M.G2.marshal_in vk.m_rC_Z_g2 r6.2.2
    let r8 := PPZK_IC_Query.marshal_in M vk.m_encoded_IC_query r7.2.2
    (PPZK_VerificationKey.marshal_in M vk is).2.1 =
      { m_alphaA_g2 := r1.2.1
        m_alphaB_g1 := if r1.1 then r2.2.1 else vk.m_alphaB_g1
        m_alphaC_g2 := if r1.1 && r2.1 then r3.2.1 else vk.m_alphaC_g2
        m_gamma_g2 := if r1.1 && r2.1 && r3.1 then r4.2.1 else vk.m_gamma_g2
        m_gamma_beta_g1 :=
          if r1.1 && r2.1 && r3.1 && r4.1 then r5.2.1 else vk.m_gamma_beta_g1
        m_gamma_beta_g2 :=
          if r1.1 && r2.1 && r3.1 && r4.1 && r5.1 then r6.2.1 else vk.m_gamma_beta_g2
        m_rC_Z_g2 :=
          if r1.1 && r2.1 && r3.1 && r4.1 && r5.1 && r6.1 then r7.2.1 else vk.m_rC_Z_g2
        m_encoded_IC_query :=
          if r1.1 && r2.1 && r3.1 && r4.1 && r5.1 && r6.1 && r7.1 then r8.2.1
          else vk.m_encoded_IC_query } := by
  intro r1 r2 r3 r4 r5 r6 r7 r8
  simp only [PPZK_VerificationKey.marshal_in]
  cases h1 : r1.1
  · simp_all [r1]
  cases h2 : r2.1
  · simp_all [r1, r2]
  cases h3 : r3.1
  · simp_all [r1, r2, r3]
  cases h4 : r4.1
  · simp_all [r1, r2, r3, r4]
  cases h5 : r5.1
  · simp_all [r1, r2, r3, r4, r5]
  cases h6 : r6.1
  · simp_all [r1, r2, r3, r4, r5, r6]
  cases h7 : r7.1
  · simp_all [r1, r2, r3, r4, r5, r6, r7]
  simp_all [r1, r2, r3, r4, r5, r6, r7, r8]

/-- C13, as stated, fails: on the stream `[1, 0, 0, 0]` the first sub-read of
`PPZK_Proof::marshal_in` succeeds and the second meets the end of the stream,
so `marshal_in` returns false, and the object then holds in `A` the pair taken
from the stream, which differs from what it held before, and is not the
cleared proof.  Likewise `PPZK_ProvingKey::marshal_in` on the stream `[255]`
returns false and leaves the former `K_query` in place. -/
theorem marshal_in_false_not_cleared :
    (PPZK_Proof.marshal_in Toy.proofMarshal Toy.proofOk [1, 0, 0, 0]).1 = false ∧
    (PPZK_Proof.marshal_in Toy.proofMarshal Toy.proofOk [1, 0, 0, 0]).2.1.m_A
      = ⟨(1, 0), (0, 0)⟩ ∧
    Toy.proofOk.m_A ≠ ⟨(1, 0), (0, 0)⟩ ∧
    (PPZK_Proof.marshal_in Toy.proofMarshal Toy.proofOk [1, 0, 0, 0]).2.1
      ≠ PPZK_Proof.clear Toy.proofOk ∧
    (PPZK_ProvingKey.marshal_in Toy.keyMarshal Toy.keypair2.m_pk [255]).1 = false ∧
    (PPZK_ProvingKey.marshal_in Toy.keyMarshal Toy.keypair2.m_pk [255]).2.1.m_K_query
      = [(2, 0), (2, 0)] ∧
    (PPZK_ProvingKey.marshal_in Toy.keyMarshal Toy.keypair2.m_pk [255]).2.1
      ≠ PPZK_ProvingKey.clear Toy.keypair2.m_pk := by
  decide

/-- C13, amended: for the proving key, the verification key, the IC query,
the key pair and the proof, `marshal_in` returns false exactly when one of
the sub-reads, made in order up to the first failure, fails.  It does not
clear the object: a member whose sub-read was made (every sub-read before it
succeeded) holds what that sub-read left in it, and a member after the first
failing sub-read holds what it held before.  The object is cleared by
`operator>>` alone, which exists for the proof and the key pair: after
`is >> a` the object is the cleared one whenever `marshal_in` returned false
and the one `marshal_in` left otherwise. -/
theorem marshal_in_false_iff [Zero G1] [Zero G2] (MP : ProofMarshal G1 G2)
    (M : KeyMarshal G1 G2) (is : Stream) (pk : PPZK_ProvingKey G1 G2)
    (vk : PPZK_VerificationKey G1 G2) (ic : PPZK_IC_Query G1) (kp : PPZK_Keypair G1 G2)
    (p : PPZK_Proof G1 G2) :
    (((PPZK_ProvingKey.marshal_in M pk is).1 = false
        ↔ false ∈ subReadResults (PPZK_ProvingKey.fields M) pk is) ∧
      ((PPZK_VerificationKey.marshal_in M vk is).1 = false
        ↔ false ∈ subReadResults (PPZK_VerificationKey.fields M) vk is) ∧
      ((PPZK_IC_Query.marshal_in M ic is).1 = false
        ↔ false ∈ subReadResults (PPZK_IC_Query.fields M) ic is) ∧
      ((PPZK_Keypair.marshal_in M kp is).1 = false
        ↔ false ∈ subReadResults (PPZK_Keypair.fields M) kp is) ∧
      ((PPZK_Proof.marshal_in MP p is).1 = false
        ↔ false ∈ subReadResults (PPZK_Proof.fields MP) p is)) ∧
    ((let rA := M.sparseG1G1.marshal_in pk.m_A_query is
      let rB := M.sparseG2G1.marshal_in pk.m_B_query rA.2.2
      let rC := M.sparseG1G1.marshal_in pk.m_C_query rB.2.2
      let rH := M.vecG1.marshal_in pk.m_H_query rC.2.2
      let rK := M.vecG1.marshal_in pk.m_K_query rH.2.2
      (PPZK_ProvingKey.marshal_in M pk is).2.1 =
        { m_A_query := rA.2.1
          m_B_query := if rA.1 then rB.2.1 else pk.m_B_query
          m_C_query := if rA.1 && rB.1 then rC.2.1 else pk.m_C_query
          m_H_query := if rA.1 && rB.1 && rC.1 then rH.2.1 else pk.m_H_query
          m_K_query := if rA.1 && rB.1 && rC.1 && rH.1 then rK.2.1 else pk.m_K_query }) ∧
      (let r1 := M.G2.marshal_in vk.m_alphaA_g2 is
      let r2 := M.G1.marshal_in vk.m_alphaB_g1 r1.2.2
      let r3 := M.G2.marshal_in vk.m_alphaC_g2 r2.2.2
      let r4 := M.G2.marshal_in vk.m_gamma_g2 r3.2.2
      let r5 := M.G1.marshal_in vk.m_gamma_beta_g1 r4.2.2
      let r6 := M.G2.marshal_in vk.m_gamma_beta_g2 r5.2.2
      let r7 := M.G2.marshal_in vk.m_rC_Z_g2 r6.2.2
      let r8 := PPZK_IC_Query.marshal_in M vk.m_encoded_IC_query r7.2.2
      (PPZK_VerificationKey.marshal_in M vk is).2.1 =
        { m_alphaA_g2 := r1.2.1
          m_alphaB_g1 := if r1.1 then r2.2.1 else vk.m_alphaB_g1
          m_alphaC_g2 := if r1.1 && r2.1 then r3.2.1 else vk.m_alphaC_g2
          m_gamma_g2 := if r1.1 && r2.1 && r3.1 then r4.2.1 else vk.m_gamma_g2
          m_gamma_beta_g1 :=
            if r1.1 && r2.1 && r3.1 && r4.1 then r5.2.1 else vk.m_gamma_beta_g1
          m_gamma_beta_g2 :=
            if r1.1 && r2.1 && r3.1 && r4.1 && r5.1 then r6.2.1 else vk.m_gamma_beta_g2
          m_rC_Z_g2 :=
            if r1.1 && r2.1 && r3.1 && r4.1 && r5.1 && r6.1 then r7.2.1 else vk.m_rC_Z_g2
          m_encoded_IC_query :=
            if r1.1 && r2.1 && r3.1 && r4.1 && r5.1 && r6.1 && r7.1 then r8.2.1
            else vk.m_encoded_IC_query }) ∧
      (let rB := M.G1.marshal_in ic.m_base is
      let rT := M.vecG1.marshal_in ic.m_encoded_terms rB.2.2
      (PPZK_IC_Query.marshal_in M ic is).2.1 =
        { m_base := rB.2.1
          m_encoded_terms := if rB.1 then rT.2.1 else ic.m_encoded_terms }) ∧
      (let rP := PPZK_ProvingKey.marshal_in M kp.m_pk is
      let rV := PPZK_VerificationKey.marshal_in M kp.m_vk rP.2.2
      (PPZK_Keypair.marshal_in M kp is).2.1 =
        { m_pk := rP.2.1
          m_vk := if rP.1 then rV.2.1 else kp.m_vk }) ∧
      (let rA := MP.G1G1.marshal_in p.m_A is
      let rB := MP.G2G1.marshal_in p.m_B rA.2.2
      let rC := MP.G1G1.marshal_in p.m_C rB.2.2
      let rH := MP.G1.marshal_in p.m_H rC.2.2
      let rK := MP.G1.marshal_in p.m_K rH.2.2
      (PPZK_Proof.marshal_in MP p is).2.1 =
        { m_A := rA.2.1
          m_B := if rA.1 then rB.2.1 else p.m_B
          m_C := if rA.1 && rB.1 then rC.2.1 else p.m_C
          m_H := if rA.1 && rB.1 && rC.1 then rH.2.1 else p.m_H
          m_K := if rA.1 && rB.1 && rC.1 && rH.1 then rK.2.1 else p.m_K })) ∧
    (((PPZK_Proof.marshal_in MP p is).1 = false →
        (PPZK_Proof.read MP is p).1 = ⟨⟨0, 0⟩, ⟨0, 0⟩, ⟨0, 0⟩, 0, 0⟩) ∧
      ((PPZK_Proof.marshal_in MP p is).1 = true →
        (PPZK_Proof.read MP is p).1 = (PPZK_Proof.marshal_in MP p is).2.1) ∧
      ((PPZK_Keypair.marshal_in M kp is).1 = false →
        (PPZK_Keypair.read M is kp).1 =
          ⟨⟨⟨[]⟩, ⟨[]⟩, ⟨[]⟩, [], []⟩, ⟨0, 0, 0, 0, 0, 0, 0, ⟨0, []⟩⟩⟩) ∧
      ((PPZK_Keypair.marshal_in M kp is).1 = true →
        (PPZK_Keypair.read M is kp).1 = (PPZK_Keypair.marshal_in M kp is).2.1)) := by
  refine ⟨⟨?_, ?_, ?_, ?_, ?_⟩,
    ⟨PPZK_ProvingKey.pk_marshal_in_members M pk is,
      PPZK_VerificationKey.vk_marshal_in_members M vk is,
      PPZK_IC_Query.ic_marshal_in_members M ic is, PPZK_Keypair.keypair_marshal_in_members M kp is,
      PPZK_Proof.proof_marshal_in_members MP p is⟩,
    ⟨PPZK_Proof.proof_read_of_false MP is p, PPZK_Proof.proof_read_of_true MP is p,
      PPZK_Keypair.keypair_read_of_false M is kp, PPZK_Keypair.keypair_read_of_true M is kp⟩⟩
  · rw [PPZK_ProvingKey.pk_marshal_in_eq_readFields, readFields_fst_eq_false_iff]
  · rw [PPZK_VerificationKey.vk_marshal_in_eq_readFields, readFields_fst_eq_false_iff]
  · rw [PPZK_IC_Query.ic_marshal_in_eq_readFields, readFields_fst_eq_false_iff]
  · rw [PPZK_Keypair.keypair_marshal_in_eq_readFields, readFields_fst_eq_false_iff]
  · rw [PPZK_Proof.proof_marshal_in_eq_readFields, readFields_fst_eq_false_iff]

/-- C14: the bytes written by `marshal_out` are the stream so far followed by
the fields' own encodings in declared order: proving key `A_query, B_query,
C_query, H_query, K_query`; verification key `alphaA_g2, alphaB_g1, alphaC_g2,
gamma_g2, gamma_beta_g1, gamma_beta_g2, rC_Z_g2`, then the IC query (its base,
then its encoded terms); proof `A, B, C, H, K`; key pair the proving key, then
the verification key.  `marshal_in` makes the sub-reads of the same fields in
the same order and stops at the first that fails. -/
theorem marshal_layout (MP : ProofMarshal G1 G2) (M : KeyMarshal G1 G2) (os is : Stream)
    (pk : PPZK_ProvingKey G1 G2) (vk : PPZK_VerificationKey G1 G2) (ic : PPZK_IC_Query G1)
    (kp : PPZK_Keypair G1 G2) (p : PPZK_Proof G1 G2) :
    (PPZK_ProvingKey.marshal_out M pk os =
        os ++ [M.sparseG1G1.marshal_out pk.m_A_query, M.sparseG2G1.marshal_out pk.m_B_query,
          M.sparseG1G1.marshal_out pk.m_C_query, M.vecG1.marshal_out pk.m_H_query,
          M.vecG1.marshal_out pk.m_K_query].flatten ∧
      PPZK_IC_Query.marshal_out M ic os =
        os ++ [M.G1.marshal_out ic.m_base, M.vecG1.marshal_out ic.m_encoded_terms].flatten ∧
      PPZK_VerificationKey.marshal_out M vk os =
        os ++ [M.G2.marshal_out vk.m_alphaA_g2, M.G1.marshal_out vk.m_alphaB_g1,
          M.G2.marshal_out vk.m_alphaC_g2, M.G2.marshal_out vk.m_gamma_g2,
          M.G1.marshal_out vk.m_gamma_beta_g1, M.G2.marshal_out vk.m_gamma_beta_g2,
          M.G2.marshal_out vk.m_rC_Z_g2, M.G1.marshal_out vk.m_encoded_IC_query.m_base,
          M.vecG1.marshal_out vk.m_encoded_IC_query.m_encoded_terms].flatten ∧
      PPZK_Proof.marshal_out MP p os =
        os ++ [MP.G1G1.marshal_out p.m_A, MP.G2G1.marshal_out p.m_B, MP.G1G1.marshal_out p.m_C,
          MP.G1.marshal_out p.m_H, MP.G1.marshal_out p.m_K].flatten ∧
      PPZK_Keypair.marshal_out M kp os =
        os ++ [PPZK_ProvingKey.marshal_out M kp.m_pk [],
          PPZK_VerificationKey.marshal_out M kp.m_vk []].flatten) ∧
    (PPZK_ProvingKey.marshal_in M pk is = readFields (PPZK_ProvingKey.fields M) pk is ∧
      PPZK_IC_Query.marshal_in M ic is = readFields (PPZK_IC_Query.fields M) ic is ∧
      PPZK_VerificationKey.marshal_in M vk is
        = readFields (PPZK_VerificationKey.fields M) vk is ∧
      PPZK_Proof.marshal_in MP p is = readFields (PPZK_Proof.fields MP) p is ∧
      PPZK_Keypair.marshal_in M kp is = readFields (PPZK_Keypair.fields M) kp is) := by
  refine ⟨⟨?_, ?_, ?_, ?_, ?_⟩,
    ⟨PPZK_ProvingKey.pk_marshal_in_eq_readFields M pk is,
      PPZK_IC_Query.ic_marshal_in_eq_readFields M ic is,
      PPZK_VerificationKey.vk_marshal_in_eq_readFields M vk is,
      PPZK_Proof.proof_marshal_in_eq_readFields MP p is,
      PPZK_Keypair.keypair_marshal_in_eq_readFields M kp is⟩⟩
  · rw [PPZK_ProvingKey.pk_marshal_out_eq_append]; rfl
  · rw [PPZK_IC_Query.ic_marshal_out_eq_append]; rfl
  · rw [PPZK_VerificationKey.vk_marshal_out_eq_append]; rfl
  · rw [PPZK_Proof.marshal_out_eq_join]; rfl
  · rw [PPZK_Keypair.keypair_marshal_out_eq_append, PPZK_ProvingKey.pk_marshal_out_eq_append,
      PPZK_VerificationKey.vk_marshal_out_eq_append]
    simp [PPZK_Keypair.encodings]

end FailedReadClaims

/-! ## The generated keys -/

section GeneratedKeys

variable {Fr G1 G2 GT G1_precomp G2_precomp : Type}

theorem QAP_IC_coefficients.vec_ne_nil [Mul Fr] (n : Nat) (At : List Fr) (rA : Fr)
    (h : At ≠ []) : QAP_IC_coefficients.vec n At rA ≠ [] := by
  cases At with
  | nil => exact absurd rfl h
  | cons a rest => simp [QAP_IC_coefficients.vec]

theorem PPZK_IC_Query.ofCoeffs_of_ne_nil [SMul Fr G1] (G1_one : G1) (coeffs : List Fr)
    (h : coeffs ≠ []) :
    ∃ ic, PPZK_IC_Query.ofCoeffs G1_one coeffs = some ic := by
  cases coeffs with
  | nil => exact absurd rfl h
  | cons c rest => exact ⟨_, rfl⟩

/-- The run of the generator when the A vector of the QAP layer has at least
one element: the key pair it returns, member by member. -/
theorem PPZK_Keypair.generate_result [Zero Fr] [Add Fr] [Mul Fr] [SMul Fr G1] [SMul Fr G2]
    (PAIRING : PairingOps G1 G2 GT G1_precomp G2_precomp) (qap : QAP_SystemPoint Fr)
    (alphaA alphaB alphaC rA rB beta gamma : Fr) (hA : qap.QueryA ≠ []) :
    ∃ ic, PPZK_IC_Query.ofCoeffs PAIRING.G1_one
        (QAP_IC_coefficients.vec qap.numCircuitInputs qap.QueryA rA) = some ic ∧
      (PPZK_Keypair.generate PAIRING qap alphaA alphaB alphaC rA rB beta gamma).result =
        some
          { m_pk :=
              { m_A_query := batchExp PAIRING.G1_one PAIRING.G1_one rA (rA * alphaA)
                  (QAP_IC_coefficients.At qap.numCircuitInputs qap.QueryA)
                m_B_query := batchExp PAIRING.G2_one PAIRING.G1_one rB (rB * alphaB) qap.QueryB
                m_C_query := batchExp PAIRING.G1_one PAIRING.G1_one (rA * rB)
                  ((rA * rB) * alphaC) qap.QueryC
                m_H_query := WindowExp.batchExp PAIRING.G1_one qap.QueryH
                m_K_query := WindowExp.batchExp PAIRING.G1_one
                  (QAP_QueryK qap.QueryA qap.QueryB qap.QueryC rA rB beta) }
            m_vk :=
              { m_alphaA_g2 := alphaA • PAIRING.G2_one
                m_alphaB_g1 := alphaB • PAIRING.G1_one
                m_alphaC_g2 := alphaC • PAIRING.G2_one
                m_gamma_g2 := gamma • PAIRING.G2_one
                m_gamma_beta_g1 := (gamma * beta) • PAIRING.G1_one
                m_gamma_beta_g2 := (gamma * beta) • PAIRING.G2_one
                m_rC_Z_g2 := ((rA * rB) * qap.compute_Z) • PAIRING.G2_one
                m_encoded_IC_query := ic } } := by
  obtain ⟨ic, hic⟩ := PPZK_IC_Query.ofCoeffs_of_ne_nil PAIRING.G1_one _
    (QAP_IC_coefficients.vec_ne_nil qap.numCircuitInputs qap.QueryA rA hA)
  refine ⟨ic, hic, ?_⟩
  unfold PPZK_Keypair.generate
  simp only [hic]

/-- C15: for every output of the QAP layer (with a non-empty A vector, as
every constraint system gives) and every choice of the trapdoors the
generator returns a key pair, and its verification key is `alphaA·G2`,
`alphaB·G1`, `alphaC·G2`, `gamma·G2`, `(gamma·beta)·G1`, `(gamma·beta)·G2`,
`(rC·Z(tau))·G2` with `rC = rA·rB`, and the IC query built from the IC
coefficients; so `gamma_beta_g1` and `gamma_beta_g2` are the one scalar
`gamma·beta` times the generator of G1 and of G2. -/
theorem PPZK_Keypair.generate_vk [Zero Fr] [Add Fr] [Mul Fr] [SMul Fr G1] [SMul Fr G2]
    (PAIRING : PairingOps G1 G2 GT G1_precomp G2_precomp) (qap : QAP_SystemPoint Fr)
    (alphaA alphaB alphaC rA rB beta gamma : Fr) (hA : qap.QueryA ≠ []) :
    ∃ kp, (PPZK_Keypair.generate PAIRING qap alphaA alphaB alphaC rA rB beta gamma).result
        = some kp ∧
      kp.m_vk.m_alphaA_g2 = alphaA • PAIRING.G2_one ∧
      kp.m_vk.m_alphaB_g1 = alphaB • PAIRING.G1_one ∧
      kp.m_vk.m_alphaC_g2 = alphaC • PAIRING.G2_one ∧
      kp.m_vk.m_gamma_g2 = gamma • PAIRING.G2_one ∧
      kp.m_vk.m_gamma_beta_g1 = (gamma * beta) • PAIRING.G1_one ∧
      kp.m_vk.m_gamma_beta_g2 = (gamma * beta) • PAIRING.G2_one ∧
      kp.m_vk.m_rC_Z_g2 = ((rA * rB) * qap.compute_Z) • PAIRING.G2_one ∧
      PPZK_IC_Query.ofCoeffs PAIRING.G1_one
        (QAP_IC_coefficients.vec qap.numCircuitInputs qap.QueryA rA)
        = some kp.m_vk.m_encoded_IC_query := by
  obtain ⟨ic, hic, hr⟩ :=
    PPZK_Keypair.generate_result PAIRING qap alphaA alphaB alphaC rA rB beta gamma hA
  exact ⟨_, hr, rfl, rfl, rfl, rfl, rfl, rfl, rfl, hic⟩

/-- The instance of C15 at the small pairing, the QAP output `Toy.qap` and the
trapdoors of `Toy.keypair3`. -/
theorem PPZK_Keypair.generate_vk_witness :
    Toy.qap.QueryA ≠ [] ∧
    ∃ kp, Toy.keypair3.result = some kp ∧
      kp.m_vk.m_alphaA_g2 = (2 : Toy.Fr) • Toy.PAIRING.G2_one ∧
      kp.m_vk.m_alphaB_g1 = (3 : Toy.Fr) • Toy.PAIRING.G1_one ∧
      kp.m_vk.m_alphaC_g2 = (4 : Toy.Fr) • Toy.PAIRING.G2_one ∧
      kp.m_vk.m_gamma_g2 = (5 : Toy.Fr) • Toy.PAIRING.G2_one ∧
      kp.m_vk.m_gamma_beta_g1 = ((5 : Toy.Fr) * 3) • Toy.PAIRING.G1_one ∧
      kp.m_vk.m_gamma_beta_g2 = ((5 : Toy.Fr) * 3) • Toy.PAIRING.G2_one ∧
      kp.m_vk.m_rC_Z_g2 = (((1 : Toy.Fr) * 2) * Toy.qap.compute_Z) • Toy.PAIRING.G2_one ∧
      PPZK_IC_Query.ofCoeffs Toy.PAIRING.G1_one
        (QAP_IC_coefficients.vec Toy.qap.numCircuitInputs Toy.qap.QueryA (1 : Toy.Fr))
        = some kp.m_vk.m_encoded_IC_query :=
  ⟨by decide, PPZK_Keypair.generate_vk Toy.PAIRING Toy.qap 2 3 4 1 2 3 5 (by decide)⟩

end GeneratedKeys

section QueryEntries

variable {Fr G1 G2 GT G1_precomp G2_precomp : Type}

theorem find?_enumFrom_map {α β : Type} (g : α → β) (i : Nat) :
    ∀ (l : List α) (n : Nat),
      ((l.enumFrom n).map (fun e => (e.1, g e.2))).find? (fun e => e.1 == i)
        = if n ≤ i then (l[i - n]?).map (fun x => (i, g x)) else none
  | [], n => by simp
  | a :: l, n => by
    rw [List.enumFrom_cons, List.map_cons, List.find?_cons]
    by_cases h : n = i
    · subst h
      simp
    · have hb : ((n, g a).1 == i) = false := by simpa using h
      rw [hb, find?_enumFrom_map g i l (n + 1)]
      by_cases hle : n ≤ i
      · have h1 : n + 1 ≤ i := by omega
        have h2 : i - n = (i - (n + 1)) + 1 := by omega
        rw [if_pos h1, if_pos hle, h2, List.getElem?_cons_succ]
      · have h1 : ¬ n + 1 ≤ i := by omega
        rw [if_neg h1, if_neg hle]

/-- Looking up index `i` in the sparse vector `batchExp` builds: the pair of
`vec[i]` when `vec` has an element `i`, no entry otherwise. -/
theorem batchExp_find? {GA GB : Type} [Mul Fr] [SMul Fr GA] [SMul Fr GB] (oneA : GA)
    (oneB : GB) (random_A random_B : Fr) (vec : List Fr) (i : Nat) :
    (batchExp oneA oneB random_A random_B vec).m_entries.find? (fun e => e.1 == i)
      = (vec[i]?).map (fun x =>
          (i, (⟨(random_A * x) • oneA, (random_B * x) • oneB⟩ : Pairing GA GB))) := by
  have h := find?_enumFrom_map
    (fun x : Fr => (⟨(random_A * x) • oneA, (random_B * x) • oneB⟩ : Pairing GA GB)) i vec 0
  simpa [batchExp, List.enum] using h

theorem batchExp_size {GA GB : Type} [Mul Fr] [SMul Fr GA] [SMul Fr GB] (oneA : GA)
    (oneB : GB) (random_A random_B : Fr) (vec : List Fr) :
    (batchExp oneA oneB random_A random_B vec).size = vec.length := by
  simp [batchExp, SparseVector.size, List.enum]

theorem batchExp_getElementForIndex {GA GB : Type} [Mul Fr] [SMul Fr GA] [SMul Fr GB]
    [Zero GA] [Zero GB] (oneA : GA) (oneB : GB) (random_A random_B : Fr) (vec : List Fr)
    (i : Nat) :
    (batchExp oneA oneB random_A random_B vec).getElementForIndex i
      = match vec[i]? with
        | some x => ⟨(random_A * x) • oneA, (random_B * x) • oneB⟩
        | none => 0 := by
  unfold SparseVector.getElementForIndex
  rw [batchExp_find?]
  cases vec[i]? <;> rfl

theorem QAP_IC_coefficients.At_length [Zero Fr] (n : Nat) (At : List Fr) :
    (QAP_IC_coefficients.At n At).length = At.length := by
  simp [QAP_IC_coefficients.At, List.enum]

theorem QAP_IC_coefficients.At_getElem? [Zero Fr] (n : Nat) (At : List Fr) (i : Nat) :
    (QAP_IC_coefficients.At n At)[i]? = (At[i]?).map (fun a => if i ≤ n then 0 else a) := by
  simp only [QAP_IC_coefficients.At, List.getElem?_map, List.enum, List.getElem?_enumFrom,
    Option.map_map]
  cases At[i]? <;> simp

theorem QAP_IC_coefficients.vec_getElem? [Mul Fr] (n : Nat) (At : List Fr) (rA : Fr) (i : Nat)
    (h : i ≤ n) :
    (QAP_IC_coefficients.vec n At rA)[i]? = (At[i]?).map (fun a => rA * a) := by
  simp only [QAP_IC_coefficients.vec, List.getElem?_map]
  rw [List.getElem?_take_of_lt (by omega)]

theorem QAP_IC_coefficients.vec_length [Mul Fr] (n : Nat) (At : List Fr) (rA : Fr)
    (h : n + 1 ≤ At.length) : (QAP_IC_coefficients.vec n At rA).length = n + 1 := by
  simp [QAP_IC_coefficients.vec, h]

theorem QAP_QueryK_length [Add Fr] [Mul Fr] (At Bt Ct : List Fr) (rA rB beta : Fr) (n : Nat)
    (hA : At.length = n) (hB : Bt.length = n) (hC : Ct.length = n) :
    (QAP_QueryK At Bt Ct rA rB beta).length = n + 3 := by
  simp [QAP_QueryK, hA, hB, hC]

theorem PPZK_IC_Query.ofCoeffs_cons [SMul Fr G1] (G1_one : G1) (c0 : Fr) (rest : List Fr) :
    PPZK_IC_Query.ofCoeffs G1_one (c0 :: rest)
      = some ⟨c0 • G1_one, rest.map (fun x => x • G1_one)⟩ := rfl

end QueryEntries

section IcIdentity

variable {Fr G1 G2 GT G1_precomp G2_precomp : Type}

theorem batchExp_At_entry_eq_zero [Ring Fr] [AddCommGroup G1] [Module Fr G1]
    (oneA oneB : G1) (random_A random_B : Fr) (n : Nat) (At : List Fr) :
    ∀ e ∈ (batchExp oneA oneB random_A random_B (QAP_IC_coefficients.At n At)).m_entries,
      e.1 ≤ n → e.2 = 0 := by
  intro e he hle
  simp only [batchExp, List.mem_map] at he
  obtain ⟨⟨j, x⟩, hjx, rfl⟩ := he
  rw [List.mk_mem_enum_iff_getElem?, QAP_IC_coefficients.At_getElem?] at hjx
  have hx : x = 0 := by
    cases hq : At[j]? with
    | none => simp [hq] at hjx
    | some a =>
      have hj : j ≤ n := hle
      simp [hq, hj] at hjx
      exact hjx.symm
  subst hx
  show (⟨(random_A * 0) • oneA, (random_B * 0) • oneB⟩ : Pairing G1 G1) = ⟨0, 0⟩
  rw [mul_zero, mul_zero, zero_smul, zero_smul]

theorem PPZK_IC_Query.ofCoeffs_input_size [SMul Fr G1] (G1_one : G1) (n : Nat)
    (coeffs : List Fr) (h : coeffs.length = n + 1) :
    ∃ ic, PPZK_IC_Query.ofCoeffs G1_one coeffs = some ic ∧ ic.input_size = n := by
  cases coeffs with
  | nil => simp at h
  | cons c rest =>
    refine ⟨_, rfl, ?_⟩
    simp only [List.length_cons, Nat.add_right_cancel_iff] at h
    simp [PPZK_IC_Query.input_size, WindowExp.batchExp, h]

/-- C16: with the A vector of the QAP layer indexed over `[0, numVars]` and
at most `numVars` inputs, after the generator every entry of `A_query` with
an index in `0..=numInputs` is zero (and so is `A_query[i]` there), the IC
query has exactly `numInputs` encoded terms, its base is `(rA·At[0])·G1` and
its `i`-th encoded term is `(rA·At[1+i])·G1`, where `At` is the A vector
before the IC coefficients are taken out; and an IC query built from a
coefficient vector of length `n+1` has `n` encoded terms. -/
theorem PPZK_Keypair.generate_ic_identity [Ring Fr] [AddCommGroup G1] [Module Fr G1]
    [AddCommGroup G2] [Module Fr G2]
    (PAIRING : PairingOps G1 G2 GT G1_precomp G2_precomp) (qap : QAP_SystemPoint Fr)
    (alphaA alphaB alphaC rA rB beta gamma : Fr)
    (hA : qap.QueryA.length = qap.numVariables + 1)
    (hn : qap.numCircuitInputs ≤ qap.numVariables) :
    (∃ kp, (PPZK_Keypair.generate PAIRING qap alphaA alphaB alphaC rA rB beta gamma).result
        = some kp ∧
      (∀ e ∈ kp.m_pk.m_A_query.m_entries, e.1 ≤ qap.numCircuitInputs → e.2 = 0) ∧
      (∀ i, i ≤ qap.numCircuitInputs → kp.m_pk.m_A_query.getElementForIndex i = 0) ∧
      kp.m_vk.m_encoded_IC_query.input_size = qap.numCircuitInputs ∧
      (∃ a0, qap.QueryA[0]? = some a0 ∧
        kp.m_vk.m_encoded_IC_query.base = (rA * a0) • PAIRING.G1_one) ∧
      (∀ i, i < qap.numCircuitInputs → ∃ a, qap.QueryA[1 + i]? = some a ∧
        kp.m_vk.m_encoded_IC_query.encoded_terms[i]? = some ((rA * a) • PAIRING.G1_one))) ∧
    (∀ (n : Nat) (coeffs : List Fr), coeffs.length = n + 1 →
      ∃ ic, PPZK_IC_Query.ofCoeffs PAIRING.G1_one coeffs = some ic ∧ ic.input_size = n) := by
  refine ⟨?_, fun n coeffs h => PPZK_IC_Query.ofCoeffs_input_size PAIRING.G1_one n coeffs h⟩
  have hne : qap.QueryA ≠ [] := by
    intro h0
    rw [h0] at hA
    simp at hA
  obtain ⟨ic, hic, hr⟩ :=
    PPZK_Keypair.generate_result PAIRING qap alphaA alphaB alphaC rA rB beta gamma hne
  have hzero := batchExp_At_entry_eq_zero PAIRING.G1_one PAIRING.G1_one rA (rA * alphaA)
    qap.numCircuitInputs qap.QueryA
  refine ⟨_, hr, hzero, ?_, ?_⟩
  · intro i hi
    show (batchExp PAIRING.G1_one PAIRING.G1_one rA (rA * alphaA)
      (QAP_IC_coefficients.At qap.numCircuitInputs qap.QueryA)).getElementForIndex i = 0
    unfold SparseVector.getElementForIndex
    cases hf : (batchExp PAIRING.G1_one PAIRING.G1_one rA (rA * alphaA)
        (QAP_IC_coefficients.At qap.numCircuitInputs qap.QueryA)).m_entries.find?
        (fun e => e.1 == i) with
    | none => rfl
    | some e =>
      have he := List.find?_some hf
      simp only [beq_iff_eq] at he
      exact hzero e (List.mem_of_find?_eq_some hf) (by omega)
  · show ic.input_size = qap.numCircuitInputs ∧
      (∃ a0, qap.QueryA[0]? = some a0 ∧ ic.base = (rA * a0) • PAIRING.G1_one) ∧
      (∀ i, i < qap.numCircuitInputs → ∃ a, qap.QueryA[1 + i]? = some a ∧
        ic.encoded_terms[i]? = some ((rA * a) • PAIRING.G1_one))
    cases hq : qap.QueryA with
    | nil => exact absurd hq hne
    | cons a0 rest =>
      rw [hq] at hic hA
      simp only [List.length_cons, Nat.add_right_cancel_iff] at hA
      simp only [QAP_IC_coefficients.vec, List.take_succ_cons, List.map_cons,
        PPZK_IC_Query.ofCoeffs_cons, Option.some.injEq] at hic
      subst hic
      refine ⟨?_, ⟨a0, List.getElem?_cons_zero, rfl⟩, ?_⟩
      · simp [PPZK_IC_Query.input_size, hA, hn]
      · intro i hi
        have hlt : i < rest.length := by omega
        refine ⟨rest[i], ?_, ?_⟩
        · rw [Nat.add_comm 1 i, List.getElem?_cons_succ, List.getElem?_eq_getElem hlt]
        · simp [PPZK_IC_Query.encoded_terms, List.getElem?_take_of_lt hi,
            List.getElem?_eq_getElem hlt]

/-- The instance of C16 at the small pairing, the QAP output `Toy.qap` (six
variables, four inputs) and the trapdoors of `Toy.keypair3`. -/
theorem PPZK_Keypair.generate_ic_identity_witness :
    (Toy.qap.QueryA.length = Toy.qap.numVariables + 1 ∧
      Toy.qap.numCircuitInputs ≤ Toy.qap.numVariables) ∧
    (∃ kp, Toy.keypair3.result = some kp ∧
      (∀ e ∈ kp.m_pk.m_A_query.m_entries, e.1 ≤ Toy.qap.numCircuitInputs → e.2 = 0) ∧
      (∀ i, i ≤ Toy.qap.numCircuitInputs → kp.m_pk.m_A_query.getElementForIndex i = 0) ∧
      kp.m_vk.m_encoded_IC_query.input_size = Toy.qap.numCircuitInputs ∧
      (∃ a0, Toy.qap.QueryA[0]? = some a0 ∧
        kp.m_vk.m_encoded_IC_query.base = ((1 : Toy.Fr) * a0) • Toy.PAIRING.G1_one) ∧
      (∀ i, i < Toy.qap.numCircuitInputs → ∃ a, Toy.qap.QueryA[1 + i]? = some a ∧
        kp.m_vk.m_encoded_IC_query.encoded_terms[i]?
          = some (((1 : Toy.Fr) * a) • Toy.PAIRING.G1_one))) :=
  ⟨⟨by decide, by decide⟩,
    (PPZK_Keypair.generate_ic_identity Toy.PAIRING Toy.qap 2 3 4 1 2 3 5
      (by decide) (by decide)).1⟩

end IcIdentity

/-! ## Partition invariance of the window table -/

section WindowLemmas

variable {Fr G : Type}

theorem WindowExp.digit_lt (w i n : Nat) : WindowExp.digit w i n < 2 ^ w :=
  Nat.mod_lt _ (Nat.two_pow_pos w)

theorem WindowExp.row_getD [AddMonoid G] (P : WindowOps Fr G) (w i d : Nat) (h : d < 2 ^ w) :
    (WindowExp.row P w i).getD d 0 = (d * 2 ^ (w * i)) • P.one := by
  simp [WindowExp.row, List.getD_eq_getElem?_getD, List.getElem?_map, List.getElem?_range h]

/-- The table entry that `exp` adds for window `i`. -/
theorem WindowExp.lookup [AddMonoid G] (P : WindowOps Fr G) (w i n : Nat) :
    (WindowExp.row P w i).getD (WindowExp.digit w i n) 0
      = (WindowExp.digit w i n * 2 ^ (w * i)) • P.one :=
  WindowExp.row_getD P w i _ (WindowExp.digit_lt w i n)

theorem WindowExp.exp_ofSpace [AddMonoid G] (P : WindowOps Fr G) (space : IndexSpace)
    (block : Nat) (x : Fr) :
    (WindowExp.ofSpace P space block).exp P x
      = ((List.range' (space.startIndex block) (space.indexSize block)).map (fun i =>
          (WindowExp.digit space.param i (P.asNat x) * 2 ^ (space.param * i)) • P.one)).sum := by
  have hR : (List.range' (space.startIndex block) (space.indexSize block)).map (fun i =>
        (WindowExp.digit space.param i (P.asNat x) * 2 ^ (space.param * i)) • P.one)
      = (List.range (space.indexSize block)).map (fun j =>
          (WindowExp.digit space.param (space.startIndex block + j) (P.asNat x)
            * 2 ^ (space.param * (space.startIndex block + j))) • P.one) := by
    rw [List.range'_eq_map_range, List.map_map]
    rfl
  rw [hR]
  unfold WindowExp.exp WindowExp.ofSpace
  simp only [List.length_map, List.length_range']
  congr 1
  apply List.map_congr_left
  intro j hj
  rw [List.mem_range] at hj
  rw [← WindowExp.lookup]
  congr 1
  simp [List.getD_eq_getElem?_getD, List.getElem?_map, List.getElem?_range' _ _ hj]

theorem WindowExp.exp_ofCount [AddMonoid G] (P : WindowOps Fr G) (exp_count : Nat) (x : Fr) :
    (WindowExp.ofCount P exp_count).exp P x
      = ((List.range (WindowExp.numWindows P (P.windowBits exp_count))).map (fun i =>
          (WindowExp.digit (P.windowBits exp_count) i (P.asNat x)
            * 2 ^ (P.windowBits exp_count * i)) • P.one)).sum := by
  unfold WindowExp.exp WindowExp.ofCount
  simp only [List.length_map, List.length_range]
  congr 1
  apply List.map_congr_left
  intro j hj
  rw [List.mem_range] at hj
  rw [← WindowExp.lookup]
  simp [List.getD_eq_getElem?_getD, List.getElem?_map, List.getElem?_range hj]

theorem foldl_add_eq_sum [AddMonoid G] {ι : Type} (g : ι → G) :
    ∀ (l : List ι) (a : G), l.foldl (fun acc b => acc + g b) a = a + (l.map g).sum
  | [], a => by simp
  | b :: l, a => by
    rw [List.foldl_cons, foldl_add_eq_sum g l, List.map_cons, List.sum_cons, add_assoc]

theorem sum_range_add_sum_range' [AddMonoid G] (f : Nat → G) (s t : Nat) (h : s ≤ t) :
    ((List.range s).map f).sum + ((List.range' s (t - s)).map f).sum
      = ((List.range t).map f).sum := by
  have e := List.range'_append_1 0 s (t - s)
  rw [Nat.zero_add, Nat.sub_add_cancel h] at e
  rw [← List.sum_append, ← List.map_append, List.range_eq_range', List.range_eq_range', e]

/-- The blocks of a partitioned space, taken in order, add up to the indices
below the end of the last block. -/
theorem sum_blocks [AddMonoid G] (f : Nat → G) (space : IndexSpace) :
    ∀ k : Nat,
      ((List.range k).map (fun block =>
          ((List.range' (space.startIndex block) (space.indexSize block)).map f).sum)).sum
        = ((List.range (min (k * space.chunk) space.globalID)).map f).sum
  | 0 => by simp
  | k + 1 => by
    rw [List.range_succ, List.map_append, List.sum_append, sum_blocks f space k]
    simp only [List.map_cons, List.map_nil, List.sum_cons, List.sum_nil, add_zero]
    have hle : min (k * space.chunk) space.globalID
        ≤ min ((k + 1) * space.chunk) space.globalID := by
      have : k * space.chunk ≤ (k + 1) * space.chunk :=
        Nat.mul_le_mul_right _ (Nat.le_succ k)
      omega
    exact sum_range_add_sum_range' f _ _ hle

theorem le_mul_ceil (n w : Nat) (h : 1 ≤ w) : n ≤ w * ((n + w - 1) / w) := by
  have h1 := Nat.div_add_mod (n + w - 1) w
  have h2 := Nat.mod_lt (n + w - 1) (show 0 < w by omega)
  generalize w * ((n + w - 1) / w) = p at *
  omega

end WindowLemmas

section WindowPartition

variable {Fr G : Type}

/-- The partial tables of the first `k` blocks of a space add up to the sum
over the windows below the end of block `k - 1`. -/
theorem WindowExp.sum_exp_blocks [AddMonoid G] (P : WindowOps Fr G) (space : IndexSpace)
    (x : Fr) (k : Nat) :
    (List.range k).foldl (fun acc block => acc + (WindowExp.ofSpace P space block).exp P x) 0
      = ((List.range (min (k * space.chunk) space.globalID)).map (fun i =>
          (WindowExp.digit space.param i (P.asNat x) * 2 ^ (space.param * i)) • P.one)).sum := by
  rw [foldl_add_eq_sum (fun block => (WindowExp.ofSpace P space block).exp P x), zero_add,
    ← sum_blocks]
  congr 1
  apply List.map_congr_left
  intro block _
  exact WindowExp.exp_ofSpace P space block x

theorem IndexSpace.blockPartition_covers (s : IndexSpace) (numBlocks : Nat)
    (h : 1 ≤ numBlocks ∨ s.globalID = 0) :
    min (numBlocks * (s.blockPartition numBlocks).chunk) (s.blockPartition numBlocks).globalID
      = s.globalID := by
  show min (numBlocks * ((s.globalID + numBlocks - 1) / numBlocks)) s.globalID = s.globalID
  rcases h with h | h
  · exact Nat.min_eq_right (le_mul_ceil s.globalID numBlocks h)
  · rw [h]
    exact Nat.min_eq_right (Nat.zero_le _)

/-- The sum over the blocks of the partitioned window space is the `exp` of
the full table. -/
theorem WindowExp.sum_exp_partition [AddMonoid G] (P : WindowOps Fr G)
    (exp_count numBlocks : Nat) (x : Fr)
    (h : 1 ≤ numBlocks ∨ WindowExp.numWindows P (P.windowBits exp_count) = 0) :
    (List.range numBlocks).foldl
        (fun acc block => acc +
          (WindowExp.ofSpace P ((WindowExp.space P exp_count).blockPartition numBlocks)
            block).exp P x) 0
      = (WindowExp.ofCount P exp_count).exp P x := by
  rw [WindowExp.sum_exp_blocks, WindowExp.exp_ofCount,
    IndexSpace.blockPartition_covers (WindowExp.space P exp_count) numBlocks h]
  rfl

theorem WindowExp.ofSpace_whole [AddMonoid G] (P : WindowOps Fr G) (exp_count : Nat) :
    WindowExp.ofSpace P (WindowExp.space P exp_count) 0 = WindowExp.ofCount P exp_count := by
  have h0 : (WindowExp.space P exp_count).startIndex 0 = 0 := by
    simp [IndexSpace.startIndex]
  have h1 : (WindowExp.space P exp_count).indexSize 0
      = WindowExp.numWindows P (P.windowBits exp_count) := by
    simp [IndexSpace.indexSize, IndexSpace.startIndex, IndexSpace.stopIndex, WindowExp.space,
      IndexSpace.ofSize]
  unfold WindowExp.ofSpace WindowExp.ofCount
  rw [h0, h1, List.range_eq_range']
  rfl

/-- C18: for every `exp_count`, every number of blocks `W ≥ 1` (so for each
from 1 up to the number of windows) and every scalar `x`, the sum over the
blocks `b < W` of `WindowExp(partitioned space, b).exp(x)` is
`WindowExp(exp_count).exp(x)`; the table built as `WindowExp(space, 0)` on the
unpartitioned space is the monolithic table; and every `checkPass` of the two
tests `expMapReduce` and `expPartition` gets true. -/
theorem WindowExp.exp_partition_invariant [AddMonoid G] [DecidableEq G] [Zero Fr] [One Fr]
    [Add Fr] (P : WindowOps Fr G) (exp_count numBlocks : Nat) (x : Fr) (h : 1 ≤ numBlocks) :
    ((List.range numBlocks).map (fun block =>
        (WindowExp.ofSpace P ((WindowExp.space P exp_count).blockPartition numBlocks)
          block).exp P x)).sum
      = (WindowExp.ofCount P exp_count).exp P x ∧
    AutoTest_WindowExp_expMapReduce.result_B P exp_count numBlocks x
      = (WindowExp.ofCount P exp_count).exp P x ∧
    WindowExp.ofSpace P (WindowExp.space P exp_count) 0 = WindowExp.ofCount P exp_count ∧
    (∀ b ∈ AutoTest_WindowExp_expMapReduce.runTest P exp_count x, b = true) ∧
    (∀ b ∈ AutoTest_WindowExp_expPartition.runTest P exp_count numBlocks, b = true) := by
  have key := WindowExp.sum_exp_partition P exp_count numBlocks x (Or.inl h)
  refine ⟨?_, key, WindowExp.ofSpace_whole P exp_count, ?_, ?_⟩
  · rw [← key, foldl_add_eq_sum (fun block =>
      (WindowExp.ofSpace P ((WindowExp.space P exp_count).blockPartition numBlocks)
        block).exp P x), zero_add]
  · intro b hb
    simp only [AutoTest_WindowExp_expMapReduce.runTest, List.mem_map, List.mem_range'_1] at hb
    obtain ⟨n, hn, rfl⟩ := hb
    exact decide_eq_true (WindowExp.sum_exp_partition P exp_count n x (Or.inl hn.1)).symm
  · intro b hb
    simp only [AutoTest_WindowExp_expPartition.runTest, List.mem_map] at hb
    obtain ⟨y, -, rfl⟩ := hb
    rw [WindowExp.ofSpace_whole]
    exact decide_eq_true (WindowExp.sum_exp_partition P exp_count numBlocks y (Or.inl h)).symm

/-- The instance of C18 at the small group with scalars of three bits: the
window width 1 (three windows), two blocks and the scalar 5. -/
theorem WindowExp.exp_partition_invariant_witness :
    (1 ≤ 2) ∧
    ((List.range 2).map (fun block =>
        (WindowExp.ofSpace Toy.windowOps ((WindowExp.space Toy.windowOps 1).blockPartition 2)
          block).exp Toy.windowOps (5 : Toy.Fr))).sum
      = (WindowExp.ofCount Toy.windowOps 1).exp Toy.windowOps (5 : Toy.Fr) ∧
    (∀ b ∈ AutoTest_WindowExp_expMapReduce.runTest Toy.windowOps 1 (5 : Toy.Fr), b = true) ∧
    (∀ b ∈ AutoTest_WindowExp_expPartition.runTest Toy.windowOps 1 2, b = true) :=
  have h := WindowExp.exp_partition_invariant Toy.windowOps 1 2 (5 : Toy.Fr) (by decide)
  ⟨by decide, h.1, h.2.2.2.1, h.2.2.2.2⟩

end WindowPartition

section BlockLemmas

variable {Fr G T : Type}

theorem IndexSpace.start_add_size (s : IndexSpace) (block : Nat) :
    s.startIndex block + s.indexSize block = s.stopIndex block := by
  have h : block * s.chunk ≤ (block + 1) * s.chunk := Nat.mul_le_mul_right _ (Nat.le_succ block)
  unfold IndexSpace.indexSize IndexSpace.startIndex IndexSpace.stopIndex
  omega

theorem IndexSpace.stopIndex_le (s : IndexSpace) (block : Nat) :
    s.stopIndex block ≤ s.globalID := Nat.min_le_right _ _

theorem IndexSpace.stopIndex_eq_startIndex_succ (s : IndexSpace) (block : Nat) :
    s.stopIndex block = s.startIndex (block + 1) := rfl

/-- Writing the elements `s` to `s + d` of `Z` over those of a vector that
agrees with `Z` below `s` and with `R` from `s` on. -/
theorem emplace_slice (Z R : List T) (s d : Nat) (hZ : Z.length = R.length)
    (h : s + d ≤ R.length) :
    (Z.take s ++ R.drop s).take s ++ (Z.drop s).take d ++
        (Z.take s ++ R.drop s).drop (s + ((Z.drop s).take d).length)
      = Z.take (s + d) ++ R.drop (s + d) := by
  have hs : (Z.take s).length = s := by
    rw [List.length_take]
    omega
  have hd : ((Z.drop s).take d).length = d := by
    rw [List.length_take, List.length_drop]
    omega
  rw [List.take_left' hs, hd, List.take_add]
  congr 1
  have e : ∀ (A B : List T), A.length = s → (A ++ B).drop (s + d) = B.drop d := by
    intro A B hA
    rw [← hA]
    exact List.drop_append d
  rw [e _ _ hs, List.drop_drop]

/-- A loop over the blocks of a partitioned space whose step turns the vector
from `R` into `Z` on one block has turned it on all the indices below the end
of the last block. -/
theorem foldl_blocks (space : IndexSpace) (step : List T → Nat → List T) (Z R : List T)
    (hstep : ∀ block, step (Z.take (space.startIndex block) ++ R.drop (space.startIndex block))
      block = Z.take (space.stopIndex block) ++ R.drop (space.stopIndex block)) :
    ∀ k : Nat, (List.range k).foldl step R
      = Z.take (space.startIndex k) ++ R.drop (space.startIndex k)
  | 0 => by simp [IndexSpace.startIndex]
  | k + 1 => by
    rw [List.range_succ, List.foldl_append, foldl_blocks space step Z R hstep k]
    simp only [List.foldl_cons, List.foldl_nil]
    rw [hstep k, IndexSpace.stopIndex_eq_startIndex_succ]

theorem foldl_blocks_all (space : IndexSpace) (step : List T → Nat → List T) (Z R : List T)
    (numBlocks : Nat) (hZ : Z.length = space.globalID) (hR : R.length = space.globalID)
    (hcover : space.startIndex numBlocks = space.globalID)
    (hstep : ∀ block, step (Z.take (space.startIndex block) ++ R.drop (space.startIndex block))
      block = Z.take (space.stopIndex block) ++ R.drop (space.stopIndex block)) :
    (List.range numBlocks).foldl step R = Z := by
  rw [foldl_blocks space step Z R hstep numBlocks, hcover, ← hR, List.drop_length,
    List.append_nil, hR, ← hZ, List.take_length]

theorem BlockVector.space_blockPartition_covers (a : List T) (numBlocks : Nat)
    (h : 1 ≤ numBlocks) :
    ((BlockVector.space a).blockPartition numBlocks).startIndex numBlocks = a.length :=
  IndexSpace.blockPartition_covers (BlockVector.space a) numBlocks (Or.inl h)

end BlockLemmas

section BatchPartition

variable {Fr G : Type}

theorem zipWith_add_map [Add G] (f g : Fr → G) :
    ∀ xs : List Fr,
      List.zipWith (fun x y => x + y) (xs.map f) (xs.map g) = xs.map (fun x => f x + g x)
  | [] => rfl
  | x :: xs => by
    simp only [List.map_cons, List.zipWith_cons_cons, zipWith_add_map f g xs]

theorem replicate_zero_eq_map [Zero G] :
    ∀ xs : List Fr, List.replicate xs.length (0 : G) = xs.map (fun _ => 0)
  | [] => rfl
  | x :: xs => by
    simp only [List.length_cons, List.replicate_succ, List.map_cons, replicate_zero_eq_map xs]

/-- One pass over the blocks of the vector with the full table: the result is
the `batchExp` of the vector, whatever the result vector held. -/
theorem emplace_blocks [AddMonoid G] (P : WindowOps Fr G) (A : WindowExp G) (xs : List Fr)
    (R : List G) (numBlocks : Nat) (hR : R.length = xs.length) (h : 1 ≤ numBlocks) :
    (List.range numBlocks).foldl
        (fun result_B block =>
          (A.batchExpBlock P (BlockVector.ofVector
            ((BlockVector.space xs).blockPartition numBlocks) block xs)).emplace result_B) R
      = xs.map (A.exp P) := by
  have hZ : (xs.map (A.exp P)).length = R.length := by rw [List.length_map, hR]
  apply foldl_blocks_all ((BlockVector.space xs).blockPartition numBlocks) _ (xs.map (A.exp P)) R
    numBlocks (List.length_map _ _) hR (BlockVector.space_blockPartition_covers xs numBlocks h)
  intro block
  have hle := IndexSpace.stopIndex_le ((BlockVector.space xs).blockPartition numBlocks) block
  have hsum := IndexSpace.start_add_size ((BlockVector.space xs).blockPartition numBlocks) block
  have hn : ((BlockVector.space xs).blockPartition numBlocks).globalID = R.length := hR.symm
  simp only [BlockVector.emplace, WindowExp.batchExpBlock, BlockVector.ofVector, List.map_take,
    List.map_drop]
  rw [emplace_slice _ R _ _ hZ (by omega), hsum]

/-- One pass over the blocks of the vector with a partial table: the partial
`batchExp` of the vector is added to the result vector. -/
theorem addAssign_blocks [AddMonoid G] (P : WindowOps Fr G) (partwin : WindowExp G)
    (xs : List Fr) (R : List G) (numVecBlks : Nat) (hR : R.length = xs.length)
    (h : 1 ≤ numVecBlks) :
    (List.range numVecBlks).foldl
        (fun result_B vecblock =>
          ((BlockVector.ofVector ((BlockVector.space xs).blockPartition numVecBlks) vecblock
              result_B).addAssign
            (partwin.batchExpBlock P (BlockVector.ofVector
              ((BlockVector.space xs).blockPartition numVecBlks) vecblock xs))).emplace
            result_B) R
      = List.zipWith (fun x y => x + y) R (xs.map (partwin.exp P)) := by
  have hZ : (List.zipWith (fun x y => x + y) R (xs.map (partwin.exp P))).length = R.length := by
    rw [List.length_zipWith, List.length_map, hR, Nat.min_self]
  apply foldl_blocks_all ((BlockVector.space xs).blockPartition numVecBlks) _ _ R
    numVecBlks (hZ.trans hR) hR (BlockVector.space_blockPartition_covers xs numVecBlks h)
  intro block
  have hle := IndexSpace.stopIndex_le ((BlockVector.space xs).blockPartition numVecBlks) block
  have hsum := IndexSpace.start_add_size ((BlockVector.space xs).blockPartition numVecBlks)
    block
  have hn : ((BlockVector.space xs).blockPartition numVecBlks).globalID = R.length := hR.symm
  have hs : ((List.zipWith (fun x y => x + y) R (xs.map (partwin.exp P))).take
      (((BlockVector.space xs).blockPartition numVecBlks).startIndex block)).length
        = ((BlockVector.space xs).blockPartition numVecBlks).startIndex block := by
    rw [List.length_take, hZ]
    omega
  simp only [BlockVector.emplace, BlockVector.addAssign, WindowExp.batchExpBlock,
    BlockVector.ofVector, List.map_take, List.map_drop]
  rw [List.drop_left' hs, ← List.take_zipWith, ← List.drop_zipWith,
    emplace_slice _ R _ _ hZ (by omega), hsum]

/-- The two nested loops of the second test: after the window blocks below
`k` every element of the result is the sum of the partial `exp` of these
blocks. -/
theorem addAssign_windows [AddMonoid G] (P : WindowOps Fr G) (winIdx : IndexSpace)
    (xs : List Fr) (numVecBlks : Nat) (h : 1 ≤ numVecBlks) :
    ∀ k : Nat,
      (List.range k).foldl
          (fun result_B winblock =>
            (List.range numVecBlks).foldl
              (fun result_B vecblock =>
                ((BlockVector.ofVector ((BlockVector.space xs).blockPartition numVecBlks)
                    vecblock result_B).addAssign
                  ((WindowExp.ofSpace P winIdx winblock).batchExpBlock P (BlockVector.ofVector
                    ((BlockVector.space xs).blockPartition numVecBlks) vecblock xs))).emplace
                  result_B) result_B)
          (List.replicate xs.length 0)
        = xs.map (fun x => (List.range k).foldl
            (fun acc block => acc + (WindowExp.ofSpace P winIdx block).exp P x) 0)
  | 0 => by
    simp only [List.range_zero, List.foldl_nil]
    exact replicate_zero_eq_map xs
  | k + 1 => by
    rw [List.range_succ, List.foldl_append, addAssign_windows P winIdx xs numVecBlks h k]
    simp only [List.foldl_cons, List.foldl_nil, List.foldl_append]
    rw [addAssign_blocks P (WindowExp.ofSpace P winIdx k) xs _ numVecBlks (List.length_map _ _) h,
      zipWith_add_map]

theorem AutoTest_WindowExp_batchExpMapReduce1.result_B_eq_batchExp1 [AddMonoid G] (P : WindowOps Fr G)
    (exp_count numBlocks : Nat) (xs : List Fr) (h : 1 ≤ numBlocks) :
    AutoTest_WindowExp_batchExpMapReduce1.result_B P exp_count numBlocks xs
      = (WindowExp.ofCount P exp_count).batchExpVec P xs :=
  emplace_blocks P (WindowExp.ofCount P exp_count) xs (List.replicate xs.length 0) numBlocks
    (List.length_replicate _ _) h

theorem AutoTest_WindowExp_batchExpMapReduce2.result_B_eq_batchExp2 [AddMonoid G] (P : WindowOps Fr G)
    (exp_count numWinBlks numVecBlks : Nat) (xs : List Fr)
    (hW : 1 ≤ numWinBlks ∨ WindowExp.numWindows P (P.windowBits exp_count) = 0)
    (hV : 1 ≤ numVecBlks) :
    AutoTest_WindowExp_batchExpMapReduce2.result_B P exp_count numWinBlks numVecBlks xs
      = (WindowExp.ofCount P exp_count).batchExpVec P xs := by
  unfold AutoTest_WindowExp_batchExpMapReduce2.result_B WindowExp.batchExpVec
  simp only []
  rw [addAssign_windows P _ xs numVecBlks hV numWinBlks]
  apply List.map_congr_left
  intro x _
  exact WindowExp.sum_exp_partition P exp_count numWinBlks x hW

end BatchPartition

section BatchClaim

variable {Fr G : Type}

/-- C19: for every `exp_count`, every scalar vector `xs`, every partition of
the window axis into `numWinBlks ≥ 1` blocks and every partition of the
vector into `numVecBlks ≥ 1` blocks (so for each from 1 up to `|xs|`),
accumulating `partwin.batchExp(partvec)` over all pairs of a window block and
a vector block into a zero-initialised result vector yields the monolithic
`batchExp(xs)`; emplacing the `batchExp` of each vector block of the full
table does so too, and is what the joint loop gives with a single window
block; and every `checkPass` of the two tests `batchExpMapReduce1` and
`batchExpMapReduce2` gets true. -/
theorem WindowExp.batchExp_partition_invariant [AddMonoid G] [DecidableEq G]
    (P : WindowOps Fr G) (exp_count numWinBlks numVecBlks : Nat) (xs : List Fr)
    (hW : 1 ≤ numWinBlks) (hV : 1 ≤ numVecBlks) :
    AutoTest_WindowExp_batchExpMapReduce2.result_B P exp_count numWinBlks numVecBlks xs
      = (WindowExp.ofCount P exp_count).batchExpVec P xs ∧
    AutoTest_WindowExp_batchExpMapReduce1.result_B P exp_count numVecBlks xs
      = (WindowExp.ofCount P exp_count).batchExpVec P xs ∧
    AutoTest_WindowExp_batchExpMapReduce2.result_B P exp_count 1 numVecBlks xs
      = AutoTest_WindowExp_batchExpMapReduce1.result_B P exp_count numVecBlks xs ∧
    (∀ b ∈ AutoTest_WindowExp_batchExpMapReduce1.runTest P exp_count xs, b = true) ∧
    (∀ b ∈ AutoTest_WindowExp_batchExpMapReduce2.runTest P exp_count xs, b = true) := by
  have h2 := AutoTest_WindowExp_batchExpMapReduce2.result_B_eq_batchExp2 P exp_count numWinBlks
    numVecBlks xs (Or.inl hW) hV
  have h1 := AutoTest_WindowExp_batchExpMapReduce1.result_B_eq_batchExp1 P exp_count numVecBlks xs hV
  refine ⟨h2, h1, ?_, ?_, ?_⟩
  · rw [h1]
    exact AutoTest_WindowExp_batchExpMapReduce2.result_B_eq_batchExp2 P exp_count 1 numVecBlks xs
      (Or.inl (Nat.le_refl 1)) hV
  · intro b hb
    simp only [AutoTest_WindowExp_batchExpMapReduce1.runTest, List.mem_map,
      List.mem_range'_1] at hb
    obtain ⟨n, hn, rfl⟩ := hb
    exact decide_eq_true
      (AutoTest_WindowExp_batchExpMapReduce1.result_B_eq_batchExp1 P exp_count n xs hn.1).symm
  · intro b hb
    simp only [AutoTest_WindowExp_batchExpMapReduce2.runTest, List.mem_flatMap, List.mem_map,
      List.mem_range'_1, List.mem_cons, List.mem_singleton, List.not_mem_nil, or_false] at hb
    obtain ⟨w, hw, n, hn, rfl⟩ := hb
    have hw' : 1 ≤ w ∨ WindowExp.numWindows P (P.windowBits exp_count) = 0 := by
      rcases hw with rfl | rfl | rfl
      · exact Or.inl (Nat.le_refl 1)
      · exact Or.inl (by decide)
      · show 1 ≤ WindowExp.numWindows P (P.windowBits exp_count) ∨ _
        omega
    exact decide_eq_true
      (AutoTest_WindowExp_batchExpMapReduce2.result_B_eq_batchExp2 P exp_count w n xs hw' hn.1).symm

/-- The instance of C19 at the small group with scalars of three bits: the
window width 1 (three windows) in two blocks, the vector `[5, 3, 6, 1, 0]` in
three blocks. -/
theorem WindowExp.batchExp_partition_invariant_witness :
    (1 ≤ 2 ∧ 1 ≤ 3) ∧
    AutoTest_WindowExp_batchExpMapReduce2.result_B Toy.windowOps 1 2 3
        ([5, 3, 6, 1, 0] : List Toy.Fr)
      = (WindowExp.ofCount Toy.windowOps 1).batchExpVec Toy.windowOps [5, 3, 6, 1, 0] ∧
    AutoTest_WindowExp_batchExpMapReduce1.result_B Toy.windowOps 1 3
        ([5, 3, 6, 1, 0] : List Toy.Fr)
      = (WindowExp.ofCount Toy.windowOps 1).batchExpVec Toy.windowOps [5, 3, 6, 1, 0] ∧
    (∀ b ∈ AutoTest_WindowExp_batchExpMapReduce1.runTest Toy.windowOps 1
        ([5, 3, 6, 1, 0] : List Toy.Fr), b = true) ∧
    (∀ b ∈ AutoTest_WindowExp_batchExpMapReduce2.runTest Toy.windowOps 1
        ([5, 3, 6, 1, 0] : List Toy.Fr), b = true) :=
  have h := WindowExp.batchExp_partition_invariant Toy.windowOps 1 2 3
    ([5, 3, 6, 1, 0] : List Toy.Fr) (by decide) (by decide)
  ⟨⟨by decide, by decide⟩, h.1, h.2.1, h.2.2.2.1, h.2.2.2.2⟩

end BatchClaim

section WindowValue

variable {Fr G : Type}

theorem WindowExp.sum_digits (w n : Nat) :
    ∀ N : Nat,
      ((List.range N).map (fun i => WindowExp.digit w i n * 2 ^ (w * i))).sum = n % 2 ^ (w * N)
  | 0 => by simp [Nat.mod_one]
  | N + 1 => by
    rw [List.range_succ, List.map_append, List.sum_append, WindowExp.sum_digits w n N]
    simp only [List.map_cons, List.map_nil, List.sum_cons, List.sum_nil, Nat.add_zero,
      WindowExp.digit]
    rw [Nat.mul_succ, Nat.pow_add, Nat.mod_mul, Nat.mul_comm (2 ^ (w * N))]

theorem sum_map_nsmul [AddMonoid G] (g : G) (a : Nat → Nat) :
    ∀ l : List Nat, (l.map (fun i => a i • g)).sum = (l.map a).sum • g
  | [] => by simp
  | i :: l => by
    simp only [List.map_cons, List.sum_cons, sum_map_nsmul g a l, add_nsmul]

/-- The full table computes the multiple of the generator: `exp(x)` is
`x·G` for every scalar that fits in the windows. -/
theorem WindowExp.exp_ofCount_eq_nsmul [AddMonoid G] (P : WindowOps Fr G) (exp_count : Nat)
    (x : Fr)
    (h : P.asNat x < 2 ^ (P.windowBits exp_count
      * WindowExp.numWindows P (P.windowBits exp_count))) :
    (WindowExp.ofCount P exp_count).exp P x = P.asNat x • P.one := by
  rw [WindowExp.exp_ofCount,
    sum_map_nsmul P.one (fun i => WindowExp.digit (P.windowBits exp_count) i (P.asNat x)
      * 2 ^ (P.windowBits exp_count * i)),
    WindowExp.sum_digits, Nat.mod_eq_of_lt h]

end WindowValue

/-! ## The value of the window table -/

section WindowCorrect

variable {Fr G : Type}

/-- With a positive window width the windows cover the bit length of a
scalar, so the full table computes the multiple of the generator. -/
theorem WindowExp.exp_ofCount_of_bits [AddMonoid G] (P : WindowOps Fr G) (exp_count : Nat)
    (x : Fr) (hw : 0 < P.windowBits exp_count) (hbits : P.asNat x < 2 ^ P.sizeInBits) :
    (WindowExp.ofCount P exp_count).exp P x = P.asNat x • P.one := by
  apply WindowExp.exp_ofCount_eq_nsmul
  have hle : P.sizeInBits
      ≤ P.windowBits exp_count * WindowExp.numWindows P (P.windowBits exp_count) :=
    le_mul_ceil P.sizeInBits (P.windowBits exp_count) hw
  exact Nat.lt_of_lt_of_le hbits (Nat.pow_le_pow_right (by decide) hle)

/-- C21: with a positive window width for `exp_count`, scalars that fit in
`sizeInBits` bits and the scalar multiplication of the group being the
repeated addition of the scalar as a number, `WindowExp(exp_count).exp(x)` is
`x·G` for every scalar `x`; and `batchExp(xs)` has the length of `xs`, its
`i`-th element is `exp(xs[i])`, and it is the vector of the multiples
`xs[i]·G`. -/
theorem WindowExp.exp_correct [AddMonoid G] [SMul Fr G] (P : WindowOps Fr G)
    (exp_count : Nat) (x : Fr) (xs : List Fr)
    (hw : 0 < P.windowBits exp_count) (hbits : ∀ y : Fr, P.asNat y < 2 ^ P.sizeInBits)
    (hsmul : ∀ y : Fr, y • P.one = P.asNat y • P.one) :
    (WindowExp.ofCount P exp_count).exp P x = x • P.one ∧
    ((WindowExp.ofCount P exp_count).batchExpVec P xs).length = xs.length ∧
    (∀ i : Nat, ((WindowExp.ofCount P exp_count).batchExpVec P xs)[i]?
      = (xs[i]?).map ((WindowExp.ofCount P exp_count).exp P)) ∧
    (WindowExp.ofCount P exp_count).batchExpVec P xs = WindowExp.batchExp P.one xs := by
  have hexp : ∀ y : Fr, (WindowExp.ofCount P exp_count).exp P y = y • P.one := by
    intro y
    rw [WindowExp.exp_ofCount_of_bits P exp_count y hw (hbits y), hsmul]
  refine ⟨hexp x, ?_, ?_, ?_⟩
  · simp [WindowExp.batchExpVec]
  · intro i
    simp [WindowExp.batchExpVec]
  · unfold WindowExp.batchExpVec WindowExp.batchExp
    exact List.map_congr_left (fun y _ => hexp y)

/-- The instance of C21 at the small group with scalars of three bits, the
window width 2, the scalar 5 and the vector `[5, 3, 6]`. -/
theorem WindowExp.exp_correct_witness :
    (0 < Toy.windowOps.windowBits 9 ∧
      (∀ y : Toy.Fr, Toy.windowOps.asNat y < 2 ^ Toy.windowOps.sizeInBits) ∧
      (∀ y : Toy.Fr, y • Toy.windowOps.one = Toy.windowOps.asNat y • Toy.windowOps.one)) ∧
    (WindowExp.ofCount Toy.windowOps 9).exp Toy.windowOps (5 : Toy.Fr)
      = (5 : Toy.Fr) • Toy.windowOps.one ∧
    ((WindowExp.ofCount Toy.windowOps 9).batchExpVec Toy.windowOps
      ([5, 3, 6] : List Toy.Fr)).length = 3 ∧
    (WindowExp.ofCount Toy.windowOps 9).batchExpVec Toy.windowOps ([5, 3, 6] : List Toy.Fr)
      = WindowExp.batchExp Toy.windowOps.one [5, 3, 6] :=
  have h := WindowExp.exp_correct Toy.windowOps 9 (5 : Toy.Fr) ([5, 3, 6] : List Toy.Fr)
    (by decide) (by decide) (by decide)
  ⟨⟨by decide, by decide, by decide⟩, h.1, h.2.1, h.2.2.2⟩

end WindowCorrect

/-! ## The progress calls of the generator and the prover -/

section ProgressLemmas

variable {σ α : Type}

theorem ProgressCallback.notify_append (cb : ProgressCallback σ) (xs ys : List ProgressCall)
    (s : σ) : cb.notify (xs ++ ys) s = cb.notify ys (cb.notify xs s) := by
  unfold ProgressCallback.notify
  rw [List.foldl_append]

theorem filter_replicate_minor (k : Nat) :
    (List.replicate k ProgressCall.minor).filter (fun c => c != ProgressCall.minor) = [] := by
  induction k with
  | zero => rfl
  | succ k ih => simp [List.replicate_succ]

theorem Observed.viaDummy_calls (callback : Option (ProgressCallback σ)) (c : ProgressCall)
    (o : Observed σ) : (o.viaDummy callback c).calls = o.calls ++ [c] := by
  cases callback <;> rfl

theorem Observed.viaDummy_none_observer (c : ProgressCall) (o : Observed σ) :
    (o.viaDummy none c).observer = o.observer := rfl

theorem ObservedCall.run_calls (f : ObservedCall σ α) (callback : Option (ProgressCallback σ))
    (o : Observed σ) : (f.run callback o).2.calls = o.calls := by
  cases callback <;> rfl

theorem ObservedCall.run_none_observer (f : ObservedCall σ α) (o : Observed σ) :
    (f.run none o).2.observer = o.observer := rfl

theorem ObservedCall.run_fst (f : ObservedCall σ α) (value : α) (h : f.Lawful value)
    (callback : Option (ProgressCallback σ)) (o : Observed σ) :
    (f.run callback o).1 = value := by
  cases callback with
  | none => exact h.onNull_eq
  | some cb => exact h.onObserver_fst cb o.observer

theorem Observed.tracks_viaDummy (cb : ProgressCallback σ) (s : σ) (o : Observed σ)
    (c : ProgressCall) (hc : c ≠ ProgressCall.minor) (h : Observed.Tracks cb s o) :
    Observed.Tracks cb s (o.viaDummy (some cb) c) := by
  obtain ⟨trace, h1, h2⟩ := h
  refine ⟨trace ++ [c], ?_, ?_⟩
  · show cb.call o.observer c = cb.notify (trace ++ [c]) s
    rw [ProgressCallback.notify_append, ← h1]
    rfl
  · show (trace ++ [c]).filter (fun c => c != ProgressCall.minor) = o.calls ++ [c]
    rw [List.filter_append, h2]
    simp [hc]

theorem Observed.tracks_run (f : ObservedCall σ α) (value : α) (hf : f.Lawful value)
    (cb : ProgressCallback σ) (s : σ) (o : Observed σ) (h : Observed.Tracks cb s o) :
    Observed.Tracks cb s (f.run (some cb) o).2 := by
  obtain ⟨trace, h1, h2⟩ := h
  obtain ⟨k, hk⟩ := hf.onObserver_snd cb o.observer
  refine ⟨trace ++ List.replicate k ProgressCall.minor, ?_, ?_⟩
  · show (f.onObserver cb o.observer).2 = _
    rw [hk, ProgressCallback.notify_append, ← h1]
  · show (trace ++ List.replicate k ProgressCall.minor).filter
      (fun c => c != ProgressCall.minor) = o.calls
    rw [List.filter_append, h2, filter_replicate_minor, List.append_nil]

theorem Observed.step_calls (f : ObservedCall σ α) (callback : Option (ProgressCallback σ))
    (o : Observed σ) :
    (Observed.step f callback o).2.calls = o.calls ++ [ProgressCall.major (some true)] := by
  unfold Observed.step
  rw [ObservedCall.run_calls, Observed.viaDummy_calls]

theorem Observed.step_none_observer (f : ObservedCall σ α) (o : Observed σ) :
    (Observed.step f none o).2.observer = o.observer := rfl

theorem Observed.step_fst (f : ObservedCall σ α) (value : α) (h : f.Lawful value)
    (callback : Option (ProgressCallback σ)) (o : Observed σ) :
    (Observed.step f callback o).1 = value :=
  ObservedCall.run_fst f value h callback _

theorem Observed.tracks_step (f : ObservedCall σ α) (value : α) (hf : f.Lawful value)
    (cb : ProgressCallback σ) (s : σ) (o : Observed σ) (h : Observed.Tracks cb s o) :
    Observed.Tracks cb s (Observed.step f (some cb) o).2 :=
  Observed.tracks_run f value hf cb s _
    (Observed.tracks_viaDummy cb s o _ (fun e => by cases e) h)

theorem Observed.afterArgs_calls (effect : Fin 4 → Observed σ → Observed σ)
    (h : ∀ (i : Fin 4) (o : Observed σ),
      (effect i o).calls = o.calls ++ [ProgressCall.major (some true)]) :
    ∀ (order : List (Fin 4)) (o : Observed σ),
      (Observed.afterArgs effect order o).calls =
        o.calls ++ List.replicate order.length (ProgressCall.major (some true))
  | [], o => by simp [Observed.afterArgs]
  | i :: order, o => by
    have ih := Observed.afterArgs_calls effect h order (effect i o)
    unfold Observed.afterArgs at ih ⊢
    rw [List.foldl_cons, ih, h, List.length_cons, List.replicate_succ, List.append_assoc]
    rfl

theorem Observed.afterArgs_observer (effect : Fin 4 → Observed σ → Observed σ)
    (h : ∀ (i : Fin 4) (o : Observed σ), (effect i o).observer = o.observer) :
    ∀ (order : List (Fin 4)) (o : Observed σ),
      (Observed.afterArgs effect order o).observer = o.observer
  | [], _ => rfl
  | i :: order, o => by
    have ih := Observed.afterArgs_observer effect h order (effect i o)
    unfold Observed.afterArgs at ih ⊢
    rw [List.foldl_cons, ih, h]

theorem Observed.tracks_afterArgs (cb : ProgressCallback σ) (s : σ)
    (effect : Fin 4 → Observed σ → Observed σ)
    (h : ∀ (i : Fin 4) (o : Observed σ), Observed.Tracks cb s o →
      Observed.Tracks cb s (effect i o)) :
    ∀ (order : List (Fin 4)) (o : Observed σ), Observed.Tracks cb s o →
      Observed.Tracks cb s (Observed.afterArgs effect order o)
  | [], _, ho => ho
  | i :: order, o, ho => by
    have ih := Observed.tracks_afterArgs cb s effect h order (effect i o) (h i o ho)
    unfold Observed.afterArgs at ih ⊢
    rw [List.foldl_cons]
    exact ih

theorem ObservedCall.ticking_lawful (value : α) (ticks : Nat) :
    (ObservedCall.ticking value ticks : ObservedCall σ α).Lawful value :=
  ⟨rfl, fun _ _ => rfl, fun _ _ => ⟨ticks, rfl⟩⟩

end ProgressLemmas

section ProgressGenerator

variable {σ Fr G1 G2 GT G1_precomp G2_precomp : Type}

theorem GeneratorCallees.generator_ticking_laws [Mul Fr] [SMul Fr G1] [SMul Fr G2]
    (PAIRING : PairingOps G1 G2 GT G1_precomp G2_precomp) :
    (GeneratorCallees.ticking PAIRING : GeneratorCallees σ Fr G1 G2).Laws PAIRING :=
  ⟨ObservedCall.ticking_lawful _ _, ObservedCall.ticking_lawful _ _,
    fun _ => ObservedCall.ticking_lawful _ _, fun _ _ _ => ObservedCall.ticking_lawful _ _,
    fun _ _ _ => ObservedCall.ticking_lawful _ _⟩

theorem ProverCallees.prover_ticking_laws [Zero G1] [Add G1] [SMul Fr G1] [Zero G2] [Add G2]
    [SMul Fr G2] : (ProverCallees.ticking : ProverCallees σ Fr G1 G2).Laws :=
  ⟨fun _ _ _ _ _ => ObservedCall.ticking_lawful _ _,
    fun _ _ _ _ _ => ObservedCall.ticking_lawful _ _,
    fun _ _ => ObservedCall.ticking_lawful _ _, fun _ _ _ => ObservedCall.ticking_lawful _ _⟩

/-- The calls the generator makes through `dummy`, whatever the callees do
and whatever the pointer `callback` is. -/
theorem PPZK_Keypair.generateObserved_calls [Zero Fr] [Add Fr] [Mul Fr] [SMul Fr G1]
    [SMul Fr G2] (C : GeneratorCallees σ Fr G1 G2) (order : List (Fin 4))
    (horder : order.length = 4)
    (PAIRING : PairingOps G1 G2 GT G1_precomp G2_precomp) (qap : QAP_SystemPoint Fr)
    (alphaA alphaB alphaC rA rB beta gamma : Fr)
    (callback : Option (ProgressCallback σ)) (s : σ) :
    (PPZK_Keypair.generateObserved C order PAIRING qap alphaA alphaB alphaC rA rB beta gamma
      callback s).1.calls
      = ProgressCall.majorSteps 7 :: List.replicate 7 (ProgressCall.major (some true)) := by
  unfold PPZK_Keypair.generateObserved
  simp only []
  split <;>
  · simp only []
    rw [Observed.afterArgs_calls _
      (by intro i o; split_ifs <;> exact Observed.step_calls _ _ _)]
    simp only [Observed.step_calls, Observed.viaDummy_calls, horder]
    rfl

/-- With the null pointer the caller's observer is left as it was. -/
theorem PPZK_Keypair.generateObserved_null [Zero Fr] [Add Fr] [Mul Fr] [SMul Fr G1]
    [SMul Fr G2] (C : GeneratorCallees σ Fr G1 G2) (order : List (Fin 4))
    (PAIRING : PairingOps G1 G2 GT G1_precomp G2_precomp) (qap : QAP_SystemPoint Fr)
    (alphaA alphaB alphaC rA rB beta gamma : Fr) (s : σ) :
    (PPZK_Keypair.generateObserved C order PAIRING qap alphaA alphaB alphaC rA rB beta gamma
      none s).2 = s := by
  unfold PPZK_Keypair.generateObserved
  simp only []
  split <;>
  · simp only []
    rw [Observed.afterArgs_observer _
      (by intro i o; split_ifs <;> exact Observed.step_none_observer _ _)]
    rfl

/-- With an observer: what it has received is a list of calls whose calls
other than minor-step ticks are those made through `dummy`. -/
theorem PPZK_Keypair.generateObserved_tracks [Zero Fr] [Add Fr] [Mul Fr] [SMul Fr G1]
    [SMul Fr G2] (C : GeneratorCallees σ Fr G1 G2) (order : List (Fin 4))
    (PAIRING : PairingOps G1 G2 GT G1_precomp G2_precomp) (hC : C.Laws PAIRING)
    (qap : QAP_SystemPoint Fr)
    (alphaA alphaB alphaC rA rB beta gamma : Fr) (cb : ProgressCallback σ) (s : σ) :
    Observed.Tracks cb s
      ⟨(PPZK_Keypair.generateObserved C order PAIRING qap alphaA alphaB alphaC rA rB beta gamma
          (some cb) s).1.calls,
        (PPZK_Keypair.generateObserved C order PAIRING qap alphaA alphaB alphaC rA rB beta gamma
          (some cb) s).2, ()⟩ := by
  have h0 : Observed.Tracks cb s ⟨[], s, ()⟩ := ⟨[], rfl, rfl⟩
  have h1 := Observed.tracks_viaDummy cb s _ (ProgressCall.majorSteps 7)
    (fun e => by cases e) h0
  have h2 := Observed.tracks_step _ _ hC.WindowExp_G1 cb s _ h1
  have h3 := Observed.tracks_step _ _ hC.WindowExp_G2 cb s _ h2
  have h4 := Observed.tracks_step _ _
    (hC.g1_table_batchExp (QAP_QueryK qap.QueryA qap.QueryB qap.QueryC rA rB beta)) cb s _ h3
  unfold PPZK_Keypair.generateObserved
  simp only []
  split <;>
  · simp only []
    refine Observed.tracks_afterArgs cb s _ ?_ order _ h4
    intro i o ho
    split_ifs
    · exact Observed.tracks_step _ _ (hC.batchExp_G1G1 _ _ _) cb s o ho
    · exact Observed.tracks_step _ _ (hC.batchExp_G2G1 _ _ _) cb s o ho
    · exact Observed.tracks_step _ _ (hC.batchExp_G1G1 _ _ _) cb s o ho
    · exact Observed.tracks_step _ _ (hC.g1_table_batchExp _) cb s o ho

/-- What the generator builds does not depend on the pointer `callback`: it
is what `PPZK_Keypair.generate` describes. -/
theorem PPZK_Keypair.generateObserved_result [Zero Fr] [Add Fr] [Mul Fr] [SMul Fr G1]
    [SMul Fr G2] (C : GeneratorCallees σ Fr G1 G2) (order : List (Fin 4))
    (PAIRING : PairingOps G1 G2 GT G1_precomp G2_precomp) (hC : C.Laws PAIRING)
    (qap : QAP_SystemPoint Fr)
    (alphaA alphaB alphaC rA rB beta gamma : Fr)
    (callback : Option (ProgressCallback σ)) (s : σ) :
    (PPZK_Keypair.generateObserved C order PAIRING qap alphaA alphaB alphaC rA rB beta gamma
      callback s).1.result
      = (PPZK_Keypair.generate PAIRING qap alphaA alphaB alphaC rA rB beta gamma).result := by
  have hg : ∀ (vec : List Fr) (o : Observed σ),
      (Observed.step (C.g1_table_batchExp vec) callback o).1
        = WindowExp.batchExp PAIRING.G1_one vec :=
    fun vec o => Observed.step_fst _ _ (hC.g1_table_batchExp vec) callback o
  have h11 : ∀ (a b : Fr) (vec : List Fr) (o : Observed σ),
      (Observed.step (C.batchExp_G1G1 a b vec) callback o).1
        = batchExp PAIRING.G1_one PAIRING.G1_one a b vec :=
    fun a b vec o => Observed.step_fst _ _ (hC.batchExp_G1G1 a b vec) callback o
  have h21 : ∀ (a b : Fr) (vec : List Fr) (o : Observed σ),
      (Observed.step (C.batchExp_G2G1 a b vec) callback o).1
        = batchExp PAIRING.G2_one PAIRING.G1_one a b vec :=
    fun a b vec o => Observed.step_fst _ _ (hC.batchExp_G2G1 a b vec) callback o
  unfold PPZK_Keypair.generateObserved PPZK_Keypair.generate
  simp only [hg, h11, h21]
  split <;> rfl

end ProgressGenerator
section ProgressProver

variable {σ Fr G1 G2 GT G1_precomp G2_precomp : Type}

/-- The calls the prover makes through `dummy`, whatever the callees do and
whatever the pointer `callback` is. -/
theorem PPZK_Proof.proveObserved_calls [Zero G1] [Add G1] [SMul Fr G1] [Zero G2] [Add G2]
    [SMul Fr G2] (C : ProverCallees σ Fr G1 G2)
    (numVariables : Nat) (pk : PPZK_ProvingKey G1 G2) (witness : R1Witness Fr)
    (aH : List Fr) (d1 d2 d3 : Fr) (reserveTune : Nat)
    (callback : Option (ProgressCallback σ)) (s : σ) :
    (PPZK_Proof.proveObserved C numVariables pk witness aH d1 d2 d3 reserveTune
      callback s).1.calls
      = ProgressCall.majorSteps 5 :: List.replicate 5 (ProgressCall.major (some true)) := by
  unfold PPZK_Proof.proveObserved
  simp only []
  split <;> split_ifs <;>
    simp only [ObservedCall.run_calls, Observed.viaDummy_calls] <;> rfl

/-- With the null pointer the caller's observer is left as it was. -/
theorem PPZK_Proof.proveObserved_null [Zero G1] [Add G1] [SMul Fr G1] [Zero G2] [Add G2]
    [SMul Fr G2] (C : ProverCallees σ Fr G1 G2)
    (numVariables : Nat) (pk : PPZK_ProvingKey G1 G2) (witness : R1Witness Fr)
    (aH : List Fr) (d1 d2 d3 : Fr) (reserveTune : Nat) (s : σ) :
    (PPZK_Proof.proveObserved C numVariables pk witness aH d1 d2 d3 reserveTune none s).2
      = s := by
  unfold PPZK_Proof.proveObserved
  simp only []
  split <;> split_ifs <;> rfl

theorem Observed.tracks_run_major {α : Type} (f : ObservedCall σ α) (value : α)
    (hf : f.Lawful value) (cb : ProgressCallback σ) (s : σ) (o : Observed σ)
    (h : Observed.Tracks cb s o) :
    Observed.Tracks cb s
      ((f.run (some cb) o).2.viaDummy (some cb) (ProgressCall.major (some true))) :=
  Observed.tracks_viaDummy cb s _ _ (fun e => by cases e) (Observed.tracks_run f value hf cb s o h)

/-- With an observer: what it has received is a list of calls whose calls
other than minor-step ticks are those made through `dummy`. -/
theorem PPZK_Proof.proveObserved_tracks [Zero G1] [Add G1] [SMul Fr G1] [Zero G2] [Add G2]
    [SMul Fr G2] (C : ProverCallees σ Fr G1 G2) (hC : C.Laws)
    (numVariables : Nat) (pk : PPZK_ProvingKey G1 G2) (witness : R1Witness Fr)
    (aH : List Fr) (d1 d2 d3 : Fr) (reserveTune : Nat) (cb : ProgressCallback σ) (s : σ) :
    Observed.Tracks cb s
      ⟨(PPZK_Proof.proveObserved C numVariables pk witness aH d1 d2 d3 reserveTune
          (some cb) s).1.calls,
        (PPZK_Proof.proveObserved C numVariables pk witness aH d1 d2 d3 reserveTune
          (some cb) s).2, ()⟩ := by
  have h0 : Observed.Tracks cb s ⟨[], s, ()⟩ := ⟨[], rfl, rfl⟩
  have h1 := Observed.tracks_viaDummy cb s _ (ProgressCall.majorSteps 5)
    (fun e => by cases e) h0
  have h2 := Observed.tracks_viaDummy cb s _ (ProgressCall.major (some true))
    (fun e => by cases e) h1
  have hA := fun r1 => Observed.tracks_run_major _ _
    (hC.multiExp01_G1G1 pk.m_A_query witness 4 (4 + numVariables) r1) cb s _ h2
  have hB := fun r1 r2 => Observed.tracks_run_major _ _
    (hC.multiExp01_G2G1 pk.m_B_query witness 4 (4 + numVariables) r2) cb s _ (hA r1)
  have hCC := fun r1 r2 r3 => Observed.tracks_run_major _ _
    (hC.multiExp01_G1G1 pk.m_C_query witness 4 (4 + numVariables) r3) cb s _ (hB r1 r2)
  have hH := fun r1 r2 r3 => Observed.tracks_run_major _ _
    (hC.multiExp pk.m_H_query aH) cb s _ (hCC r1 r2 r3)
  unfold PPZK_Proof.proveObserved
  simp only []
  split <;> split_ifs
  · exact Observed.tracks_run _ _ (hC.multiExp01 _ _ _) cb s _ (hH _ _ _)
  · exact Observed.tracks_run _ _ (hC.multiExp01 _ _ _) cb s _ (hH _ _ _)
  · exact hH _ _ _
  · exact hH _ _ _

/-- What the prover builds does not depend on the pointer `callback`: it is
what `PPZK_Proof.prove` describes. -/
theorem PPZK_Proof.proveObserved_result [Zero G1] [Add G1] [SMul Fr G1] [Zero G2] [Add G2]
    [SMul Fr G2] (C : ProverCallees σ Fr G1 G2) (hC : C.Laws)
    (numVariables : Nat) (pk : PPZK_ProvingKey G1 G2) (witness : R1Witness Fr)
    (aH : List Fr) (d1 d2 d3 : Fr) (reserveTune : Nat)
    (callback : Option (ProgressCallback σ)) (s : σ) :
    (PPZK_Proof.proveObserved C numVariables pk witness aH d1 d2 d3 reserveTune
      callback s).1.result
      = (PPZK_Proof.prove numVariables pk witness aH d1 d2 d3 reserveTune).result := by
  have h11 : ∀ (base : SparseVector (Pairing G1 G1)) (scalar : List Fr) (a b : Nat)
      (r : Option Nat) (o : Observed σ),
      ((C.multiExp01_G1G1 base scalar a b r).run callback o).1
        = multiExp01_range base scalar a b r :=
    fun base scalar a b r o => ObservedCall.run_fst _ _ (hC.multiExp01_G1G1 base scalar a b r) _ _
  have h21 : ∀ (base : SparseVector (Pairing G2 G1)) (scalar : List Fr) (a b : Nat)
      (r : Option Nat) (o : Observed σ),
      ((C.multiExp01_G2G1 base scalar a b r).run callback o).1
        = multiExp01_range base scalar a b r :=
    fun base scalar a b r o => ObservedCall.run_fst _ _ (hC.multiExp01_G2G1 base scalar a b r) _ _
  have hm : ∀ (base : List G1) (scalar : List Fr) (o : Observed σ),
      ((C.multiExp base scalar).run callback o).1 = multiExp base scalar :=
    fun base scalar o => ObservedCall.run_fst _ _ (hC.multiExp base scalar) _ _
  have hm01 : ∀ (base : List G1) (scalar : List Fr) (r : Option Nat) (o : Observed σ),
      ((C.multiExp01 base scalar r).run callback o).1 = multiExp01 base scalar r :=
    fun base scalar r o => ObservedCall.run_fst _ _ (hC.multiExp01 base scalar r) _ _
  unfold PPZK_Proof.proveObserved PPZK_Proof.prove
  simp only []
  split <;> split_ifs <;> simp only [h11, h21, hm, hm01]

end ProgressProver
section Progress

variable {σ Fr G1 G2 GT G1_precomp G2_precomp : Type}

/-- C22: let the callees that are handed `callback` (the window tables,
`batchExp`, `multiExp01`, `multiExp`) return what the spec says of them and
use the observer for minor-step ticks only.  Then on every run, whatever the
QAP output, the witness, the randomness, `reserveTune`, the pointer
`callback` and the order in which the compiler evaluates the four arguments of
the constructor of `m_pk`, the generator calls `majorSteps(7)` once and then
`major(true)` seven times through `dummy`, the prover `majorSteps(5)` once and
then `major(true)` five times, and what they build is what `generate` and
`prove` describe, the same for every `callback`.  With an observer, the calls
it receives are these calls with minor-step ticks between them.  With the
null pointer the calls go to the local no-op observer and the caller's
observer is left as it was. -/
theorem progress_protocol [Zero Fr] [Add Fr] [Mul Fr] [Zero G1] [Add G1] [SMul Fr G1]
    [Zero G2] [Add G2] [SMul Fr G2]
    (PAIRING : PairingOps G1 G2 GT G1_precomp G2_precomp)
    (CG : GeneratorCallees σ Fr G1 G2) (CP : ProverCallees σ Fr G1 G2)
    (hG : CG.Laws PAIRING) (hP : CP.Laws)
    (order : List (Fin 4)) (horder : order.Perm [0, 1, 2, 3])
    (qap : QAP_SystemPoint Fr) (alphaA alphaB alphaC rA rB beta gamma : Fr)
    (numVariables : Nat) (pk : PPZK_ProvingKey G1 G2) (witness : R1Witness Fr)
    (aH : List Fr) (d1 d2 d3 : Fr) (reserveTune : Nat) (cb : ProgressCallback σ) (s : σ) :
    (∀ callback : Option (ProgressCallback σ),
      (PPZK_Keypair.generateObserved CG order PAIRING qap alphaA alphaB alphaC rA rB beta gamma
          callback s).1.calls
        = ProgressCall.majorSteps 7 :: List.replicate 7 (ProgressCall.major (some true)) ∧
      (PPZK_Keypair.generateObserved CG order PAIRING qap alphaA alphaB alphaC rA rB beta gamma
          callback s).1.result
        = (PPZK_Keypair.generate PAIRING qap alphaA alphaB alphaC rA rB beta gamma).result ∧
      (PPZK_Proof.proveObserved CP numVariables pk witness aH d1 d2 d3 reserveTune
          callback s).1.calls
        = ProgressCall.majorSteps 5 :: List.replicate 5 (ProgressCall.major (some true)) ∧
      (PPZK_Proof.proveObserved CP numVariables pk witness aH d1 d2 d3 reserveTune
          callback s).1.result
        = (PPZK_Proof.prove numVariables pk witness aH d1 d2 d3 reserveTune).result) ∧
    ((∃ trace : List ProgressCall,
        (PPZK_Keypair.generateObserved CG order PAIRING qap alphaA alphaB alphaC rA rB beta
          gamma (some cb) s).2 = cb.notify trace s ∧
        trace.filter (fun c => c != ProgressCall.minor)
          = ProgressCall.majorSteps 7 :: List.replicate 7 (ProgressCall.major (some true))) ∧
      (∃ trace : List ProgressCall,
        (PPZK_Proof.proveObserved CP numVariables pk witness aH d1 d2 d3 reserveTune
          (some cb) s).2 = cb.notify trace s ∧
        trace.filter (fun c => c != ProgressCall.minor)
          = ProgressCall.majorSteps 5 :: List.replicate 5 (ProgressCall.major (some true)))) ∧
    ((PPZK_Keypair.generateObserved CG order PAIRING qap alphaA alphaB alphaC rA rB beta gamma
        none s).2 = s ∧
      (PPZK_Proof.proveObserved CP numVariables pk witness aH d1 d2 d3 reserveTune none s).2
        = s) := by
  have hlen : order.length = 4 := horder.length_eq
  refine ⟨fun callback => ⟨?_, ?_, ?_, ?_⟩, ⟨?_, ?_⟩, ?_, ?_⟩
  · exact PPZK_Keypair.generateObserved_calls CG order hlen PAIRING qap alphaA alphaB alphaC rA
      rB beta gamma callback s
  · exact PPZK_Keypair.generateObserved_result CG order PAIRING hG qap alphaA alphaB alphaC rA
      rB beta gamma callback s
  · exact PPZK_Proof.proveObserved_calls CP numVariables pk witness aH d1 d2 d3 reserveTune
      callback s
  · exact PPZK_Proof.proveObserved_result CP hP numVariables pk witness aH d1 d2 d3 reserveTune
      callback s
  · obtain ⟨trace, h1, h2⟩ := PPZK_Keypair.generateObserved_tracks CG order PAIRING hG qap
      alphaA alphaB alphaC rA rB beta gamma cb s
    refine ⟨trace, h1, h2.trans ?_⟩
    exact PPZK_Keypair.generateObserved_calls CG order hlen PAIRING qap alphaA alphaB alphaC rA
      rB beta gamma (some cb) s
  · obtain ⟨trace, h1, h2⟩ := PPZK_Proof.proveObserved_tracks CP hP numVariables pk witness aH
      d1 d2 d3 reserveTune cb s
    refine ⟨trace, h1, h2.trans ?_⟩
    exact PPZK_Proof.proveObserved_calls CP numVariables pk witness aH d1 d2 d3 reserveTune
      (some cb) s
  · exact PPZK_Keypair.generateObserved_null CG order PAIRING qap alphaA alphaB alphaC rA rB
      beta gamma s
  · exact PPZK_Proof.proveObserved_null CP numVariables pk witness aH d1 d2 d3 reserveTune s

/-- The instance of C22 at the small pairing: callees that tick once for
every element, the arguments of the constructor of `m_pk` evaluated from right
to left, the QAP output `Toy.qap` with the trapdoors of `Toy.keypair3`, the
proving key `Toy.provingKey` with the witness `(1, 2)` and `reserveTune = 2`,
and an observer that writes down what it receives.  The last part is what
that observer has written down after the prover. -/
theorem progress_protocol_witness :
    (GeneratorCallees.ticking Toy.PAIRING :
      GeneratorCallees (List ProgressCall) Toy.Fr Toy.G1 Toy.G2).Laws Toy.PAIRING ∧
    (ProverCallees.ticking : ProverCallees (List ProgressCall) Toy.Fr Toy.G1 Toy.G2).Laws ∧
    ([3, 2, 1, 0] : List (Fin 4)).Perm [0, 1, 2, 3] ∧
    ((∀ callback : Option (ProgressCallback (List ProgressCall)),
      (PPZK_Keypair.generateObserved (GeneratorCallees.ticking Toy.PAIRING) [3, 2, 1, 0]
          Toy.PAIRING Toy.qap 2 3 4 1 2 3 5 callback []).1.calls
        = ProgressCall.majorSteps 7 :: List.replicate 7 (ProgressCall.major (some true)) ∧
      (PPZK_Keypair.generateObserved (GeneratorCallees.ticking Toy.PAIRING) [3, 2, 1, 0]
          Toy.PAIRING Toy.qap 2 3 4 1 2 3 5 callback []).1.result
        = (PPZK_Keypair.generate Toy.PAIRING Toy.qap 2 3 4 1 2 3 5).result ∧
      (PPZK_Proof.proveObserved ProverCallees.ticking 2 Toy.provingKey ([1, 2] : List Toy.Fr)
          [1, 1] 1 2 3 2 callback []).1.calls
        = ProgressCall.majorSteps 5 :: List.replicate 5 (ProgressCall.major (some true)) ∧
      (PPZK_Proof.proveObserved ProverCallees.ticking 2 Toy.provingKey ([1, 2] : List Toy.Fr)
          [1, 1] 1 2 3 2 callback []).1.result
        = (PPZK_Proof.prove 2 Toy.provingKey ([1, 2] : List Toy.Fr) [1, 1] 1 2 3 2).result) ∧
    ((∃ trace : List ProgressCall,
        (PPZK_Keypair.generateObserved (GeneratorCallees.ticking Toy.PAIRING) [3, 2, 1, 0]
          Toy.PAIRING Toy.qap 2 3 4 1 2 3 5 (some ProgressCallback.recorder) []).2
          = ProgressCallback.recorder.notify trace [] ∧
        trace.filter (fun c => c != ProgressCall.minor)
          = ProgressCall.majorSteps 7 :: List.replicate 7 (ProgressCall.major (some true))) ∧
      (∃ trace : List ProgressCall,
        (PPZK_Proof.proveObserved ProverCallees.ticking 2 Toy.provingKey
          ([1, 2] : List Toy.Fr) [1, 1] 1 2 3 2 (some ProgressCallback.recorder) []).2
          = ProgressCallback.recorder.notify trace [] ∧
        trace.filter (fun c => c != ProgressCall.minor)
          = ProgressCall.majorSteps 5 :: List.replicate 5 (ProgressCall.major (some true)))) ∧
    ((PPZK_Keypair.generateObserved (GeneratorCallees.ticking Toy.PAIRING) [3, 2, 1, 0]
        Toy.PAIRING Toy.qap 2 3 4 1 2 3 5 none ([] : List ProgressCall)).2 = [] ∧
      (PPZK_Proof.proveObserved ProverCallees.ticking 2 Toy.provingKey ([1, 2] : List Toy.Fr)
        [1, 1] 1 2 3 2 none ([] : List ProgressCall)).2 = [])) ∧
    (PPZK_Proof.proveObserved ProverCallees.ticking 2 Toy.provingKey ([1, 2] : List Toy.Fr)
        [1, 1] 1 2 3 2 (some ProgressCallback.recorder) []).2
      = [ProgressCall.majorSteps 5,
          ProgressCall.major (some true), ProgressCall.minor, ProgressCall.minor,
          ProgressCall.major (some true), ProgressCall.minor, ProgressCall.minor,
          ProgressCall.major (some true), ProgressCall.minor, ProgressCall.minor,
          ProgressCall.major (some true), ProgressCall.minor, ProgressCall.minor,
          ProgressCall.major (some true), ProgressCall.minor, ProgressCall.minor] :=
  ⟨GeneratorCallees.generator_ticking_laws Toy.PAIRING, ProverCallees.prover_ticking_laws, by decide,
    progress_protocol Toy.PAIRING (GeneratorCallees.ticking Toy.PAIRING) ProverCallees.ticking
      (GeneratorCallees.generator_ticking_laws Toy.PAIRING) ProverCallees.prover_ticking_laws [3, 2, 1, 0]
      (by decide) Toy.qap 2 3 4 1 2 3 5 2 Toy.provingKey ([1, 2] : List Toy.Fr) [1, 1] 1 2 3 2
      ProgressCallback.recorder [],
    by decide⟩

end Progress

/-! ## The five pairing checks, one by one -/

section PairingCheckClaims

variable {Fr G1 G2 GT G1_precomp G2_precomp : Type}

/-- C23: under the laws of the pairing primitive (the final exponentiation is
multiplicative and sends `unitary_inverse` to the inverse, the double Miller
loop stands for the product of two Miller loops), for every key, accumulated
IC base `acc` and proof, the fourth value `weakVerify` compares with GT one,
`final_exponentiation(miller(A.G + acc, B.G) ·
unitary_inverse(double_miller(H, rC_Z_g2, C.G, G2::one)))`, is GT one if and
only if `e(A.G + acc, B.G) = e(H, rC_Z_g2) · e(C.G, G2::one)`. -/
theorem weakVerify.QAP_eq_one_iff [Add G1] [CommMonoid GT]
    (PAIRING : PairingOps G1 G2 GT G1_precomp G2_precomp) (laws : PairingLaws PAIRING)
    (vk : PPZK_VerificationKey G1 G2) (acc : G1) (proof : PPZK_Proof G1 G2) :
    weakVerify.QAP PAIRING (PPZK_PrecompVerificationKey.ofVK PAIRING vk) acc proof
      = PAIRING.final_exponentiation
          (PAIRING.ate_miller_loop (PAIRING.G1_precomp_of (proof.m_A.G + acc))
              (PAIRING.G2_precomp_of proof.m_B.G) *
            PAIRING.unitary_inverse
              (PAIRING.ate_double_miller_loop (PAIRING.G1_precomp_of proof.m_H)
                (PAIRING.G2_precomp_of vk.m_rC_Z_g2) (PAIRING.G1_precomp_of proof.m_C.G)
                (PAIRING.G2_precomp_of PAIRING.G2_one))) ∧
    (weakVerify.QAP PAIRING (PPZK_PrecompVerificationKey.ofVK PAIRING vk) acc proof = 1 ↔
      PAIRING.e (proof.m_A.G + acc) proof.m_B.G =
        PAIRING.e proof.m_H vk.m_rC_Z_g2 * PAIRING.e proof.m_C.G PAIRING.G2_one) := by
  refine ⟨rfl, ?_⟩
  rw [eq_comm]
  unfold weakVerify.QAP PPZK_PrecompVerificationKey.ofVK PairingOps.e
  exact one_eq_final_exponentiation_double laws _ _ _ _ _

/-- The instance of C23 at the small pairing, the key `Toy.vk`, the
accumulated base `(3, 0)` and the proof `Toy.proofOk`. -/
theorem weakVerify.QAP_eq_one_iff_witness :
    PairingLaws Toy.PAIRING ∧
    (weakVerify.QAP Toy.PAIRING (PPZK_PrecompVerificationKey.ofVK Toy.PAIRING Toy.vk)
        ((3, 0) : Toy.G1) Toy.proofOk = 1 ↔
      Toy.PAIRING.e (Toy.proofOk.m_A.G + ((3, 0) : Toy.G1)) Toy.proofOk.m_B.G =
        Toy.PAIRING.e Toy.proofOk.m_H Toy.vk.m_rC_Z_g2 *
          Toy.PAIRING.e Toy.proofOk.m_C.G Toy.PAIRING.G2_one) :=
  ⟨Toy.PAIRING_laws,
    (weakVerify.QAP_eq_one_iff Toy.PAIRING Toy.PAIRING_laws Toy.vk ((3, 0) : Toy.G1)
      Toy.proofOk).2⟩

/-- C24: under the laws of the pairing primitive, for every key, accumulated
IC base `acc` and proof, the fifth value `weakVerify` compares with GT one is
GT one if and only if `e(K, gamma_g2) = e(A.G + acc + C.G, gamma_beta_g2) ·
e(gamma_beta_g1, B.G)`: the points `A.G`, `acc` and `C.G` of G1 are added
before the pairing, and `B.G`, the G2 half of the pair B, is the second
argument of the last pairing. -/
theorem weakVerify.K_eq_one_iff [Add G1] [CommMonoid GT]
    (PAIRING : PairingOps G1 G2 GT G1_precomp G2_precomp) (laws : PairingLaws PAIRING)
    (vk : PPZK_VerificationKey G1 G2) (acc : G1) (proof : PPZK_Proof G1 G2) :
    weakVerify.K PAIRING (PPZK_PrecompVerificationKey.ofVK PAIRING vk) acc proof
      = PAIRING.final_exponentiation
          (PAIRING.ate_miller_loop (PAIRING.G1_precomp_of proof.m_K)
              (PAIRING.G2_precomp_of vk.m_gamma_g2) *
            PAIRING.unitary_inverse
              (PAIRING.ate_double_miller_loop
                (PAIRING.G1_precomp_of (proof.m_A.G + acc + proof.m_C.G))
                (PAIRING.G2_precomp_of vk.m_gamma_beta_g2)
                (PAIRING.G1_precomp_of vk.m_gamma_beta_g1)
                (PAIRING.G2_precomp_of proof.m_B.G))) ∧
    (weakVerify.K PAIRING (PPZK_PrecompVerificationKey.ofVK PAIRING vk) acc proof = 1 ↔
      PAIRING.e proof.m_K vk.m_gamma_g2 =
        PAIRING.e (proof.m_A.G + acc + proof.m_C.G) vk.m_gamma_beta_g2 *
          PAIRING.e vk.m_gamma_beta_g1 proof.m_B.G) := by
  refine ⟨rfl, ?_⟩
  rw [eq_comm]
  unfold weakVerify.K PPZK_PrecompVerificationKey.ofVK PairingOps.e
  exact one_eq_final_exponentiation_double laws _ _ _ _ _

/-- The instance of C24 at the small pairing, the key `Toy.vk`, the
accumulated base `(3, 0)` and the proof `Toy.proofOk`. -/
theorem weakVerify.K_eq_one_iff_witness :
    PairingLaws Toy.PAIRING ∧
    (weakVerify.K Toy.PAIRING (PPZK_PrecompVerificationKey.ofVK Toy.PAIRING Toy.vk)
        ((3, 0) : Toy.G1) Toy.proofOk = 1 ↔
      Toy.PAIRING.e Toy.proofOk.m_K Toy.vk.m_gamma_g2 =
        Toy.PAIRING.e (Toy.proofOk.m_A.G + ((3, 0) : Toy.G1) + Toy.proofOk.m_C.G)
            Toy.vk.m_gamma_beta_g2 *
          Toy.PAIRING.e Toy.vk.m_gamma_beta_g1 Toy.proofOk.m_B.G) :=
  ⟨Toy.PAIRING_laws,
    (weakVerify.K_eq_one_iff Toy.PAIRING Toy.PAIRING_laws Toy.vk ((3, 0) : Toy.G1)
      Toy.proofOk).2⟩

/-- C25: under the laws of the pairing primitive, for every key and proof,
the three values `weakVerify` compares with GT one for A, B and C are GT one
if and only if, respectively, `e(A.G, alphaA_g2) = e(A.H, G2::one)`,
`e(alphaB_g1, B.G) = e(B.H, G2::one)` and `e(C.G, alphaC_g2) = e(C.H,
G2::one)`; for B the element of the key is the G1 argument and `B.G` of the
proof the G2 argument. -/
theorem weakVerify.kc_eq_one_iff [CommMonoid GT]
    (PAIRING : PairingOps G1 G2 GT G1_precomp G2_precomp) (laws : PairingLaws PAIRING)
    (vk : PPZK_VerificationKey G1 G2) (proof : PPZK_Proof G1 G2) :
    (weakVerify.kc_A PAIRING (PPZK_PrecompVerificationKey.ofVK PAIRING vk) proof = 1 ↔
      PAIRING.e proof.m_A.G vk.m_alphaA_g2 = PAIRING.e proof.m_A.H PAIRING.G2_one) ∧
    (weakVerify.kc_B PAIRING (PPZK_PrecompVerificationKey.ofVK PAIRING vk) proof = 1 ↔
      PAIRING.e vk.m_alphaB_g1 proof.m_B.G = PAIRING.e proof.m_B.H PAIRING.G2_one) ∧
    (weakVerify.kc_C PAIRING (PPZK_PrecompVerificationKey.ofVK PAIRING vk) proof = 1 ↔
      PAIRING.e proof.m_C.G vk.m_alphaC_g2 = PAIRING.e proof.m_C.H PAIRING.G2_one) := by
  refine ⟨?_, ?_, ?_⟩
  · rw [eq_comm]
    unfold weakVerify.kc_A PPZK_PrecompVerificationKey.ofVK PairingOps.e
    exact one_eq_final_exponentiation_miller laws _ _ _
  · rw [eq_comm]
    unfold weakVerify.kc_B PPZK_PrecompVerificationKey.ofVK PairingOps.e
    exact one_eq_final_exponentiation_miller laws _ _ _
  · rw [eq_comm]
    unfold weakVerify.kc_C PPZK_PrecompVerificationKey.ofVK PairingOps.e
    exact one_eq_final_exponentiation_miller laws _ _ _

/-- The instance of C25 at the small pairing, the key `Toy.vk` and the proof
`Toy.proofOk`. -/
theorem weakVerify.kc_eq_one_iff_witness :
    PairingLaws Toy.PAIRING ∧
    (weakVerify.kc_A Toy.PAIRING (PPZK_PrecompVerificationKey.ofVK Toy.PAIRING Toy.vk)
        Toy.proofOk = 1 ↔
      Toy.PAIRING.e Toy.proofOk.m_A.G Toy.vk.m_alphaA_g2
        = Toy.PAIRING.e Toy.proofOk.m_A.H Toy.PAIRING.G2_one) ∧
    (weakVerify.kc_B Toy.PAIRING (PPZK_PrecompVerificationKey.ofVK Toy.PAIRING Toy.vk)
        Toy.proofOk = 1 ↔
      Toy.PAIRING.e Toy.vk.m_alphaB_g1 Toy.proofOk.m_B.G
        = Toy.PAIRING.e Toy.proofOk.m_B.H Toy.PAIRING.G2_one) ∧
    (weakVerify.kc_C Toy.PAIRING (PPZK_PrecompVerificationKey.ofVK Toy.PAIRING Toy.vk)
        Toy.proofOk = 1 ↔
      Toy.PAIRING.e Toy.proofOk.m_C.G Toy.vk.m_alphaC_g2
        = Toy.PAIRING.e Toy.proofOk.m_C.H Toy.PAIRING.G2_one) :=
  ⟨Toy.PAIRING_laws, weakVerify.kc_eq_one_iff Toy.PAIRING Toy.PAIRING_laws Toy.vk Toy.proofOk⟩

end PairingCheckClaims

/-! ## The encoded queries of the proving key -/

section QueryEncoding

variable {Fr G1 G2 GT G1_precomp G2_precomp : Type}

theorem batchExp_getElementForIndex_of_some {GA GB : Type} [Mul Fr] [SMul Fr GA] [SMul Fr GB]
    [Zero GA] [Zero GB] (oneA : GA) (oneB : GB) (random_A random_B : Fr) (vec : List Fr)
    (i : Nat) (x : Fr) (h : vec[i]? = some x) :
    (batchExp oneA oneB random_A random_B vec).getElementForIndex i
      = ⟨(random_A * x) • oneA, (random_B * x) • oneB⟩ := by
  rw [batchExp_getElementForIndex, h]

theorem getElem?_zipWith_zip {α β γ δ : Type} (f : α → β → γ → δ) :
    ∀ (l1 : List α) (l2 : List β) (l3 : List γ) (i : Nat) (a : α) (b : β) (c : γ),
      l1[i]? = some a → l2[i]? = some b → l3[i]? = some c →
      (List.zipWith (fun x yz => f x yz.1 yz.2) l1 (List.zip l2 l3))[i]? = some (f a b c)
  | [], _, _, _, _, _, _, h, _, _ => by simp at h
  | _ :: _, [], _, _, _, _, _, _, h, _ => by simp at h
  | _ :: _, _ :: _, [], _, _, _, _, _, _, h => by simp at h
  | x :: l1, y :: l2, z :: l3, 0, a, b, c, h1, h2, h3 => by
    simp only [List.getElem?_cons_zero, Option.some.injEq] at h1 h2 h3
    subst h1 h2 h3
    simp
  | x :: l1, y :: l2, z :: l3, i + 1, a, b, c, h1, h2, h3 => by
    simp only [List.getElem?_cons_succ] at h1 h2 h3
    simp only [List.zip_cons_cons, List.zipWith_cons_cons, List.getElem?_cons_succ]
    exact getElem?_zipWith_zip f l1 l2 l3 i a b c h1 h2 h3

theorem QAP_QueryK_getElem? [Add Fr] [Mul Fr] (At Bt Ct : List Fr) (rA rB beta : Fr)
    (i : Nat) (a b c : Fr) (ha : At[i]? = some a) (hb : Bt[i]? = some b)
    (hc : Ct[i]? = some c) :
    (QAP_QueryK At Bt Ct rA rB beta)[3 + i]?
      = some (beta * (rA * a + rB * b + (rA * rB) * c)) := by
  unfold QAP_QueryK
  simp only []
  rw [Nat.add_comm 3 i]
  show (_ :: _ :: _ :: List.zipWith _ At (List.zip Bt Ct))[i + 3]? = _
  rw [List.getElem?_cons_succ, List.getElem?_cons_succ, List.getElem?_cons_succ]
  exact getElem?_zipWith_zip (fun x y z => beta * (rA * x + rB * y + (rA * rB) * z))
    At Bt Ct i a b c ha hb hc

/-- C26: for every output of the QAP layer (with a non-empty A vector), every
choice of the trapdoors and every index `i`, the generated `A_query[i]` is
`((rA·At[i])·G1, (rA·alphaA·At[i])·G1)` with `At` taken after the IC entries
are zeroed, `B_query[i]` is `((rB·Bt[i])·G2, (rB·alphaB·Bt[i])·G1)`,
`C_query[i]` is `((rC·Ct[i])·G1, (rC·alphaC·Ct[i])·G1)` with `rC = rA·rB`, and
`H_query[j]` is `Ht[j]·G1`; in every entry the scalar of the second element is
alpha times the scalar of the first. -/
theorem PPZK_Keypair.generate_queries [CommRing Fr] [AddCommGroup G1] [Module Fr G1]
    [AddCommGroup G2] [Module Fr G2]
    (PAIRING : PairingOps G1 G2 GT G1_precomp G2_precomp) (qap : QAP_SystemPoint Fr)
    (alphaA alphaB alphaC rA rB beta gamma : Fr) (hA : qap.QueryA ≠ []) :
    ∃ kp, (PPZK_Keypair.generate PAIRING qap alphaA alphaB alphaC rA rB beta gamma).result
        = some kp ∧
      (∀ (i : Nat) (a : Fr), (QAP_IC_coefficients.At qap.numCircuitInputs qap.QueryA)[i]? = some a →
        kp.m_pk.m_A_query.getElementForIndex i
          = ⟨(rA * a) • PAIRING.G1_one, (rA * alphaA * a) • PAIRING.G1_one⟩ ∧
        (rA * alphaA * a) • PAIRING.G1_one = (alphaA * (rA * a)) • PAIRING.G1_one) ∧
      (∀ i : Nat, (QAP_IC_coefficients.At qap.numCircuitInputs qap.QueryA)[i]?
        = (qap.QueryA[i]?).map (fun a => if i ≤ qap.numCircuitInputs then 0 else a)) ∧
      (∀ (i : Nat) (b : Fr), qap.QueryB[i]? = some b →
        kp.m_pk.m_B_query.getElementForIndex i
          = ⟨(rB * b) • PAIRING.G2_one, (rB * alphaB * b) • PAIRING.G1_one⟩ ∧
        (rB * alphaB * b) • PAIRING.G1_one = (alphaB * (rB * b)) • PAIRING.G1_one) ∧
      (∀ (i : Nat) (c : Fr), qap.QueryC[i]? = some c →
        kp.m_pk.m_C_query.getElementForIndex i
          = ⟨(rA * rB * c) • PAIRING.G1_one, (rA * rB * alphaC * c) • PAIRING.G1_one⟩ ∧
        (rA * rB * alphaC * c) • PAIRING.G1_one
          = (alphaC * (rA * rB * c)) • PAIRING.G1_one) ∧
      (∀ j : Nat, kp.m_pk.m_H_query[j]?
        = (qap.QueryH[j]?).map (fun (h : Fr) => h • PAIRING.G1_one)) := by
  obtain ⟨ic, -, hr⟩ :=
    PPZK_Keypair.generate_result PAIRING qap alphaA alphaB alphaC rA rB beta gamma hA
  refine ⟨_, hr, ?_, QAP_IC_coefficients.At_getElem? qap.numCircuitInputs qap.QueryA, ?_, ?_, ?_⟩
  · intro i a h
    exact ⟨batchExp_getElementForIndex_of_some _ _ _ _ _ i a h,
      congrArg (fun s => s • PAIRING.G1_one) (by ring)⟩
  · intro i b h
    exact ⟨batchExp_getElementForIndex_of_some _ _ _ _ _ i b h,
      congrArg (fun s => s • PAIRING.G1_one) (by ring)⟩
  · intro i c h
    exact ⟨batchExp_getElementForIndex_of_some _ _ _ _ _ i c h,
      congrArg (fun s => s • PAIRING.G1_one) (by ring)⟩
  · intro j
    show (WindowExp.batchExp PAIRING.G1_one qap.QueryH)[j]? = _
    simp [WindowExp.batchExp]

/-- The instance of C26 at the small pairing, the QAP output `Toy.qap` and the
trapdoors of `Toy.keypair3`: the entries at the index 5. -/
theorem PPZK_Keypair.generate_queries_witness :
    Toy.qap.QueryA ≠ [] ∧
    ∃ kp, Toy.keypair3.result = some kp ∧
      kp.m_pk.m_A_query.getElementForIndex 5
        = ⟨((1 : Toy.Fr) * 6) • Toy.PAIRING.G1_one, ((1 : Toy.Fr) * 2 * 6) • Toy.PAIRING.G1_one⟩ ∧
      kp.m_pk.m_B_query.getElementForIndex 5
        = ⟨((2 : Toy.Fr) * 1) • Toy.PAIRING.G2_one, ((2 : Toy.Fr) * 3 * 1) • Toy.PAIRING.G1_one⟩ ∧
      kp.m_pk.m_C_query.getElementForIndex 5
        = ⟨((1 : Toy.Fr) * 2 * 2) • Toy.PAIRING.G1_one,
            ((1 : Toy.Fr) * 2 * 4 * 2) • Toy.PAIRING.G1_one⟩ ∧
      kp.m_pk.m_H_query[2]? = some ((2 : Toy.Fr) • Toy.PAIRING.G1_one) :=
  ⟨by decide,
    (PPZK_Keypair.generate_queries Toy.PAIRING Toy.qap 2 3 4 1 2 3 5 (by decide)).elim
      fun kp hk => ⟨kp, hk.1, (hk.2.1 5 6 (by decide)).1, (hk.2.2.2.1 5 1 (by decide)).1,
        (hk.2.2.2.2.1 5 2 (by decide)).1, hk.2.2.2.2.2 2⟩⟩

end QueryEncoding

section QueryK

variable {Fr G1 G2 GT G1_precomp G2_precomp : Type}

/-- C27: `K_query` is encoded from the A vector before the IC coefficients
are taken out of it.  For every output of the QAP layer (with a non-empty A
vector), number of inputs and trapdoors, `K_query = batchExp(Kt)` with `Kt`
computed from the unfolded `At`, `Bt`, `Ct`, `rA`, `rB`, `beta`: after the
three blinding entries `(beta·rA)·G1`, `(beta·rB)·G1`, `(beta·rC)·G1`, the
entry of every index `i`, public inputs included, is
`(beta·(rA·At[i] + rB·Bt[i] + rC·Ct[i]))·G1` with the unfolded `At[i]`; while
`A_query` is encoded from the folded vector, so that its entry at an index
`i ≤ numInputs` is the pair of the multiples by `rA·0` and `rA·alphaA·0`. -/
theorem PPZK_Keypair.generate_K_query [Ring Fr] [AddCommGroup G1] [Module Fr G1]
    [AddCommGroup G2] [Module Fr G2]
    (PAIRING : PairingOps G1 G2 GT G1_precomp G2_precomp) (qap : QAP_SystemPoint Fr)
    (alphaA alphaB alphaC rA rB beta gamma : Fr) (hA : qap.QueryA ≠ []) :
    ∃ kp, (PPZK_Keypair.generate PAIRING qap alphaA alphaB alphaC rA rB beta gamma).result
        = some kp ∧
      kp.m_pk.m_K_query = WindowExp.batchExp PAIRING.G1_one
        (QAP_QueryK qap.QueryA qap.QueryB qap.QueryC rA rB beta) ∧
      (kp.m_pk.m_K_query[0]? = some ((beta * rA) • PAIRING.G1_one) ∧
        kp.m_pk.m_K_query[1]? = some ((beta * rB) • PAIRING.G1_one) ∧
        kp.m_pk.m_K_query[2]? = some ((beta * (rA * rB)) • PAIRING.G1_one)) ∧
      (∀ (i : Nat) (a b c : Fr), qap.QueryA[i]? = some a → qap.QueryB[i]? = some b →
        qap.QueryC[i]? = some c →
        kp.m_pk.m_K_query[3 + i]?
          = some ((beta * (rA * a + rB * b + (rA * rB) * c)) • PAIRING.G1_one)) ∧
      kp.m_pk.m_A_query = batchExp PAIRING.G1_one PAIRING.G1_one rA (rA * alphaA)
        (QAP_IC_coefficients.At qap.numCircuitInputs qap.QueryA) ∧
      (∀ (i : Nat) (a : Fr), qap.QueryA[i]? = some a → i ≤ qap.numCircuitInputs →
        kp.m_pk.m_A_query.getElementForIndex i
          = ⟨(rA * 0) • PAIRING.G1_one, (rA * alphaA * 0) • PAIRING.G1_one⟩) := by
  obtain ⟨ic, -, hr⟩ :=
    PPZK_Keypair.generate_result PAIRING qap alphaA alphaB alphaC rA rB beta gamma hA
  refine ⟨_, hr, rfl, ⟨?_, ?_, ?_⟩, ?_, rfl, ?_⟩
  · simp [WindowExp.batchExp, QAP_QueryK]
  · simp [WindowExp.batchExp, QAP_QueryK]
  · simp [WindowExp.batchExp, QAP_QueryK]
  · intro i a b c ha hb hc
    show (WindowExp.batchExp PAIRING.G1_one
      (QAP_QueryK qap.QueryA qap.QueryB qap.QueryC rA rB beta))[3 + i]? = _
    simp only [WindowExp.batchExp, List.getElem?_map,
      QAP_QueryK_getElem? qap.QueryA qap.QueryB qap.QueryC rA rB beta i a b c ha hb hc,
      Option.map_some']
  · intro i a ha hi
    apply batchExp_getElementForIndex_of_some
    rw [QAP_IC_coefficients.At_getElem?, ha]
    simp [hi]

/-- The instance of C27 at the small pairing, the QAP output `Toy.qap` (four
inputs) and the trapdoors of `Toy.keypair3`: the entries of the input with
the index 2. -/
theorem PPZK_Keypair.generate_K_query_witness :
    Toy.qap.QueryA ≠ [] ∧
    ∃ kp, Toy.keypair3.result = some kp ∧
      kp.m_pk.m_K_query[3 + 2]?
        = some (((3 : Toy.Fr) * (1 * 3 + 2 * 4 + (1 * 2) * 5)) • Toy.PAIRING.G1_one) ∧
      kp.m_pk.m_A_query.getElementForIndex 2
        = ⟨((1 : Toy.Fr) * 0) • Toy.PAIRING.G1_one, ((1 : Toy.Fr) * 2 * 0) • Toy.PAIRING.G1_one⟩ :=
  ⟨by decide,
    (PPZK_Keypair.generate_K_query Toy.PAIRING Toy.qap 2 3 4 1 2 3 5 (by decide)).elim
      fun kp hk => ⟨kp, hk.1, hk.2.2.2.1 2 3 4 5 (by decide) (by decide) (by decide),
        hk.2.2.2.2.2 2 3 (by decide) (by decide)⟩⟩

end QueryK

/-! ## The components of a proof -/

section ProofComponents

variable {Fr G1 G2 : Type}

/-- The multi-exponentiation of two vectors of the same length as a sum over
an index range that starts at `s`. -/
theorem multiExp_eq_sum_range' {G : Type} [Zero Fr] [Zero G] [Add G] [SMul Fr G] :
    ∀ (base : List G) (z : List Fr) (s : Nat), base.length = z.length →
      multiExp base z
        = ((List.range' s z.length).map (fun i => z.getD (i - s) 0 • base.getD (i - s) 0)).sum
  | [], [], _, _ => rfl
  | [], _ :: _, _, h => by simp at h
  | _ :: _, [], _, h => by simp at h
  | b :: base, x :: z, s, h => by
    have h' : base.length = z.length := by simpa using h
    have ih := multiExp_eq_sum_range' base z (s + 1) h'
    unfold multiExp at ih ⊢
    rw [List.zipWith_cons_cons, List.sum_cons, ih, List.length_cons, List.range'_succ,
      List.map_cons, List.sum_cons, Nat.sub_self]
    congr 2
    apply List.map_congr_left
    intro i hi
    rw [List.mem_range'_1] at hi
    have e : i - s = (i - (s + 1)) + 1 := by omega
    rw [e, List.getD_cons_succ, List.getD_cons_succ]

theorem getD_map_range' {T : Type} [Zero T] (f : Nat → T) (s n i : Nat) (h1 : s ≤ i)
    (h2 : i < s + n) : ((List.range' s n).map f).getD (i - s) 0 = f i := by
  have hlt : i - s < n := by omega
  rw [List.getD_eq_getElem?_getD, List.getElem?_map, List.getElem?_range' _ _ hlt]
  simp only [Option.map_some', Option.getD_some, Nat.one_mul]
  congr 1
  omega

/-- The sum `multiExp01` returns on a sparse query and the index range from
`startIdx` on, for a witness of as many elements as the range has indices. -/
theorem multiExp01_range_eq_sum {T : Type} [Zero Fr] [Zero T] [Add T] [SMul Fr T]
    (base : SparseVector T) (z : List Fr) (startIdx n : Nat) (reserve : Option Nat)
    (hz : z.length = n) :
    multiExp01_range base z startIdx (startIdx + n) reserve
      = ((List.range' startIdx n).map (fun i =>
          z.getD (i - startIdx) 0 • base.getElementForIndex i)).sum := by
  unfold multiExp01_range
  rw [Nat.add_sub_cancel_left,
    multiExp_eq_sum_range' _ z startIdx (by rw [List.length_map, List.length_range', hz]), hz]
  congr 1
  apply List.map_congr_left
  intro i hi
  rw [List.mem_range'_1] at hi
  rw [getD_map_range' base.getElementForIndex startIdx n i hi.1 hi.2]

theorem Pairing.sum_G {GA GB : Type} [Zero GA] [Add GA] [Zero GB] [Add GB] :
    ∀ l : List (Pairing GA GB), l.sum.G = (l.map (fun p => p.G)).sum
  | [] => rfl
  | p :: l => by
    rw [List.sum_cons, List.map_cons, List.sum_cons, ← Pairing.sum_G l]
    rfl

theorem Pairing.sum_H {GA GB : Type} [Zero GA] [Add GA] [Zero GB] [Add GB] :
    ∀ l : List (Pairing GA GB), l.sum.H = (l.map (fun p => p.H)).sum
  | [] => rfl
  | p :: l => by
    rw [List.sum_cons, List.map_cons, List.sum_cons, ← Pairing.sum_H l]
    rfl

/-- The run of the prover on a proving key whose `K_query` has at least four
elements: the proof it returns, member by member. -/
theorem PPZK_Proof.prove_result [Zero G1] [Add G1] [SMul Fr G1] [Zero G2] [Add G2]
    [SMul Fr G2] (numVariables : Nat) (pk : PPZK_ProvingKey G1 G2) (witness : R1Witness Fr)
    (aH : List Fr) (d1 d2 d3 : Fr) (reserveTune : Nat) (k0 k1 k2 k3 : G1) (rest : List G1)
    (hK : pk.m_K_query = k0 :: k1 :: k2 :: k3 :: rest) :
    (PPZK_Proof.prove numVariables pk witness aH d1 d2 d3 reserveTune).result
      = some
        { m_A := (d1 • pk.m_A_query.getElementForIndex 0) + pk.m_A_query.getElementForIndex 3
            + multiExp01_range pk.m_A_query witness 4 (4 + numVariables)
                (if 0 == reserveTune then none else some (numVariables / reserveTune))
          m_B := (d2 • pk.m_B_query.getElementForIndex 1) + pk.m_B_query.getElementForIndex 3
            + multiExp01_range pk.m_B_query witness 4 (4 + numVariables)
                (if 0 == reserveTune then none else some (numVariables / reserveTune))
          m_C := (d3 • pk.m_C_query.getElementForIndex 2) + pk.m_C_query.getElementForIndex 3
            + multiExp01_range pk.m_C_query witness 4 (4 + numVariables)
                (if 0 == reserveTune then none else some (numVariables / reserveTune))
          m_H := multiExp pk.m_H_query aH
          m_K := (d1 • k0) + (d2 • k1) + (d3 • k2) + k3 + multiExp rest witness } := by
  unfold PPZK_Proof.prove
  simp only [hK]
  rfl

theorem exists_cons4_of_length {T : Type} (l : List T) (h : 4 ≤ l.length) :
    ∃ k0 k1 k2 k3 rest, l = k0 :: k1 :: k2 :: k3 :: rest := by
  match l, h with
  | k0 :: k1 :: k2 :: k3 :: rest, _ => exact ⟨k0, k1, k2, k3, rest, rfl⟩

end ProofComponents

section ProofABC

variable {Fr G1 G2 : Type}

/-- C28: for every proving key (with the four leading elements of `K_query`
the prover reads), witness `z` of `numVars` elements, blinding `d1, d2, d3`
and `reserveTune`, the prover returns a proof with
`A = d1·A_query[0] + A_query[3] + Σ z[i-4]·A_query[i]` over the indices `i` in
`[4, 4 + numVars)`, `B = d2·B_query[1] + B_query[3]` plus the same sum over
`B_query`, and `C = d3·C_query[2] + C_query[3]` plus the same sum over
`C_query`; each is computed on both elements of the pair, and `A_query[i]` is
`getElementForIndex(i)`, the neutral element for an absent entry. -/
theorem PPZK_Proof.prove_ABC [Zero Fr] [Zero G1] [Add G1] [SMul Fr G1] [Zero G2] [Add G2]
    [SMul Fr G2] (numVariables : Nat) (pk : PPZK_ProvingKey G1 G2) (z : R1Witness Fr)
    (aH : List Fr) (d1 d2 d3 : Fr) (reserveTune : Nat)
    (hK : 4 ≤ pk.m_K_query.length) (hz : z.length = numVariables) :
    ∃ p, (PPZK_Proof.prove numVariables pk z aH d1 d2 d3 reserveTune).result = some p ∧
      (p.m_A = (d1 • pk.m_A_query.getElementForIndex 0) + pk.m_A_query.getElementForIndex 3
          + ((List.range' 4 numVariables).map (fun i =>
              z.getD (i - 4) 0 • pk.m_A_query.getElementForIndex i)).sum ∧
        p.m_B = (d2 • pk.m_B_query.getElementForIndex 1) + pk.m_B_query.getElementForIndex 3
          + ((List.range' 4 numVariables).map (fun i =>
              z.getD (i - 4) 0 • pk.m_B_query.getElementForIndex i)).sum ∧
        p.m_C = (d3 • pk.m_C_query.getElementForIndex 2) + pk.m_C_query.getElementForIndex 3
          + ((List.range' 4 numVariables).map (fun i =>
              z.getD (i - 4) 0 • pk.m_C_query.getElementForIndex i)).sum) ∧
      (p.m_A.G = (d1 • (pk.m_A_query.getElementForIndex 0).G)
          + (pk.m_A_query.getElementForIndex 3).G
          + ((List.range' 4 numVariables).map (fun i =>
              z.getD (i - 4) 0 • (pk.m_A_query.getElementForIndex i).G)).sum ∧
        p.m_A.H = (d1 • (pk.m_A_query.getElementForIndex 0).H)
          + (pk.m_A_query.getElementForIndex 3).H
          + ((List.range' 4 numVariables).map (fun i =>
              z.getD (i - 4) 0 • (pk.m_A_query.getElementForIndex i).H)).sum ∧
        p.m_B.G = (d2 • (pk.m_B_query.getElementForIndex 1).G)
          + (pk.m_B_query.getElementForIndex 3).G
          + ((List.range' 4 numVariables).map (fun i =>
              z.getD (i - 4) 0 • (pk.m_B_query.getElementForIndex i).G)).sum ∧
        p.m_B.H = (d2 • (pk.m_B_query.getElementForIndex 1).H)
          + (pk.m_B_query.getElementForIndex 3).H
          + ((List.range' 4 numVariables).map (fun i =>
              z.getD (i - 4) 0 • (pk.m_B_query.getElementForIndex i).H)).sum ∧
        p.m_C.G = (d3 • (pk.m_C_query.getElementForIndex 2).G)
          + (pk.m_C_query.getElementForIndex 3).G
          + ((List.range' 4 numVariables).map (fun i =>
              z.getD (i - 4) 0 • (pk.m_C_query.getElementForIndex i).G)).sum ∧
        p.m_C.H = (d3 • (pk.m_C_query.getElementForIndex 2).H)
          + (pk.m_C_query.getElementForIndex 3).H
          + ((List.range' 4 numVariables).map (fun i =>
              z.getD (i - 4) 0 • (pk.m_C_query.getElementForIndex i).H)).sum) := by
  obtain ⟨k0, k1, k2, k3, rest, hrest⟩ := exists_cons4_of_length pk.m_K_query hK
  have hr := PPZK_Proof.prove_result numVariables pk z aH d1 d2 d3 reserveTune k0 k1 k2 k3 rest
    hrest
  have hsum : ∀ {GA GB : Type} [Zero GA] [Add GA] [SMul Fr GA] [Zero GB] [Add GB]
      [SMul Fr GB] (q : SparseVector (Pairing GA GB)) (r : Option Nat),
      multiExp01_range q z 4 (4 + numVariables) r
        = ((List.range' 4 numVariables).map (fun i =>
            z.getD (i - 4) 0 • q.getElementForIndex i)).sum :=
    fun q r => multiExp01_range_eq_sum q z 4 numVariables r hz
  have hG : ∀ {GA GB : Type} [Zero GA] [Add GA] [SMul Fr GA] [Zero GB] [Add GB]
      [SMul Fr GB] (q : SparseVector (Pairing GA GB)) (d : Fr) (j : Nat),
      ((d • q.getElementForIndex j) + q.getElementForIndex 3
          + ((List.range' 4 numVariables).map (fun i =>
              z.getD (i - 4) 0 • q.getElementForIndex i)).sum).G
        = (d • (q.getElementForIndex j).G) + (q.getElementForIndex 3).G
          + ((List.range' 4 numVariables).map (fun i =>
              z.getD (i - 4) 0 • (q.getElementForIndex i).G)).sum := by
    intro GA GB _ _ _ _ _ _ q d j
    show (d • (q.getElementForIndex j).G) + (q.getElementForIndex 3).G
      + (((List.range' 4 numVariables).map (fun i =>
          z.getD (i - 4) 0 • q.getElementForIndex i)).sum).G = _
    rw [Pairing.sum_G, List.map_map]
    rfl
  have hH : ∀ {GA GB : Type} [Zero GA] [Add GA] [SMul Fr GA] [Zero GB] [Add GB]
      [SMul Fr GB] (q : SparseVector (Pairing GA GB)) (d : Fr) (j : Nat),
      ((d • q.getElementForIndex j) + q.getElementForIndex 3
          + ((List.range' 4 numVariables).map (fun i =>
              z.getD (i - 4) 0 • q.getElementForIndex i)).sum).H
        = (d • (q.getElementForIndex j).H) + (q.getElementForIndex 3).H
          + ((List.range' 4 numVariables).map (fun i =>
              z.getD (i - 4) 0 • (q.getElementForIndex i).H)).sum := by
    intro GA GB _ _ _ _ _ _ q d j
    show (d • (q.getElementForIndex j).H) + (q.getElementForIndex 3).H
      + (((List.range' 4 numVariables).map (fun i =>
          z.getD (i - 4) 0 • q.getElementForIndex i)).sum).H = _
    rw [Pairing.sum_H, List.map_map]
    rfl
  refine ⟨_, hr, ⟨?_, ?_, ?_⟩, ⟨?_, ?_, ?_, ?_, ?_, ?_⟩⟩
  · show _ + multiExp01_range _ _ _ _ _ = _
    rw [hsum]
  · show _ + multiExp01_range _ _ _ _ _ = _
    rw [hsum]
  · show _ + multiExp01_range _ _ _ _ _ = _
    rw [hsum]
  · show Pairing.G (_ + multiExp01_range _ _ _ _ _) = _
    rw [hsum, hG]
  · show Pairing.H (_ + multiExp01_range _ _ _ _ _) = _
    rw [hsum, hH]
  · show Pairing.G (_ + multiExp01_range _ _ _ _ _) = _
    rw [hsum, hG]
  · show Pairing.H (_ + multiExp01_range _ _ _ _ _) = _
    rw [hsum, hH]
  · show Pairing.G (_ + multiExp01_range _ _ _ _ _) = _
    rw [hsum, hG]
  · show Pairing.H (_ + multiExp01_range _ _ _ _ _) = _
    rw [hsum, hH]

/-- The instance of C28 at the proving key `Toy.provingKey`, two variables,
the witness `[1, 0]`, the blinding `3, 4, 5` and `reserveTune = 2`. -/
theorem PPZK_Proof.prove_ABC_witness :
    (4 ≤ Toy.provingKey.m_K_query.length ∧ ([1, 0] : R1Witness Toy.Fr).length = 2) ∧
    ∃ p, (PPZK_Proof.prove 2 Toy.provingKey ([1, 0] : R1Witness Toy.Fr) [1, 1]
        (3 : Toy.Fr) 4 5 2).result = some p ∧
      p.m_A = ((3 : Toy.Fr) • Toy.provingKey.m_A_query.getElementForIndex 0)
          + Toy.provingKey.m_A_query.getElementForIndex 3
          + ((List.range' 4 2).map (fun i =>
              ([1, 0] : R1Witness Toy.Fr).getD (i - 4) 0
                • Toy.provingKey.m_A_query.getElementForIndex i)).sum ∧
      p.m_B = ((4 : Toy.Fr) • Toy.provingKey.m_B_query.getElementForIndex 1)
          + Toy.provingKey.m_B_query.getElementForIndex 3
          + ((List.range' 4 2).map (fun i =>
              ([1, 0] : R1Witness Toy.Fr).getD (i - 4) 0
                • Toy.provingKey.m_B_query.getElementForIndex i)).sum ∧
      p.m_C = ((5 : Toy.Fr) • Toy.provingKey.m_C_query.getElementForIndex 2)
          + Toy.provingKey.m_C_query.getElementForIndex 3
          + ((List.range' 4 2).map (fun i =>
              ([1, 0] : R1Witness Toy.Fr).getD (i - 4) 0
                • Toy.provingKey.m_C_query.getElementForIndex i)).sum :=
  ⟨⟨by decide, by decide⟩,
    (PPZK_Proof.prove_ABC 2 Toy.provingKey ([1, 0] : R1Witness Toy.Fr) [1, 1]
      (3 : Toy.Fr) 4 5 2 (by decide) (by decide)).elim
      fun p hp => ⟨p, hp.1, hp.2.1.1, hp.2.1.2.1, hp.2.1.2.2⟩⟩

end ProofABC

section ProofK

variable {Fr G1 G2 : Type}

/-- C29, as stated, fails: on the proving key `Toy.provingKey` (two
variables, `K_query` of six elements), the witness `[1, 0]` and the blinding
`1, 1, 1` the prover returns `K = K_query[0] + K_query[1] + K_query[2] +
K_query[3] + 1·K_query[4] + 0·K_query[5]`, which is `(1, 0)`, while the
formula with `z[i-4]·K_query[i+4]` reads the indices 8 and 9, which this
`K_query` does not have, and gives `(3, 0)`; on the key with a `K_query` of
ten elements and the witness `[1, 0, 0, 0, 0, 0]` the prover returns `(1, 0)`
again and the formula, which multiplies `z[0]` with `K_query[8]`, gives
`(6, 0)`. -/
theorem PPZK_Proof.prove_K_not_as_spec :
    (∃ p, (PPZK_Proof.prove 2 Toy.provingKey ([1, 0] : R1Witness Toy.Fr) [1, 1]
        (1 : Toy.Fr) 1 1 0).result = some p ∧
      p.m_K = (1, 0) ∧
      PPZK_Proof.K_as_spec Toy.provingKey.m_K_query ([1, 0] : R1Witness Toy.Fr) 1 1 1
        = (3, 0) ∧
      p.m_K ≠ PPZK_Proof.K_as_spec Toy.provingKey.m_K_query ([1, 0] : R1Witness Toy.Fr)
        1 1 1) ∧
    (∃ p, (PPZK_Proof.prove 6 Toy.provingKeyLong ([1, 0, 0, 0, 0, 0] : R1Witness Toy.Fr)
        [1, 1] (1 : Toy.Fr) 1 1 0).result = some p ∧
      p.m_K = (1, 0) ∧
      PPZK_Proof.K_as_spec Toy.provingKeyLong.m_K_query
        ([1, 0, 0, 0, 0, 0] : R1Witness Toy.Fr) 1 1 1 = (6, 0) ∧
      p.m_K ≠ PPZK_Proof.K_as_spec Toy.provingKeyLong.m_K_query
        ([1, 0, 0, 0, 0, 0] : R1Witness Toy.Fr) 1 1 1) :=
  ⟨⟨_, rfl, by decide, by decide, by decide⟩, ⟨_, rfl, by decide, by decide, by decide⟩⟩

/-- C29, amended: for every proving key whose `K_query` has four elements
more than the witness `z`, every blinding `d1, d2, d3` and `reserveTune`, the
prover returns a proof with `K = d1·K_query[0] + d2·K_query[1] +
d3·K_query[2] + K_query[3]` plus the sum over the indices `i` in
`[4, 4 + |z|)` of `z[i-4]·K_query[i]`: the witness element `z[j]` multiplies
`K_query[j+4]`, as in the sums of A, B and C. -/
theorem PPZK_Proof.prove_K [Zero Fr] [Zero G1] [Add G1] [SMul Fr G1] [Zero G2] [Add G2]
    [SMul Fr G2] (numVariables : Nat) (pk : PPZK_ProvingKey G1 G2) (z : R1Witness Fr)
    (aH : List Fr) (d1 d2 d3 : Fr) (reserveTune : Nat)
    (hK : pk.m_K_query.length = z.length + 4) :
    ∃ p, (PPZK_Proof.prove numVariables pk z aH d1 d2 d3 reserveTune).result = some p ∧
      p.m_K = (d1 • pk.m_K_query.getD 0 0) + (d2 • pk.m_K_query.getD 1 0)
          + (d3 • pk.m_K_query.getD 2 0) + pk.m_K_query.getD 3 0
          + ((List.range' 4 z.length).map (fun i =>
              z.getD (i - 4) 0 • pk.m_K_query.getD i 0)).sum ∧
      (∀ j, j < z.length → pk.m_K_query.getD (4 + j) 0 = (pk.m_K_query.drop 4).getD j 0) := by
  obtain ⟨k0, k1, k2, k3, rest, hrest⟩ :=
    exists_cons4_of_length pk.m_K_query (by rw [hK]; omega)
  have hr := PPZK_Proof.prove_result numVariables pk z aH d1 d2 d3 reserveTune k0 k1 k2 k3 rest
    hrest
  have hlen : rest.length = z.length := by
    rw [hrest] at hK
    simpa using hK
  refine ⟨_, hr, ?_, ?_⟩
  · show (d1 • k0) + (d2 • k1) + (d3 • k2) + k3 + multiExp rest z = _
    rw [multiExp_eq_sum_range' rest z 4 hlen, hrest]
    congr 1
    congr 1
    apply List.map_congr_left
    intro i hi
    rw [List.mem_range'_1] at hi
    have e : ∀ m : Nat, (k0 :: k1 :: k2 :: k3 :: rest).getD (m + 4) 0 = rest.getD m 0 := by
      intro m
      rfl
    have e4 : i = (i - 4) + 4 := by omega
    rw [← e (i - 4), ← e4]
  · intro j _
    rw [hrest, Nat.add_comm 4 j]
    simp only [List.getD_cons_succ, List.drop_succ_cons, List.drop_zero]

/-- The instance of the amended C29 at the proving key `Toy.provingKey`, whose
`K_query` has six elements, the witness `[1, 0]` and the blinding `3, 4, 5`. -/
theorem PPZK_Proof.prove_K_witness :
    Toy.provingKey.m_K_query.length = ([1, 0] : R1Witness Toy.Fr).length + 4 ∧
    ∃ p, (PPZK_Proof.prove 2 Toy.provingKey ([1, 0] : R1Witness Toy.Fr) [1, 1]
        (3 : Toy.Fr) 4 5 2).result = some p ∧
      p.m_K = ((3 : Toy.Fr) • Toy.provingKey.m_K_query.getD 0 0)
          + ((4 : Toy.Fr) • Toy.provingKey.m_K_query.getD 1 0)
          + ((5 : Toy.Fr) • Toy.provingKey.m_K_query.getD 2 0)
          + Toy.provingKey.m_K_query.getD 3 0
          + ((List.range' 4 ([1, 0] : R1Witness Toy.Fr).length).map (fun i =>
              ([1, 0] : R1Witness Toy.Fr).getD (i - 4) 0
                • Toy.provingKey.m_K_query.getD i 0)).sum :=
  ⟨by decide,
    (PPZK_Proof.prove_K 2 Toy.provingKey ([1, 0] : R1Witness Toy.Fr) [1, 1]
      (3 : Toy.Fr) 4 5 2 (by decide)).elim fun p hp => ⟨p, hp.1, hp.2.1⟩⟩

end ProofK

/-! ## The witness of the Soundness fixture -/

section SoundnessFixture

/-- Without overflow of the products in `unsigned long` the witness of the
Soundness fixture satisfies the three constraints. -/
theorem AutoTestR1CS_Soundness.isSatisfied_of_no_overflow {T : Type} [CommRing T]
    [DecidableEq T] (a : AutoTestR1CS_Soundness)
    (h : a.m_d1 * a.m_d1 * a.m_d2 * a.m_d3 < 2 ^ 64) (h2 : a.m_d1 * a.m_d2 < 2 ^ 64)
    (h3 : a.m_d1 * a.m_d3 < 2 ^ 64) (h11 : a.m_d1 * a.m_d1 < 2 ^ 64)
    (h112 : a.m_d1 * a.m_d1 * a.m_d2 < 2 ^ 64) :
    AutoTestR1CS_Soundness.isSatisfied (AutoTestR1CS_Soundness.witnessB T a) = true := by
  simp only [AutoTestR1CS_Soundness.witnessB, AutoTestR1CS_Soundness.isSatisfied, ulongMul,
    Nat.mod_eq_of_lt h2, Nat.mod_eq_of_lt h3, Nat.mod_eq_of_lt h11, Nat.mod_eq_of_lt h112,
    Nat.mod_eq_of_lt h, Bool.and_eq_true, decide_eq_true_eq, Nat.cast_mul]
  refine ⟨⟨trivial, trivial⟩, ?_⟩
  ring

/-- C30 fails on a product that overflows: for `c1 = c2 = 2^32` and `c3 = 1`
the three-argument constructor and `initB` compute `c1*c2` in `unsigned long`,
where it wraps around to 0, so the witness has `d5 = T(0)` and `d4 = T(0)`
while `d1·d2 = T(2^32)·T(2^32)` is `T(2^64)`, which is not zero in the field
of seven elements nor in the scalar field of the curve BN128: the constraint
`d1·d2 = d5` does not hold and the witness is not consistent. -/
theorem AutoTestR1CS_Soundness.witness_inconsistent_on_overflow :
    AutoTestR1CS_Soundness.witnessB (ZMod 7) (AutoTestR1CS_Soundness.ofFree (2 ^ 32) (2 ^ 32) 1)
      = [4, 4, 1, 0, 0, 4] ∧
    AutoTestR1CS_Soundness.isSatisfied
      (AutoTestR1CS_Soundness.witnessB (ZMod 7)
        (AutoTestR1CS_Soundness.ofFree (2 ^ 32) (2 ^ 32) 1)) = false ∧
    AutoTestR1CS_Soundness.isSatisfied
      (AutoTestR1CS_Soundness.witnessB
        (ZMod 21888242871839275222246405745257275088548364400416034343698204186575808495617)
        (AutoTestR1CS_Soundness.ofFree (2 ^ 32) (2 ^ 32) 1)) = false := by
  refine ⟨by decide, by decide, by decide⟩

end SoundnessFixture

/-! ## Accumulation on inputs of any length -/

section AccumulateAnyLength

variable {Fr G1 G2 GT G1_precomp G2_precomp : Type}

theorem zipWith_take_right {α β γ : Type} (f : α → β → γ) :
    ∀ (l1 : List α) (l2 : List β),
      List.zipWith f l1 (l2.take l1.length) = List.zipWith f l1 l2
  | [], _ => by simp
  | _ :: _, [] => by simp
  | a :: t, b :: u => by simp [zipWith_take_right f t u]

theorem multiExp_take_right {G : Type} [Zero G] [Add G] [SMul Fr G]
    (base : List G) (scalar : List Fr) :
    multiExp base (scalar.take base.length) = multiExp base scalar := by
  unfold multiExp
  rw [zipWith_take_right]

/-- The three branches of `accumulate` in one: the base takes the
multi-exponentiation of the encoded terms with the input, as far as both
reach, and the encoded terms beyond the input remain. -/
theorem PPZK_IC_Query.accumulate_eq [Zero G1] [Add G1] [SMul Fr G1]
    (q : PPZK_IC_Query G1) (witness : R1Witness Fr) :
    q.accumulate witness =
      { m_base := q.m_base + multiExp q.m_encoded_terms witness
        m_encoded_terms := q.m_encoded_terms.drop witness.length } := by
  unfold PPZK_IC_Query.accumulate
  by_cases h1 : witness.length < q.m_encoded_terms.length
  · simp only [h1, if_true, multiExp_take_left]
  · by_cases h2 : witness.length > q.m_encoded_terms.length
    · simp only [h1, h2, if_false, if_true, multiExp_take_right]
      rw [List.drop_eq_nil_of_le (by omega)]
    · simp only [h1, h2, if_false]
      rw [List.drop_eq_nil_of_le (by omega)]

theorem PPZK_IC_Query.accumulate_take [Zero G1] [Add G1] [SMul Fr G1]
    (q : PPZK_IC_Query G1) (witness : R1Witness Fr) (h : q.input_size ≤ witness.length) :
    q.accumulate (witness.take q.input_size) = q.accumulate witness := by
  have hlen : (witness.take q.input_size).length = q.m_encoded_terms.length := by
    rw [List.length_take]
    exact Nat.min_eq_left h
  rw [PPZK_IC_Query.accumulate_eq, PPZK_IC_Query.accumulate_eq, hlen,
    List.drop_eq_nil_of_le (Nat.le_refl _), List.drop_eq_nil_of_le h]
  show (⟨q.m_base + multiExp q.m_encoded_terms (witness.take q.m_encoded_terms.length), []⟩ :
    PPZK_IC_Query G1) = _
  rw [multiExp_take_right]

/-- The run of `weakVerify` depends on the input through the accumulated IC
query alone. -/
theorem weakVerify_congr_accumulate [Zero G1] [Add G1] [SMul Fr G1] [Mul GT] [One GT]
    [DecidableEq GT]
    (PAIRING : PairingOps G1 G2 GT G1_precomp G2_precomp) (NDEBUG : Bool)
    (pvk : PPZK_PrecompVerificationKey G1 G1_precomp G2_precomp)
    (input input' : R1Witness Fr) (proof : PPZK_Proof G1 G2)
    (h : pvk.m_encoded_IC_query.accumulate input = pvk.m_encoded_IC_query.accumulate input') :
    weakVerify PAIRING NDEBUG pvk input proof = weakVerify PAIRING NDEBUG pvk input' proof := by
  unfold weakVerify
  rw [h]

/-- C31: an input longer than the IC query is truncated by `weakVerify`.  For
every key with `n` encoded IC terms and every input of length `m > n`,
`accumulate(input)` is `accumulate` of the first `n` elements of the input and
has no remaining terms; the run of `weakVerify` on the input is its run on
the first `n` elements; `strongVerify` rejects the input; so when the first
`n` elements are accepted, `weakVerify` accepts an input that `strongVerify`
rejects. -/
theorem weakVerify_truncates_input [Zero G1] [Add G1] [SMul Fr G1] [Mul GT] [One GT]
    [DecidableEq GT]
    (PAIRING : PairingOps G1 G2 GT G1_precomp G2_precomp) (NDEBUG : Bool)
    (pvk : PPZK_PrecompVerificationKey G1 G1_precomp G2_precomp)
    (input : R1Witness Fr) (proof : PPZK_Proof G1 G2)
    (h : pvk.m_encoded_IC_query.input_size < input.length) :
    pvk.m_encoded_IC_query.accumulate input
        = pvk.m_encoded_IC_query.accumulate (input.take pvk.m_encoded_IC_query.input_size) ∧
      (pvk.m_encoded_IC_query.accumulate input).encoded_terms = [] ∧
      weakVerify PAIRING NDEBUG pvk input proof
        = weakVerify PAIRING NDEBUG pvk (input.take pvk.m_encoded_IC_query.input_size) proof ∧
      strongVerify PAIRING NDEBUG pvk input proof = ⟨some false, []⟩ ∧
      ((strongVerify PAIRING NDEBUG pvk (input.take pvk.m_encoded_IC_query.input_size)
          proof).result = some true →
        (weakVerify PAIRING NDEBUG pvk input proof).result = some true) := by
  have hacc := (PPZK_IC_Query.accumulate_take pvk.m_encoded_IC_query input (Nat.le_of_lt h)).symm
  have hweak := weakVerify_congr_accumulate PAIRING NDEBUG pvk input
    (input.take pvk.m_encoded_IC_query.input_size) proof hacc
  have hlen : pvk.m_encoded_IC_query.input_size
      = (input.take pvk.m_encoded_IC_query.input_size).length := by
    rw [List.length_take]
    exact (Nat.min_eq_left (Nat.le_of_lt h)).symm
  refine ⟨hacc, ?_, hweak, ?_, ?_⟩
  · rw [PPZK_IC_Query.accumulate_eq]
    exact List.drop_eq_nil_of_le (Nat.le_of_lt h)
  · exact strongVerify_of_size_ne PAIRING NDEBUG pvk input proof (Nat.ne_of_lt h)
  · intro hs
    rw [strongVerify_of_size_eq PAIRING NDEBUG pvk _ proof hlen] at hs
    rw [hweak]
    exact hs

/-- The instance of C31 at the key `Toy.vk` (one encoded term), the input
`[1, 5]` and the proof `Toy.proofOk`: `weakVerify` accepts as it does on
`[1]`, `strongVerify` rejects. -/
theorem weakVerify_truncates_input_witness :
    (PPZK_PrecompVerificationKey.ofVK Toy.PAIRING Toy.vk).m_encoded_IC_query.input_size
        < ([1, 5] : List Toy.Fr).length ∧
      (weakVerify Toy.PAIRING false (PPZK_PrecompVerificationKey.ofVK Toy.PAIRING Toy.vk)
        ([1, 5] : List Toy.Fr) Toy.proofOk).result = some true ∧
      strongVerify Toy.PAIRING false (PPZK_PrecompVerificationKey.ofVK Toy.PAIRING Toy.vk)
        ([1, 5] : List Toy.Fr) Toy.proofOk = ⟨some false, []⟩ :=
  have h := weakVerify_truncates_input Toy.PAIRING false
    (PPZK_PrecompVerificationKey.ofVK Toy.PAIRING Toy.vk) ([1, 5] : List Toy.Fr) Toy.proofOk
    (by decide)
  ⟨by decide, h.2.2.2.2 (by decide), h.2.2.2.1⟩

end AccumulateAnyLength

section AccumulateCompose

variable {Fr G1 : Type}

theorem zipWith_append_right {α β γ : Type} (f : α → β → γ) :
    ∀ (l : List α) (w1 w2 : List β),
      List.zipWith f l (w1 ++ w2)
        = List.zipWith f l w1 ++ List.zipWith f (l.drop w1.length) w2
  | [], w1, w2 => by simp
  | a :: t, [], w2 => by simp
  | a :: t, x :: w1, w2 => by
    simp only [List.cons_append, List.zipWith_cons_cons, List.length_cons, List.drop_succ_cons,
      zipWith_append_right f t w1 w2]

theorem multiExp_append_right {G : Type} [AddMonoid G] [SMul Fr G]
    (base : List G) (w1 w2 : List Fr) :
    multiExp base (w1 ++ w2) = multiExp base w1 + multiExp (base.drop w1.length) w2 := by
  unfold multiExp
  rw [zipWith_append_right, List.sum_append]

/-- C32: accumulation composes.  For every IC query `q` over a group and all
inputs `w1`, `w2`, `q.accumulate(w1).accumulate(w2)` is `q.accumulate` of
`w1` followed by `w2`, base and remaining encoded terms alike; and after
`accumulate(w)` the remaining `input_size()` is `n - |w|` when `|w| ≤ n` and 0
otherwise, `n` being the number of encoded terms of `q`. -/
theorem PPZK_IC_Query.accumulate_accumulate [AddMonoid G1] [SMul Fr G1]
    (q : PPZK_IC_Query G1) (w1 w2 w : R1Witness Fr) :
    (q.accumulate w1).accumulate w2 = q.accumulate (w1 ++ w2) ∧
      ((q.accumulate w1).accumulate w2).base = (q.accumulate (w1 ++ w2)).base ∧
      ((q.accumulate w1).accumulate w2).encoded_terms
        = (q.accumulate (w1 ++ w2)).encoded_terms ∧
      (q.accumulate w).input_size = q.input_size - w.length ∧
      (((q.accumulate w).input_size : Nat) : Int)
        = max ((q.input_size : Int) - (w.length : Int)) 0 := by
  have main : (q.accumulate w1).accumulate w2 = q.accumulate (w1 ++ w2) := by
    rw [PPZK_IC_Query.accumulate_eq q w1, PPZK_IC_Query.accumulate_eq,
      PPZK_IC_Query.accumulate_eq q (w1 ++ w2), multiExp_append_right, List.length_append,
      List.drop_drop, add_assoc]
  have hsize := PPZK_IC_Query.accumulate_input_size q w
  refine ⟨main, by rw [main], by rw [main], hsize, ?_⟩
  rw [hsize]
  omega

end AccumulateCompose

/-! ## The guards of the proving constructor -/

section ProveGuards

variable {Fr G1 G2 : Type}

theorem sizeDiv_of_ne_zero (a b : Nat) (h : b ≠ 0) : sizeDiv a b = Except.ok (a / b) := by
  simp [sizeDiv, h]

/-- On a `K_query` with at least four elements the checked constructor meets
no fault and returns the proof of `PPZK_Proof.prove`. -/
theorem PPZK_Proof.proveChecked_of_cons4 [Zero G1] [Add G1] [SMul Fr G1] [Zero G2] [Add G2]
    [SMul Fr G2] (numVariables : Nat) (pk : PPZK_ProvingKey G1 G2) (witness : R1Witness Fr)
    (aH : List Fr) (d1 d2 d3 : Fr) (reserveTune : Nat) (k0 k1 k2 k3 : G1) (rest : List G1)
    (hK : pk.m_K_query = k0 :: k1 :: k2 :: k3 :: rest) :
    ∃ p, PPZK_Proof.proveChecked numVariables pk witness aH d1 d2 d3 reserveTune = Except.ok p ∧
      (PPZK_Proof.prove numVariables pk witness aH d1 d2 d3 reserveTune).result = some p := by
  refine ⟨_, ?_,
    PPZK_Proof.prove_result numVariables pk witness aH d1 d2 d3 reserveTune k0 k1 k2 k3 rest hK⟩
  unfold PPZK_Proof.proveChecked
  by_cases h : reserveTune = 0
  · subst h
    simp [hK, vectorAt, vectorFrom, multiExp01, bind, Except.bind, pure, Except.pure]
  · have hb : (0 == reserveTune) = false := by
      rw [beq_eq_false_iff_ne]
      exact fun e => h e.symm
    simp [hK, hb, vectorAt, vectorFrom, sizeSub, sizeDiv, h, multiExp01, bind, Except.bind, pure,
      Except.pure]

end ProveGuards

section ProveGuardsClaim

variable {Fr G1 G2 : Type}

theorem PPZK_Proof.proveChecked_of_short [Zero G1] [Add G1] [SMul Fr G1] [Zero G2] [Add G2]
    [SMul Fr G2] (numVariables : Nat) (pk : PPZK_ProvingKey G1 G2) (witness : R1Witness Fr)
    (aH : List Fr) (d1 d2 d3 : Fr) (reserveTune : Nat) (hK : pk.m_K_query.length < 4) :
    PPZK_Proof.proveChecked numVariables pk witness aH d1 d2 d3 reserveTune
        = Except.error Fault.indexOutOfRange ∧
      (PPZK_Proof.prove numVariables pk witness aH d1 d2 d3 reserveTune).result = none := by
  have hb : reserveTune ≠ 0 → (0 == reserveTune) = false := by
    intro h
    rw [beq_eq_false_iff_ne]
    exact fun e => h e.symm
  unfold PPZK_Proof.proveChecked PPZK_Proof.prove
  match hq : pk.m_K_query, hK with
  | [], _ =>
    by_cases h : reserveTune = 0
    · subst h
      simp [vectorAt, bind, Except.bind, pure, Except.pure]
    · simp [hb h, h, vectorAt, sizeDiv, bind, Except.bind, pure, Except.pure]
  | [a], _ =>
    by_cases h : reserveTune = 0
    · subst h
      simp [vectorAt, bind, Except.bind, pure, Except.pure]
    · simp [hb h, h, vectorAt, sizeDiv, bind, Except.bind, pure, Except.pure]
  | [a, b], _ =>
    by_cases h : reserveTune = 0
    · subst h
      simp [vectorAt, bind, Except.bind, pure, Except.pure]
    · simp [hb h, h, vectorAt, sizeDiv, bind, Except.bind, pure, Except.pure]
  | [a, b, c], _ =>
    by_cases h : reserveTune = 0
    · subst h
      simp [vectorAt, bind, Except.bind, pure, Except.pure]
    · simp [hb h, h, vectorAt, sizeDiv, bind, Except.bind, pure, Except.pure]

/-- C33: the arithmetic and the indexing of the proving constructor are
guarded.  For every proving key, witness, blinding and `reserveTune`, zero
included, the run meets no division by zero and no subtraction below zero:
the quotients `numVariables / reserveTune` and `(K_query.size() - 4) /
reserveTune` are formed only when `reserveTune` is not zero.  When `K_query`
has at least four elements, the reads `K_query[0..3]`, the slice from the
index 4 and the subtraction stay in range and the constructor returns its
proof; a `K_query` with fewer than four elements is read outside its
elements.  The constructor without `reserveTune` is the constructor with
`reserveTune = 0`. -/
theorem PPZK_Proof.prove_guarded [Zero G1] [Add G1] [SMul Fr G1] [Zero G2] [Add G2]
    [SMul Fr G2] (numVariables : Nat) (pk : PPZK_ProvingKey G1 G2) (witness : R1Witness Fr)
    (aH : List Fr) (d1 d2 d3 : Fr) (reserveTune : Nat) :
    (PPZK_Proof.proveChecked numVariables pk witness aH d1 d2 d3 reserveTune
        ≠ Except.error Fault.divisionByZero ∧
      PPZK_Proof.proveChecked numVariables pk witness aH d1 d2 d3 reserveTune
        ≠ Except.error Fault.subtractionWraps) ∧
    (4 ≤ pk.m_K_query.length →
      ∃ p, PPZK_Proof.proveChecked numVariables pk witness aH d1 d2 d3 reserveTune
          = Except.ok p ∧
        (PPZK_Proof.prove numVariables pk witness aH d1 d2 d3 reserveTune).result = some p) ∧
    (pk.m_K_query.length < 4 →
      PPZK_Proof.proveChecked numVariables pk witness aH d1 d2 d3 reserveTune
          = Except.error Fault.indexOutOfRange ∧
        (PPZK_Proof.prove numVariables pk witness aH d1 d2 d3 reserveTune).result = none) ∧
    (reserveTune ≠ 0 → sizeDiv numVariables reserveTune
        = Except.ok (numVariables / reserveTune) ∧
      sizeDiv (pk.m_K_query.length - 4) reserveTune
        = Except.ok ((pk.m_K_query.length - 4) / reserveTune)) ∧
    PPZK_Proof.proveAuto numVariables pk witness aH d1 d2 d3
      = PPZK_Proof.proveChecked numVariables pk witness aH d1 d2 d3 0 := by
  have hlong : 4 ≤ pk.m_K_query.length →
      ∃ p, PPZK_Proof.proveChecked numVariables pk witness aH d1 d2 d3 reserveTune
          = Except.ok p ∧
        (PPZK_Proof.prove numVariables pk witness aH d1 d2 d3 reserveTune).result = some p := by
    intro h
    obtain ⟨k0, k1, k2, k3, rest, hrest⟩ := exists_cons4_of_length pk.m_K_query h
    exact PPZK_Proof.proveChecked_of_cons4 numVariables pk witness aH d1 d2 d3 reserveTune
      k0 k1 k2 k3 rest hrest
  have hshort := PPZK_Proof.proveChecked_of_short numVariables pk witness aH d1 d2 d3 reserveTune
  refine ⟨?_, hlong, hshort, ?_, rfl⟩
  · by_cases h : 4 ≤ pk.m_K_query.length
    · obtain ⟨p, hp, -⟩ := hlong h
      rw [hp]
      exact ⟨fun e => (by cases e), fun e => (by cases e)⟩
    · rw [(hshort (by omega)).1]
      exact ⟨fun e => (by cases e), fun e => (by cases e)⟩
  · intro h
    exact ⟨sizeDiv_of_ne_zero _ _ h, sizeDiv_of_ne_zero _ _ h⟩

end ProveGuardsClaim

/-! ## What `empty()` reports -/

section EmptyLemmas

variable {Fr G1 G2 : Type}

theorem Pairing.isZero_iff {GA GB : Type} [Zero GA] [Zero GB] (zeroA : GA → Bool)
    (zeroB : GB → Bool) (hA : ∀ g, zeroA g = true ↔ g = 0) (hB : ∀ g, zeroB g = true ↔ g = 0)
    (a : Pairing GA GB) : Pairing.isZero zeroA zeroB a = true ↔ a = 0 := by
  obtain ⟨g, h⟩ := a
  simp only [Pairing.isZero, Bool.and_eq_true, hA, hB]
  constructor
  · rintro ⟨rfl, rfl⟩
    rfl
  · intro e
    have e' : (⟨g, h⟩ : Pairing GA GB) = ⟨0, 0⟩ := e
    simp only [Pairing.mk.injEq] at e'
    exact e'

theorem PPZK_Proof.empty_iff [Zero G1] [Zero G2] (Z : ZeroTests G1 G2)
    (hz1 : ∀ g, Z.G1_isZero g = true ↔ g = 0) (hz2 : ∀ g, Z.G2_isZero g = true ↔ g = 0)
    (p : PPZK_Proof G1 G2) :
    p.empty Z = true ↔ (p.m_A = 0 ∨ p.m_B = 0 ∨ p.m_C = 0 ∨ p.m_H = 0 ∨ p.m_K = 0) := by
  simp only [PPZK_Proof.empty, Bool.or_eq_true, Pairing.isZero_iff _ _ hz1 hz1,
    Pairing.isZero_iff _ _ hz2 hz1, hz1, or_assoc]

theorem PPZK_ProvingKey.pk_empty_iff (pk : PPZK_ProvingKey G1 G2) :
    pk.empty = true ↔
      (pk.m_A_query.m_entries = [] ∨ pk.m_B_query.m_entries = [] ∨
        pk.m_C_query.m_entries = [] ∨ pk.m_H_query = [] ∨ pk.m_K_query = []) := by
  simp only [PPZK_ProvingKey.empty, SparseVector.empty, Bool.or_eq_true, List.isEmpty_iff,
    or_assoc]

theorem PPZK_IC_Query.ic_empty_iff [Zero G1] (Z : ZeroTests G1 G2)
    (hz1 : ∀ g, Z.G1_isZero g = true ↔ g = 0) (q : PPZK_IC_Query G1) :
    q.empty Z = true ↔ (q.m_base = 0 ∨ q.m_encoded_terms = []) := by
  simp only [PPZK_IC_Query.empty, Bool.or_eq_true, List.isEmpty_iff, hz1]

theorem PPZK_VerificationKey.vk_empty_iff [Zero G1] [Zero G2] (Z : ZeroTests G1 G2)
    (hz1 : ∀ g, Z.G1_isZero g = true ↔ g = 0) (hz2 : ∀ g, Z.G2_isZero g = true ↔ g = 0)
    (vk : PPZK_VerificationKey G1 G2) :
    vk.empty Z = true ↔
      (vk.m_alphaA_g2 = 0 ∨ vk.m_alphaB_g1 = 0 ∨ vk.m_alphaC_g2 = 0 ∨ vk.m_gamma_g2 = 0 ∨
        vk.m_gamma_beta_g1 = 0 ∨ vk.m_gamma_beta_g2 = 0 ∨ vk.m_rC_Z_g2 = 0 ∨
        vk.m_encoded_IC_query.m_base = 0 ∨ vk.m_encoded_IC_query.m_encoded_terms = []) := by
  simp only [PPZK_VerificationKey.empty, Bool.or_eq_true, hz1, hz2,
    PPZK_IC_Query.ic_empty_iff Z hz1, or_assoc]

theorem PPZK_VerificationKey.vk_empty_of_no_terms (Z : ZeroTests G1 G2)
    (vk : PPZK_VerificationKey G1 G2) (h : vk.m_encoded_IC_query.m_encoded_terms = []) :
    vk.empty Z = true := by
  simp [PPZK_VerificationKey.empty, PPZK_IC_Query.empty, h]

theorem PPZK_Keypair.keypair_empty_of_no_terms (Z : ZeroTests G1 G2)
    (kp : PPZK_Keypair G1 G2) (h : kp.m_vk.m_encoded_IC_query.m_encoded_terms = []) :
    kp.empty Z = true := by
  simp [PPZK_Keypair.empty, PPZK_VerificationKey.vk_empty_of_no_terms Z kp.m_vk h]

end EmptyLemmas

section EmptyClaim

variable {Fr G1 G2 : Type}

/-- C34: `empty()` reports that some component is missing.  With `isZero()`
true exactly of the zero element, for the proof, the proving key, the IC
query, the verification key and the key pair `empty()` is true if and only if
at least one field is the zero element or an empty vector (for the key pair:
a field of its proving key or of its verification key).  So `empty()` is true
after `clear()` and for a default-constructed object (for the proof when the
default-constructed group element is zero), and a verification key whose IC
query has no encoded terms, its key pair, and every fully accumulated IC query
report `empty() = true` whatever their group elements are. -/
theorem empty_iff_component_missing [Zero G1] [Add G1] [SMul Fr G1] [Zero G2]
    (Z : ZeroTests G1 G2)
    (hz1 : ∀ g, Z.G1_isZero g = true ↔ g = 0) (hz2 : ∀ g, Z.G2_isZero g = true ↔ g = 0)
    (p : PPZK_Proof G1 G2) (pk : PPZK_ProvingKey G1 G2) (ic : PPZK_IC_Query G1)
    (vk : PPZK_VerificationKey G1 G2) (kp : PPZK_Keypair G1 G2) (g1 : G1) (g2 : G2)
    (w : R1Witness Fr) :
    ((p.empty Z = true ↔ (p.m_A = 0 ∨ p.m_B = 0 ∨ p.m_C = 0 ∨ p.m_H = 0 ∨ p.m_K = 0)) ∧
      (pk.empty = true ↔
        (pk.m_A_query.m_entries = [] ∨ pk.m_B_query.m_entries = [] ∨
          pk.m_C_query.m_entries = [] ∨ pk.m_H_query = [] ∨ pk.m_K_query = [])) ∧
      (ic.empty Z = true ↔ (ic.m_base = 0 ∨ ic.m_encoded_terms = [])) ∧
      (vk.empty Z = true ↔
        (vk.m_alphaA_g2 = 0 ∨ vk.m_alphaB_g1 = 0 ∨ vk.m_alphaC_g2 = 0 ∨ vk.m_gamma_g2 = 0 ∨
          vk.m_gamma_beta_g1 = 0 ∨ vk.m_gamma_beta_g2 = 0 ∨ vk.m_rC_Z_g2 = 0 ∨
          vk.m_encoded_IC_query.m_base = 0 ∨ vk.m_encoded_IC_query.m_encoded_terms = [])) ∧
      (kp.empty Z = true ↔ (kp.m_pk.empty = true ∨ kp.m_vk.empty Z = true))) ∧
    ((p.clear).empty Z = true ∧ (pk.clear).empty = true ∧ (ic.clear).empty Z = true ∧
      (vk.clear).empty Z = true ∧ (kp.clear).empty Z = true) ∧
    ((PPZK_Proof.defaultConstructed (0 : G1) (0 : G2)).empty Z = true ∧
      (PPZK_Proof.defaultConstructed g1 g2).empty Z = Z.G1_isZero g1 ∧
      (PPZK_ProvingKey.defaultConstructed : PPZK_ProvingKey G1 G2).empty = true ∧
      (PPZK_IC_Query.defaultConstructed g1).empty Z = true ∧
      (PPZK_VerificationKey.defaultConstructed g1 g2).empty Z = true ∧
      (PPZK_Keypair.defaultConstructed g1 g2).empty Z = true) ∧
    ((vk.m_encoded_IC_query.m_encoded_terms = [] → vk.empty Z = true) ∧
      (kp.m_vk.m_encoded_IC_query.m_encoded_terms = [] → kp.empty Z = true) ∧
      (ic.input_size ≤ w.length → (ic.accumulate w).empty Z = true)) := by
  have h0 : Z.G1_isZero 0 = true := (hz1 0).2 rfl
  refine ⟨⟨PPZK_Proof.empty_iff Z hz1 hz2 p, PPZK_ProvingKey.pk_empty_iff pk,
      PPZK_IC_Query.ic_empty_iff Z hz1 ic, PPZK_VerificationKey.vk_empty_iff Z hz1 hz2 vk, ?_⟩,
    ⟨?_, ?_, ?_, ?_, ?_⟩, ⟨?_, ?_, ?_, ?_, ?_, ?_⟩,
    ⟨PPZK_VerificationKey.vk_empty_of_no_terms Z vk,
      PPZK_Keypair.keypair_empty_of_no_terms Z kp, ?_⟩⟩
  · simp only [PPZK_Keypair.empty, Bool.or_eq_true]
  · simp [PPZK_Proof.empty, PPZK_Proof.clear, Pairing.isZero, h0]
  · simp [PPZK_ProvingKey.empty, PPZK_ProvingKey.clear, SparseVector.empty, SparseVector.clear]
  · simp [PPZK_IC_Query.empty, PPZK_IC_Query.clear]
  · simp [PPZK_VerificationKey.empty, PPZK_VerificationKey.clear, PPZK_IC_Query.empty,
      PPZK_IC_Query.clear]
  · simp [PPZK_Keypair.empty, PPZK_Keypair.clear, PPZK_ProvingKey.empty, PPZK_ProvingKey.clear,
      SparseVector.empty, SparseVector.clear]
  · simp [PPZK_Proof.empty, PPZK_Proof.defaultConstructed, Pairing.isZero, h0]
  · cases hg : Z.G1_isZero g1 <;>
      simp [PPZK_Proof.empty, PPZK_Proof.defaultConstructed, Pairing.isZero, hg]
  · simp [PPZK_ProvingKey.empty, PPZK_ProvingKey.defaultConstructed, SparseVector.empty]
  · simp [PPZK_IC_Query.empty, PPZK_IC_Query.defaultConstructed]
  · simp [PPZK_VerificationKey.empty, PPZK_VerificationKey.defaultConstructed,
      PPZK_IC_Query.empty, PPZK_IC_Query.defaultConstructed]
  · simp [PPZK_Keypair.empty, PPZK_Keypair.defaultConstructed, PPZK_ProvingKey.empty,
      PPZK_ProvingKey.defaultConstructed, SparseVector.empty]
  · intro h
    rw [PPZK_IC_Query.accumulate_eq]
    simp [PPZK_IC_Query.empty, List.drop_eq_nil_of_le h]

/-- The instance of C34 at the small pairing and the verification key
`Toy.vkNoInputs`: every group element is non-zero, the IC query has no encoded
term, and `empty()` is true for the key and for a key pair that holds it. -/
theorem empty_iff_component_missing_witness :
    ((∀ g, Toy.zeroTests.G1_isZero g = true ↔ g = 0) ∧
      (∀ g, Toy.zeroTests.G2_isZero g = true ↔ g = 0)) ∧
    (Toy.vkNoInputs.m_alphaA_g2 ≠ 0 ∧ Toy.vkNoInputs.m_alphaB_g1 ≠ 0 ∧
      Toy.vkNoInputs.m_alphaC_g2 ≠ 0 ∧ Toy.vkNoInputs.m_gamma_g2 ≠ 0 ∧
      Toy.vkNoInputs.m_gamma_beta_g1 ≠ 0 ∧ Toy.vkNoInputs.m_gamma_beta_g2 ≠ 0 ∧
      Toy.vkNoInputs.m_rC_Z_g2 ≠ 0 ∧ Toy.vkNoInputs.m_encoded_IC_query.m_base ≠ 0) ∧
    Toy.vkNoInputs.empty Toy.zeroTests = true ∧
    (⟨Toy.keypair1.m_pk, Toy.vkNoInputs⟩ : PPZK_Keypair Toy.G1 Toy.G2).empty Toy.zeroTests
      = true ∧
    (Toy.vk.m_encoded_IC_query.accumulate ([1] : R1Witness Toy.Fr)).empty Toy.zeroTests = true :=
  have h := empty_iff_component_missing Toy.zeroTests (fun _ => beq_iff_eq)
    (fun _ => beq_iff_eq) Toy.proofOk Toy.keypair1.m_pk Toy.vk.m_encoded_IC_query Toy.vkNoInputs
    (⟨Toy.keypair1.m_pk, Toy.vkNoInputs⟩ : PPZK_Keypair Toy.G1 Toy.G2) (0 : Toy.G1) (0 : Toy.G2)
    ([1] : R1Witness Toy.Fr)
  ⟨⟨fun _ => beq_iff_eq, fun _ => beq_iff_eq⟩, by decide, h.2.2.2.1 rfl, h.2.2.2.2.1 rfl,
    h.2.2.2.2.2 (by decide)⟩

end EmptyClaim

end snarklib
